import Mathlib

/-!
# Flow-graph deserializer

A shallow embedding of `runtime/vm/compiler/backend/il_deserializer.{h,cc}`:
the class `FlowGraphDeserializer`, which rebuilds a flow graph from its
S-expression form.

* C++ pointers that may be `nullptr` are `Option`s.
* Member functions are state transformers over the record
  `FlowGraphDeserializer` (the fields of the C++ object plus the zone
  objects the functions allocate and mutate).
* A call ends in `Result.ok` (it returned), in `Result.fault` (C++ undefined
  behaviour: a null dereference, an access out of bounds, a failed `ASSERT`)
  or, for the functions that recurse over the input, in `Result.outOfFuel`.
* Declarations of the VM that are not part of these two files (the object
  model, `OS::StringToInt64`, `Token::FromStr`, ...) are the fields of the
  parameter `VM`.
-/

set_option autoImplicit false

namespace dart

/-! ## S-expressions (`vm/compiler/backend/sexpression.h`) -/

/-- The S-expression tree consumed by the deserializer. One constructor per
entry of `FOR_EACH_S_EXPRESSION`. A list owns its ordered children
(`contents_`, a `GrowableArray<SExpression*>`, whose entries may be null) and
its string-keyed extra information (`extra_info_`). The payload of a double
is kept as its bit pattern. -/
inductive SExpression where
  | SExpBool (value : Bool)
  | SExpDouble (value : Int)
  | SExpInteger (value : Int)
  | SExpString (value : String)
  | SExpSymbol (value : String)
  | SExpList (contents : List (Option SExpression))
      (extra_info : List (String × Option SExpression))

/-- The names `name` over which `FOR_EACH_S_EXPRESSION(M)` instantiates
`M(name, type)`. -/
inductive SExpKind where
  | kBool
  | kDouble
  | kInteger
  | kString
  | kSymbol
  | kList
  deriving DecidableEq, Repr

/-- The macro argument `#name`, as text. -/
def SExpKind.name : SExpKind → String
  | .kBool => "Bool"
  | .kDouble => "Double"
  | .kInteger => "Integer"
  | .kString => "String"
  | .kSymbol => "Symbol"
  | .kList => "List"

/-- The test `sexp->Is##name()`. -/
def SExpression.Is : SExpKind → SExpression → Bool
  | .kBool, .SExpBool _ => true
  | .kDouble, .SExpDouble _ => true
  | .kInteger, .SExpInteger _ => true
  | .kString, .SExpString _ => true
  | .kSymbol, .SExpSymbol _ => true
  | .kList, .SExpList _ _ => true
  | _, _ => false

/-- The cast `sexp->As##name()`: the node itself when it has the kind, null
otherwise. -/
def SExpression.As (k : SExpKind) (sexp : SExpression) : Option SExpression :=
  if sexp.Is k then some sexp else none

/-- The lookup `extra_info_.LookupValue(key)` of a `CStringMap`: the value
stored under the key, null when the key is absent. -/
def ExtraLookup (key : String) : List (String × Option SExpression) → Option SExpression
  | [] => none
  | (k, v) :: rest => if k = key then v else ExtraLookup key rest

/-- The test `extra_info_.HasKey(key)`. -/
def ExtraHas (key : String) : List (String × Option SExpression) → Bool
  | [] => false
  | (k, _) :: rest => if k = key then true else ExtraHas key rest

/-! ## Maps keyed by integers (`IntMap`, `vm/hash_map.h`) -/

/-- The finite map `IntMap<V>`, as an association list with at most one
visible binding per key. -/
abbrev IntMap (V : Type) : Type := List (Int × V)

namespace IntMap

variable {V : Type}

/-- The lookup `LookupValue(key)`; `none` is the null default value. -/
def LookupValue (m : IntMap V) (key : Int) : Option V :=
  match m with
  | [] => none
  | (k, v) :: rest => if k = key then some v else LookupValue rest key

/-- The test `HasKey(key)`. -/
def HasKey (m : IntMap V) (key : Int) : Bool :=
  (LookupValue m key).isSome

/-- The removal `Remove(key)`. -/
def Remove (m : IntMap V) (key : Int) : IntMap V :=
  m.filter (fun kv => decide (kv.1 ≠ key))

/-- The insertion `Insert(key, value)`. -/
def Insert (m : IntMap V) (key : Int) (value : V) : IntMap V :=
  (key, value) :: Remove m key

/-- The effect, on the map, of mutating in place the object the entry for `key`
points to (the map stores a pointer, the pointee becomes `value`). -/
def Assign : IntMap V → Int → V → IntMap V
  | [], _, _ => []
  | (k, v) :: rest, key, value =>
    if k = key then (k, value) :: rest else (k, v) :: Assign rest key value

/-- The count `Length()`. -/
def Length (m : IntMap V) : Nat :=
  (m.map Prod.fst).dedup.length

end IntMap

/-! ## The VM outside these two files -/

/-- A reference to an object in the Dart heap (the contents of an `Object`
handle); `none` is `Object::null()`. -/
abbrev RawObject : Type := Option Nat

/-- The enumeration `FlowGraphSerializer::BlockEntryKind`, as far as
`ParseBlockHeader` tells its values apart: the four kinds it builds, `kInvalid`,
and every other kind (the `default` of its switch). -/
inductive BlockEntryKind where
  | kTarget
  | kNormal
  | kUnchecked
  | kJoin
  | kInvalid
  | kOther
  deriving DecidableEq, Repr

/-- The declarations the deserializer uses from the rest of the VM (`vm/os.h`,
`vm/token.h`, `vm/class_table.h`, `vm/object.h`, `vm/compiler/backend/il.h`,
`vm/compiler/backend/compile_type.h`, ...). None of them is defined in the
two files embedded here, so each is a parameter. Allocating calls (`New`,
`Get`) return a non-null reference; setters return the updated object. -/
structure VM where
  StringToInt64 : String → Option Int
  TokenFromStr : String → Option Nat
  kNoSource : Int
  kNone : Int
  kDynamicCid : Int
  kNullable : Bool
  kNonNullable : Bool
  HasValidClassAt : Int → Bool
  ClassAt : Int → RawObject
  IsInstance : RawObject → Bool
  ToCString : RawObject → String
  TypeNew : RawObject → RawObject → Nat
  TypeArgumentsNew : Int → Nat
  SetTypeAt : RawObject → Int → RawObject → RawObject
  LookupLibrary : String → RawObject
  toplevel_class : RawObject → RawObject
  LookupClassAllowPrivate : RawObject → String → RawObject
  LookupFieldAllowPrivate : RawObject → String → Bool → RawObject
  LookupFunctionAllowPrivate : RawObject → String → RawObject
  HasImplicitClosureFunction : RawObject → Bool
  ImplicitClosureFunction : RawObject → RawObject
  GetDynamicInvocationForwarder : RawObject → String → RawObject
  FunctionKindFromCString : String → Option Nat
  FunctionKindToCString : Nat → String
  FunctionKind : RawObject → Nat
  FunctionLookupTypeParameter : RawObject → String → RawObject
  FunctionOwner : RawObject → RawObject
  ClassLookupTypeParameter : RawObject → String → RawObject
  ArrayNew : Int → Nat
  SetAt : RawObject → Int → RawObject → RawObject
  SetTypeArguments : RawObject → RawObject → RawObject
  MakeImmutable : RawObject → RawObject
  InstanceNew : RawObject → Nat
  SetField : RawObject → RawObject → RawObject → RawObject
  ClosureNew : RawObject → RawObject → RawObject → RawObject → RawObject → Nat
  BoolGet : Bool → Nat
  StringNew : String → Nat
  IntegerNew : Int → Nat
  DoubleNew : Int → Nat
  CheckAndCanonicalize : RawObject → RawObject × Option String
  kInvalidTryIndex : Int
  kNoOSRDeoptId : Int
  BlockEntryTagToKind : Option String → BlockEntryKind
  SpecialParameterKindFromCString : String → Option Nat
  RebindRuleFromCString : String → Option Nat
  kInstance : Nat
  kConstant : Int
  IsArray : RawObject → Bool
  IsImmutable : RawObject → Bool
  IsClass : RawObject → Bool
  IsFunction : RawObject → Bool
  IsField : RawObject → Bool

/-! ## Zone objects -/

/-- A `Value*`: the position of a `Value` among the values allocated in the
zone. -/
abbrev ValuePtr : Type := Nat

/-- A `Definition*` (or `Instruction*`): the position of an instruction among
the instructions allocated in the zone. -/
abbrev DefinitionPtr : Type := Nat

/-- The object built by `new (zone()) CompileType(nullable, cid, type)`. -/
structure CompileType where
  nullable : Bool
  cid : Int
  type : Option RawObject

/-- The object `Value`: the definition it is bound to (`definition_`, set by
the constructor and by `BindTo`) and its reaching type (`SetReachingType`). -/
structure Value where
  definition_ : DefinitionPtr
  reaching_type_ : Option CompileType

/-- A `PushStack*` (`GrowableArray<PushArgumentInstr*>*`): the position of a
stack among the stacks allocated in the zone. -/
abbrev StackPtr : Type := Nat

/-- The enumeration `CheckStackOverflowInstr::Kind`. -/
inductive CheckStackOverflowKind where
  | kOsrAndPreemption
  | kOsrOnly
  deriving DecidableEq, Repr

/-- Modelled from the spec: the instruction classes of `il.h` (not under
`src/`), one constructor per class the deserializer builds, block entries
included, with the constructor arguments they are built from. The successors
of a `Branch` are stored after its construction. -/
inductive Instruction where
  | GraphEntry (osr_id deopt_id : Int)
  | FunctionEntry (graph_entry : DefinitionPtr) (block_id try_index deopt_id : Int)
  | JoinEntry (block_id try_index deopt_id : Int)
  | TargetEntry (block_id try_index deopt_id : Int)
  | Phi (block : DefinitionPtr) (num_inputs : Int)
  | Branch (comparison : DefinitionPtr) (deopt_id : Int)
      (true_successor false_successor : Option DefinitionPtr)
  | CheckStackOverflow (token_pos stack_depth loop_depth deopt_id : Int)
      (kind : CheckStackOverflowKind)
  | Constant (value : RawObject) (token_pos : Int)
  | Goto (successor : DefinitionPtr) (deopt_id : Int)
  | Parameter (index : Int) (block : Option DefinitionPtr)
  | PushArgument (value : ValuePtr)
  | Return (token_pos : Int) (value : ValuePtr) (deopt_id : Int)
  | SpecialParameter (kind : Nat) (deopt_id : Int) (block : Option DefinitionPtr)
  | StaticCall (token_pos : Int) (function : RawObject) (type_args_len : Int)
      (argument_names : RawObject) (arguments : List DefinitionPtr)
      (deopt_id call_count : Int) (rebind_rule : Nat)
  | StrictCompare (token_pos : Int) (kind : Nat) (left right : ValuePtr)
      (needs_check : Bool) (deopt_id : Int)
  deriving DecidableEq

/-- Modelled from the spec: the class `Environment` of `il.h` (not under
`src/`): an ordered sequence of values, a fixed-parameter count, a deopt id and
an outer environment. -/
inductive Environment where
  | mk (values : List ValuePtr) (fixed_parameter_count : Int) (deopt_id : Int)
      (outer : Option Environment)

/-- Modelled from the spec: the part of the class `FlowGraph` of `flow_graph.h`
(not under `src/`) the deserializer uses: the graph entry (null when the
graph was built on a null entry), the null constant,
the pool of constants handed out by `GetConstant`, the maximum block id and
the next SSA index. -/
structure FlowGraph where
  constant_null_ : DefinitionPtr
  graph_entry_ : Option DefinitionPtr := some 0
  constant_instr_pool_ : List (RawObject × DefinitionPtr) := []
  max_block_id_ : Int := 0
  current_ssa_temp_index_ : Int := 0

/-- The part of `ParsedFunction` the deserializer reads: `function()`. -/
structure ParsedFunction where
  function : RawObject

/-- The struct `InstrInfo` (`CommonInstrInfo` in the header). -/
structure InstrInfo where
  deopt_id : Int
  token_pos : Int

/-! ## The deserializer object -/

/-- The state of one `FlowGraphDeserializer`: its data members, followed by
the zone objects its member functions allocate and mutate. `zone_values`
gives the contents of every `Value`, of which the first `zone_values_length`
are allocated, and `zone_stacks` likewise the contents of every pushed-argument
stack; `zone_instructions` lists the allocated instructions. The remaining
fields hold, per instruction, what its setters stored: `ssa_temp_index_`
(`set_ssa_temp_index`), `type_` (`UpdateType`), `predecessors_`
(`AddPredecessor`), `next_` (`AppendInstruction`), `env_` (`DeepCopyTo`),
`phis_` (`InsertPhi`), `inputs_` (`SetInputAt`), `initial_definitions_`
(`AddToInitialDefinitions`), `normal_entry_` and `unchecked_entry_`
(`set_normal_entry`, `set_unchecked_entry`); `osr_entry_`, `catch_entries_` and
`indirect_entries_` are the further entries of a graph entry, which no
function of the deserializer sets. -/
structure FlowGraphDeserializer where
  root_sexp_ : SExpression
  parsed_function_ : Option ParsedFunction
  flow_graph_ : Option FlowGraph
  current_block_ : Option Nat
  max_block_id_ : Int
  max_ssa_index_ : Int
  block_map_ : IntMap Nat
  definition_map_ : IntMap DefinitionPtr
  values_map_ : IntMap (List ValuePtr)
  pushed_stack_map_ : IntMap StackPtr
  instance_class_ : RawObject
  instance_field_ : RawObject
  instance_object_ : RawObject
  name_class_ : RawObject
  name_field_ : RawObject
  name_function_ : RawObject
  name_library_ : RawObject
  value_class_ : RawObject
  value_object_ : RawObject
  value_type_ : RawObject
  value_type_args_ : RawObject
  tmp_string_ : Option String
  error_message_ : Option String
  error_sexp_ : Option SExpression
  zone_values : ValuePtr → Value
  zone_values_length : Nat
  zone_instructions : List Instruction
  ssa_temp_index_ : DefinitionPtr → Int
  type_ : DefinitionPtr → Option CompileType
  zone_handles : List RawObject
  zone_stacks : StackPtr → List DefinitionPtr
  zone_stacks_length : Nat
  predecessors_ : DefinitionPtr → List DefinitionPtr
  next_ : DefinitionPtr → Option DefinitionPtr
  env_ : DefinitionPtr → Option Environment
  phis_ : DefinitionPtr → List DefinitionPtr
  inputs_ : DefinitionPtr → List (Int × ValuePtr)
  initial_definitions_ : DefinitionPtr → List DefinitionPtr
  normal_entry_ : DefinitionPtr → Option DefinitionPtr
  unchecked_entry_ : DefinitionPtr → Option DefinitionPtr
  osr_entry_ : DefinitionPtr → Option DefinitionPtr
  catch_entries_ : DefinitionPtr → List DefinitionPtr
  indirect_entries_ : DefinitionPtr → List DefinitionPtr

/-- The constructor `FlowGraphDeserializer(thread, zone, root, pf)` with the
default member initializers of the class, in an empty zone. -/
def FlowGraphDeserializer.New (root : SExpression) (pf : Option ParsedFunction) :
    FlowGraphDeserializer where
  root_sexp_ := root
  parsed_function_ := pf
  flow_graph_ := none
  current_block_ := none
  max_block_id_ := -1
  max_ssa_index_ := -1
  block_map_ := []
  definition_map_ := []
  values_map_ := []
  pushed_stack_map_ := []
  instance_class_ := none
  instance_field_ := none
  instance_object_ := none
  name_class_ := none
  name_field_ := none
  name_function_ := none
  name_library_ := none
  value_class_ := none
  value_object_ := none
  value_type_ := none
  value_type_args_ := none
  tmp_string_ := none
  error_message_ := none
  error_sexp_ := none
  zone_values := fun _ => { definition_ := 0, reaching_type_ := none }
  zone_values_length := 0
  zone_instructions := []
  ssa_temp_index_ := fun _ => -1
  type_ := fun _ => none
  zone_handles := []
  zone_stacks := fun _ => []
  zone_stacks_length := 0
  predecessors_ := fun _ => []
  next_ := fun _ => none
  env_ := fun _ => none
  phis_ := fun _ => []
  inputs_ := fun _ => []
  initial_definitions_ := fun _ => []
  normal_entry_ := fun _ => none
  unchecked_entry_ := fun _ => none
  osr_entry_ := fun _ => none
  catch_entries_ := fun _ => []
  indirect_entries_ := fun _ => []

/-! ## Results of calls -/

/-- The ways a C++ call can leave defined behaviour. -/
inductive Fault where
  | nullDereference
  | outOfBounds
  | badCast
  | assertion
  deriving DecidableEq, Repr

/-- The outcome of a member function call: it returned `value` leaving the
object in state `d`, it ran into undefined behaviour, or the embedding ran
out of fuel. -/
inductive Result (α : Type) where
  | ok (value : α) (d : FlowGraphDeserializer)
  | fault (f : Fault)
  | outOfFuel

/-- A member function returning an `α`. -/
def Parse (α : Type) : Type := FlowGraphDeserializer → Result α

/-- Sequencing: the second call starts in the state the first one left. -/
def Parse.bind {α β : Type} (x : Parse α) (f : α → Parse β) : Parse β :=
  fun d =>
    match x d with
    | .ok a d1 => f a d1
    | .fault e => .fault e
    | .outOfFuel => .outOfFuel

instance : Monad Parse where
  pure a := fun d => .ok a d
  bind := Parse.bind

/-- Undefined behaviour. -/
def Parse.fault {α : Type} (e : Fault) : Parse α := fun _ => .fault e

/-- Reads the object. -/
def Parse.get : Parse FlowGraphDeserializer := fun d => .ok d d

/-- Updates the object. -/
def Parse.modify (f : FlowGraphDeserializer → FlowGraphDeserializer) : Parse Unit :=
  fun d => .ok () (f d)

/-! ## Typed S-expression accessors -/

/-- The member `StoreError(s, fmt, ...)`; `message` is the text that
`OS::VSCreate` formats. -/
def StoreError (sexp : Option SExpression) (message : String) : Parse Unit :=
  Parse.modify fun d => { d with error_sexp_ := sexp, error_message_ := some message }

/-- The member `Retrieve(SExpList* list, intptr_t index)`. -/
def Retrieve (list : Option SExpression) (index : Int) : Parse (Option SExpression) :=
  match list with
  | none => pure none
  | some (.SExpList contents _) =>
    if (contents.length : Int) ≤ index then do
      StoreError list ("expected at least " ++ toString (index + 1) ++ " element(s) in list")
      pure none
    else if index < 0 then Parse.fault .outOfBounds
    else do
      let elem := contents.getD index.toNat none
      match elem with
      | none => StoreError list ("null value at index " ++ toString index)
      | some _ => pure ()
      pure elem
  | some _ => Parse.fault .badCast

/-- The member `Retrieve(SExpList* list, const char* key)`. -/
def RetrieveKey (list : Option SExpression) (key : String) : Parse (Option SExpression) :=
  match list with
  | none => pure none
  | some (.SExpList _ extra_info) =>
    if !ExtraHas key extra_info then do
      StoreError list ("expected an extra info entry for key " ++ key)
      pure none
    else do
      let elem := ExtraLookup key extra_info
      match elem with
      | none => StoreError list ("null value for key " ++ key)
      | some _ => pure ()
      pure elem
  | some _ => Parse.fault .badCast

/-- The lookup `list->ExtraLookupValue(key)` on a non-null `SExpList*`. -/
def ExtraLookupValue (list : SExpression) (key : String) : Parse (Option SExpression) :=
  match list with
  | .SExpList _ extra_info => pure (ExtraLookup key extra_info)
  | _ => Parse.fault .badCast

/-- The members `Check##name(SExpression* sexp)` defined by `BASE_CHECK_DEF`;
the macro argument `name` is the parameter `k`. -/
def Check (k : SExpKind) (sexp : Option SExpression) : Parse (Option SExpression) :=
  match sexp with
  | none => pure none
  | some e =>
    if !e.Is k then do
      StoreError sexp ("expected " ++ k.name)
      pure none
    else pure (e.As k)

/-- The member `CheckBool`. -/
def CheckBool : Option SExpression → Parse (Option SExpression) := Check .kBool

/-- The member `CheckDouble`. -/
def CheckDouble : Option SExpression → Parse (Option SExpression) := Check .kDouble

/-- The member `CheckInteger`. -/
def CheckInteger : Option SExpression → Parse (Option SExpression) := Check .kInteger

/-- The member `CheckString`. -/
def CheckString : Option SExpression → Parse (Option SExpression) := Check .kString

/-- The member `CheckSymbol`. -/
def CheckSymbol : Option SExpression → Parse (Option SExpression) := Check .kSymbol

/-- The member `CheckList`. -/
def CheckList : Option SExpression → Parse (Option SExpression) := Check .kList

/-- The member `IsTag(sexp, label)`; a null `label` is `none`. -/
def IsTag (sexp : Option SExpression) (label : Option String) : Parse Bool := do
  let sym ← CheckSymbol sexp
  match sym with
  | none => pure false
  | some (.SExpSymbol value) =>
    match label with
    | some l =>
      if l ≠ value then do
        StoreError sym ("expected symbol " ++ l)
        pure false
      else pure true
    | none => pure true
  | some _ => Parse.fault .badCast

/-- The member `CheckTaggedList(sexp, label)`; the default argument
`label = nullptr` is `none`. -/
def CheckTaggedList (sexp : Option SExpression) (label : Option String) :
    Parse (Option SExpression) := do
  let list ← CheckList sexp
  let tag_pos : Int := 0
  let tagged ← IsTag (← Retrieve list tag_pos) label
  if !tagged then pure none else pure list

/-! ## Handles -/

/-- The `Object*` out-parameters of the parsing functions: a handle allocated
in the zone (`Object::ZoneHandle(zone())`, `Object::Handle(zone())`) or one of
the scratch handles of the deserializer that are passed by address. -/
inductive Handle where
  | zone (index : Nat)
  | instance_object
  | value_object
  | value_type
  | value_type_args
  deriving DecidableEq, Repr

/-- The read `*handle` (`handle->raw()`). -/
def FlowGraphDeserializer.ReadHandle (d : FlowGraphDeserializer) : Handle → RawObject
  | .zone index => d.zone_handles.getD index none
  | .instance_object => d.instance_object_
  | .value_object => d.value_object_
  | .value_type => d.value_type_
  | .value_type_args => d.value_type_args_

/-- The assignment `*handle = raw`. -/
def FlowGraphDeserializer.WriteHandle (d : FlowGraphDeserializer) (handle : Handle)
    (raw : RawObject) : FlowGraphDeserializer :=
  match handle with
  | .zone index => { d with zone_handles := d.zone_handles.set index raw }
  | .instance_object => { d with instance_object_ := raw }
  | .value_object => { d with value_object_ := raw }
  | .value_type => { d with value_type_ := raw }
  | .value_type_args => { d with value_type_args_ := raw }

/-- The allocation `Object::Handle(zone(), raw)` (and `ZoneHandle`). -/
def NewHandle (raw : RawObject) : Parse Handle := fun d =>
  .ok (.zone d.zone_handles.length) { d with zone_handles := d.zone_handles ++ [raw] }

/-- The read `*handle`, as a call. -/
def ReadHandle (handle : Handle) : Parse RawObject := fun d => .ok (d.ReadHandle handle) d

/-- The assignment `*handle = raw`, as a call. -/
def WriteHandle (handle : Handle) (raw : RawObject) : Parse Unit :=
  Parse.modify fun d => d.WriteHandle handle raw

/-! ## Prefixed integers -/

/-- The character `\0` that ends a C string. -/
def NUL : Char := Char.ofNat 0

/-- The text of a single quote, as `%c` is printed between quotes. -/
def Quoted (c : Char) : String :=
  String.singleton (Char.ofNat 39) ++ String.singleton c ++ String.singleton (Char.ofNat 39)

/-- The member `ParseSymbolAsPrefixedInt(sym, prefix, out)`: `some i` is the
return value `true` with `*out = i`, `none` is `false`. -/
def ParseSymbolAsPrefixedInt (vm : VM) (sym : Option SExpression) (pfx : Char) :
    Parse (Option Int) :=
  match sym with
  | none => pure none
  | some (.SExpSymbol name) =>
    match name.data with
    | [] =>
      if NUL ≠ pfx then do
        StoreError sym ("expected symbol starting with " ++ Quoted pfx)
        pure none
      else Parse.fault .outOfBounds
    | c :: rest =>
      if c ≠ pfx then do
        StoreError sym ("expected symbol starting with " ++ Quoted pfx)
        pure none
      else
        match vm.StringToInt64 (String.mk rest) with
        | none => do
          StoreError sym ("expected number following symbol prefix " ++ Quoted pfx)
          pure none
        | some i => pure (some i)
  | some _ => Parse.fault .badCast

/-- The member `ParseBlockId(sym, out)`. -/
def ParseBlockId (vm : VM) (sym : Option SExpression) : Parse (Option Int) :=
  ParseSymbolAsPrefixedInt vm sym 'B'

/-- The member `ParseSSATemp(sym, out)`. -/
def ParseSSATemp (vm : VM) (sym : Option SExpression) : Parse (Option Int) :=
  ParseSymbolAsPrefixedInt vm sym 'v'

/-- The member `ParseUse(sym, out)`. -/
def ParseUse (vm : VM) (sym : Option SExpression) : Parse (Option Int) :=
  ParseSSATemp vm sym

/-! ## Pending values -/

/-- The allocation `new (zone()) Value(def)`. -/
def NewValue (definition : DefinitionPtr) : Parse ValuePtr := fun d =>
  .ok d.zone_values_length
    { d with
      zone_values :=
        Function.update d.zone_values d.zone_values_length
          { definition_ := definition, reaching_type_ := none }
      zone_values_length := d.zone_values_length + 1 }

/-- The call `val->BindTo(def)`, as far as the binding of the value goes. -/
def BindTo (val : ValuePtr) (definition : DefinitionPtr) : Parse Unit :=
  Parse.modify fun d =>
    { d with
      zone_values :=
        Function.update d.zone_values val { d.zone_values val with definition_ := definition } }

/-- The call `val->SetReachingType(type)`. -/
def SetReachingType (val : ValuePtr) (type : CompileType) : Parse Unit :=
  Parse.modify fun d =>
    { d with
      zone_values :=
        Function.update d.zone_values val { d.zone_values val with reaching_type_ := some type } }

/-- The member `AddPendingValue(index, val)`. -/
def AddPendingValue (index : Int) (val : ValuePtr) : Parse Unit := fun d =>
  if d.definition_map_.HasKey index then .fault .assertion
  else
    match d.values_map_.LookupValue index with
    | none => .ok () { d with values_map_ := d.values_map_.Insert index [val] }
    | some value_list =>
      .ok () { d with values_map_ := d.values_map_.Assign index (value_list ++ [val]) }

/-- The member `AddNewPendingValue(index)`. -/
def AddNewPendingValue (index : Int) : Parse ValuePtr := do
  match (← Parse.get).flow_graph_ with
  | none => Parse.fault .assertion
  | some flow_graph =>
    let val ← NewValue flow_graph.constant_null_
    AddPendingValue index val
    pure val

/-- The loop of `FixPendingValues` over the pending list. -/
def BindAll (definition : DefinitionPtr) : List ValuePtr → Parse Unit
  | [] => pure ()
  | val :: rest => do
    BindTo val definition
    BindAll definition rest

/-- The member `FixPendingValues(index, def)`. -/
def FixPendingValues (index : Int) (definition : DefinitionPtr) : Parse Unit := do
  match (← Parse.get).values_map_.LookupValue index with
  | some value_list =>
    BindAll definition value_list
    Parse.modify fun d => { d with values_map_ := d.values_map_.Remove index }
  | none => pure ()

/-! ## Canonical names -/

/-- The C function `strchr(s + start, c)` on the string `s`, as an offset into
`s`; the terminator is found at the end of `s`. -/
def strchr (s : List Char) (start : Nat) (c : Char) : Option Nat :=
  if c = NUL then some s.length
  else
    match (s.drop start).indexOf? c with
    | some i => some (start + i)
    | none => none

/-- The test `strncmp(a, b, n) == 0`. -/
def strncmp_eq : List Char → List Char → Nat → Bool
  | _, _, 0 => true
  | [], [], _ + 1 => true
  | [], _ :: _, _ + 1 => false
  | _ :: _, [], _ + 1 => false
  | a :: as, b :: bs, n + 1 => a == b && strncmp_eq as bs n

/-- The characters `s[start] .. s[stop - 1]`, the argument of
`String::FromUTF8(s + start, stop - start)`. -/
def Substring (s : List Char) (start stop : Nat) : String :=
  String.mk ((s.drop start).take (stop - start))

/-- The `while (true)` loop of `ParseCanonicalName` over the function names,
entered with the offset `func_start`; `sym` is the symbol whose text is `name`,
`fuel` bounds the number of iterations. -/
def ParseCanonicalNameFunctions (vm : VM) (sym : Option SExpression) (name : List Char)
    (obj : Handle) : Nat → Nat → Parse Bool
  | 0, _ => fun _ => .outOfFuel
  | fuel + 1, func_start0 => do
    let mut func_start := func_start0
    let mut func_end := strchr name func_start (Char.ofNat 58)
    let mut is_forwarder := false
    match func_end with
    | some colon =>
      if colon - func_start = 3 then
        if strncmp_eq (name.drop func_start) "get".data 3
            || strncmp_eq (name.drop func_start) "set".data 3 then
          func_end := strchr name (colon + 1) (Char.ofNat 58)
        else if strncmp_eq (name.drop func_start) "dyn".data 3 then
          is_forwarder := true
          func_start := colon + 1
          func_end := strchr name (colon + 1) (Char.ofNat 58)
    | none => pure ()
    let func_end1 : Nat :=
      match func_end with
      | some e => e
      | none => name.length
    let name_len := func_end1 - func_start
    let d ← Parse.get
    if d.name_function_ ≠ none then
      match d.tmp_string_ with
      | none => Parse.fault .assertion
      | some parent_name =>
        if vm.HasImplicitClosureFunction d.name_function_ && name.getD func_end1 NUL == NUL
            && strncmp_eq parent_name.data (name.drop func_start) name_len then
          WriteHandle obj (vm.ImplicitClosureFunction d.name_function_)
          return true
        StoreError sym "no handling for local functions"
        return false
    else
      let function_name := Substring name func_start func_end1
      Parse.modify fun d =>
        { d with
          tmp_string_ := some function_name
          name_function_ := vm.LookupFunctionAllowPrivate d.name_class_ function_name }
      let d ← Parse.get
      if d.name_function_ = none then
        StoreError sym
          ("failure looking up function " ++ function_name ++ " in class "
            ++ vm.ToCString d.name_class_)
        return false
      if is_forwarder then
        let forwarder_name := Substring name (func_start - 4) func_end1
        Parse.modify fun d =>
          { d with
            tmp_string_ := some forwarder_name
            name_function_ := vm.GetDynamicInvocationForwarder d.name_function_ forwarder_name }
      if name.getD func_end1 NUL == NUL then
        WriteHandle obj (← Parse.get).name_function_
        return true
      if name.getD (func_end1 + 1) NUL == NUL then
        StoreError sym "no function name found after final colon"
        return false
      ParseCanonicalNameFunctions vm sym name obj fuel (func_end1 + 1)

/-- The member `ParseCanonicalName(sym, obj)`. -/
def ParseCanonicalName (vm : VM) (sym : Option SExpression) (obj : Handle) : Parse Bool :=
  match sym with
  | none => pure false
  | some (.SExpSymbol value) => do
    let name := value.data
    if name.getD 0 NUL == Char.ofNat 58 then
      StoreError sym "expected non-empty library"
      return false
    let lib_end : Nat ←
      match strchr name 0 (Char.ofNat 58) with
      | some first =>
        match strchr name (first + 1) (Char.ofNat 58) with
        | some second => pure second
        | none => pure name.length
      | none =>
        StoreError sym "malformed library"
        return false
    let library_name := Substring name 0 lib_end
    Parse.modify fun d =>
      { d with
        tmp_string_ := some library_name
        name_library_ := vm.LookupLibrary library_name }
    if name.getD lib_end NUL == NUL then
      WriteHandle obj (← Parse.get).name_library_
      return true
    let class_start := lib_end + 1
    if name.getD class_start NUL == NUL then
      StoreError sym "no class found after colon"
      return false
    let class_end : Nat :=
      match strchr name class_start (Char.ofNat 58) with
      | some e => e
      | none =>
        match strchr name class_start (Char.ofNat 46) with
        | some e => e
        | none => name.length
    let empty_name : Bool := class_end == class_start
    Parse.modify fun d => { d with name_class_ := none }
    if empty_name then
      Parse.modify fun d => { d with name_class_ := vm.toplevel_class d.name_library_ }
    else
      let class_name := Substring name class_start class_end
      Parse.modify fun d =>
        { d with
          tmp_string_ := some class_name
          name_class_ := vm.LookupClassAllowPrivate d.name_library_ class_name }
    let d ← Parse.get
    if d.name_class_ = none then
      StoreError sym
        ("failure looking up class "
          ++ (if empty_name then "at top level" else d.tmp_string_.getD "")
          ++ " in library " ++ vm.ToCString d.name_library_)
      return false
    if name.getD class_end NUL == NUL then
      WriteHandle obj d.name_class_
      return true
    if name.getD class_end NUL == Char.ofNat 46 then
      if name.getD (class_end + 1) NUL == NUL then
        StoreError sym "no field name found after period"
        return false
      let field_name := Substring name (class_end + 1) name.length
      Parse.modify fun d =>
        { d with
          tmp_string_ := some field_name
          name_field_ := vm.LookupFieldAllowPrivate d.name_class_ field_name false }
      let d ← Parse.get
      if d.name_field_ = none then
        StoreError sym
          ("failure looking up field " ++ field_name ++ " in class "
            ++ (if empty_name then "at top level" else vm.ToCString d.name_class_))
        return false
      WriteHandle obj d.name_field_
      return true
    if name.getD (class_end + 1) NUL == NUL then
      StoreError sym "no function name found after final colon"
      return false
    Parse.modify fun d => { d with name_function_ := none }
    ParseCanonicalNameFunctions vm sym name obj (name.length + 1) (class_end + 1)
  | some _ => Parse.fault .badCast

/-! ## Values, compile types and Dart values -/

/-- The call `list->Length()` on a non-null `SExpList*`. -/
def ListLength (list : SExpression) : Parse Int :=
  match list with
  | .SExpList contents _ => pure contents.length
  | _ => Parse.fault .badCast

/-- The call `list->At(index)` on a non-null `SExpList*`. -/
def ListAt (list : SExpression) (index : Int) : Parse (Option SExpression) :=
  match list with
  | .SExpList contents _ =>
    if 0 ≤ index ∧ index < contents.length then pure (contents.getD index.toNat none)
    else Parse.fault .outOfBounds
  | _ => Parse.fault .badCast

/-- The call `sym->value()` on a non-null `SExpSymbol*`. -/
def SymbolValue (sym : SExpression) : Parse String :=
  match sym with
  | .SExpSymbol value => pure value
  | _ => Parse.fault .badCast

/-- The call `i->value()` on a non-null `SExpInteger*`. -/
def IntegerValue (i : SExpression) : Parse Int :=
  match i with
  | .SExpInteger value => pure value
  | _ => Parse.fault .badCast

/-- The call `b->value()` on a non-null `SExpBool*`. -/
def BoolValue (b : SExpression) : Parse Bool :=
  match b with
  | .SExpBool value => pure value
  | _ => Parse.fault .badCast

/-- The calls `val->BindsToConstant()` and `val->BoundConstant().raw()`: the
constant the definition of the value holds, if it is a `ConstantInstr`. -/
def BoundConstant (val : ValuePtr) : Parse (Option RawObject) := fun d =>
  match d.zone_instructions.get? (d.zone_values val).definition_ with
  | some (.Constant value _) => .ok (some value) d
  | some _ => .ok none d
  | none => .fault .outOfBounds

/-- The last lines of `ParseDartValue`, from the test `out->IsNull()` on. -/
def ParseDartValueFinish (vm : VM) (sexp : SExpression) (out : Handle) : Parse Bool := do
  if (← ReadHandle out) = none then
    StoreError (some sexp) "unhandled Dart value"
    return false
  if vm.IsInstance (← ReadHandle out) then
    let canonical := vm.CheckAndCanonicalize (← ReadHandle out)
    WriteHandle out canonical.1
    if canonical.1 = none then
      match canonical.2 with
      | some error_str => StoreError (some sexp) ("error during canonicalization: " ++ error_str)
      | none => StoreError (some sexp) "unexpected error during canonicalization"
      return false
  return true

/-- The call `list->At(0)->AsSymbol()->value()` on a non-null `SExpList*`. -/
def ListTag (list : SExpression) : Parse String :=
  match list with
  | .SExpList (some (.SExpSymbol value) :: _) _ => pure value
  | .SExpList _ _ => Parse.fault .nullDereference
  | _ => Parse.fault .badCast

/-- The type of `ParseDartValue`, the one function below that calls itself
(directly and through `ParseCompileType`, `ParseValue` and `ParseInstance`).
The functions named `...With` are the C++ functions with their calls of
`ParseDartValue` directed to the parameter `self`; `ParseDartValue` itself
closes the recursion, with fuel for the depth of nested calls. -/
abbrev DartValueParser : Type := Option SExpression → Handle → Parse Bool

/-- The member `ParseCompileType(sexp)`, for a non-null `sexp`, its call of
`ParseDartValue` directed to `self`. -/
def ParseCompileTypeWith (vm : VM) (self : DartValueParser) (sexp : SExpression) :
    Parse (Option CompileType) := do
  let mut nullable := vm.kNullable
  match ← CheckBool (← ExtraLookupValue sexp "nullable") with
  | some nullable_sexp =>
    nullable := if (← BoolValue nullable_sexp) then vm.kNullable else vm.kNonNullable
  | none => pure ()
  let mut cid := vm.kDynamicCid
  if (← ListLength sexp) > 1 then
    match ← CheckInteger (← ListAt sexp 1) with
    | some cid_sexp => cid ← IntegerValue cid_sexp
    | none => return none
  let mut type : Option RawObject := none
  match ← CheckTaggedList (← ExtraLookupValue sexp "type") none with
  | some type_sexp =>
    let type_handle ← NewHandle none
    if !(← self (some type_sexp) type_handle) then return none
    type := some (← ReadHandle type_handle)
  | none => pure ()
  return some { nullable := nullable, cid := cid, type := type }

/-- The member `ParseValue(sexp, allow_pending)`, the call of `ParseDartValue`
under `ParseCompileType` directed to `self`. -/
def ParseValueWith (vm : VM) (self : DartValueParser) :
    Option SExpression → Bool → Parse (Option ValuePtr)
  | none, _ => Parse.fault .nullDereference
  | some sexp, allow_pending => do
    let mut name := sexp.As .kSymbol
    let mut type : Option CompileType := none
    if name.isNone then
      let list ← CheckTaggedList (some sexp) (some "value")
      name ← CheckSymbol (← Retrieve list 1)
      if name.isNone then return none
      match list with
      | none => Parse.fault .nullDereference
      | some l =>
        match ← CheckTaggedList (← ExtraLookupValue l "type") (some "CompileType") with
        | some type_sexp =>
          type ← ParseCompileTypeWith vm self type_sexp
          if type.isNone then return none
        | none => pure ()
    match ← ParseUse vm name with
    | none => return none
    | some index =>
      let val : ValuePtr ←
        match (← Parse.get).definition_map_.LookupValue index with
        | none =>
          if !allow_pending then
            StoreError (some sexp) "found use prior to definition"
            return none
          AddNewPendingValue index
        | some definition => NewValue definition
      match type with
      | some t => SetReachingType val t
      | none => pure ()
      return some val

/-- The loop `for (i = 1, n = list->Length(); i < n; i++)` of the
`TypeArguments` case of `ParseDartValue`, at index `i` with `n - i` iterations
remaining; `false` is the `return false` of the loop body. -/
def ParseTypeArgumentsLoop (vm : VM) (self : DartValueParser) (list : SExpression)
    (out : Handle) : Nat → Int → Parse Bool
  | 0, _ => pure true
  | remaining + 1, i => do
    if !(← self (← Retrieve (some list) i) .value_type) then return false
    WriteHandle out (vm.SetTypeAt (← ReadHandle out) (i - 1) (← Parse.get).value_type_)
    ParseTypeArgumentsLoop vm self list out remaining (i + 1)

/-- The loop `for (i = 1; i < list->Length(); i++)` of the `ImmutableList`
case of `ParseDartValue`, at index `i` with `Length() - i` iterations
remaining; `false` is the `return false` of the loop body. -/
def ParseImmutableListLoop (vm : VM) (self : DartValueParser) (list : SExpression)
    (arr : Handle) : Nat → Int → Parse Bool
  | 0, _ => pure true
  | remaining + 1, i => do
    if !(← self (← Retrieve (some list) i) .value_object) then return false
    WriteHandle arr (vm.SetAt (← ReadHandle arr) (i - 1) (← Parse.get).value_object_)
    ParseImmutableListLoop vm self list arr remaining (i + 1)

/-- The loop of `ParseInstance` over the extra information of the `Fields`
list (in the order of the entries); `false` is the `return false` of the
loop body. -/
def ParseInstanceFieldsLoop (vm : VM) (self : DartValueParser) (list : SExpression)
    (out : Handle) : List (String × Option SExpression) → Parse Bool
  | [] => pure true
  | (key, value) :: rest => do
    Parse.modify fun d =>
      { d with
        tmp_string_ := some key
        instance_field_ := vm.LookupFieldAllowPrivate d.instance_class_ key true }
    if (← Parse.get).instance_field_ = none then
      StoreError (some list) ("cannot find field " ++ key)
      return false
    match ← CheckTaggedList value (some "Instance") with
    | some inst =>
      StoreError (some inst) "nested instances not handled yet"
      return false
    | none => pure ()
    if !(← self value .instance_object) then return false
    let d ← Parse.get
    WriteHandle out (vm.SetField (← ReadHandle out) d.instance_field_ d.instance_object_)
    ParseInstanceFieldsLoop vm self list out rest

/-- The member `ParseInstance(list, out)`, for a non-null `list`, its calls of
`ParseDartValue` directed to `self`. -/
def ParseInstanceWith (vm : VM) (self : DartValueParser) (list : SExpression)
    (out : Handle) : Parse Bool := do
  match ← CheckInteger (← Retrieve (some list) 1) with
  | none => return false
  | some cid_sexp =>
    let cid ← IntegerValue cid_sexp
    if !vm.HasValidClassAt cid then
      StoreError (some cid_sexp) "cid is not valid"
      return false
    Parse.modify fun d => { d with instance_class_ := vm.ClassAt cid }
    WriteHandle out (some (vm.InstanceNew (← Parse.get).instance_class_))
    if (← ListLength list) > 2 then
      match ← CheckTaggedList (← Retrieve (some list) 2) (some "Fields") with
      | none => return false
      | some (.SExpList _ extra_info) =>
        if !(← ParseInstanceFieldsLoop vm self list out extra_info) then return false
      | some _ => Parse.fault .badCast
    return true

/-- The member `ParseDartValue(sexp, out)`, its recursive calls directed to
`self`. -/
def ParseDartValueWith (vm : VM) (self : DartValueParser) :
    Option SExpression → Handle → Parse Bool
  | none, _ => pure false
  | some sexp, out => do
    WriteHandle out none
    match sexp.As .kSymbol with
    | some sym =>
      if (← SymbolValue sym) = "null" then return true
      match ← ParseValueWith vm self (some sym) false with
      | none => return false
      | some val =>
        match ← BoundConstant val with
        | none =>
          StoreError (some sym) "not a reference to a constant definition"
          return false
        | some constant =>
          WriteHandle out constant
          return true
    | none => pure ()
    match ← CheckTaggedList (some sexp) none with
    | some list =>
      let tag ← ListTag list
      if tag = "Class" then
        match ← CheckInteger (← Retrieve (some list) 1) with
        | none => return false
        | some cid_sexp =>
          let cid ← IntegerValue cid_sexp
          if !vm.HasValidClassAt cid then
            StoreError (some cid_sexp) "no valid class found for cid"
            return false
          WriteHandle out (vm.ClassAt cid)
      else if tag = "Type" then
        match ← CheckTaggedList (← Retrieve (some list) 1) (some "Class") with
        | some cls_sexp =>
          let cls ← NewHandle none
          if !(← self (some cls_sexp) cls) then return false
          let type_args ← NewHandle none
          match ← CheckTaggedList (← ExtraLookupValue list "type_args")
              (some "TypeArguments") with
          | some ta_sexp =>
            if !(← self (some ta_sexp) type_args) then return false
          | none => pure ()
          WriteHandle out (some (vm.TypeNew (← ReadHandle cls) (← ReadHandle type_args)))
        | none => pure ()
      else if tag = "TypeArguments" then
        WriteHandle out (some (vm.TypeArgumentsNew ((← ListLength list) - 1)))
        if !(← ParseTypeArgumentsLoop vm self list out ((← ListLength list) - 1).toNat 1) then
          return false
      else if tag = "Field" then
        let name_sexp ← CheckSymbol (← Retrieve (some list) 1)
        if !(← ParseCanonicalName vm name_sexp out) then return false
      else if tag = "Function" then
        let name_sexp ← CheckSymbol (← Retrieve (some list) 1)
        if !(← ParseCanonicalName vm name_sexp out) then return false
        match ← CheckSymbol (← ExtraLookupValue list "kind") with
        | some kind_sexp =>
          match vm.FunctionKindFromCString (← SymbolValue kind_sexp) with
          | none =>
            StoreError (some kind_sexp) "unexpected function kind"
            return false
          | some kind =>
            let function ← ReadHandle out
            if vm.FunctionKind function ≠ kind then
              StoreError (some list)
                ("retrieved function has kind "
                  ++ vm.FunctionKindToCString (vm.FunctionKind function))
              return false
        | none => pure ()
      else if tag = "TypeParameter" then
        match (← Parse.get).parsed_function_ with
        | none => Parse.fault .assertion
        | some parsed_function =>
          match ← CheckSymbol (← Retrieve (some list) 1) with
          | none => return false
          | some name_sexp =>
            let func := parsed_function.function
            let name ← SymbolValue name_sexp
            Parse.modify fun d => { d with tmp_string_ := some name }
            WriteHandle out (vm.FunctionLookupTypeParameter func name)
            if (← ReadHandle out) = none then
              Parse.modify fun d => { d with value_class_ := vm.FunctionOwner func }
              WriteHandle out (vm.ClassLookupTypeParameter (← Parse.get).value_class_ name)
            if (← ReadHandle out) = none then
              StoreError (some name_sexp) "no type parameter found for name"
              return false
      else if tag = "ImmutableList" then
        let arr ← NewHandle (some (vm.ArrayNew ((← ListLength list) - 1)))
        if !(← ParseImmutableListLoop vm self list arr ((← ListLength list) - 1).toNat 1) then
          return false
        match ← CheckTaggedList (← ExtraLookupValue list "type_args")
            (some "TypeArguments") with
        | some type_args_sexp =>
          if !(← self (some type_args_sexp) .value_type_args) then
            return false
          WriteHandle arr (vm.SetTypeArguments (← ReadHandle arr) (← Parse.get).value_type_args_)
        | none => pure ()
        WriteHandle arr (vm.MakeImmutable (← ReadHandle arr))
        WriteHandle out (← ReadHandle arr)
      else if tag = "Instance" then
        if !(← ParseInstanceWith vm self list out) then return false
      else if tag = "Closure" then
        let function ← NewHandle none
        if !(← self (← Retrieve (some list) 1) function) then return false
        let context ← NewHandle none
        if (← ExtraLookupValue list "context").isSome then
          StoreError (some list) "closures with contexts currently unhandled"
          return false
        let inst_type_args ← NewHandle none
        match ← CheckTaggedList (← RetrieveKey (some list) "inst_type_args")
            (some "TypeArguments") with
        | some type_args_sexp =>
          if !(← self (some type_args_sexp) inst_type_args) then return false
        | none => pure ()
        let func_type_args ← NewHandle none
        match ← CheckTaggedList (← RetrieveKey (some list) "func_type_args")
            (some "TypeArguments") with
        | some type_args_sexp =>
          if !(← self (some type_args_sexp) func_type_args) then return false
        | none => pure ()
        let delayed_type_args ← NewHandle none
        match ← CheckTaggedList (← RetrieveKey (some list) "delayed_type_args")
            (some "TypeArguments") with
        | some type_args_sexp =>
          if !(← self (some type_args_sexp) delayed_type_args) then
            return false
        | none => pure ()
        WriteHandle out
          (some (vm.ClosureNew (← ReadHandle inst_type_args) (← ReadHandle func_type_args)
            (← ReadHandle delayed_type_args) (← ReadHandle function) (← ReadHandle context)))
    | none =>
      match sexp with
      | .SExpBool b => WriteHandle out (some (vm.BoolGet b))
      | .SExpString str => WriteHandle out (some (vm.StringNew str))
      | .SExpInteger i => WriteHandle out (some (vm.IntegerNew i))
      | .SExpDouble x => WriteHandle out (some (vm.DoubleNew x))
      | _ => pure ()
    ParseDartValueFinish vm sexp out

/-- The member `ParseDartValue(sexp, out)`; `fuel` bounds the depth of the
nested calls of `ParseDartValue`. -/
def ParseDartValue (vm : VM) : Nat → DartValueParser
  | 0 => fun sexp _ =>
    match sexp with
    | none => pure false
    | some _ => fun _ => .outOfFuel
  | fuel + 1 => ParseDartValueWith vm (ParseDartValue vm fuel)

/-- The member `ParseCompileType(sexp)`, for a non-null `sexp`. -/
def ParseCompileType (vm : VM) (fuel : Nat) : SExpression → Parse (Option CompileType) :=
  ParseCompileTypeWith vm (ParseDartValue vm fuel)

/-- The member `ParseValue(sexp, allow_pending)`. -/
def ParseValue (vm : VM) (fuel : Nat) : Option SExpression → Bool → Parse (Option ValuePtr) :=
  ParseValueWith vm (ParseDartValue vm fuel)

/-- The member `ParseInstance(list, out)`, for a non-null `list`. -/
def ParseInstance (vm : VM) (fuel : Nat) : SExpression → Handle → Parse Bool :=
  ParseInstanceWith vm (ParseDartValue vm fuel)

/-! ## Definitions and instruction builders -/

/-- The allocation `new (zone()) ...Instr(...)`. -/
def NewInstruction (instr : Instruction) : Parse DefinitionPtr := fun d =>
  .ok d.zone_instructions.length { d with zone_instructions := d.zone_instructions ++ [instr] }

/-- The member `ParseDefinitionWithParsedBody(list, def)`. -/
def ParseDefinitionWithParsedBody (vm : VM) (fuel : Nat) (list : Option SExpression)
    (definition : DefinitionPtr) : Parse Bool := do
  let name_sexp ← CheckSymbol (← Retrieve list 1)
  if name_sexp.isNone then return false
  let index : Int ←
    match ← ParseSSATemp vm name_sexp with
    | some index =>
      if (← Parse.get).definition_map_.HasKey index then
        StoreError list "multiple definitions for the same SSA index"
        return false
      Parse.modify fun d =>
        { d with ssa_temp_index_ := Function.update d.ssa_temp_index_ definition index }
      if index > (← Parse.get).max_ssa_index_ then
        Parse.modify fun d => { d with max_ssa_index_ := index }
      pure index
    | none =>
      StoreError list "unhandled name for definition"
      return false
  match list with
  | none => Parse.fault .nullDereference
  | some l =>
    match ← CheckTaggedList (← ExtraLookupValue l "type") (some "CompileType") with
    | some type_sexp =>
      match ← ParseCompileType vm fuel type_sexp with
      | none => return false
      | some typ =>
        Parse.modify fun d => { d with type_ := Function.update d.type_ definition (some typ) }
    | none => pure ()
    Parse.modify fun d => { d with definition_map_ := d.definition_map_.Insert index definition }
    FixPendingValues index definition
    return true

/-- The member `DeserializeReturn(list, info)`; `ParseValue` is called with
its default `allow_pending = true`. -/
def DeserializeReturn (vm : VM) (fuel : Nat) (list : Option SExpression) (info : InstrInfo) :
    Parse (Option DefinitionPtr) := do
  match ← ParseValue vm fuel (← Retrieve list 1) true with
  | none => return none
  | some val => return some (← NewInstruction (.Return info.token_pos val info.deopt_id))

/-- The member `DeserializeStrictCompare(sexp, info)`; `ParseValue` is called
with its default `allow_pending = true`. -/
def DeserializeStrictCompare (vm : VM) (fuel : Nat) (sexp : Option SExpression)
    (info : InstrInfo) : Parse (Option DefinitionPtr) := do
  match ← CheckSymbol (← Retrieve sexp 1) with
  | none => return none
  | some token_sexp =>
    match vm.TokenFromStr (← SymbolValue token_sexp) with
    | none => return none
    | some kind =>
      match ← ParseValue vm fuel (← Retrieve sexp 2) true with
      | none => return none
      | some left =>
        match ← ParseValue vm fuel (← Retrieve sexp 3) true with
        | none => return none
        | some right =>
          let mut needs_check := false
          match ← CheckBool (← RetrieveKey sexp "needs_check") with
          | some check_sexp => needs_check ← BoolValue check_sexp
          | none => pure ()
          return some (← NewInstruction
            (.StrictCompare info.token_pos kind left right needs_check info.deopt_id))

/-! ## Blocks and pushed-argument stacks -/

/-- The read of the instruction a pointer refers to; a pointer outside the
zone is a fault. -/
def InstructionAt (instr : DefinitionPtr) : Parse Instruction := fun d =>
  match d.zone_instructions.get? instr with
  | some i => .ok i d
  | none => .fault .outOfBounds

/-- Modelled from the spec: the call `block->block_id()` of `il.h` (not under
`src/`). The graph entry is block 0; calling it on an instruction that is not
a block entry is a bad cast. -/
def block_id (block : DefinitionPtr) : Parse Int := do
  match ← InstructionAt block with
  | .GraphEntry _ _ => pure 0
  | .FunctionEntry _ id _ _ => pure id
  | .JoinEntry id _ _ => pure id
  | .TargetEntry id _ _ => pure id
  | _ => Parse.fault .badCast

/-- Modelled from the spec: the call `instr->SuccessorCount()` of `il.h` (not
under `src/`), the number of outgoing control-flow edges of an instruction: a
branch transfers to its true and its false target, a goto to its target, the
graph entry to the entries it owns; no other instruction built by the
deserializer, block entries included, has successors of its own. -/
def SuccessorCount (instr : DefinitionPtr) : Parse Int := do
  match ← InstructionAt instr with
  | .Branch _ _ _ _ => pure 2
  | .Goto _ _ => pure 1
  | .GraphEntry _ _ =>
    let d ← Parse.get
    pure ((if (d.normal_entry_ instr).isSome then 1 else 0)
      + (if (d.unchecked_entry_ instr).isSome then 1 else 0))
  | _ => pure 0

/-- Modelled from the spec: the call `instr->SuccessorAt(index)` of `il.h` (not
under `src/`) on a branch or a goto: the true target of a branch is its
successor 0 and the false target its successor 1. -/
def SuccessorAt (instr : DefinitionPtr) (index : Int) : Parse DefinitionPtr := do
  match ← InstructionAt instr with
  | .Branch _ _ (some true_successor) (some false_successor) =>
    if index = 0 then pure true_successor
    else if index = 1 then pure false_successor
    else Parse.fault .outOfBounds
  | .Goto successor _ => if index = 0 then pure successor else Parse.fault .outOfBounds
  | _ => Parse.fault .outOfBounds

/-- Modelled from the spec: the call `block->PredecessorCount()` of `il.h` (not
under `src/`): the length of the predecessor list of the block. -/
def PredecessorCount (block : DefinitionPtr) : Parse Int := fun d =>
  .ok (d.predecessors_ block).length d

/-- Modelled from the spec: the call `block->PredecessorAt(index)` of `il.h`
(not under `src/`): the predecessors in the order the edges were
discovered. -/
def PredecessorAt (block : DefinitionPtr) (index : Int) : Parse DefinitionPtr := fun d =>
  if 0 ≤ index ∧ index < (d.predecessors_ block).length then
    .ok ((d.predecessors_ block).getD index.toNat 0) d
  else .fault .outOfBounds

/-- Modelled from the spec: the call `block->AddPredecessor(pred)` of `il.h`
(not under `src/`): the predecessor list is populated incrementally as edges
are discovered. -/
def AddPredecessor (block pred : DefinitionPtr) : Parse Unit :=
  Parse.modify fun d =>
    { d with predecessors_ := Function.update d.predecessors_ block (d.predecessors_ block ++ [pred]) }

/-- The allocation `new (zone()) PushStack(zone(), n)` followed by
`AddArray(contents)`. -/
def NewStack (contents : List DefinitionPtr) : Parse StackPtr := fun d =>
  .ok d.zone_stacks_length
    { d with
      zone_stacks := Function.update d.zone_stacks d.zone_stacks_length contents
      zone_stacks_length := d.zone_stacks_length + 1 }

/-- The read of the array a `PushStack*` points to. -/
def StackContents (stack : StackPtr) : Parse (List DefinitionPtr) := fun d =>
  .ok (d.zone_stacks stack) d

/-- The statements `auto const stack =
pushed_stack_map_.LookupValue(current_block_->block_id()); ASSERT(stack !=
nullptr);`. -/
def CurrentStack : Parse StackPtr := do
  match (← Parse.get).current_block_ with
  | none => Parse.fault .nullDereference
  | some block =>
    match (← Parse.get).pushed_stack_map_.LookupValue (← block_id block) with
    | none => Parse.fault .assertion
    | some stack => pure stack

/-- The member `FetchPushedArguments(list, len)`. -/
def FetchPushedArguments (list : Option SExpression) (len : Int) :
    Parse (Option (List DefinitionPtr)) := do
  let stack ← CurrentStack
  let contents ← StackContents stack
  let stack_len : Int := contents.length
  if len > stack_len then
    StoreError list
      ("expected " ++ toString len ++ " pushed arguments, only " ++ toString stack_len
        ++ " on stack")
    return none
  if len < 0 then Parse.fault .outOfBounds
  else
    let arr := contents.drop (stack_len - len).toNat
    Parse.modify fun d =>
      { d with
        zone_stacks := Function.update d.zone_stacks stack (contents.take (stack_len - len).toNat) }
    return some arr

/-- The member `FetchBlock(sym)`. -/
def FetchBlock (vm : VM) (sym : Option SExpression) : Parse (Option DefinitionPtr) :=
  match sym with
  | none => pure none
  | some _ => do
    match ← ParseBlockId vm sym with
    | none => return none
    | some id =>
      match (← Parse.get).block_map_.LookupValue id with
      | none =>
        StoreError sym "reference to undefined block"
        return none
      | some entry => return some entry

/-- The SSA index `stack->At(i)->value()->definition()->ssa_temp_index()` of
the definition a pushed argument pushes. -/
def PushedIndex (push : DefinitionPtr) : Parse Int := do
  match ← InstructionAt push with
  | .PushArgument value =>
    let d ← Parse.get
    pure (d.ssa_temp_index_ (d.zone_values value).definition_)
  | _ => Parse.fault .badCast

/-- The inner loop of `AreStacksConsistent` over the positions `i` of the two
stacks, from position `i` on; `false` is the `return false` of its body. -/
def CompareStacks (list : SExpression) (pred_block : DefinitionPtr) :
    List DefinitionPtr → List DefinitionPtr → Int → Parse Bool
  | pred :: pred_rest, curr :: curr_rest, i => do
    if pred ≠ curr then
      let pred_index ← PushedIndex pred
      let curr_index ← PushedIndex curr
      StoreError (← ListAt list 1)
        ("current pushed stack has v" ++ toString curr_index ++ " at position " ++ toString i
          ++ ", other pushed stack for B" ++ toString (← block_id pred_block) ++ " has v"
          ++ toString pred_index)
      return false
    CompareStacks list pred_block pred_rest curr_rest (i + 1)
  | _, _, _ => pure true

/-- The outer loop `for (i = 0, n = succ_block->SuccessorCount(); i < n; i++)`
of `AreStacksConsistent`, at index `i` with `n - i` iterations remaining;
`curr` is the contents of `curr_stack`, `false` is the `return false` of the
loop body. -/
def AreStacksConsistentLoop (list : SExpression) (curr : List DefinitionPtr)
    (succ_block : DefinitionPtr) : Nat → Int → Parse Bool
  | 0, _ => pure true
  | remaining + 1, i => do
    let pred_block ← PredecessorAt succ_block i
    match (← Parse.get).pushed_stack_map_.LookupValue (← block_id pred_block) with
    | none => Parse.fault .assertion
    | some pred_stack =>
      let pred ← StackContents pred_stack
      if pred.length ≠ curr.length then
        StoreError (← ListAt list 1)
          ("current pushed stack has " ++ toString curr.length
            ++ " elements, other pushed stack for B" ++ toString (← block_id pred_block)
            ++ " has " ++ toString pred.length)
        return false
      if !(← CompareStacks list pred_block pred curr 0) then return false
      AreStacksConsistentLoop list curr succ_block remaining (i + 1)

/-- The member `AreStacksConsistent(list, curr_stack, succ_block)`, for a
non-null `list`. -/
def AreStacksConsistent (list : SExpression) (curr_stack : StackPtr)
    (succ_block : DefinitionPtr) : Parse Bool := do
  let curr ← StackContents curr_stack
  AreStacksConsistentLoop list curr succ_block (← SuccessorCount succ_block).toNat 0

/-! ## Environments -/

/-- The assignment `outer_env->deopt_id_ = deopt_id`. -/
def Environment.SetDeoptId : Environment → Int → Environment
  | .mk values fixed_parameter_count _ outer, deopt_id =>
    .mk values fixed_parameter_count deopt_id outer

/-- The body of the loop of `ParseEnvironment` at index `i`: the value pushed
for the element, `none` being the `return nullptr` of the body. -/
def ParseEnvironmentSlot (vm : VM) (fuel : Nat) (list : SExpression) (stack : StackPtr)
    (i : Int) : Parse (Option ValuePtr) := do
  let elem_sexp ← Retrieve (some list) i
  if elem_sexp.isNone then return none
  let val ← ParseValue vm fuel elem_sexp false
  if val.isNone then
    match ← ParseSymbolAsPrefixedInt vm (← CheckSymbol elem_sexp) 'a' with
    | none =>
      StoreError elem_sexp "expected value or reference to pushed argument"
      return none
    | some index =>
      let contents ← StackContents stack
      if index ≥ contents.length then
        StoreError elem_sexp "out of range index for pushed argument"
        return none
      if index < 0 then Parse.fault .outOfBounds
      else return some (← NewValue (contents.getD index.toNat 0))
  else return val

/-- The loop of `ParseEnvironment` over the elements of the list, at index `i`
with `Length() - i` iterations remaining; `values` are the values pushed so
far, `none` is the `return nullptr` of the loop body. -/
def ParseEnvironmentLoop (vm : VM) (fuel : Nat) (list : SExpression) (stack : StackPtr)
    : Nat → Int → List ValuePtr → Parse (Option (List ValuePtr))
  | 0, _, values => pure (some values)
  | remaining + 1, i, values => do
    match ← ParseEnvironmentSlot vm fuel list stack i with
    | none => return none
    | some val => ParseEnvironmentLoop vm fuel list stack remaining (i + 1) (values ++ [val])

/-- The member `ParseEnvironment(list)`, its recursive call directed to
`self`. -/
def ParseEnvironmentWith (vm : VM) (fuel : Nat)
    (self : Option SExpression → Parse (Option Environment)) :
    Option SExpression → Parse (Option Environment)
  | none => pure none
  | some list => do
    let mut fixed_param_count : Int := 0
    match ← CheckInteger (← ExtraLookupValue list "fixed_param_count") with
    | some fpc_sexp => fixed_param_count ← IntegerValue fpc_sexp
    | none => pure ()
    let mut outer_env : Option Environment := none
    match ← CheckList (← ExtraLookupValue list "outer") with
    | some outer_sexp =>
      match ← self (some outer_sexp) with
      | none => return none
      | some outer =>
        outer_env := some outer
        match ← CheckInteger (← ExtraLookupValue outer_sexp "deopt_id") with
        | some deopt_sexp => outer_env := some (outer.SetDeoptId (← IntegerValue deopt_sexp))
        | none => pure ()
    | none => pure ()
    if (← Parse.get).parsed_function_.isNone then Parse.fault .nullDereference
    else
      let stack ← CurrentStack
      match ← ParseEnvironmentLoop vm fuel list stack (← ListLength list).toNat 0 [] with
      | none => return none
      | some values => return some (.mk values fixed_param_count vm.kNone outer_env)

/-- The member `ParseEnvironment(list)`; `fuel` bounds the depth of the nested
outer environments and of the Dart values inside. -/
def ParseEnvironment (vm : VM) : Nat → Option SExpression → Parse (Option Environment)
  | 0 => fun list =>
    match list with
    | none => pure none
    | some _ => fun _ => .outOfFuel
  | fuel + 1 => ParseEnvironmentWith vm (fuel + 1) (ParseEnvironment vm fuel)
/-! ## The constant pool -/

/-- Modelled from the spec: the call `flow_graph_->GetConstant(obj)` of
`flow_graph.h` (not under `src/`): the definition of the constant pool of the
graph that holds `obj`, a new `ConstantInstr` with the next SSA index of the
graph, added to the initial definitions of the graph entry, if the pool has
none yet. -/
def GetConstant (vm : VM) (obj : RawObject) : Parse DefinitionPtr := do
  match (← Parse.get).flow_graph_ with
  | none => Parse.fault .nullDereference
  | some flow_graph =>
    match flow_graph.constant_instr_pool_.lookup obj with
    | some constant => pure constant
    | none =>
      match flow_graph.graph_entry_ with
      | none => Parse.fault .nullDereference
      | some graph_entry =>
        let constant ← NewInstruction (.Constant obj vm.kConstant)
        Parse.modify fun d =>
          { d with
            ssa_temp_index_ :=
              Function.update d.ssa_temp_index_ constant flow_graph.current_ssa_temp_index_
            initial_definitions_ :=
              Function.update d.initial_definitions_ graph_entry
                (d.initial_definitions_ graph_entry ++ [constant])
            flow_graph_ := some
              { flow_graph with
                current_ssa_temp_index_ := flow_graph.current_ssa_temp_index_ + 1
                constant_instr_pool_ := flow_graph.constant_instr_pool_ ++ [(obj, constant)] } }
        pure constant

/-- The first loop of `ParseConstantPool`, `for (i = pool->Length() - 1; i > 0;
i--)`, at index `i`; `worklist` is the array built so far, `none` is the
`return false` of the loop body. -/
def ParseConstantPoolWorklist (pool : SExpression) :
    Nat → List SExpression → Parse (Option (List SExpression))
  | 0, worklist => pure (some worklist)
  | i + 1, worklist => do
    match ← CheckTaggedList (← ListAt pool (i + 1 : Nat)) (some "def") with
    | none => return none
    | some def_sexp => ParseConstantPoolWorklist pool i (worklist ++ [def_sexp])

/-- The loop `while (!worklist.is_empty())` of `ParseConstantPool`. The
worklist is given in the order in which `RemoveLast` hands out its elements
(the reverse of the array); `parse_failures` is the array of the failures so
far, `none` is the `return false` of the loop body. -/
def ParseConstantPoolRound (vm : VM) (fuel : Nat) :
    List SExpression → List SExpression → Parse (Option (List SExpression))
  | [], parse_failures => pure (some parse_failures)
  | def_sexp :: worklist, parse_failures => do
    let obj ← NewHandle none
    if !(← ParseDartValue vm fuel (← Retrieve (some def_sexp) 2) obj) then
      ParseConstantPoolRound vm fuel worklist (parse_failures ++ [def_sexp])
    else
      let definition ← GetConstant vm (← ReadHandle obj)
      if !(← ParseDefinitionWithParsedBody vm fuel (some def_sexp) definition) then return none
      ParseConstantPoolRound vm fuel worklist parse_failures

/-- The loop `while (true)` of `ParseConstantPool`, with at most `rounds`
iterations. The worklist is given in the order in which `RemoveLast` hands out
its elements; refilling the array from `parse_failures` by `RemoveLast` makes
that order the order of `parse_failures`. -/
def ParseConstantPoolRounds (vm : VM) (fuel : Nat) : Nat → List SExpression → Parse Bool
  | 0, _ => fun _ => .outOfFuel
  | rounds + 1, worklist => do
    match ← ParseConstantPoolRound vm fuel worklist [] with
    | none => return false
    | some parse_failures =>
      if parse_failures.isEmpty then return true
      if parse_failures.length = worklist.length then return false
      ParseConstantPoolRounds vm fuel rounds parse_failures

/-- The member `ParseConstantPool(pool)`. The loop `while (true)` is run with
one round more than the worklist has elements. -/
def ParseConstantPool (vm : VM) (fuel : Nat) (pool : Option SExpression) : Parse Bool := do
  if (← Parse.get).flow_graph_.isNone then Parse.fault .assertion
  else
    match pool with
    | none => return false
    | some list =>
      match ← ParseConstantPoolWorklist list ((← ListLength list) - 1).toNat [] with
      | none => return false
      | some worklist =>
        ParseConstantPoolRounds vm fuel (worklist.length + 1) worklist.reverse

/-! ## Instructions -/

/-- The enumeration `HandledInstruction` of the header: one enumerator
`kHandled<name>` for each name of `FOR_EACH_HANDLED_INSTRUCTION_IN_DESERIALIZER`
as the header under `src/` defines it, and `kHandledInvalid`. -/
inductive HandledInstruction where
  | kHandledBranch
  | kHandledCheckStackOverflow
  | kHandledConstant
  | kHandledGoto
  | kHandledPushArgument
  | kHandledParameter
  | kHandledReturn
  | kHandledSpecialParameter
  | kHandledStaticCall
  | kHandledInvalid
  deriving DecidableEq, Repr

/-- The member `HandledInstructionForTag(tag)`: the tests `strcmp(tag->value(),
#name) == 0` in the order of the macro. -/
def HandledInstructionForTag (tag : Option SExpression) : Parse HandledInstruction :=
  match tag with
  | none => Parse.fault .assertion
  | some (.SExpSymbol value) =>
    if value = "Branch" then pure .kHandledBranch
    else if value = "CheckStackOverflow" then pure .kHandledCheckStackOverflow
    else if value = "Constant" then pure .kHandledConstant
    else if value = "Goto" then pure .kHandledGoto
    else if value = "PushArgument" then pure .kHandledPushArgument
    else if value = "Parameter" then pure .kHandledParameter
    else if value = "Return" then pure .kHandledReturn
    else if value = "SpecialParameter" then pure .kHandledSpecialParameter
    else if value = "StaticCall" then pure .kHandledStaticCall
    else pure .kHandledInvalid
  | some _ => Parse.fault .badCast

/-- The expression `list->At(0)->AsSymbol()` on a non-null `SExpList*`. -/
def TagSymbol (list : SExpression) : Parse (Option SExpression) := do
  match ← ListAt list 0 with
  | none => Parse.fault .nullDereference
  | some first => pure (first.As .kSymbol)

/-- Modelled from the spec: the test `inst->IsComparison()` of `il.h` (not under
`src/`); of the instructions built here the strict comparison is the one
comparison. -/
def IsComparison (inst : DefinitionPtr) : Parse Bool := do
  match ← InstructionAt inst with
  | .StrictCompare _ _ _ _ _ _ => pure true
  | _ => pure false

/-- Modelled from the spec: the test `block->IsTargetEntry()` of `il.h` (not
under `src/`). -/
def IsTargetEntry (block : DefinitionPtr) : Parse Bool := do
  match ← InstructionAt block with
  | .TargetEntry _ _ _ => pure true
  | _ => pure false

/-- Modelled from the spec: the test `block->IsJoinEntry()` of `il.h` (not
under `src/`). -/
def IsJoinEntry (block : DefinitionPtr) : Parse Bool := do
  match ← InstructionAt block with
  | .JoinEntry _ _ _ => pure true
  | _ => pure false

/-- Modelled from the spec: the cast `inst->AsDefinition()` of `il.h` (not under
`src/`), as a test: a definition is an instruction that produces a result. -/
def IsDefinition (inst : DefinitionPtr) : Parse Bool := do
  match ← InstructionAt inst with
  | .Phi _ _ => pure true
  | .Constant _ _ => pure true
  | .Parameter _ _ => pure true
  | .PushArgument _ => pure true
  | .SpecialParameter _ _ _ => pure true
  | .StaticCall _ _ _ _ _ _ _ _ => pure true
  | .StrictCompare _ _ _ _ _ _ => pure true
  | _ => pure false

/-- Modelled from the spec: the call `env->DeepCopyTo(zone(), inst)` of `il.h`
(not under `src/`): the instruction gets a copy of the environment. -/
def DeepCopyTo (env : Environment) (inst : DefinitionPtr) : Parse Unit :=
  Parse.modify fun d => { d with env_ := Function.update d.env_ inst (some env) }

/-- The member `DeserializeBranch(sexp, info)`, its call of `ParseInstruction`
directed to `self`. -/
def DeserializeBranchWith (vm : VM) (self : Option SExpression → Parse (Option DefinitionPtr))
    (sexp : Option SExpression) (info : InstrInfo) : Parse (Option DefinitionPtr) := do
  let comp_sexp ← CheckTaggedList (← Retrieve sexp 1) none
  match ← self comp_sexp with
  | none => return none
  | some comp_inst =>
    match sexp with
    | none => Parse.fault .nullDereference
    | some list =>
      if !(← IsComparison comp_inst) then
        StoreError (← ListAt list 1) "expected comparison instruction"
        return none
      match ← FetchBlock vm (← CheckSymbol (← Retrieve sexp 2)) with
      | none => return none
      | some true_block =>
        if !(← IsTargetEntry true_block) then
          StoreError (← ListAt list 2) "true successor is not a target block"
          return none
        match ← FetchBlock vm (← CheckSymbol (← Retrieve sexp 3)) with
        | none => return none
        | some false_block =>
          if !(← IsTargetEntry false_block) then
            StoreError (← ListAt list 3) "false successor is not a target block"
            return none
          return some (← NewInstruction
            (.Branch comp_inst info.deopt_id (some true_block) (some false_block)))

/-- The member `DeserializeGoto(sexp, info)`. -/
def DeserializeGoto (vm : VM) (sexp : Option SExpression) (info : InstrInfo) :
    Parse (Option DefinitionPtr) := do
  match ← FetchBlock vm (← CheckSymbol (← Retrieve sexp 1)) with
  | none => return none
  | some block =>
    match sexp with
    | none => Parse.fault .nullDereference
    | some list =>
      if !(← IsJoinEntry block) then
        StoreError (← ListAt list 1) "target of goto must be join entry"
        return none
      return some (← NewInstruction (.Goto block info.deopt_id))

/-- The member `DeserializeCheckStackOverflow(sexp, info)`, for a non-null
`sexp`. -/
def DeserializeCheckStackOverflow (sexp : SExpression) (info : InstrInfo) :
    Parse (Option DefinitionPtr) := do
  let mut stack_depth : Int := 0
  match ← CheckInteger (← ExtraLookupValue sexp "stack_depth") with
  | some stack_sexp => stack_depth ← IntegerValue stack_sexp
  | none => pure ()
  let mut loop_depth : Int := 0
  match ← CheckInteger (← ExtraLookupValue sexp "loop_depth") with
  | some loop_sexp => loop_depth ← IntegerValue loop_sexp
  | none => pure ()
  let mut kind := CheckStackOverflowKind.kOsrAndPreemption
  match ← CheckSymbol (← ExtraLookupValue sexp "kind") with
  | some kind_sexp =>
    if (← SymbolValue kind_sexp) ≠ "OsrOnly" then Parse.fault .assertion
    else kind := CheckStackOverflowKind.kOsrOnly
  | none => pure ()
  return some (← NewInstruction
    (.CheckStackOverflow info.token_pos stack_depth loop_depth info.deopt_id kind))

/-- The member `DeserializeConstant(sexp, info)`. -/
def DeserializeConstant (vm : VM) (fuel : Nat) (sexp : Option SExpression) (info : InstrInfo) :
    Parse (Option DefinitionPtr) := do
  let obj ← NewHandle none
  if !(← ParseDartValue vm fuel (← Retrieve sexp 1) obj) then return none
  return some (← NewInstruction (.Constant (← ReadHandle obj) info.token_pos))

/-- The member `DeserializeParameter(sexp, info)`. -/
def DeserializeParameter (sexp : Option SExpression) (_info : InstrInfo) :
    Parse (Option DefinitionPtr) := do
  if (← Parse.get).current_block_.isNone then Parse.fault .assertion
  else
    match ← CheckInteger (← Retrieve sexp 1) with
    | some index_sexp =>
      return some (← NewInstruction
        (.Parameter (← IntegerValue index_sexp) (← Parse.get).current_block_))
    | none => return none

/-- The member `DeserializePushArgument(sexp, info)`; `ParseValue` is called
with its default `allow_pending = true`. -/
def DeserializePushArgument (vm : VM) (fuel : Nat) (sexp : Option SExpression)
    (_info : InstrInfo) : Parse (Option DefinitionPtr) := do
  match ← ParseValue vm fuel (← Retrieve sexp 1) true with
  | none => return none
  | some val =>
    let push ← NewInstruction (.PushArgument val)
    let stack ← CurrentStack
    Parse.modify fun d =>
      { d with zone_stacks := Function.update d.zone_stacks stack (d.zone_stacks stack ++ [push]) }
    return some push

/-- The member `DeserializeSpecialParameter(sexp, info)`. -/
def DeserializeSpecialParameter (vm : VM) (sexp : Option SExpression) (info : InstrInfo) :
    Parse (Option DefinitionPtr) := do
  if (← Parse.get).current_block_.isNone then Parse.fault .assertion
  else
    match ← CheckSymbol (← Retrieve sexp 1) with
    | none => return none
    | some kind_sexp =>
      match vm.SpecialParameterKindFromCString (← SymbolValue kind_sexp) with
      | none =>
        StoreError (some kind_sexp) "unknown special parameter kind"
        return none
      | some kind =>
        return some (← NewInstruction
          (.SpecialParameter kind info.deopt_id (← Parse.get).current_block_))

/-- The loop of `DeserializeStaticCall` over the argument names, at index `i`
with `n - i` iterations remaining; `false` is the `return nullptr` of the
loop body. -/
def ParseArgumentNamesLoop (vm : VM) (arg_names_sexp : SExpression) (argument_names : Handle) :
    Nat → Int → Parse Bool
  | 0, _ => pure true
  | remaining + 1, i => do
    match ← CheckString (← Retrieve (some arg_names_sexp) i) with
    | none => return false
    | some (.SExpString value) =>
      Parse.modify fun d => { d with tmp_string_ := some value }
      WriteHandle argument_names
        (vm.SetAt (← ReadHandle argument_names) i (some (vm.StringNew value)))
      ParseArgumentNamesLoop vm arg_names_sexp argument_names remaining (i + 1)
    | some _ => Parse.fault .badCast

/-- The member `DeserializeStaticCall(sexp, info)`, for a non-null `sexp`. -/
def DeserializeStaticCall (vm : VM) (fuel : Nat) (sexp : SExpression) (info : InstrInfo) :
    Parse (Option DefinitionPtr) := do
  let function ← NewHandle none
  let function_sexp ← CheckTaggedList (← Retrieve (some sexp) 1) (some "Function")
  if !(← ParseDartValue vm fuel function_sexp function) then return none
  let mut type_args_len : Int := 0
  match ← CheckInteger (← ExtraLookupValue sexp "type_args_len") with
  | some type_args_len_sexp => type_args_len ← IntegerValue type_args_len_sexp
  | none => pure ()
  let argument_names ← NewHandle none
  match ← CheckList (← ExtraLookupValue sexp "arg_names") with
  | some arg_names_sexp =>
    let n ← ListLength arg_names_sexp
    WriteHandle argument_names (some (vm.ArrayNew n))
    if !(← ParseArgumentNamesLoop vm arg_names_sexp argument_names n.toNat 0) then return none
  | none => pure ()
  let mut args_len : Int := 0
  match ← CheckInteger (← ExtraLookupValue sexp "args_len") with
  | some args_len_sexp => args_len ← IntegerValue args_len_sexp
  | none => pure ()
  let all_args_len := (if type_args_len > 0 then 1 else 0) + args_len
  match ← FetchPushedArguments (some sexp) all_args_len with
  | none => return none
  | some arguments =>
    let mut call_count : Int := 0
    match ← CheckInteger (← ExtraLookupValue sexp "call_count") with
    | some call_count_sexp => call_count ← IntegerValue call_count_sexp
    | none => pure ()
    let mut rebind_rule := vm.kInstance
    match ← CheckSymbol (← ExtraLookupValue sexp "rebind_rule") with
    | some rebind_sexp =>
      match vm.RebindRuleFromCString (← SymbolValue rebind_sexp) with
      | none =>
        StoreError (some rebind_sexp) "unknown rebind rule value"
        return none
      | some rule => rebind_rule := rule
    | none => pure ()
    return some (← NewInstruction
      (.StaticCall info.token_pos (← ReadHandle function) type_args_len
        (← ReadHandle argument_names) arguments info.deopt_id call_count rebind_rule))

/-- The `switch` of `ParseInstruction`: the case `kHandled<name>` that the macro
`HANDLE_CASE` generates calls `Deserialize<name>(list, common_info)`, and the
case `kHandledInvalid` records the error and returns null. -/
def DeserializeHandled (vm : VM) (fuel : Nat)
    (self : Option SExpression → Parse (Option DefinitionPtr)) (list : SExpression)
    (tag : Option SExpression) (common_info : InstrInfo) :
    HandledInstruction → Parse (Option DefinitionPtr)
  | .kHandledBranch => DeserializeBranchWith vm self (some list) common_info
  | .kHandledCheckStackOverflow => DeserializeCheckStackOverflow list common_info
  | .kHandledConstant => DeserializeConstant vm fuel (some list) common_info
  | .kHandledGoto => DeserializeGoto vm (some list) common_info
  | .kHandledPushArgument => DeserializePushArgument vm fuel (some list) common_info
  | .kHandledParameter => DeserializeParameter (some list) common_info
  | .kHandledReturn => DeserializeReturn vm fuel (some list) common_info
  | .kHandledSpecialParameter => DeserializeSpecialParameter vm (some list) common_info
  | .kHandledStaticCall => DeserializeStaticCall vm fuel list common_info
  | .kHandledInvalid => do
    StoreError tag "unhandled instruction"
    return none

/-- The member `ParseInstruction(list)`, its recursive call (under
`DeserializeBranch`) directed to `self`. -/
def ParseInstructionWith (vm : VM) (fuel : Nat)
    (self : Option SExpression → Parse (Option DefinitionPtr)) :
    Option SExpression → Parse (Option DefinitionPtr)
  | none => pure none
  | some list => do
    let tag ← TagSymbol list
    let mut deopt_id := vm.kNone
    match ← CheckInteger (← ExtraLookupValue list "deopt_id") with
    | some deopt_int => deopt_id ← IntegerValue deopt_int
    | none => pure ()
    let common_info : InstrInfo := { deopt_id := deopt_id, token_pos := vm.kNoSource }
    let mut env : Option Environment := none
    match ← CheckList (← ExtraLookupValue list "env") with
    | some env_sexp =>
      env ← ParseEnvironment vm fuel (some env_sexp)
      if env.isNone then return none
    | none => pure ()
    match ← DeserializeHandled vm fuel self list tag common_info
        (← HandledInstructionForTag tag) with
    | none => return none
    | some inst =>
      match env with
      | some e => DeepCopyTo e inst
      | none => pure ()
      return some inst

/-- The member `ParseInstruction(list)`; `fuel` bounds the depth of the nested
instructions, environments and Dart values. -/
def ParseInstruction (vm : VM) : Nat → Option SExpression → Parse (Option DefinitionPtr)
  | 0 => fun list =>
    match list with
    | none => pure none
    | some _ => fun _ => .outOfFuel
  | fuel + 1 => ParseInstructionWith vm (fuel + 1) (ParseInstruction vm fuel)

/-- The member `DeserializeBranch(sexp, info)`. -/
def DeserializeBranch (vm : VM) (fuel : Nat) :
    Option SExpression → InstrInfo → Parse (Option DefinitionPtr) :=
  DeserializeBranchWith vm (ParseInstruction vm fuel)

/-- The member `ParseDefinition(list)`. -/
def ParseDefinition (vm : VM) (fuel : Nat) (list : Option SExpression) :
    Parse (Option DefinitionPtr) := do
  let inst_sexp ← CheckTaggedList (← Retrieve list 2) none
  match ← ParseInstruction vm fuel inst_sexp with
  | none => return none
  | some inst =>
    if (← IsDefinition inst) then
      if !(← ParseDefinitionWithParsedBody vm fuel list inst) then return none
      return some inst
    else
      StoreError list "instruction cannot be body of definition"
      return none

/-! ## Block headers -/

/-- The struct `EntryInfo`. -/
structure EntryInfo where
  block_id : Int
  try_index : Int
  deopt_id : Int

/-- Modelled from the spec: the call `flow_graph_->AddToInitialDefinitions(block,
def)` of `flow_graph.h` (not under `src/`): the definition is appended to the
initial definitions of the block. -/
def AddToInitialDefinitions (block definition : DefinitionPtr) : Parse Unit :=
  Parse.modify fun d =>
    { d with
      initial_definitions_ :=
        Function.update d.initial_definitions_ block (d.initial_definitions_ block ++ [definition]) }

/-- The loop of `ParseInitialDefinitions`, at index `i` with `Length() - i`
iterations remaining; `false` is the `return false` of the loop body. -/
def ParseInitialDefinitionsLoop (vm : VM) (fuel : Nat) (list : SExpression)
    (block : DefinitionPtr) : Nat → Int → Parse Bool
  | 0, _ => pure true
  | remaining + 1, i => do
    let def_sexp ← CheckTaggedList (← Retrieve (some list) i) (some "def")
    match ← ParseDefinition vm fuel def_sexp with
    | none => return false
    | some definition =>
      AddToInitialDefinitions block definition
      ParseInitialDefinitionsLoop vm fuel list block remaining (i + 1)

/-- The member `ParseInitialDefinitions(list)`; the test
`IsBlockEntryWithInitialDefs` holds for the function entries and the graph
entry. -/
def ParseInitialDefinitions (vm : VM) (fuel : Nat) (list : Option SExpression) : Parse Bool := do
  match (← Parse.get).current_block_ with
  | none => Parse.fault .assertion
  | some block =>
    match ← InstructionAt block with
    | .FunctionEntry _ _ _ _ | .GraphEntry _ _ =>
      match list with
      | none => return false
      | some l => ParseInitialDefinitionsLoop vm fuel l block ((← ListLength l) - 2).toNat 2
    | _ => Parse.fault .assertion

/-- The member `DeserializeFunctionEntry(sexp, info)`. The constructor of
`FunctionEntryInstr` takes the graph entry, which is the predecessor of the
new block. -/
def DeserializeFunctionEntry (vm : VM) (fuel : Nat) (sexp : Option SExpression)
    (info : EntryInfo) : Parse (Option DefinitionPtr) := do
  match (← Parse.get).flow_graph_ with
  | none => Parse.fault .assertion
  | some flow_graph =>
    match flow_graph.graph_entry_ with
    | none => Parse.fault .nullDereference
    | some graph =>
      let block ← NewInstruction
        (.FunctionEntry graph info.block_id info.try_index info.deopt_id)
      Parse.modify fun d =>
        { d with
          predecessors_ := Function.update d.predecessors_ block [graph]
          current_block_ := some block }
      if !(← ParseInitialDefinitions vm fuel sexp) then return none
      return some block

/-- The member `DeserializeGraphEntry(sexp, info)`, for a non-null `sexp`. -/
def DeserializeGraphEntry (vm : VM) (sexp : SExpression) (info : EntryInfo) :
    Parse (Option DefinitionPtr) := do
  match ← CheckSymbol (← Retrieve (some sexp) 1) with
  | none => return none
  | some _ =>
    let mut osr_id := vm.kNoOSRDeoptId
    match ← CheckInteger (← ExtraLookupValue sexp "osr_id") with
    | some osr_id_sexp => osr_id ← IntegerValue osr_id_sexp
    | none => pure ()
    if (← Parse.get).parsed_function_.isNone then Parse.fault .assertion
    else return some (← NewInstruction (.GraphEntry osr_id info.deopt_id))

/-- The member `DeserializeJoinEntry(sexp, info)`. -/
def DeserializeJoinEntry (_sexp : Option SExpression) (info : EntryInfo) :
    Parse (Option DefinitionPtr) := do
  return some (← NewInstruction (.JoinEntry info.block_id info.try_index info.deopt_id))

/-- The member `DeserializeTargetEntry(sexp, info)`. -/
def DeserializeTargetEntry (_sexp : Option SExpression) (info : EntryInfo) :
    Parse (Option DefinitionPtr) := do
  return some (← NewInstruction (.TargetEntry info.block_id info.try_index info.deopt_id))

/-- The text of a tag symbol, null for a null tag, as `BlockEntryTagToKind`
reads it. -/
def TagText : Option SExpression → Option String
  | some (.SExpSymbol value) => some value
  | _ => none

/-- The member `ParseBlockHeader(list, block_id, tag)`, without the statements
under `#if defined(DEBUG)`. -/
def ParseBlockHeader (vm : VM) (fuel : Nat) (list : Option SExpression) (block_id : Int)
    (tag : Option SExpression) : Parse (Option DefinitionPtr) := do
  match (← Parse.get).flow_graph_ with
  | none => Parse.fault .assertion
  | some flow_graph =>
    if ((← Parse.get).block_map_.LookupValue block_id).isSome then Parse.fault .assertion
    else
      match list with
      | none => return none
      | some l =>
        let kind := vm.BlockEntryTagToKind (TagText tag)
        let mut deopt_id := vm.kNone
        match ← CheckInteger (← ExtraLookupValue l "deopt_id") with
        | some deopt_int => deopt_id ← IntegerValue deopt_int
        | none => pure ()
        let mut try_index := vm.kInvalidTryIndex
        match ← CheckInteger (← ExtraLookupValue l "try_index") with
        | some try_int => try_index ← IntegerValue try_int
        | none => pure ()
        let common_info : EntryInfo :=
          { block_id := block_id, try_index := try_index, deopt_id := deopt_id }
        let block : Option DefinitionPtr ←
          match kind with
          | .kTarget => DeserializeTargetEntry list common_info
          | .kNormal => do
            let block ← DeserializeFunctionEntry vm fuel list common_info
            match block, flow_graph.graph_entry_ with
            | some b, some graph =>
              Parse.modify fun d =>
                { d with normal_entry_ := Function.update d.normal_entry_ graph (some b) }
            | some _, none => Parse.fault .nullDereference
            | none, _ => pure ()
            pure block
          | .kUnchecked => do
            let block ← DeserializeFunctionEntry vm fuel list common_info
            match block, flow_graph.graph_entry_ with
            | some b, some graph =>
              Parse.modify fun d =>
                { d with unchecked_entry_ := Function.update d.unchecked_entry_ graph (some b) }
            | some _, none => Parse.fault .nullDereference
            | none, _ => pure ()
            pure block
          | .kJoin => DeserializeJoinEntry list common_info
          | .kInvalid =>
            StoreError tag "invalid block entry tag"
            return none
          | .kOther =>
            StoreError tag "unhandled block type"
            return none
        match block with
        | none => return none
        | some b =>
          Parse.modify fun d => { d with block_map_ := d.block_map_.Insert block_id b }
          return some b

/-! ## Block contents -/

/-- The loop of `SkipPhis`, at index `i` with `n - i` iterations remaining:
`some i` is the `return i` of the loop body, `none` the end of the loop. -/
def SkipPhisLoop (list : SExpression) : Nat → Int → Parse (Option Int)
  | 0, _ => pure none
  | remaining + 1, i => do
    let def_sexp ← CheckTaggedList (← Retrieve (some list) i) (some "def")
    if def_sexp.isNone then return some i
    let phi_sexp ← CheckTaggedList (← Retrieve def_sexp 2) (some "Phi")
    if phi_sexp.isNone then return some i
    SkipPhisLoop list remaining (i + 1)

/-- The member `SkipPhis(list)`, for a non-null `list`. -/
def SkipPhis (list : SExpression) : Parse Int := do
  match ← SkipPhisLoop list ((← ListLength list) - 2).toNat 2 with
  | some i => return i
  | none =>
    StoreError (some list) "block is empty or contains only Phi definitions"
    return -1

/-- The loop of `ParsePhis` over the inputs of a phi, at index `i` with `n - i`
iterations remaining; `ParseValue` is called with its default `allow_pending =
true`. The use lists of the definitions (`AddInputUse`) are not part of the
state. -/
def ParsePhiInputsLoop (vm : VM) (fuel : Nat) (phi_sexp : SExpression) (phi : DefinitionPtr) :
    Nat → Int → Parse Bool
  | 0, _ => pure true
  | remaining + 1, i => do
    match ← ParseValue vm fuel (← Retrieve (some phi_sexp) (i + 1)) true with
    | none => return false
    | some val =>
      Parse.modify fun d =>
        { d with inputs_ := Function.update d.inputs_ phi (d.inputs_ phi ++ [(i, val)]) }
      ParsePhiInputsLoop vm fuel phi_sexp phi remaining (i + 1)

/-- The loop of `ParsePhis` over the positions `start_pos .. end_pos - 1`, at
index `i` with `end_pos - i` iterations remaining. -/
def ParsePhisLoop (vm : VM) (fuel : Nat) (list : SExpression) (join : DefinitionPtr) :
    Nat → Int → Parse Bool
  | 0, _ => pure true
  | remaining + 1, i => do
    let def_sexp ← CheckTaggedList (← Retrieve (some list) i) (some "def")
    match ← CheckTaggedList (← Retrieve def_sexp 2) (some "Phi") with
    | none => Parse.fault .assertion
    | some phi_sexp =>
      let n := (← ListLength phi_sexp) - 1
      let phi ← NewInstruction (.Phi join n)
      if !(← ParsePhiInputsLoop vm fuel phi_sexp phi n.toNat 0) then return false
      Parse.modify fun d => { d with phis_ := Function.update d.phis_ join (d.phis_ join ++ [phi]) }
      if !(← ParseDefinitionWithParsedBody vm fuel def_sexp phi) then return false
      ParsePhisLoop vm fuel list join remaining (i + 1)

/-- The member `ParsePhis(list)`, for a non-null `list`. -/
def ParsePhis (vm : VM) (fuel : Nat) (list : SExpression) : Parse Bool := do
  match (← Parse.get).current_block_ with
  | none => Parse.fault .assertion
  | some join =>
    if !(← IsJoinEntry join) then Parse.fault .assertion
    else
      let start_pos : Int := 2
      let end_pos ← SkipPhis list
      if end_pos < start_pos then return false
      ParsePhisLoop vm fuel list join (end_pos - start_pos).toNat start_pos

/-- Modelled from the spec: the call `last_inst->AppendInstruction(inst)` of
`il.h` (not under `src/`): each instruction is chained to the previous one as
its successor, and the appended instruction is returned. -/
def AppendInstruction (last_inst inst : DefinitionPtr) : Parse DefinitionPtr := do
  Parse.modify fun d => { d with next_ := Function.update d.next_ last_inst (some inst) }
  pure inst

/-- The loop of `ParseBlockContents` over the body of the block, at index `i`
with `n - i` iterations remaining: `some last_inst` is the end of the loop,
`none` the `return false` of the loop body. -/
def ParseBodyLoop (vm : VM) (fuel : Nat) (list : SExpression) :
    Nat → Int → DefinitionPtr → Parse (Option DefinitionPtr)
  | 0, _, last_inst => pure (some last_inst)
  | remaining + 1, i, last_inst => do
    match ← CheckTaggedList (← Retrieve (some list) i) none with
    | none => return none
    | some entry =>
      let inst ←
        if (← ListTag entry) = "def" then ParseDefinition vm fuel (some entry)
        else ParseInstruction vm fuel (some entry)
      match inst with
      | none => return none
      | some inst =>
        ParseBodyLoop vm fuel list remaining (i + 1) (← AppendInstruction last_inst inst)

/-- The loop of `ParseBlockContents` over the successors of the last
instruction, from index `count - 1` down to 0: `some worklist` is the worklist
at the end of the loop, `none` the `return false` of the loop body. -/
def LinkSuccessorsLoop (list : SExpression) (curr_stack : StackPtr)
    (current_block last_inst : DefinitionPtr) : Nat → List Int → Parse (Option (List Int))
  | 0, worklist => pure (some worklist)
  | count + 1, worklist => do
    let succ_block ← SuccessorAt last_inst (count : Nat)
    if !(← AreStacksConsistent list curr_stack succ_block) then return none
    AddPredecessor succ_block current_block
    LinkSuccessorsLoop list curr_stack current_block last_inst count
      (worklist ++ [← block_id succ_block])

/-- The member `ParseBlockContents(list, worklist)`, for a non-null `list`; the
worklist is passed in and returned, `none` is the return value `false`. -/
def ParseBlockContents (vm : VM) (fuel : Nat) (list : SExpression) (worklist : List Int) :
    Parse (Option (List Int)) := do
  match (← Parse.get).current_block_ with
  | none => Parse.fault .assertion
  | some current_block =>
    let curr_stack ← CurrentStack
    if (← IsJoinEntry current_block) then
      if !(← ParsePhis vm fuel list) then return none
    match ← CheckList (← ExtraLookupValue list "env") with
    | some env_sexp =>
      match ← ParseEnvironment vm fuel (some env_sexp) with
      | none => return none
      | some env => DeepCopyTo env current_block
    | none => pure ()
    let pos ← SkipPhis list
    if pos < 2 then return none
    match ← ParseBodyLoop vm fuel list ((← ListLength list) - pos).toNat pos current_block with
    | none => return none
    | some last_inst =>
      if last_inst = current_block then Parse.fault .assertion
      else
        let count ← SuccessorCount last_inst
        LinkSuccessorsLoop list curr_stack current_block last_inst count.toNat worklist

/-! ## The driver -/

/-- The loop of `ParseEntries`, at index `i` with `Length() - i` iterations
remaining; `false` is the `return false` of the loop body. -/
def ParseEntriesLoop (vm : VM) (fuel : Nat) (list : SExpression) : Nat → Int → Parse Bool
  | 0, _ => pure true
  | remaining + 1, i => do
    match ← CheckTaggedList (← Retrieve (some list) i) none with
    | none => return false
    | some entry =>
      match ← ParseBlockId vm (← CheckSymbol (← Retrieve (some entry) 1)) with
      | none => return false
      | some block_id =>
        if ((← Parse.get).block_map_.LookupValue block_id).isSome then
          StoreError (← ListAt entry 1) "multiple entries for block found"
          return false
        let tag ← TagSymbol entry
        if (← ParseBlockHeader vm fuel (some entry) block_id tag).isNone then return false
        ParseEntriesLoop vm fuel list remaining (i + 1)

/-- The member `ParseEntries(list)`. -/
def ParseEntries (vm : VM) (fuel : Nat) (list : Option SExpression) : Parse Bool := do
  if (← Parse.get).flow_graph_.isNone then Parse.fault .assertion
  else
    match list with
    | none => return false
    | some l => ParseEntriesLoop vm fuel l ((← ListLength l) - 1).toNat 1

/-- The first loop of `ParseBlocks`, over the positions `pos .. n - 1` of the
list, at index `i` with `n - i` iterations remaining: `some block_sexp_map` is
the end of the loop, `none` the `return false` of the loop body. -/
def ParseBlockHeadersLoop (vm : VM) (fuel : Nat) (list : SExpression) :
    Nat → Int → IntMap SExpression → Parse (Option (IntMap SExpression))
  | 0, _, block_sexp_map => pure (some block_sexp_map)
  | remaining + 1, i, block_sexp_map => do
    let block_sexp ← CheckTaggedList (← Retrieve (some list) i) (some "Block")
    match ← ParseBlockId vm (← CheckSymbol (← Retrieve block_sexp 1)) with
    | none => return none
    | some block_id =>
      match block_sexp with
      | none => Parse.fault .nullDereference
      | some block =>
        if (block_sexp_map.LookupValue block_id).isSome then
          StoreError (← ListAt block 1) "multiple definitions of block found"
          return none
        let type_tag ← CheckSymbol (← ExtraLookupValue block "block_type")
        if (← Parse.get).block_map_.LookupValue block_id = none then
          if (← ParseBlockHeader vm fuel block_sexp block_id type_tag).isNone then return none
        if (← Parse.get).max_block_id_ < block_id then
          Parse.modify fun d => { d with max_block_id_ := block_id }
        ParseBlockHeadersLoop vm fuel list remaining (i + 1)
          (block_sexp_map.Insert block_id block)

/-- The body of the loop `while (!worklist->is_empty())` of `ParseBlocks` for
a block `id` that is not fully parsed yet: the block becomes the current
block, the stack of its first predecessor is copied to begin its own stack and
its contents are parsed. `worklist` is the array after the `RemoveLast`; the
result is the array after `ParseBlockContents`, and `none` is the
`return false`. -/
def ParseBlocksVisit (vm : VM) (fuel : Nat) (block_sexp_map : IntMap SExpression)
    (id : Int) (worklist : List Int) : Parse (Option (List Int)) := do
  match block_sexp_map.LookupValue id with
  | none => Parse.fault .assertion
  | some block_sexp =>
    match (← Parse.get).block_map_.LookupValue id with
    | none =>
      Parse.modify fun d => { d with current_block_ := none }
      Parse.fault .assertion
    | some block =>
      Parse.modify fun d => { d with current_block_ := some block }
      if (← PredecessorCount block) ≤ 0 then Parse.fault .assertion
      else
        let pred_id ← block_id (← PredecessorAt block 0)
        match (← Parse.get).pushed_stack_map_.LookupValue pred_id with
        | none => Parse.fault .assertion
        | some pred_stack =>
          let new_stack ← NewStack (← StackContents pred_stack)
          Parse.modify fun d =>
            { d with pushed_stack_map_ := d.pushed_stack_map_.Insert id new_stack }
          ParseBlockContents vm fuel block_sexp worklist

/-- The loop `while (!worklist->is_empty())` of `ParseBlocks`, with at most
`steps` iterations; the worklist is an array whose last element is popped
first. `none` is the `return false` of the loop body. -/
def ParseBlocksLoop (vm : VM) (fuel : Nat) (block_sexp_map : IntMap SExpression) :
    Nat → List Int → IntMap Bool → Parse (Option (IntMap Bool))
  | 0, _, _ => fun _ => .outOfFuel
  | steps + 1, worklist, fully_parsed_block_map =>
    match worklist.getLast? with
    | none => pure (some fully_parsed_block_map)
    | some id => do
      let worklist := worklist.dropLast
      if fully_parsed_block_map.LookupValue id = some true then
        ParseBlocksLoop vm fuel block_sexp_map steps worklist fully_parsed_block_map
      else
        match ← ParseBlocksVisit vm fuel block_sexp_map id worklist with
        | none => return none
        | some worklist =>
          ParseBlocksLoop vm fuel block_sexp_map steps worklist
            (fully_parsed_block_map.Insert id true)

/-- The last loop of `ParseBlocks`, over the entries of `block_sexp_map` in the
order of its iterator (here the order of the list). -/
def CheckAllBlocksParsed (fully_parsed_block_map : IntMap Bool) :
    List (Int × SExpression) → Parse Bool
  | [] => pure true
  | (key, value) :: rest => do
    if fully_parsed_block_map.LookupValue key ≠ some true then
      StoreError (some value) "block unreachable in flow graph"
      return false
    CheckAllBlocksParsed fully_parsed_block_map rest

/-- The member `ParseBlocks(list, pos, worklist)`, for a non-null `list`;
`steps` bounds the number of iterations of the worklist loop. -/
def ParseBlocks (vm : VM) (fuel steps : Nat) (list : SExpression) (pos : Int)
    (worklist : List Int) : Parse Bool := do
  match ← ParseBlockHeadersLoop vm fuel list ((← ListLength list) - pos).toNat pos [] with
  | none => return false
  | some block_sexp_map =>
    match ← ParseBlocksLoop vm fuel block_sexp_map steps worklist [] with
    | none => return false
    | some fully_parsed_block_map => CheckAllBlocksParsed fully_parsed_block_map block_sexp_map

/-- Modelled from the spec: the statements `flow_graph_ = new (zone())
FlowGraph(*parsed_function_, graph, 0, pi); flow_graph_->CreateCommonConstants();`
(`flow_graph.h` is not under `src/`): the new graph owns the graph entry and
its null constant, the sentinel of the pending values, which is the first
constant of its pool and an initial definition of the graph entry. -/
def NewFlowGraph (vm : VM) (graph : Option DefinitionPtr) : Parse Unit := do
  if (← Parse.get).parsed_function_.isNone then Parse.fault .nullDereference
  else
    match graph with
    | none => Parse.fault .nullDereference
    | some graph_entry =>
      let constant_null ← NewInstruction (.Constant none vm.kConstant)
      Parse.modify fun d =>
        { d with
          ssa_temp_index_ := Function.update d.ssa_temp_index_ constant_null 0
          initial_definitions_ :=
            Function.update d.initial_definitions_ graph_entry
              (d.initial_definitions_ graph_entry ++ [constant_null])
          flow_graph_ := some
            { constant_null_ := constant_null
              graph_entry_ := graph
              constant_instr_pool_ := [(none, constant_null)]
              max_block_id_ := 0
              current_ssa_temp_index_ := 1 } }

/-- The block ids `entry->block_id()` of a list of entries, in order. -/
def BlockIds : List DefinitionPtr → Parse (List Int)
  | [] => pure []
  | entry :: rest => do
    let id ← block_id entry
    return id :: (← BlockIds rest)

/-- The statements of `ParseFlowGraph` that prime the block worklist with the
entries of the graph entry: the array after the five groups of `Add`. -/
def SeedBlockWorklist (graph : DefinitionPtr) : Parse (List Int) := do
  let d ← Parse.get
  let indirect_entries ← BlockIds (d.indirect_entries_ graph)
  let catch_entries ← BlockIds (d.catch_entries_ graph)
  let osr_entry ← BlockIds (d.osr_entry_ graph).toList
  let unchecked_entry ← BlockIds (d.unchecked_entry_ graph).toList
  let normal_entry ← BlockIds (d.normal_entry_ graph).toList
  return indirect_entries ++ catch_entries ++ osr_entry ++ unchecked_entry ++ normal_entry

/-- The statements of `ParseFlowGraph` up to and including the call of
`ParseBlocks`; `none` is a `return nullptr`. -/
def ParseFlowGraphBlocks (vm : VM) (fuel steps : Nat) : Parse (Option Unit) := do
  match ← CheckTaggedList (some (← Parse.get).root_sexp_) (some "FlowGraph") with
  | none => return none
  | some root =>
    let mut deopt_id := vm.kNone
    match ← CheckInteger (← ExtraLookupValue root "deopt_id") with
    | some deopt_id_sexp => deopt_id ← IntegerValue deopt_id_sexp
    | none => pure ()
    let common_info : EntryInfo :=
      { block_id := 0, try_index := vm.kInvalidTryIndex, deopt_id := deopt_id }
    let graph ← DeserializeGraphEntry vm root common_info
    NewFlowGraph vm graph
    let mut pos : Int := 2
    match ← CheckTaggedList (← Retrieve (some root) pos) (some "Constants") with
    | some pool =>
      if !(← ParseConstantPool vm fuel (some pool)) then return none
      pos := pos + 1
    | none => pure ()
    match ← CheckList (← ExtraLookupValue root "env") with
    | some env_sexp =>
      match ← ParseEnvironment vm fuel (some env_sexp), graph with
      | none, _ => return none
      | some env, some graph_entry => DeepCopyTo env graph_entry
      | some _, none => Parse.fault .nullDereference
    | none => pure ()
    let entries_sexp ← CheckTaggedList (← Retrieve (some root) pos) (some "Entries")
    if !(← ParseEntries vm fuel entries_sexp) then return none
    pos := pos + 1
    match graph with
    | none => Parse.fault .nullDereference
    | some graph_entry =>
      let block_worklist ← SeedBlockWorklist graph_entry
      let empty_stack ← NewStack []
      Parse.modify fun d =>
        { d with pushed_stack_map_ := d.pushed_stack_map_.Insert 0 empty_stack }
      if !(← ParseBlocks vm fuel steps root pos block_worklist) then return none
      return some ()

/-- The width of `intptr_t`, the type of `max_block_id_` and `max_ssa_index_`,
in a 64-bit build, where `intptr_t` and `int64_t` coincide. -/
def IntptrBits : Nat := 64

/-- The least value of an `intptr_t`. -/
def IntptrMin : Int := -2 ^ (IntptrBits - 1)

/-- The greatest value of an `intptr_t`. -/
def IntptrMax : Int := 2 ^ (IntptrBits - 1) - 1

/-- The value an `intptr_t` takes for an arithmetic result `x`: `x` itself when
it is between `IntptrMin` and `IntptrMax`, and the two's complement wrap of `x`
when it is not (C++ leaves the signed overflow undefined; the wrap is what the
addition instruction yields). -/
def ToIntptr (x : Int) : Int := Int.bmod x (2 ^ IntptrBits)

/-- The statements of `ParseFlowGraph` after the call of `ParseBlocks`. The
iterator of `values_map_` yields the entries in the order of the list. The sum
`max_ssa_index_ + 1` is taken in `intptr_t`. `DiscoverBlocks` and
`ComputeDominators` (`flow_graph.h`, not under `src/`) are not part of the
embedding. -/
def ParseFlowGraphFinish : Parse (Option FlowGraph) := do
  let d ← Parse.get
  if d.values_map_.Length > 0 then
    match d.values_map_.head? with
    | none => Parse.fault .nullDereference
    | some kv =>
      StoreError (some (.SExpSymbol ("v" ++ toString kv.1)))
        "no definition found for variable index in flow graph"
      return none
  match d.flow_graph_ with
  | none => Parse.fault .nullDereference
  | some flow_graph =>
    let flow_graph :=
      { flow_graph with
        max_block_id_ := d.max_block_id_
        current_ssa_temp_index_ := ToIntptr (d.max_ssa_index_ + 1) }
    Parse.modify fun d => { d with flow_graph_ := some flow_graph }
    return some flow_graph

/-- The member `ParseFlowGraph()`; `fuel` bounds the depth of nested forms and
`steps` the iterations of the block worklist loop. -/
def ParseFlowGraph (vm : VM) (fuel steps : Nat) : Parse (Option FlowGraph) := do
  match ← ParseFlowGraphBlocks vm fuel steps with
  | none => return none
  | some _ => ParseFlowGraphFinish

/-! ## The round trip: instructions the deserializer does not handle -/

/-- Modelled from the spec: an instruction of a flow graph handed to the round
trip, as far as `il.h` (not under `src/`) lets the harness look at it: the name
of its class (`DebugName()`, which decides `Is##name()`), the object of a
`ConstantInstr` (`value()`) and the comparison of a `BranchInstr`
(`comparison()`). -/
inductive IlInstruction where
  | mk (DebugName : String) (value : RawObject) (comparison : Option IlInstruction)

/-- The call `inst->DebugName()`. -/
def IlInstruction.DebugName : IlInstruction → String
  | .mk name _ _ => name

/-- The call `inst->AsConstant()->value()`. -/
def IlInstruction.value : IlInstruction → RawObject
  | .mk _ value _ => value

/-- The call `inst->AsBranch()->comparison()`. -/
def IlInstruction.comparison : IlInstruction → Option IlInstruction
  | .mk _ _ comparison => comparison

/-- The test `inst->Is##name()`. -/
def IlInstruction.Is (inst : IlInstruction) (name : String) : Bool :=
  inst.DebugName = name

/-- Modelled from the spec: a block of a flow graph handed to the round trip
(`il.h`, not under `src/`): its entry, the initial definitions when the entry
is a `BlockEntryWithInitialDefs` (`none` when `AsBlockEntryWithInitialDefs()`
is null), the phis of a join entry, and the instructions a
`ForwardInstructionIterator` over the entry yields, in order. -/
structure IlBlock where
  entry : IlInstruction
  initial_definitions : Option (List IlInstruction)
  phis : List IlInstruction
  instructions : List IlInstruction

/-- Modelled from the spec: the `FlowGraph` handed to the round trip
(`flow_graph.h`, not under `src/`): the blocks its
`reverse_postorder_iterator()` yields, in order, and its parsed function. -/
structure IlFlowGraph where
  reverse_postorder : List IlBlock
  parsed_function : ParsedFunction

/-- The static member `IsHandledConstant(obj)`. -/
def IsHandledConstant (vm : VM) (obj : RawObject) : Bool :=
  if vm.IsArray obj then vm.IsImmutable obj
  else obj.isNone || vm.IsClass obj || vm.IsFunction obj || vm.IsField obj || vm.IsInstance obj

/-- The static member `IsHandledInstruction(inst)`: the test of a constant,
then one `HANDLED_CASE` for each name of
`FOR_EACH_HANDLED_BLOCK_TYPE_IN_DESERIALIZER` and of
`FOR_EACH_HANDLED_INSTRUCTION_IN_DESERIALIZER`. -/
def IsHandledInstruction (vm : VM) (inst : IlInstruction) : Bool :=
  if inst.Is "Constant" then IsHandledConstant vm inst.value
  else if inst.Is "FunctionEntry" then true
  else if inst.Is "GraphEntry" then true
  else if inst.Is "JoinEntry" then true
  else if inst.Is "TargetEntry" then true
  else if inst.Is "Branch" then true
  else if inst.Is "CheckStackOverflow" then true
  else if inst.Is "Constant" then true
  else if inst.Is "Goto" then true
  else if inst.Is "PushArgument" then true
  else if inst.Is "Parameter" then true
  else if inst.Is "Return" then true
  else if inst.Is "SpecialParameter" then true
  else if inst.Is "StaticCall" then true
  else false

/-- The loop `for (intptr_t i = 0; i < defs->length(); i++)` of
`AllUnhandledInstructions` over the initial definitions that remain. -/
def AllUnhandledInitialDefinitions (vm : VM) :
    List IlInstruction → List IlInstruction → List IlInstruction
  | [], unhandled => unhandled
  | current :: rest, unhandled =>
    AllUnhandledInitialDefinitions vm rest
      (if !IsHandledInstruction vm current then unhandled ++ [current] else unhandled)

/-- The loop `for (ForwardInstructionIterator it(entry); ...)` of
`AllUnhandledInstructions` over the instructions that remain. A branch without
a comparison makes `IsHandledInstruction` read a null pointer. -/
def AllUnhandledBody (vm : VM) :
    List IlInstruction → List IlInstruction → Except Fault (List IlInstruction)
  | [], unhandled => .ok unhandled
  | current :: rest, unhandled =>
    if current.Is "Branch" then
      match current.comparison with
      | none => .error .nullDereference
      | some current =>
        AllUnhandledBody vm rest
          (if !IsHandledInstruction vm current then unhandled ++ [current] else unhandled)
    else
      AllUnhandledBody vm rest
        (if !IsHandledInstruction vm current then unhandled ++ [current] else unhandled)

/-- The loop over `graph->reverse_postorder_iterator()` of
`AllUnhandledInstructions` over the blocks that remain. -/
def AllUnhandledBlocks (vm : VM) :
    List IlBlock → List IlInstruction → Except Fault (List IlInstruction)
  | [], unhandled => .ok unhandled
  | block :: rest, unhandled =>
    let entry := block.entry
    let unhandled := if !IsHandledInstruction vm entry then unhandled ++ [entry] else unhandled
    let unhandled :=
      match block.initial_definitions with
      | some defs => AllUnhandledInitialDefinitions vm defs unhandled
      | none => unhandled
    match AllUnhandledBody vm block.instructions unhandled with
    | .error f => .error f
    | .ok unhandled => AllUnhandledBlocks vm rest unhandled

/-- The static member `AllUnhandledInstructions(graph, unhandled)` for non-null
arguments; the result is the array `*unhandled` at the return. -/
def AllUnhandledInstructions (vm : VM) (graph : IlFlowGraph)
    (unhandled : List IlInstruction) : Except Fault (List IlInstruction) :=
  AllUnhandledBlocks vm graph.reverse_postorder unhandled

/-- The instructions the specification has `AllUnhandledInstructions` examine
in a block: the entry, the initial definitions of an entry that has them, and
the body instructions with each branch replaced by its comparison. -/
def SpecExaminedInBlock (block : IlBlock) : List IlInstruction :=
  [block.entry] ++ block.initial_definitions.getD [] ++
    block.instructions.map fun inst =>
      if inst.Is "Branch" then inst.comparison.getD inst else inst

/-- The instructions the specification has `AllUnhandledInstructions` examine
in a graph, block after block. -/
def SpecExamined (graph : IlFlowGraph) : List IlInstruction :=
  graph.reverse_postorder.flatMap SpecExaminedInBlock

/-! ## The round trip -/

/-- The struct `RoundTripResults`, with its default member initializers. -/
structure RoundTripResults where
  function : RawObject
  success : Bool := false
  unhandled : List IlInstruction := []
  serialized : Option SExpression := none
  error_message : Option String := none
  error_sexp : Option SExpression := none

/-- Modelled from the spec: the member `flow_graph` of `CompilerPassState`
(`compiler_pass.h`, not under `src/`) when `RoundTripSerialization` returns:
the graph the pass was given, or the graph a deserializer built, with the zone
objects of that deserializer. -/
inductive PassFlowGraph where
  | original (flow_graph : IlFlowGraph)
  | deserialized (new_graph : FlowGraph) (d : FlowGraphDeserializer)

/-- The outcome of a static function: it returned, it ran into undefined
behaviour, or the embedding ran out of fuel. -/
inductive Outcome (α : Type) where
  | returned (value : α)
  | fault (f : Fault)
  | outOfFuel

/-- The static member `RoundTripSerialization(state)`, for a state whose
`flow_graph` is `flow_graph`; the result is `state->flow_graph` at the return,
with the local `results`. `SerializeToSExp` is
`FlowGraphSerializer::SerializeToSExp` (`il_serializer.h`, not under `src/`);
`fuel` and `steps` bound `ParseFlowGraph`. The constructor of the deserializer
asserts that its root is not null. What the two flags print is not part of the
embedding. -/
def RoundTripSerialization (vm : VM) (fuel steps : Nat)
    (SerializeToSExp : IlFlowGraph → Option SExpression) (flow_graph : IlFlowGraph) :
    Outcome (PassFlowGraph × RoundTripResults) :=
  let results : RoundTripResults := { function := flow_graph.parsed_function.function }
  match AllUnhandledInstructions vm flow_graph results.unhandled with
  | .error f => .fault f
  | .ok unhandled =>
    let results := { results with unhandled := unhandled }
    if results.unhandled.isEmpty then
      let results := { results with serialized := SerializeToSExp flow_graph }
      match results.serialized with
      | none => .fault .assertion
      | some root =>
        match ParseFlowGraph vm fuel steps
            (FlowGraphDeserializer.New root (some flow_graph.parsed_function)) with
        | .fault f => .fault f
        | .outOfFuel => .outOfFuel
        | .ok none d =>
          if d.error_message_.isSome && d.error_sexp_.isSome then
            .returned (.original flow_graph,
              { results with error_message := d.error_message_, error_sexp := d.error_sexp_ })
          else .fault .assertion
        | .ok (some new_graph) d =>
          .returned (.deserialized new_graph d, { results with success := true })
    else .returned (.original flow_graph, results)

/-! ## Phi definitions, in the words of the specification -/

/-- The specification's "list tagged `label`": a list whose first element is
the symbol `label`. -/
def IsTaggedList (label : String) : Option SExpression → Bool
  | some (.SExpList (some (.SExpSymbol tag) :: _) _) => decide (tag = label)
  | _ => false

/-- The specification's "element `i`" of a node: the element at position `i`
when the node is a list that has one, null otherwise. -/
def ElementAt : Option SExpression → Nat → Option SExpression
  | some (.SExpList contents _), i => contents.getD i none
  | _, _ => none

/-- The specification's "Phi definition": a `def`-tagged list whose element 2
is a `Phi`-tagged list. -/
def IsPhiDefinition (elem : Option SExpression) : Bool :=
  IsTaggedList "def" elem && IsTaggedList "Phi" (ElementAt elem 2)

/-- The specification's result of `SkipPhis` on a block list with the elements
`contents`: the least index `i >= 2` whose element is not a Phi definition,
and -1 if there is none. -/
def SpecSkipPhis (contents : List (Option SExpression)) : Int :=
  match (List.range' 2 (contents.length - 2)).find?
      fun i => !IsPhiDefinition (contents.getD i none) with
  | some i => i
  | none => -1

/-! ## The statements of `ParseBlockContents`, in order -/

/-- The statement `if (auto const env_sexp = CheckList(list->ExtraLookupValue("env")))
{ ... }` of `ParseBlockContents`; `false` is its `return false`. -/
def ParseBlockEnvironment (vm : VM) (fuel : Nat) (list : SExpression)
    (current_block : DefinitionPtr) : Parse Bool := do
  match ← CheckList (← ExtraLookupValue list "env") with
  | some env_sexp =>
    match ← ParseEnvironment vm fuel (some env_sexp) with
    | none => return false
    | some env =>
      DeepCopyTo env current_block
      return true
  | none => return true

/-- The statements of `ParseBlockContents` after its loop over the body, from
`ASSERT(last_inst != nullptr && last_inst != current_block_)` on. -/
def ParseBlockSuccessors (list : SExpression) (worklist : List Int)
    (current_block : DefinitionPtr) (curr_stack : StackPtr) (last_inst : DefinitionPtr) :
    Parse (Option (List Int)) := do
  if last_inst = current_block then Parse.fault .assertion
  else
    let count ← SuccessorCount last_inst
    LinkSuccessorsLoop list curr_stack current_block last_inst count.toNat worklist

/-- The statements of `ParseBlockContents` after the environment, from
`auto const pos = SkipPhis(list)` on. -/
def ParseBlockBody (vm : VM) (fuel : Nat) (list : SExpression) (worklist : List Int)
    (current_block : DefinitionPtr) (curr_stack : StackPtr) : Parse (Option (List Int)) := do
  let pos ← SkipPhis list
  if pos < 2 then return none
  match ← ParseBodyLoop vm fuel list ((← ListLength list) - pos).toNat pos current_block with
  | none => return none
  | some last_inst => ParseBlockSuccessors list worklist current_block curr_stack last_inst

/-! ## The size of the block worklist -/

/-- The number of blocks that have a `Block` form in `block_sexp_map` and are
not marked in `fully_parsed_block_map`. -/
def BlocksToParse (block_sexp_map : IntMap SExpression) (fully_parsed_block_map : IntMap Bool) :
    Nat :=
  ((block_sexp_map.map Prod.fst).dedup.filter fun key =>
    decide (fully_parsed_block_map.LookupValue key ≠ some true)).length

/-- A number of iterations that the worklist loop of `ParseBlocks` does not
exceed: every block to parse is visited at most once and adds at most two ids
to the worklist, and every other iteration removes an id. -/
def WorklistBound (block_sexp_map : IntMap SExpression) (worklist : List Int)
    (fully_parsed_block_map : IntMap Bool) : Nat :=
  worklist.length + 2 * BlocksToParse block_sexp_map fully_parsed_block_map + 1

/-- The statements of `ParseDefinitionWithParsedBody` once the SSA index of the
definition is known, from `if (auto const type_sexp = ...)` on. -/
def BindDefinition (vm : VM) (fuel : Nat) (list : Option SExpression)
    (definition : DefinitionPtr) (index : Int) : Parse Bool := do
  match list with
  | none => Parse.fault .nullDereference
  | some l =>
    match ← CheckTaggedList (← ExtraLookupValue l "type") (some "CompileType") with
    | some type_sexp =>
      match ← ParseCompileType vm fuel type_sexp with
      | none => return false
      | some typ =>
        Parse.modify fun d => { d with type_ := Function.update d.type_ definition (some typ) }
    | none => pure ()
    Parse.modify fun d => { d with definition_map_ := d.definition_map_.Insert index definition }
    FixPendingValues index definition
    return true

/-- The call returned, with a value and a state that pass the test `p`. -/
def Result.Holds {α : Type} (r : Result α) (p : α → FlowGraphDeserializer → Bool) : Bool :=
  match r with
  | .ok a d => p a d
  | _ => false

/-- The call stopped on the fault `f`. -/
def Result.Fails {α : Type} (r : Result α) (f : Fault) : Bool :=
  match r with
  | .fault g => decide (g = f)
  | _ => false

/-- The value of `pos` at the call of `ParseBlocks` in `ParseFlowGraph`, the
position of the first `Block` form of the root list: 3, or 4 when the element
at position 2 is a constant pool. -/
def BlocksPosition (contents : List (Option SExpression)) : Nat :=
  if IsTaggedList "Constants" (contents.getD 2 none) = true then 4 else 3

/-- Every call of `x` from the state `d` that returns, returns a result and a
state that satisfy `Q`. -/
structure Inverts {α : Type} (x : Parse α) (d : FlowGraphDeserializer)
    (Q : α → FlowGraphDeserializer → Prop) : Prop where
  post : ∀ a d1, x d = .ok a d1 → Q a d1

/-! ## The binder tables as a frame -/

/-- The definition map and the pending table are the same in `d1` as in `d`. -/
def SameBinder (d d1 : FlowGraphDeserializer) : Prop :=
  d1.values_map_ = d.values_map_ ∧ d1.definition_map_ = d.definition_map_

/-- Every returning call of `x` leaves the definition map and the pending
table as they were. -/
structure KeepsBinder {α : Type} (x : Parse α) : Prop where
  same : ∀ d a d1, x d = .ok a d1 → SameBinder d d1

/-- The state of the binder once `definition` is bound to `index`, relative
to the state `d0` before: every value that was pending on `index` in `d0` is
bound to `definition`, the pending table has no entry for `index`, and the
definition map holds `definition` at `index`. -/
def Resolved (index : Int) (definition : DefinitionPtr) (d0 d1 : FlowGraphDeserializer) : Prop :=
  (∀ v ∈ (d0.values_map_.LookupValue index).getD [],
    (d1.zone_values v).definition_ = definition) ∧
  d1.values_map_.LookupValue index = none ∧
  d1.definition_map_.LookupValue index = some definition

/-- Started in a state with the binder tables of `d0`, every call of `y` that
returns `true` ends in a state where `definition` is bound to `index`. -/
structure Binds (index : Int) (definition : DefinitionPtr) (d0 : FlowGraphDeserializer)
    (y : Parse Bool) : Prop where
  post : ∀ d, SameBinder d0 d → ∀ d1, y d = .ok true d1 → Resolved index definition d0 d1

/-! ## Environment slots without a definition -/

/-- The element of an environment list `elem` names an SSA index that has no
definition in the definition map `m`: it is a use `v<j>`, bare or in a form
`(value v<j> ...)`, and `m` has no entry for `j`. -/
def NamesUnbound (vm : VM) (m : IntMap DefinitionPtr) (elem : SExpression) : Prop :=
  ∃ digits j, vm.StringToInt64 (String.mk digits) = some j ∧ m.LookupValue j = none ∧
    (elem = .SExpSymbol (String.mk ('v' :: digits)) ∨
      ∃ rest extra_info, elem = .SExpList
        (some (.SExpSymbol "value") :: some (.SExpSymbol (String.mk ('v' :: digits))) :: rest)
        extra_info)

/-- An environment list has a slot that names an SSA index without a
definition in `m`, either among its own elements or in one of its nested outer
environments (the lists under the key `outer`). -/
inductive UnboundSlot (vm : VM) (m : IntMap DefinitionPtr) : SExpression → Prop where
  | slot (contents : List (Option SExpression))
      (extra_info : List (String × Option SExpression)) (k : Nat) (elem : SExpression) :
      contents[k]? = some (some elem) → NamesUnbound vm m elem →
      UnboundSlot vm m (.SExpList contents extra_info)
  | outer (contents : List (Option SExpression))
      (extra_info : List (String × Option SExpression))
      (outer_contents : List (Option SExpression))
      (outer_extra : List (String × Option SExpression)) :
      ExtraLookup "outer" extra_info = some (.SExpList outer_contents outer_extra) →
      UnboundSlot vm m (.SExpList outer_contents outer_extra) →
      UnboundSlot vm m (.SExpList contents extra_info)

/-- Started in a state whose definition map is `m`, every call of `y` that
returns, returns null. -/
structure Fails (m : IntMap DefinitionPtr) {α : Type} (y : Parse (Option α)) : Prop where
  post : ∀ d, d.definition_map_ = m → ∀ r d1, y d = .ok r d1 → r = none

/-- Every call of `y` that returns null ends in a state with an error
recorded. -/
structure Records {α : Type} (y : Parse (Option α)) : Prop where
  post : ∀ d r d1, y d = .ok r d1 → r = none → d1.error_message_ ≠ none

/-! ## The constant pool as a worklist -/

/-- The flow graph and the instructions of the zone are the same in `d1` as in
`d`. -/
def SameZone (d d1 : FlowGraphDeserializer) : Prop :=
  d1.flow_graph_ = d.flow_graph_ ∧ d1.zone_instructions = d.zone_instructions

/-- Every returning call of `x` leaves the flow graph and the instructions of
the zone as they were. -/
structure KeepsZone {α : Type} (x : Parse α) : Prop where
  same : ∀ d a d1, x d = .ok a d1 → SameZone d d1

/-- The instruction `definition` of the zone is a `ConstantInstr`. -/
def IsConstantAt (d : FlowGraphDeserializer) (definition : DefinitionPtr) : Prop :=
  ∃ value token_pos, d.zone_instructions[definition]? = some (.Constant value token_pos)

/-- The state in which `ParseFlowGraph` calls `ParseConstantPool`, and every
state between two entries of the pool: no use is pending, the flow graph has
its graph entry, and the constants of the graph and the definitions bound so
far are constant instructions of the zone. -/
def PoolInvariant (d : FlowGraphDeserializer) : Prop :=
  d.values_map_ = [] ∧
  (∃ flow_graph graph_entry, d.flow_graph_ = some flow_graph ∧
    flow_graph.graph_entry_ = some graph_entry ∧
    ∀ obj constant, flow_graph.constant_instr_pool_.lookup obj = some constant →
      IsConstantAt d constant) ∧
  ∀ index definition, d.definition_map_.LookupValue index = some definition →
    IsConstantAt d definition

/-- An entry `(<tag> v<digits> <value> ...) {...}` of a constant pool, with the
SSA index its name stands for and the SSA indices its value refers to. -/
structure PoolEntry where
  tag : Option SExpression
  digits : List Char
  index : Int
  value : SExpression
  rest : List (Option SExpression)
  extra_info : List (String × Option SExpression)
  deps : List Int

/-- The S-expression of a pool entry. -/
def PoolEntry.sexp (e : PoolEntry) : SExpression :=
  .SExpList (e.tag :: some (.SExpSymbol (String.mk ('v' :: e.digits))) :: some e.value :: e.rest)
    e.extra_info

/-- The `type` attribute of a pool entry, when it has one, is parsed by
`ParseCompileType` in every state between two entries of the pool. -/
def TypeParses (vm : VM) (fuel : Nat) (e : PoolEntry) : Prop :=
  ∀ type_sexp, ExtraLookup "type" e.extra_info = some type_sexp →
    ∀ d, PoolInvariant d → ∃ typ d1, ParseCompileType vm fuel type_sexp d = .ok (some typ) d1

/-- The value of a pool entry is parsed by `ParseDartValue` in every state
between two entries of the pool: the call returns, and it returns `true` when
the definition map has an entry for each index the value refers to. -/
def Evaluates (vm : VM) (fuel : Nat) (e : PoolEntry) : Prop :=
  ∀ d obj, PoolInvariant d → ∃ parsed d1,
    ParseDartValue vm fuel (some e.value) obj d = .ok parsed d1 ∧
      ((∀ i ∈ e.deps, d.definition_map_.HasKey i = true) → parsed = true)

/-- The S-expression of a constant pool `(<tag> <entry> ...) {...}` with the
entries in the order of the list. -/
def PoolSexp (tag : Option SExpression) (entries : List PoolEntry)
    (extra_info : List (String × Option SExpression)) : SExpression :=
  .SExpList (tag :: entries.map fun e => some e.sexp) extra_info

/-! ## The binder invariant -/

/-- No SSA index is at once in the definition map and in the pending table,
and every index in the pending table has a pending list that is not empty. -/
def BinderInvariant (d : FlowGraphDeserializer) : Prop :=
  (∀ index, d.definition_map_.HasKey index = true → d.values_map_.HasKey index = false) ∧
  ∀ index value_list, d.values_map_.LookupValue index = some value_list → value_list ≠ []

/-- Every returning call of `x` that starts in a state satisfying `P` ends in
a state satisfying `P`. -/
structure Maintains (P : FlowGraphDeserializer → Prop) {α : Type} (x : Parse α) : Prop where
  post : ∀ d a d1, P d → x d = .ok a d1 → P d1

/-- The states a deserializer for `root` reaches through calls of `ParseValue`
and `ParseDefinitionWithParsedBody`, and through any call that leaves the
definition map and the pending table as they were. -/
inductive BinderReachable (vm : VM) (fuel : Nat) (root : SExpression)
    (parsed_function : Option ParsedFunction) : FlowGraphDeserializer → Prop where
  | start : BinderReachable vm fuel root parsed_function
      (FlowGraphDeserializer.New root parsed_function)
  | value (d d1 : FlowGraphDeserializer) (sexp : Option SExpression) (allow_pending : Bool)
      (val : Option ValuePtr) :
      BinderReachable vm fuel root parsed_function d →
      ParseValue vm fuel sexp allow_pending d = .ok val d1 →
      BinderReachable vm fuel root parsed_function d1
  | definition (d d1 : FlowGraphDeserializer) (list : Option SExpression)
      (definition : DefinitionPtr) (parsed : Bool) :
      BinderReachable vm fuel root parsed_function d →
      ParseDefinitionWithParsedBody vm fuel list definition d = .ok parsed d1 →
      BinderReachable vm fuel root parsed_function d1
  | other (d d1 : FlowGraphDeserializer) :
      BinderReachable vm fuel root parsed_function d → SameBinder d d1 →
      BinderReachable vm fuel root parsed_function d1

/-! ## The tables of the parser as a frame -/

/-- The fields of the deserializer that the parser of Dart values, compile
types and canonical names never writes: the two binder tables, the two maxima,
the instructions of the zone, the current block, the block table, the map of
the stacks and the stacks themselves. -/
def Core (d : FlowGraphDeserializer) :
    IntMap (List ValuePtr) × IntMap DefinitionPtr × Int × Int × List Instruction ×
      Option DefinitionPtr × IntMap DefinitionPtr × IntMap StackPtr ×
      (StackPtr → List DefinitionPtr) × Nat :=
  (d.values_map_, d.definition_map_, d.max_block_id_, d.max_ssa_index_, d.zone_instructions,
    d.current_block_, d.block_map_, d.pushed_stack_map_, d.zone_stacks, d.zone_stacks_length)

/-- The fields of `Core` are the same in `d1` as in `d`. -/
def SameCore (d d1 : FlowGraphDeserializer) : Prop :=
  Core d1 = Core d

/-- Every returning call of `x` ends in a state related by `R` to the state it
started in. -/
structure Steps (R : FlowGraphDeserializer → FlowGraphDeserializer → Prop) {α : Type}
    (x : Parse α) : Prop where
  post : ∀ d a d1, x d = .ok a d1 → R d d1

/-- The block id of a block entry, `none` for any other instruction. -/
def BlockIdOf : Instruction → Option Int
  | .GraphEntry _ _ => some 0
  | .FunctionEntry _ id _ _ => some id
  | .JoinEntry id _ _ => some id
  | .TargetEntry id _ _ => some id
  | _ => none

/-- The stack of pushed arguments of the current block, the one `CurrentStack`
returns; `none` when there is no current block or no stack recorded for it. -/
def StackOf (d : FlowGraphDeserializer) : Option StackPtr := do
  let block ← d.current_block_
  let instr ← d.zone_instructions[block]?
  let id ← BlockIdOf instr
  d.pushed_stack_map_.LookupValue id

/-- Every SSA index bound in the definition map is at most `max_ssa_index_`. -/
def SsaBound (d : FlowGraphDeserializer) : Prop :=
  ∀ index, d.definition_map_.HasKey index = true → index ≤ d.max_ssa_index_

/-- The state `d1` is later in the reconstruction than `d`: the two maxima have
not decreased, every definition bound in `d` is bound to the same instruction
in `d1`, the instructions of `d` are still there, and the bound of the SSA
indices carries over. -/
structure Extends (d d1 : FlowGraphDeserializer) : Prop where
  max_block_id : d.max_block_id_ ≤ d1.max_block_id_
  max_ssa_index : d.max_ssa_index_ ≤ d1.max_ssa_index_
  definitions : ∀ index definition, d.definition_map_.LookupValue index = some definition →
    d1.definition_map_.LookupValue index = some definition
  instructions : d.zone_instructions <+: d1.zone_instructions
  bound : SsaBound d → SsaBound d1

/-- The state `d1` is later than `d` in the parse of the contents of one block:
the current block, the block table, the map of the stacks and the maximum
block id are the same, no stack was allocated, and every stack but the one of
the current block has the contents it had. -/
structure SameBlock (d d1 : FlowGraphDeserializer) : Prop where
  grows : Extends d d1
  current_block : d1.current_block_ = d.current_block_
  block_map : d1.block_map_ = d.block_map_
  pushed_stack_map : d1.pushed_stack_map_ = d.pushed_stack_map_
  max_block_id : d1.max_block_id_ = d.max_block_id_
  stacks_length : d1.zone_stacks_length = d.zone_stacks_length
  other_stacks : ∀ current, StackOf d = some current →
    ∀ stack, stack ≠ current → d1.zone_stacks stack = d.zone_stacks stack

/-! ## Example inputs -/

/-- A decimal reading of `OS::StringToInt64` for the example VM: the value of
a non-empty string of digits. -/
def ExampleDigits : List Char → Nat → Option Nat
  | [], acc => some acc
  | c :: rest, acc =>
    if 48 ≤ c.toNat ∧ c.toNat ≤ 57 then ExampleDigits rest (acc * 10 + (c.toNat - 48)) else none

/-- A small VM for the examples: decimal integers with an optional minus sign,
the comparison tokens `===` and `!==`, and an empty program (every lookup
finds nothing). -/
def ExampleVM : VM where
  StringToInt64 := fun s =>
    match s.data with
    | [] => none
    | '-' :: c :: rest => (ExampleDigits (c :: rest) 0).map fun n => -Int.ofNat n
    | c :: rest => (ExampleDigits (c :: rest) 0).map Int.ofNat
  TokenFromStr := fun s => if s = "===" then some 0 else if s = "!==" then some 1 else none
  kNoSource := -1
  kNone := -1
  kDynamicCid := 0
  kNullable := true
  kNonNullable := false
  HasValidClassAt := fun _ => false
  ClassAt := fun _ => none
  IsInstance := fun _ => false
  ToCString := fun _ => "object"
  TypeNew := fun _ _ => 0
  TypeArgumentsNew := fun _ => 0
  SetTypeAt := fun o _ _ => o
  LookupLibrary := fun _ => none
  toplevel_class := fun _ => none
  LookupClassAllowPrivate := fun _ _ => none
  LookupFieldAllowPrivate := fun _ _ _ => none
  LookupFunctionAllowPrivate := fun _ _ => none
  HasImplicitClosureFunction := fun _ => false
  ImplicitClosureFunction := fun _ => none
  GetDynamicInvocationForwarder := fun _ _ => none
  FunctionKindFromCString := fun _ => none
  FunctionKindToCString := fun _ => "kind"
  FunctionKind := fun _ => 0
  FunctionLookupTypeParameter := fun _ _ => none
  FunctionOwner := fun _ => none
  ClassLookupTypeParameter := fun _ _ => none
  ArrayNew := fun _ => 0
  SetAt := fun o _ _ => o
  SetTypeArguments := fun o _ => o
  MakeImmutable := fun o => o
  InstanceNew := fun _ => 0
  SetField := fun o _ _ => o
  ClosureNew := fun _ _ _ _ _ => 0
  BoolGet := fun b => if b then 1 else 0
  StringNew := fun _ => 2
  IntegerNew := fun _ => 3
  DoubleNew := fun _ => 4
  CheckAndCanonicalize := fun o => (o, none)
  kInvalidTryIndex := -1
  kNoOSRDeoptId := -1
  BlockEntryTagToKind := fun tag =>
    match tag with
    | none => .kTarget
    | some s =>
      if s = "Target" then .kTarget
      else if s = "Normal" then .kNormal
      else if s = "Unchecked" then .kUnchecked
      else if s = "Join" then .kJoin
      else if s = "OSR" then .kOther
      else .kInvalid
  SpecialParameterKindFromCString := fun s => if s = "Context" then some 0 else none
  RebindRuleFromCString := fun s => if s = "Static" then some 1 else none
  kInstance := 0
  kConstant := -2
  IsArray := fun o => o = some 5
  IsImmutable := fun _ => false
  IsClass := fun o => o = some 20
  IsFunction := fun o => o = some 40 ∨ o = some 41
  IsField := fun o => o = some 30

/-- A fresh deserializer for the examples. -/
def ExampleState : FlowGraphDeserializer :=
  FlowGraphDeserializer.New (.SExpSymbol "root") none

/-- A deserializer in which an error is already recorded. -/
def ExampleFailedState : FlowGraphDeserializer :=
  { ExampleState with
    error_sexp_ := some (.SExpSymbol "first")
    error_message_ := some "first failure" }

/-- A deserializer with a flow graph whose null constant is instruction 0, in
which `v7` is bound to instruction 1. -/
def ExampleBoundState : FlowGraphDeserializer :=
  { ExampleState with
    flow_graph_ := some { constant_null_ := 0 }
    zone_instructions := [.Constant none (-1), .Constant (some 3) (-1)]
    definition_map_ := [(7, 1)] }

/-- A deserializer with a flow graph whose null constant is instruction 0 and
no definition bound yet. -/
def ExampleGraphState : FlowGraphDeserializer :=
  { ExampleState with
    flow_graph_ := some { constant_null_ := 0 }
    zone_instructions := [.Constant none (-1), .Constant (some 3) (-1)] }

/-- The deserializer `ExampleGraphState` after one pending use of `v7`: value 0
is a placeholder on the pending list of index 7. -/
def ExamplePendingState : FlowGraphDeserializer :=
  { ExampleGraphState with
    values_map_ := [(7, [0])]
    zone_values_length := 1 }

/-- The form `(def v7 (Constant 3))`. -/
def ExampleDefinition : SExpression :=
  .SExpList
    [some (.SExpSymbol "def"), some (.SExpSymbol "v7"),
      some (.SExpList [some (.SExpSymbol "Constant"), some (.SExpInteger 3)] [])] []

/-- A deserializer in the middle of block `B2`. Instructions 1 to 3 are the
entries of the blocks `B1`, `B2` and `B3`; the join `B3` has `B1` as its one
predecessor so far. Instructions 6 and 7 push `v4` and `v5`. The stack retained
for `B1` is stack 0, `[7, 6]`, and the stack of the current block `B2` is
stack 1, `[6, 7]`. -/
def ExampleStackState : FlowGraphDeserializer :=
  { FlowGraphDeserializer.New (.SExpSymbol "root") (some { function := none }) with
    flow_graph_ := some { constant_null_ := 4 }
    current_block_ := some 2
    zone_instructions :=
      [.GraphEntry (-1) (-1), .TargetEntry 1 (-1) (-1), .TargetEntry 2 (-1) (-1),
        .JoinEntry 3 (-1) (-1), .Constant (some 3) (-2), .Constant (some 4) (-2),
        .PushArgument 0, .PushArgument 1]
    ssa_temp_index_ := fun p => if p = 4 then 4 else if p = 5 then 5 else -1
    zone_values := fun v => { definition_ := if v = 0 then 4 else 5, reaching_type_ := none }
    zone_values_length := 2
    zone_stacks := fun s => if s = 0 then [7, 6] else if s = 1 then [6, 7] else []
    zone_stacks_length := 2
    block_map_ := [(1, 1), (2, 2), (3, 3)]
    pushed_stack_map_ := [(0, 2), (1, 0), (2, 1)]
    predecessors_ := fun b => if b = 3 then [1] else if b = 0 then [] else [0] }

/-- The form `(Goto B3)`, the last instruction of a block that transfers to
`B3`. -/
def ExampleGoto : SExpression :=
  .SExpList [some (.SExpSymbol "Goto"), some (.SExpSymbol "B3")] []

/-- The environment `(a-1)`: one slot, a back-reference to the pushed argument
at index -1. -/
def ExampleNegativeEnvironment : SExpression :=
  .SExpList [some (.SExpSymbol "a-1")] []

/-- The pool entry `(def v1 v2)`: the constant `v1` is the constant `v2`, which
is declared later. -/
def ExampleForwardEntry : SExpression :=
  .SExpList [some (.SExpSymbol "def"), some (.SExpSymbol "v1"), some (.SExpSymbol "v2")] []

/-- The pool entry `(def v2 null)`. -/
def ExampleNullEntry : SExpression :=
  .SExpList [some (.SExpSymbol "def"), some (.SExpSymbol "v2"), some (.SExpSymbol "null")] []

/-- The pool `(Constants (def v1 v2) (def v2 null))`. -/
def ExamplePool : SExpression :=
  .SExpList
    [some (.SExpSymbol "Constants"), some ExampleForwardEntry, some ExampleNullEntry] []

/-- The pool entry `(def v1 v9)`, in a pool that declares no `v9`. -/
def ExampleDanglingEntry : SExpression :=
  .SExpList [some (.SExpSymbol "def"), some (.SExpSymbol "v1"), some (.SExpSymbol "v9")] []

/-- The example VM with a small program: the libraries `dart:core` (object 10)
and `myLib` (object 11), each with the class `MyClass` (object 20), which has
the field `myField` (object 30), the getter `get:myProp` (object 40) and the
method `myProp` (object 41). -/
def ExampleProgramVM : VM :=
  { ExampleVM with
    LookupLibrary := fun s =>
      if s = "dart:core" then some 10 else if s = "myLib" then some 11 else none
    LookupClassAllowPrivate := fun lib s =>
      if (lib = some 10 ∨ lib = some 11) ∧ s = "MyClass" then some 20 else none
    LookupFieldAllowPrivate := fun cls s _ =>
      if cls = some 20 ∧ s = "myField" then some 30 else none
    LookupFunctionAllowPrivate := fun cls s =>
      if cls = some 20 ∧ s = "get:myProp" then some 40
      else if cls = some 20 ∧ s = "myProp" then some 41 else none }

/-- The environment `(v9)`: one slot, a use of `v9`. -/
def ExampleUnboundEnvironment : SExpression :=
  .SExpList [some (.SExpSymbol "v9")] []

/-- The form `(Foo)`, whose tag names no handled instruction. -/
def ExampleUnhandled : SExpression :=
  .SExpList [some (.SExpSymbol "Foo")] []

/-- The form `(Foo) {env (v9)}`: an unhandled tag with a deopt environment
that uses `v9`. -/
def ExampleUnhandledWithEnvironment : SExpression :=
  .SExpList [some (.SExpSymbol "Foo")] [("env", some ExampleUnboundEnvironment)]

/-- A stand-in for the parse of a comparison: it allocates a `StrictCompare` of
the values 0 and 1 and returns it. -/
def ExampleComparison : Option SExpression → Parse (Option DefinitionPtr) :=
  fun _ d =>
    .ok (some d.zone_instructions.length)
      { d with
        zone_instructions := d.zone_instructions ++ [.StrictCompare (-1) 0 0 1 false (-1)] }

/-- The form `(Branch (StrictCompare) B1 B2)`. -/
def ExampleBranch : SExpression :=
  .SExpList
    [some (.SExpSymbol "Branch"), some (.SExpList [some (.SExpSymbol "StrictCompare")] []),
      some (.SExpSymbol "B1"), some (.SExpSymbol "B2")] []

/-- The form `(Branch (StrictCompare) B1 B3)`, whose false target is a join
entry. -/
def ExampleBranchToJoin : SExpression :=
  .SExpList
    [some (.SExpSymbol "Branch"), some (.SExpList [some (.SExpSymbol "StrictCompare")] []),
      some (.SExpSymbol "B1"), some (.SExpSymbol "B3")] []

/-- A state after `ParseEntries` for a graph entry that owns a normal entry `B1`
and an unchecked entry `B2`. -/
def ExampleEntriesState : FlowGraphDeserializer :=
  { FlowGraphDeserializer.New (.SExpSymbol "root") (some { function := none }) with
    flow_graph_ := some { constant_null_ := 3 }
    zone_instructions :=
      [.GraphEntry (-1) (-1), .FunctionEntry 0 1 (-1) (-1), .FunctionEntry 0 2 (-1) (-1),
        .Constant none (-2)]
    block_map_ := [(1, 1), (2, 2)]
    normal_entry_ := fun graph => if graph = 0 then some 1 else none
    unchecked_entry_ := fun graph => if graph = 0 then some 2 else none }

/-- A graph of two blocks: a graph entry with the initial definitions
`Constant(null)` and a constant of an object the deserializer rejects, whose
body is an instruction `Foo`; and a target entry whose body is a branch on a
`StrictCompare` and a `Return`. -/
def ExampleIlGraph : IlFlowGraph where
  reverse_postorder :=
    [{ entry := .mk "GraphEntry" none none
       initial_definitions := some [.mk "Constant" none none, .mk "Constant" (some 99) none]
       phis := []
       instructions := [.mk "Foo" none none] },
     { entry := .mk "TargetEntry" none none
       initial_definitions := none
       phis := [.mk "Phi" none none]
       instructions :=
        [.mk "Branch" none (some (.mk "StrictCompare" none none)), .mk "Return" none none] }]
  parsed_function := { function := none }

/-- The form `(FlowGraph f (Entries))`: a graph without constants and without
blocks other than the graph entry. -/
def ExampleEmptyGraph : SExpression :=
  .SExpList
    [some (.SExpSymbol "FlowGraph"), some (.SExpSymbol "f"),
      some (.SExpList [some (.SExpSymbol "Entries")] [])] []

/-- A graph of one block, the graph entry, whose only initial definition is
the null constant. -/
def ExampleHandledIlGraph : IlFlowGraph where
  reverse_postorder :=
    [{ entry := .mk "GraphEntry" none none
       initial_definitions := some [.mk "Constant" none none]
       phis := []
       instructions := [] }]
  parsed_function := { function := none }

/-- The form `(FlowGraph f (Entries (Normal B1)) (Block B1 (Return v7)))`: the
only block returns `v7`, which no instruction defines. -/
def ExampleDanglingGraph : SExpression :=
  .SExpList
    [some (.SExpSymbol "FlowGraph"), some (.SExpSymbol "f"),
      some (.SExpList
        [some (.SExpSymbol "Entries"),
          some (.SExpList [some (.SExpSymbol "Normal"), some (.SExpSymbol "B1")] [])] []),
      some (.SExpList
        [some (.SExpSymbol "Block"), some (.SExpSymbol "B1"),
          some (.SExpList [some (.SExpSymbol "Return"), some (.SExpSymbol "v7")] [])] [])] []

/-- The pool entry `(def v1 v2)`, which refers to the constant `v2`. -/
def ExampleForwardPoolEntry : PoolEntry where
  tag := some (.SExpSymbol "def")
  digits := ['1']
  index := 1
  value := .SExpSymbol "v2"
  rest := []
  extra_info := []
  deps := [2]

/-- The pool entry `(def v2 null)`, which refers to no constant. -/
def ExampleNullPoolEntry : PoolEntry where
  tag := some (.SExpSymbol "def")
  digits := ['2']
  index := 2
  value := .SExpSymbol "null"
  rest := []
  extra_info := []
  deps := []

/-- The form `(FlowGraph)`: a root without the name of the function. -/
def ExampleNamelessGraph : SExpression :=
  .SExpList [some (.SExpSymbol "FlowGraph")] []

/-- The form `(FlowGraph f (Entries (Normal B1)))`: the listing of the entries
names a function entry `B1`, and no form `(Block B1 ...)` follows. -/
def ExampleMissingBlockGraph : SExpression :=
  .SExpList
    [some (.SExpSymbol "FlowGraph"), some (.SExpSymbol "f"),
      some (.SExpList
        [some (.SExpSymbol "Entries"),
          some (.SExpList [some (.SExpSymbol "Normal"), some (.SExpSymbol "B1")] [])] [])] []

/-- The form `(FlowGraph f (Entries (Target B5)))`: the listing of the entries
names a target entry `B5`, and no form `(Block B5 ...)` follows. -/
def ExampleUnvisitedEntryGraph : SExpression :=
  .SExpList
    [some (.SExpSymbol "FlowGraph"), some (.SExpSymbol "f"),
      some (.SExpList
        [some (.SExpSymbol "Entries"),
          some (.SExpList [some (.SExpSymbol "Target"), some (.SExpSymbol "B5")] [])] [])] []

/-- The form `(FlowGraph f (Entries) (Block B3 (Return v7)))`: no entry is
listed, so that nothing leads to the block `B3`. -/
def ExampleUnreachableBlockGraph : SExpression :=
  .SExpList
    [some (.SExpSymbol "FlowGraph"), some (.SExpSymbol "f"),
      some (.SExpList [some (.SExpSymbol "Entries")] []),
      some (.SExpList
        [some (.SExpSymbol "Block"), some (.SExpSymbol "B3"),
          some (.SExpList [some (.SExpSymbol "Return"), some (.SExpSymbol "v7")] [])] [])] []

/-- The state `ExampleEntriesState` after the header of the block `B3` of
`ExampleUnreachableBlockGraph` is parsed: the target entry is instruction 4. -/
def ExampleUnreachableBlockState : FlowGraphDeserializer :=
  { ExampleEntriesState with
    zone_instructions :=
      [.GraphEntry (-1) (-1), .FunctionEntry 0 1 (-1) (-1), .FunctionEntry 0 2 (-1) (-1),
        .Constant none (-2), .TargetEntry 3 (-1) (-1)]
    block_map_ := [(3, 4), (1, 1), (2, 2)]
    max_block_id_ := 3 }

/-- The elements of the block `(Block B3 (def v1 (Phi v2 v4)) (Return v1))`. -/
def ExamplePhiBlockContents : List (Option SExpression) :=
  [some (.SExpSymbol "Block"), some (.SExpSymbol "B3"),
    some (.SExpList
      [some (.SExpSymbol "def"), some (.SExpSymbol "v1"),
        some (.SExpList
          [some (.SExpSymbol "Phi"), some (.SExpSymbol "v2"), some (.SExpSymbol "v4")] [])] []),
    some (.SExpList [some (.SExpSymbol "Return"), some (.SExpSymbol "v1")] [])]

/-- The deserializer `ExampleStackState` when the worklist of `ParseBlocks`
reaches the join `B3`: stacks are retained for `B1` and `B2` only. -/
def ExampleJoinEntryState : FlowGraphDeserializer :=
  { ExampleStackState with
    current_block_ := none
    pushed_stack_map_ := [(1, 0), (2, 1)] }

/-- The form `(Block B3 (PushArgument v4) (Return v4))` of the join `B3`. -/
def ExamplePushBlock : SExpression :=
  .SExpList
    [some (.SExpSymbol "Block"), some (.SExpSymbol "B3"),
      some (.SExpList [some (.SExpSymbol "PushArgument"), some (.SExpSymbol "v4")] []),
      some (.SExpList [some (.SExpSymbol "Return"), some (.SExpSymbol "v4")] [])] []

/-- The deserializer `ExampleJoinEntryState` at the start of the contents of
the join `B3`: the current block is `B3` and its stack is the new stack 2, a
copy of the stack of `B1`. -/
def ExampleJoinState : FlowGraphDeserializer :=
  { ExampleStackState with
    current_block_ := some 3
    zone_stacks := fun s => if s = 0 then [7, 6] else if s = 1 then [6, 7] else [7, 6]
    zone_stacks_length := 3
    pushed_stack_map_ := [(3, 2), (1, 0), (2, 1)] }

/-- The elements of the form `(Block B3 (def v1 (Phi v4)) (def v7 (Constant 3)))`
of the join `B3`: a phi `v1` and a body that defines `v7`. -/
def ExampleJoinBlockContents : List (Option SExpression) :=
  [some (.SExpSymbol "Block"), some (.SExpSymbol "B3"),
    some (.SExpList
      [some (.SExpSymbol "def"), some (.SExpSymbol "v1"),
        some (.SExpList [some (.SExpSymbol "Phi"), some (.SExpSymbol "v4")] [])] []),
    some ExampleDefinition]

/-- The environment `(v1 v7)` under the key `env`. -/
def ExampleJoinBlockExtra : List (String × Option SExpression) :=
  [("env", some (.SExpList [some (.SExpSymbol "v1"), some (.SExpSymbol "v7")] []))]

/-- The elements of the form `(Block B2 (def v7 (Constant 3)))` of the target
entry `B2`. -/
def ExampleTargetBlockContents : List (Option SExpression) :=
  [some (.SExpSymbol "Block"), some (.SExpSymbol "B2"), some ExampleDefinition]

/-- The environment `(v7)` under the key `env`: the slot names the index that
the body defines. -/
def ExampleTargetBlockExtra : List (String × Option SExpression) :=
  [("env", some (.SExpList [some (.SExpSymbol "v7")] []))]

/-- The form `(FlowGraph f (Entries (Normal B1)) (Block B1 (def v7 (Constant
null))))`: the only block defines `v7`. -/
def ExampleDefinedGraph : SExpression :=
  .SExpList
    [some (.SExpSymbol "FlowGraph"), some (.SExpSymbol "f"),
      some (.SExpList
        [some (.SExpSymbol "Entries"),
          some (.SExpList [some (.SExpSymbol "Normal"), some (.SExpSymbol "B1")] [])] []),
      some (.SExpList
        [some (.SExpSymbol "Block"), some (.SExpSymbol "B1"),
          some (.SExpList
            [some (.SExpSymbol "def"), some (.SExpSymbol "v7"),
              some (.SExpList [some (.SExpSymbol "Constant"), some (.SExpSymbol "null")] [])]
            [])] [])] []

/-- The form `(FlowGraph f (Entries (Normal B1)) (Block B1 (def
v9223372036854775807 (Constant null))))`: the only block defines the value
whose index is the greatest `int64_t`. -/
def ExampleGreatestIndexGraph : SExpression :=
  .SExpList
    [some (.SExpSymbol "FlowGraph"), some (.SExpSymbol "f"),
      some (.SExpList
        [some (.SExpSymbol "Entries"),
          some (.SExpList [some (.SExpSymbol "Normal"), some (.SExpSymbol "B1")] [])] []),
      some (.SExpList
        [some (.SExpSymbol "Block"), some (.SExpSymbol "B1"),
          some (.SExpList
            [some (.SExpSymbol "def"), some (.SExpSymbol "v9223372036854775807"),
              some (.SExpList [some (.SExpSymbol "Constant"), some (.SExpSymbol "null")] [])]
            [])] [])] []

/-! # Theorems -/

/-! ## Tests on the result of a call -/

/-- A call that passes the test `Holds p` returned, with a value and a state that
pass `p`. -/
theorem Result.Holds_ok {α : Type} {r : Result α} {p : α → FlowGraphDeserializer → Bool}
    (h : r.Holds p = true) : ∃ a d, r = .ok a d ∧ p a d = true := by
  cases r with
  | ok a d => exact ⟨a, d, rfl, h⟩
  | fault f => cases h
  | outOfFuel => cases h

/-- A call that passes the test `Fails f` stopped on the fault `f`. -/
theorem Result.Fails_stopped {α : Type} {r : Result α} {f : Fault} (h : r.Fails f = true) :
    r = .fault f := by
  cases r with
  | ok a d => simp [Result.Fails] at h
  | fault g => simp only [Result.Fails, decide_eq_true_eq] at h; rw [h]
  | outOfFuel => simp [Result.Fails] at h

set_option linter.unusedTactic false
set_option linter.unreachableTactic false
set_option maxHeartbeats 4000000

/-! ## Calls in sequence -/

@[simp] theorem Parse.pure_apply {α : Type} (a : α) (d : FlowGraphDeserializer) :
    (pure a : Parse α) d = .ok a d := rfl

@[simp] theorem Parse.bind_apply {α β : Type} (x : Parse α) (f : α → Parse β)
    (d : FlowGraphDeserializer) :
    (x >>= f) d =
      match x d with
      | .ok a d1 => f a d1
      | .fault e => .fault e
      | .outOfFuel => .outOfFuel := rfl

@[simp] theorem Parse.fault_apply {α : Type} (e : Fault) (d : FlowGraphDeserializer) :
    (Parse.fault e : Parse α) d = .fault e := rfl

@[simp] theorem Parse.get_apply (d : FlowGraphDeserializer) : Parse.get d = .ok d d := rfl

@[simp] theorem Parse.modify_apply (f : FlowGraphDeserializer → FlowGraphDeserializer)
    (d : FlowGraphDeserializer) : Parse.modify f d = .ok () (f d) := rfl

@[simp] theorem StoreError_apply (sexp : Option SExpression) (message : String)
    (d : FlowGraphDeserializer) :
    StoreError sexp message d =
      .ok () { d with error_sexp_ := sexp, error_message_ := some message } := rfl

/-! ## The error state -/

/-- C2, as the code has it: `StoreError` overwrites. Whatever is recorded
before the call, afterwards the recorded location and message are the ones
just passed and nothing else has changed; of two calls in a row the second one
decides the error state. -/
theorem StoreError_overwrites (s1 s2 : Option SExpression) (m1 m2 : String)
    (d : FlowGraphDeserializer) :
    StoreError s2 m2 d = .ok () { d with error_sexp_ := s2, error_message_ := some m2 } ∧
    (StoreError s1 m1 >>= fun _ => StoreError s2 m2) d = StoreError s2 m2 d := by
  constructor
  · rfl
  · rfl

/-- C2, counterexample: with the error `first failure` recorded, a further
`StoreError` call is not a no-op; it leaves the message `second failure`. -/
theorem StoreError_not_first_wins :
    ExampleFailedState.error_message_ = some "first failure" ∧
    ExampleFailedState.error_sexp_.isSome = true ∧
    StoreError (some (.SExpSymbol "second")) "second failure" ExampleFailedState
      ≠ .ok () ExampleFailedState := by
  refine ⟨rfl, rfl, ?_⟩
  intro h
  have h2 := congrArg
    (fun r : Result Unit => match r with
      | .ok _ d => d.error_message_
      | _ => none) h
  revert h2
  decide

/-! ## `Check##name` -/

/-- C4: every `Check##name` returns null on a null argument and leaves the
deserializer, and so the error state, as it was. -/
theorem Check_null (k : SExpKind) (d : FlowGraphDeserializer) :
    Check k none d = .ok none d ∧
    CheckList none d = .ok none d ∧ CheckSymbol none d = .ok none d ∧
    CheckString none d = .ok none d ∧ CheckInteger none d = .ok none d ∧
    CheckDouble none d = .ok none d ∧ CheckBool none d = .ok none d :=
  ⟨rfl, rfl, rfl, rfl, rfl, rfl, rfl⟩

/-- C5: on a non-null node `x`, `Check##name` returns `x` itself, leaving the
deserializer as it was, exactly when `x` is of the kind `name`; otherwise it
returns null and records the error `expected name` located at `x`. -/
theorem Check_nonnull (k : SExpKind) (x : SExpression) (d : FlowGraphDeserializer) :
    (Check k (some x) d = .ok (some x) d ↔ x.Is k = true) ∧
    Check k (some x) d =
      (if x.Is k = true then .ok (some x) d
       else .ok none
        { d with error_sexp_ := some x, error_message_ := some ("expected " ++ k.name) }) := by
  by_cases h : x.Is k = true
  · simp [Check, h, SExpression.As]
  · simp [Check, h]

/-! ## `Retrieve` -/

/-- C6, as the code has it. For a non-null list `L`: `Retrieve(L, i)` with
`0 <= i < Length(L)` returns the child at `i` and leaves the deserializer as
it was when that child is not null, and returns null recording the error
`null value at index i` located at `L` when it is null; with `Length(L) <= j`
it returns null and records an error located at `L`. `Retrieve(L, key)`
returns the value stored under `key` when the extra information has the key
and the value is not null, and otherwise returns null and records an error
located at `L`. On a null list both return null and change nothing. -/
theorem Retrieve_spec (contents : List (Option SExpression))
    (extra_info : List (String × Option SExpression)) (i j : Int) (key : String)
    (d : FlowGraphDeserializer) (hi0 : 0 ≤ i) (hi : i < contents.length)
    (hj : (contents.length : Int) ≤ j) :
    Retrieve (some (.SExpList contents extra_info)) i d =
      (match contents.getD i.toNat none with
       | some child => .ok (some child) d
       | none => .ok none
          { d with
            error_sexp_ := some (.SExpList contents extra_info)
            error_message_ := some ("null value at index " ++ toString i) }) ∧
    Retrieve (some (.SExpList contents extra_info)) j d =
      .ok none
        { d with
          error_sexp_ := some (.SExpList contents extra_info)
          error_message_ :=
            some ("expected at least " ++ toString (j + 1) ++ " element(s) in list") } ∧
    RetrieveKey (some (.SExpList contents extra_info)) key d =
      (match ExtraHas key extra_info, ExtraLookup key extra_info with
       | true, some value => .ok (some value) d
       | true, none => .ok none
          { d with
            error_sexp_ := some (.SExpList contents extra_info)
            error_message_ := some ("null value for key " ++ key) }
       | false, _ => .ok none
          { d with
            error_sexp_ := some (.SExpList contents extra_info)
            error_message_ := some ("expected an extra info entry for key " ++ key) }) ∧
    Retrieve none i d = .ok none d ∧ RetrieveKey none key d = .ok none d := by
  refine ⟨?_, ?_, ?_, rfl, rfl⟩
  · have h1 : ¬ ((contents.length : Int) ≤ i) := not_le.mpr hi
    have h2 : ¬ (i < 0) := not_lt.mpr hi0
    simp only [Retrieve, h1, h2, if_false]
    cases contents.getD i.toNat none <;> rfl
  · simp [Retrieve, hj]
  · cases hk : ExtraHas key extra_info
    · simp [RetrieveKey, hk]
    · simp only [RetrieveKey, hk]
      cases ExtraLookup key extra_info <;> rfl

/-- C6, witness: the list `(a b)` with extra `k`, at the indices 1 and 5. -/
theorem Retrieve_spec_witness :
    Retrieve (some (.SExpList [some (.SExpSymbol "a"), some (.SExpSymbol "b")]
        [("k", some (.SExpInteger 1))])) 1 ExampleState
      = .ok (some (.SExpSymbol "b")) ExampleState :=
  (Retrieve_spec [some (.SExpSymbol "a"), some (.SExpSymbol "b")]
    [("k", some (.SExpInteger 1))] 1 5 "k" ExampleState (by decide) (by decide) (by decide)).1

/-- C6, counterexample: in the list whose only child is null, index 0 is in
range, yet `Retrieve` does not leave the deserializer as it was: it records an
error. -/
theorem Retrieve_null_child_records_error :
    (0 : Int) < ([none] : List (Option SExpression)).length ∧
    Retrieve (some (.SExpList [none] [])) 0 ExampleState ≠ .ok none ExampleState ∧
    Retrieve (some (.SExpList [none] [])) 0 ExampleState =
      .ok none
        { ExampleState with
          error_sexp_ := some (.SExpList [none] [])
          error_message_ := some "null value at index 0" } := by
  refine ⟨by decide, ?_, ?_⟩
  · intro h
    have h2 := congrArg
      (fun r : Result (Option SExpression) => match r with
        | .ok _ d => d.error_message_
        | _ => none) h
    revert h2
    decide
  · rfl

/-! ## `CheckTaggedList` -/

/-- C7: `CheckTaggedList(x, label)` always returns; its result is `x` or null,
and it is non-null exactly when `x` is a list with at least one child whose
first child is a symbol and, if a label is given, the text of that symbol is
the label. When the result is non-null the deserializer is left as it was. -/
theorem CheckTaggedList_spec (x : Option SExpression) (label : Option String)
    (d : FlowGraphDeserializer) :
    ∃ r d1, CheckTaggedList x label d = .ok r d1 ∧ (r = x ∨ r = none) ∧
      (r.isSome = true → d1 = d) ∧
      (r.isSome = true ↔
        ∃ value rest extra_info,
          x = some (.SExpList (some (.SExpSymbol value) :: rest) extra_info) ∧
          (label = none ∨ label = some value)) := by
  have hnone : ∀ (e : Option SExpression) (d1 : FlowGraphDeserializer),
      CheckTaggedList e label d = .ok none d1 →
      (¬ ∃ value rest extra_info,
          e = some (.SExpList (some (.SExpSymbol value) :: rest) extra_info) ∧
          (label = none ∨ label = some value)) →
      ∃ r d1, CheckTaggedList e label d = .ok r d1 ∧ (r = e ∨ r = none) ∧
        (r.isSome = true → d1 = d) ∧
        (r.isSome = true ↔
          ∃ value rest extra_info,
            e = some (.SExpList (some (.SExpSymbol value) :: rest) extra_info) ∧
            (label = none ∨ label = some value)) := by
    intro e d1 h hn
    exact ⟨none, d1, h, Or.inr rfl, by simp, by simpa using hn⟩
  have hsome : ∀ (e : SExpression),
      CheckTaggedList (some e) label d = .ok (some e) d →
      (∃ value rest extra_info,
          some e = some (.SExpList (some (.SExpSymbol value) :: rest) extra_info) ∧
          (label = none ∨ label = some value)) →
      ∃ r d1, CheckTaggedList (some e) label d = .ok r d1 ∧ (r = some e ∨ r = none) ∧
        (r.isSome = true → d1 = d) ∧
        (r.isSome = true ↔
          ∃ value rest extra_info,
            some e = some (.SExpList (some (.SExpSymbol value) :: rest) extra_info) ∧
            (label = none ∨ label = some value)) := by
    intro e h hy
    exact ⟨some e, d, h, Or.inl rfl, fun _ => rfl, by simpa using hy⟩
  rcases x with _ | e
  · exact hnone none d rfl (by simp)
  · cases e with
    | SExpList contents extra_info =>
      rcases contents with _ | ⟨c, rest⟩
      · exact hnone _ _ rfl (by simp)
      · rcases c with _ | c
        · exact hnone _ _ rfl (by simp)
        · cases c with
          | SExpSymbol value =>
            rcases label with _ | l
            · exact hsome _ rfl ⟨value, rest, extra_info, rfl, Or.inl rfl⟩
            · have hlen : ¬ ((rest.length : Int) + 1 ≤ 0) := by omega
              by_cases hl : l = value
              · subst hl
                refine hsome _ ?_ ⟨l, rest, extra_info, rfl, Or.inr rfl⟩
                simp [CheckTaggedList, CheckList, Check, SExpression.Is, SExpression.As,
                  Retrieve, IsTag, CheckSymbol, hlen]
              · refine hnone _ { d with
                    error_sexp_ := some (.SExpSymbol value)
                    error_message_ := some ("expected symbol " ++ l) } ?_ ?_
                · simp [CheckTaggedList, CheckList, Check, SExpression.Is, SExpression.As,
                    Retrieve, IsTag, CheckSymbol, hl, hlen]
                · simp
                  intro h
                  exact hl h
          | _ => exact hnone _ _ rfl (by simp)
    | _ => exact hnone _ _ rfl (by simp)

/-! ## Builders that return null -/

/-- C3, the failing case: on a `StrictCompare` form whose symbol at position 1
is not a token known to `Token::FromStr`, `DeserializeStrictCompare` returns
null and leaves the deserializer as it was, so no error is recorded if none
was recorded before. -/
theorem DeserializeStrictCompare_unknown_token (vm : VM) (fuel : Nat)
    (tag : Option SExpression) (token : String) (rest : List (Option SExpression))
    (extra_info : List (String × Option SExpression)) (info : InstrInfo)
    (d : FlowGraphDeserializer) (htoken : vm.TokenFromStr token = none) :
    DeserializeStrictCompare vm fuel
      (some (.SExpList (tag :: some (.SExpSymbol token) :: rest) extra_info)) info d
      = .ok none d := by
  have hlen : ¬ ((rest.length : Int) + 1 + 1 ≤ 1) := by omega
  simp [DeserializeStrictCompare, Retrieve, CheckSymbol, Check, SExpression.Is,
    SExpression.As, SymbolValue, htoken, hlen]

/-- C3, witness: the form `(StrictCompare foo v1 v2)` in a fresh deserializer;
null is returned and no error message is recorded. -/
theorem DeserializeStrictCompare_unknown_token_witness :
    ExampleState.error_message_ = none ∧
    DeserializeStrictCompare ExampleVM 1
      (some (.SExpList [some (.SExpSymbol "StrictCompare"), some (.SExpSymbol "foo"),
        some (.SExpSymbol "v1"), some (.SExpSymbol "v2")] []))
      { deopt_id := -1, token_pos := -1 } ExampleState
      = .ok none ExampleState :=
  ⟨rfl, DeserializeStrictCompare_unknown_token ExampleVM 1 _ "foo" _ _ _ _ (by decide)⟩

/-! ## Null arguments -/

/-- The other parsing functions embedded here that take an S-expression return
their error signal on a null argument and leave the deserializer as it was. -/
theorem Null_argument_returned (vm : VM) (fuel : Nat) (index : Int) (key : String)
    (k : SExpKind) (label : Option String) (pfx : Char) (out : Handle)
    (d : FlowGraphDeserializer) :
    Retrieve none index d = .ok none d ∧ RetrieveKey none key d = .ok none d ∧
    Check k none d = .ok none d ∧ CheckTaggedList none label d = .ok none d ∧
    ParseDartValue vm fuel none out d = .ok false d ∧
    ParseCanonicalName vm none out d = .ok false d ∧
    ParseSymbolAsPrefixedInt vm none pfx d = .ok none d := by
  refine ⟨rfl, rfl, rfl, rfl, ?_, rfl, rfl⟩
  cases fuel <;> rfl

/-- C8, the failing case: `ParseValue` dereferences its argument before any
null test, so on a null S-expression it does not return; and
`DeserializeReturn` on the form `(Return)`, where `Retrieve(list, 1)` records
an error and returns null, ends in that dereference instead of returning
null. -/
theorem ParseValue_null_dereference (vm : VM) (fuel : Nat) (allow_pending : Bool)
    (info : InstrInfo) (d : FlowGraphDeserializer) :
    ParseValue vm fuel none allow_pending d = .fault .nullDereference ∧
    DeserializeReturn vm fuel (some (.SExpList [some (.SExpSymbol "Return")] [])) info d
      = .fault .nullDereference := by
  constructor
  · cases fuel <;> rfl
  · cases fuel <;> rfl

/-! ## `ParseValue` on a symbol -/

/-- The call `ParseValue` on a symbol `v<i>` whose index is bound in the
definition map. -/
theorem ParseValue_symbol_defined (vm : VM) (fuel : Nat) (digits : List Char) (i : Int)
    (hindex : vm.StringToInt64 (String.mk digits) = some i) (d : FlowGraphDeserializer)
    (definition : DefinitionPtr) (allow_pending : Bool)
    (hdef : d.definition_map_.LookupValue i = some definition) :
    ParseValue vm fuel (some (.SExpSymbol (String.mk ('v' :: digits)))) allow_pending d
      = .ok (some d.zone_values_length)
        { d with
          zone_values :=
            Function.update d.zone_values d.zone_values_length
              { definition_ := definition, reaching_type_ := none }
          zone_values_length := d.zone_values_length + 1 } := by
  simp [ParseValue, ParseValueWith, SExpression.As, SExpression.Is, ParseUse, ParseSSATemp,
    ParseSymbolAsPrefixedInt, hindex, hdef, NewValue]

/-- C9: let the symbol `v<i>` name the SSA index `i`. If the definition map
holds `definition` at `i`, `ParseValue` returns a newly allocated `Value` bound
to `definition` and changes nothing but the zone of values, so the pending
table is as before. If the map holds nothing at `i` and `allow_pending` is
false, it returns null, records the error `found use prior to definition`
located at the symbol, and changes nothing else. -/
theorem ParseValue_symbol (vm : VM) (fuel : Nat) (digits : List Char) (i : Int)
    (hindex : vm.StringToInt64 (String.mk digits) = some i) :
    (∀ (d : FlowGraphDeserializer) (definition : DefinitionPtr) (allow_pending : Bool),
      d.definition_map_.LookupValue i = some definition →
      ∃ d1, ParseValue vm fuel (some (.SExpSymbol (String.mk ('v' :: digits)))) allow_pending d
          = .ok (some d.zone_values_length) d1 ∧
        d1.zone_values d.zone_values_length
          = { definition_ := definition, reaching_type_ := none } ∧
        d1.zone_values_length = d.zone_values_length + 1 ∧
        d1.values_map_ = d.values_map_ ∧ d1.definition_map_ = d.definition_map_ ∧
        d1.error_message_ = d.error_message_ ∧ d1.error_sexp_ = d.error_sexp_) ∧
    (∀ (d : FlowGraphDeserializer),
      d.definition_map_.LookupValue i = none →
      ParseValue vm fuel (some (.SExpSymbol (String.mk ('v' :: digits)))) false d
        = .ok none
          { d with
            error_sexp_ := some (.SExpSymbol (String.mk ('v' :: digits)))
            error_message_ := some "found use prior to definition" }) := by
  constructor
  · intro d definition allow_pending hdef
    exact ⟨_, ParseValue_symbol_defined vm fuel digits i hindex d definition allow_pending hdef,
      by simp, rfl, rfl, rfl, rfl, rfl⟩
  · intro d hdef
    simp [ParseValue, ParseValueWith, SExpression.As, SExpression.Is, ParseUse, ParseSSATemp,
      ParseSymbolAsPrefixedInt, hindex, hdef]

/-- C9, witness: `v7` in a deserializer where `v7` is bound to instruction 1,
and `v7` in a fresh deserializer with `allow_pending` false. -/
theorem ParseValue_symbol_witness :
    (∃ d1, ParseValue ExampleVM 0 (some (.SExpSymbol "v7")) true ExampleBoundState
        = .ok (some 0) d1 ∧
      d1.zone_values 0 = { definition_ := 1, reaching_type_ := none } ∧
      d1.values_map_ = []) ∧
    ParseValue ExampleVM 0 (some (.SExpSymbol "v7")) false ExampleState
      = .ok none
        { ExampleState with
          error_sexp_ := some (.SExpSymbol "v7")
          error_message_ := some "found use prior to definition" } := by
  have h := ParseValue_symbol ExampleVM 0 ['7'] 7 (by decide)
  constructor
  · obtain ⟨d1, h1, h2, -, h4, -⟩ := h.1 ExampleBoundState 1 true (by decide)
    exact ⟨d1, h1, h2, h4⟩
  · exact h.2 ExampleState (by decide)

/-! ## Calls that leave the binder tables alone -/

theorem SameBinder_refl (d : FlowGraphDeserializer) : SameBinder d d := ⟨rfl, rfl⟩

theorem SameBinder_trans {d d1 d2 : FlowGraphDeserializer} (h1 : SameBinder d d1)
    (h2 : SameBinder d1 d2) : SameBinder d d2 :=
  ⟨h2.1.trans h1.1, h2.2.trans h1.2⟩

theorem KeepsBinder_pure {α : Type} (a : α) : KeepsBinder (pure a : Parse α) := by
  constructor
  intro d b d1 h
  cases h
  exact SameBinder_refl d

theorem KeepsBinder_bind {α β : Type} {x : Parse α} {f : α → Parse β} (hx : KeepsBinder x)
    (hf : ∀ a, KeepsBinder (f a)) : KeepsBinder (x >>= f) := by
  constructor
  intro d b d2 h
  rw [Parse.bind_apply] at h
  cases hxd : x d with
  | ok a d1 =>
    rw [hxd] at h
    exact SameBinder_trans (hx.same d a d1 hxd) ((hf a).same d1 b d2 h)
  | fault e => rw [hxd] at h; cases h
  | outOfFuel => rw [hxd] at h; cases h

theorem KeepsBinder_ite {α : Type} (c : Prop) [Decidable c] {x y : Parse α}
    (hx : KeepsBinder x) (hy : KeepsBinder y) : KeepsBinder (if c then x else y) := by
  split
  · exact hx
  · exact hy

theorem KeepsBinder_fault {α : Type} (e : Fault) : KeepsBinder (Parse.fault e : Parse α) := by
  constructor
  intro d b d1 h
  cases h

theorem KeepsBinder_outOfFuel {α : Type} :
    KeepsBinder (fun _ => Result.outOfFuel : Parse α) := by
  constructor
  intro d b d1 h
  cases h

theorem KeepsBinder_get : KeepsBinder Parse.get := by
  constructor
  intro d b d1 h
  cases h
  exact SameBinder_refl d

theorem KeepsBinder_modify (f : FlowGraphDeserializer → FlowGraphDeserializer)
    (hf : ∀ d, SameBinder d (f d)) : KeepsBinder (Parse.modify f) := by
  constructor
  intro d b d1 h
  cases h
  exact hf d

theorem KeepsBinder_StoreError (sexp : Option SExpression) (message : String) :
    KeepsBinder (StoreError sexp message) :=
  KeepsBinder_modify _ fun _ => ⟨rfl, rfl⟩

theorem KeepsBinder_ReadHandle (handle : Handle) : KeepsBinder (ReadHandle handle) := by
  constructor
  intro d b d1 h
  cases h
  exact SameBinder_refl d

theorem KeepsBinder_WriteHandle (handle : Handle) (raw : RawObject) :
    KeepsBinder (WriteHandle handle raw) :=
  KeepsBinder_modify _ fun _ => by cases handle <;> exact ⟨rfl, rfl⟩

theorem KeepsBinder_NewHandle (raw : RawObject) : KeepsBinder (NewHandle raw) := by
  constructor
  intro d b d1 h
  cases h
  exact ⟨rfl, rfl⟩

theorem KeepsBinder_NewValue (definition : DefinitionPtr) :
    KeepsBinder (NewValue definition) := by
  constructor
  intro d b d1 h
  cases h
  exact ⟨rfl, rfl⟩

theorem KeepsBinder_SetReachingType (val : ValuePtr) (type : CompileType) :
    KeepsBinder (SetReachingType val type) :=
  KeepsBinder_modify _ fun _ => ⟨rfl, rfl⟩

theorem KeepsBinder_ListLength (list : SExpression) :
    KeepsBinder (ListLength list) := by
  unfold ListLength
  repeat' first
    | with_reducible apply KeepsBinder_bind
    | exact KeepsBinder_pure _
    | exact KeepsBinder_fault _
    | apply KeepsBinder_ite
    | intro _
    | dsimp only
    | split

theorem KeepsBinder_ListAt (list : SExpression) (index : Int) :
    KeepsBinder (ListAt list index) := by
  unfold ListAt
  repeat' first
    | with_reducible apply KeepsBinder_bind
    | exact KeepsBinder_pure _
    | exact KeepsBinder_fault _
    | apply KeepsBinder_ite
    | intro _
    | dsimp only
    | split

theorem KeepsBinder_ListTag (list : SExpression) :
    KeepsBinder (ListTag list) := by
  unfold ListTag
  repeat' first
    | with_reducible apply KeepsBinder_bind
    | exact KeepsBinder_pure _
    | exact KeepsBinder_fault _
    | apply KeepsBinder_ite
    | intro _
    | dsimp only
    | split

theorem KeepsBinder_SymbolValue (sym : SExpression) :
    KeepsBinder (SymbolValue sym) := by
  unfold SymbolValue
  repeat' first
    | with_reducible apply KeepsBinder_bind
    | exact KeepsBinder_pure _
    | exact KeepsBinder_fault _
    | apply KeepsBinder_ite
    | intro _
    | dsimp only
    | split

theorem KeepsBinder_IntegerValue (i : SExpression) :
    KeepsBinder (IntegerValue i) := by
  unfold IntegerValue
  repeat' first
    | with_reducible apply KeepsBinder_bind
    | exact KeepsBinder_pure _
    | exact KeepsBinder_fault _
    | apply KeepsBinder_ite
    | intro _
    | dsimp only
    | split

theorem KeepsBinder_BoolValue (b : SExpression) :
    KeepsBinder (BoolValue b) := by
  unfold BoolValue
  repeat' first
    | with_reducible apply KeepsBinder_bind
    | exact KeepsBinder_pure _
    | exact KeepsBinder_fault _
    | apply KeepsBinder_ite
    | intro _
    | dsimp only
    | split

theorem KeepsBinder_ExtraLookupValue (list : SExpression) (key : String) :
    KeepsBinder (ExtraLookupValue list key) := by
  unfold ExtraLookupValue
  repeat' first
    | with_reducible apply KeepsBinder_bind
    | exact KeepsBinder_pure _
    | exact KeepsBinder_fault _
    | apply KeepsBinder_ite
    | intro _
    | dsimp only
    | split

theorem KeepsBinder_BoundConstant (val : ValuePtr) : KeepsBinder (BoundConstant val) := by
  constructor
  intro d b d1 h
  unfold BoundConstant at h
  split at h <;> cases h <;> exact SameBinder_refl d

theorem KeepsBinder_Retrieve (list : Option SExpression) (index : Int) :
    KeepsBinder (Retrieve list index) := by
  unfold Retrieve
  repeat' first
    | with_reducible apply KeepsBinder_bind
    | exact KeepsBinder_pure _
    | exact KeepsBinder_fault _
    | exact KeepsBinder_StoreError _ _
    | apply KeepsBinder_ite
    | intro _
    | dsimp only
    | split

theorem KeepsBinder_RetrieveKey (list : Option SExpression) (key : String) :
    KeepsBinder (RetrieveKey list key) := by
  unfold RetrieveKey
  repeat' first
    | with_reducible apply KeepsBinder_bind
    | exact KeepsBinder_pure _
    | exact KeepsBinder_fault _
    | exact KeepsBinder_StoreError _ _
    | apply KeepsBinder_ite
    | intro _
    | dsimp only
    | split

theorem KeepsBinder_Check (k : SExpKind) (sexp : Option SExpression) :
    KeepsBinder (Check k sexp) := by
  unfold Check
  repeat' first
    | with_reducible apply KeepsBinder_bind
    | exact KeepsBinder_pure _
    | exact KeepsBinder_fault _
    | exact KeepsBinder_StoreError _ _
    | apply KeepsBinder_ite
    | intro _
    | dsimp only
    | split

theorem KeepsBinder_IsTag (sexp : Option SExpression) (label : Option String) :
    KeepsBinder (IsTag sexp label) := by
  unfold IsTag CheckSymbol
  repeat' first
    | with_reducible apply KeepsBinder_bind
    | exact KeepsBinder_pure _
    | exact KeepsBinder_fault _
    | exact KeepsBinder_StoreError _ _
    | exact KeepsBinder_Check _ _
    | apply KeepsBinder_ite
    | intro _
    | dsimp only
    | split

theorem KeepsBinder_CheckTaggedList (sexp : Option SExpression) (label : Option String) :
    KeepsBinder (CheckTaggedList sexp label) := by
  unfold CheckTaggedList CheckList
  repeat' first
    | with_reducible apply KeepsBinder_bind
    | exact KeepsBinder_pure _
    | exact KeepsBinder_fault _
    | exact KeepsBinder_StoreError _ _
    | exact KeepsBinder_Check _ _
    | exact KeepsBinder_Retrieve _ _
    | exact KeepsBinder_RetrieveKey _ _
    | exact KeepsBinder_IsTag _ _
    | apply KeepsBinder_ite
    | intro _
    | dsimp only
    | split

theorem KeepsBinder_ParseSymbolAsPrefixedInt (vm : VM) (sym : Option SExpression) (pfx : Char) :
    KeepsBinder (ParseSymbolAsPrefixedInt vm sym pfx) := by
  unfold ParseSymbolAsPrefixedInt
  repeat' first
    | with_reducible apply KeepsBinder_bind
    | exact KeepsBinder_pure _
    | exact KeepsBinder_fault _
    | exact KeepsBinder_StoreError _ _
    | apply KeepsBinder_ite
    | intro _
    | dsimp only
    | split

theorem KeepsBinder_ParseUse (vm : VM) (sym : Option SExpression) :
    KeepsBinder (ParseUse vm sym) :=
  KeepsBinder_ParseSymbolAsPrefixedInt vm sym _

theorem KeepsBinder_ParseCompileTypeWith (vm : VM) (self : DartValueParser)
    (hself : ∀ sexp out, KeepsBinder (self sexp out)) (sexp : SExpression) :
    KeepsBinder (ParseCompileTypeWith vm self sexp) := by
  unfold ParseCompileTypeWith CheckBool CheckInteger
  repeat' first
    | with_reducible apply KeepsBinder_bind
    | exact KeepsBinder_pure _
    | exact KeepsBinder_fault _
    | exact KeepsBinder_outOfFuel
    | exact KeepsBinder_get
    | exact KeepsBinder_StoreError _ _
    | exact KeepsBinder_ReadHandle _
    | exact KeepsBinder_WriteHandle _ _
    | exact KeepsBinder_NewHandle _
    | exact KeepsBinder_Check _ _
    | exact KeepsBinder_Retrieve _ _
    | exact KeepsBinder_RetrieveKey _ _
    | exact KeepsBinder_IsTag _ _
    | exact KeepsBinder_CheckTaggedList _ _
    | exact KeepsBinder_ExtraLookupValue _ _
    | exact KeepsBinder_ListLength _
    | exact KeepsBinder_ListAt _ _
    | exact KeepsBinder_ListTag _
    | exact KeepsBinder_SymbolValue _
    | exact KeepsBinder_IntegerValue _
    | exact KeepsBinder_BoolValue _
    | exact KeepsBinder_BoundConstant _
    | exact KeepsBinder_NewValue _
    | exact KeepsBinder_SetReachingType _ _
    | exact KeepsBinder_ParseUse _ _
    | exact hself _ _
    | apply KeepsBinder_ite
    | intro _
    | dsimp only
    | split

theorem KeepsBinder_ParseValueWith (vm : VM) (self : DartValueParser)
    (hself : ∀ sexp out, KeepsBinder (self sexp out)) (sexp : Option SExpression) :
    KeepsBinder (ParseValueWith vm self sexp false) := by
  unfold ParseValueWith CheckSymbol
  split
  · exact KeepsBinder_fault _
  simp only [Bool.not_false, if_true]
  repeat' first
    | with_reducible apply KeepsBinder_bind
    | exact KeepsBinder_pure _
    | exact KeepsBinder_fault _
    | exact KeepsBinder_outOfFuel
    | exact KeepsBinder_get
    | exact KeepsBinder_StoreError _ _
    | exact KeepsBinder_ReadHandle _
    | exact KeepsBinder_WriteHandle _ _
    | exact KeepsBinder_NewHandle _
    | exact KeepsBinder_Check _ _
    | exact KeepsBinder_Retrieve _ _
    | exact KeepsBinder_RetrieveKey _ _
    | exact KeepsBinder_IsTag _ _
    | exact KeepsBinder_CheckTaggedList _ _
    | exact KeepsBinder_ExtraLookupValue _ _
    | exact KeepsBinder_ListLength _
    | exact KeepsBinder_ListAt _ _
    | exact KeepsBinder_ListTag _
    | exact KeepsBinder_SymbolValue _
    | exact KeepsBinder_IntegerValue _
    | exact KeepsBinder_BoolValue _
    | exact KeepsBinder_BoundConstant _
    | exact KeepsBinder_NewValue _
    | exact KeepsBinder_SetReachingType _ _
    | exact KeepsBinder_ParseUse _ _
    | exact hself _ _
    | exact KeepsBinder_ParseCompileTypeWith vm self hself _
    | apply KeepsBinder_ite
    | intro _
    | dsimp only
    | split

theorem KeepsBinder_ParseTypeArgumentsLoop (vm : VM) (self : DartValueParser)
    (hself : ∀ sexp out, KeepsBinder (self sexp out)) (list : SExpression)
    (out : Handle) (remaining : Nat) :
    ∀ i, KeepsBinder (ParseTypeArgumentsLoop vm self list out remaining i) := by
  induction remaining with
  | zero => intro i; exact KeepsBinder_pure _
  | succ n ih =>
    intro i
    unfold ParseTypeArgumentsLoop
    repeat' first
      | with_reducible apply KeepsBinder_bind
      | exact KeepsBinder_pure _
      | exact KeepsBinder_fault _
      | exact KeepsBinder_outOfFuel
      | exact KeepsBinder_get
      | exact KeepsBinder_StoreError _ _
      | exact KeepsBinder_ReadHandle _
      | exact KeepsBinder_WriteHandle _ _
      | exact KeepsBinder_NewHandle _
      | exact KeepsBinder_Check _ _
      | exact KeepsBinder_Retrieve _ _
      | exact KeepsBinder_RetrieveKey _ _
      | exact KeepsBinder_IsTag _ _
      | exact KeepsBinder_CheckTaggedList _ _
      | exact KeepsBinder_ExtraLookupValue _ _
      | exact KeepsBinder_ListLength _
      | exact KeepsBinder_ListAt _ _
      | exact KeepsBinder_ListTag _
      | exact KeepsBinder_SymbolValue _
      | exact KeepsBinder_IntegerValue _
      | exact KeepsBinder_BoolValue _
      | exact KeepsBinder_BoundConstant _
      | exact KeepsBinder_NewValue _
      | exact KeepsBinder_SetReachingType _ _
      | exact KeepsBinder_ParseUse _ _
      | exact hself _ _
      | exact ih _
      | apply KeepsBinder_ite
      | intro _
      | dsimp only
      | split

theorem KeepsBinder_ParseImmutableListLoop (vm : VM) (self : DartValueParser)
    (hself : ∀ sexp out, KeepsBinder (self sexp out)) (list : SExpression)
    (arr : Handle) (remaining : Nat) :
    ∀ i, KeepsBinder (ParseImmutableListLoop vm self list arr remaining i) := by
  induction remaining with
  | zero => intro i; exact KeepsBinder_pure _
  | succ n ih =>
    intro i
    unfold ParseImmutableListLoop
    repeat' first
      | with_reducible apply KeepsBinder_bind
      | exact KeepsBinder_pure _
      | exact KeepsBinder_fault _
      | exact KeepsBinder_outOfFuel
      | exact KeepsBinder_get
      | exact KeepsBinder_StoreError _ _
      | exact KeepsBinder_ReadHandle _
      | exact KeepsBinder_WriteHandle _ _
      | exact KeepsBinder_NewHandle _
      | exact KeepsBinder_Check _ _
      | exact KeepsBinder_Retrieve _ _
      | exact KeepsBinder_RetrieveKey _ _
      | exact KeepsBinder_IsTag _ _
      | exact KeepsBinder_CheckTaggedList _ _
      | exact KeepsBinder_ExtraLookupValue _ _
      | exact KeepsBinder_ListLength _
      | exact KeepsBinder_ListAt _ _
      | exact KeepsBinder_ListTag _
      | exact KeepsBinder_SymbolValue _
      | exact KeepsBinder_IntegerValue _
      | exact KeepsBinder_BoolValue _
      | exact KeepsBinder_BoundConstant _
      | exact KeepsBinder_NewValue _
      | exact KeepsBinder_SetReachingType _ _
      | exact KeepsBinder_ParseUse _ _
      | exact hself _ _
      | exact ih _
      | apply KeepsBinder_ite
      | intro _
      | dsimp only
      | split

theorem KeepsBinder_ParseInstanceFieldsLoop (vm : VM) (self : DartValueParser)
    (hself : ∀ sexp out, KeepsBinder (self sexp out)) (list : SExpression)
    (out : Handle) (entries : List (String × Option SExpression)) :
    KeepsBinder (ParseInstanceFieldsLoop vm self list out entries) := by
  induction entries with
  | nil => exact KeepsBinder_pure _
  | cons entry rest ih =>
    obtain ⟨key, value⟩ := entry
    unfold ParseInstanceFieldsLoop
    repeat' first
      | with_reducible apply KeepsBinder_bind
      | exact KeepsBinder_pure _
      | exact KeepsBinder_fault _
      | exact KeepsBinder_outOfFuel
      | exact KeepsBinder_get
      | exact KeepsBinder_StoreError _ _
      | exact KeepsBinder_ReadHandle _
      | exact KeepsBinder_WriteHandle _ _
      | exact KeepsBinder_NewHandle _
      | exact KeepsBinder_Check _ _
      | exact KeepsBinder_Retrieve _ _
      | exact KeepsBinder_RetrieveKey _ _
      | exact KeepsBinder_IsTag _ _
      | exact KeepsBinder_CheckTaggedList _ _
      | exact KeepsBinder_ExtraLookupValue _ _
      | exact KeepsBinder_ListLength _
      | exact KeepsBinder_ListAt _ _
      | exact KeepsBinder_ListTag _
      | exact KeepsBinder_SymbolValue _
      | exact KeepsBinder_IntegerValue _
      | exact KeepsBinder_BoolValue _
      | exact KeepsBinder_BoundConstant _
      | exact KeepsBinder_NewValue _
      | exact KeepsBinder_SetReachingType _ _
      | exact KeepsBinder_ParseUse _ _
      | exact hself _ _
      | exact ih
      | apply KeepsBinder_ite
      | apply KeepsBinder_modify
      | intro _
      | dsimp only
      | split
      | exact ⟨rfl, rfl⟩

theorem KeepsBinder_ParseInstanceWith (vm : VM) (self : DartValueParser)
    (hself : ∀ sexp out, KeepsBinder (self sexp out)) (list : SExpression)
    (out : Handle) : KeepsBinder (ParseInstanceWith vm self list out) := by
  unfold ParseInstanceWith CheckInteger
  repeat' first
    | with_reducible apply KeepsBinder_bind
    | exact KeepsBinder_pure _
    | exact KeepsBinder_fault _
    | exact KeepsBinder_outOfFuel
    | exact KeepsBinder_get
    | exact KeepsBinder_StoreError _ _
    | exact KeepsBinder_ReadHandle _
    | exact KeepsBinder_WriteHandle _ _
    | exact KeepsBinder_NewHandle _
    | exact KeepsBinder_Check _ _
    | exact KeepsBinder_Retrieve _ _
    | exact KeepsBinder_RetrieveKey _ _
    | exact KeepsBinder_IsTag _ _
    | exact KeepsBinder_CheckTaggedList _ _
    | exact KeepsBinder_ExtraLookupValue _ _
    | exact KeepsBinder_ListLength _
    | exact KeepsBinder_ListAt _ _
    | exact KeepsBinder_ListTag _
    | exact KeepsBinder_SymbolValue _
    | exact KeepsBinder_IntegerValue _
    | exact KeepsBinder_BoolValue _
    | exact KeepsBinder_BoundConstant _
    | exact KeepsBinder_NewValue _
    | exact KeepsBinder_SetReachingType _ _
    | exact KeepsBinder_ParseUse _ _
    | exact hself _ _
    | exact KeepsBinder_ParseInstanceFieldsLoop vm self hself _ _ _
    | apply KeepsBinder_ite
    | apply KeepsBinder_modify
    | intro _
    | dsimp only
    | split
    | exact ⟨rfl, rfl⟩

set_option maxHeartbeats 1000000 in
theorem KeepsBinder_ParseCanonicalNameFunctions (vm : VM) (sym : Option SExpression)
    (name : List Char) (obj : Handle) (fuel : Nat) :
    ∀ func_start, KeepsBinder (ParseCanonicalNameFunctions vm sym name obj fuel func_start) := by
  induction fuel with
  | zero => intro func_start; exact KeepsBinder_outOfFuel
  | succ n ih =>
    intro func_start
    unfold ParseCanonicalNameFunctions
    repeat' first
      | with_reducible apply KeepsBinder_bind
      | exact KeepsBinder_pure _
      | exact KeepsBinder_fault _
      | exact KeepsBinder_outOfFuel
      | exact KeepsBinder_get
      | exact KeepsBinder_StoreError _ _
      | exact KeepsBinder_ReadHandle _
      | exact KeepsBinder_WriteHandle _ _
      | exact KeepsBinder_NewHandle _
      | exact ih _
      | apply KeepsBinder_ite
      | apply KeepsBinder_modify
      | intro _
      | dsimp only
      | split
      | exact ⟨rfl, rfl⟩

set_option maxHeartbeats 1000000 in
theorem KeepsBinder_ParseCanonicalName (vm : VM) (sym : Option SExpression) (obj : Handle) :
    KeepsBinder (ParseCanonicalName vm sym obj) := by
  unfold ParseCanonicalName
  repeat' first
    | with_reducible apply KeepsBinder_bind
    | exact KeepsBinder_pure _
    | exact KeepsBinder_fault _
    | exact KeepsBinder_outOfFuel
    | exact KeepsBinder_get
    | exact KeepsBinder_StoreError _ _
    | exact KeepsBinder_ReadHandle _
    | exact KeepsBinder_WriteHandle _ _
    | exact KeepsBinder_NewHandle _
    | exact KeepsBinder_ParseCanonicalNameFunctions _ _ _ _ _ _
    | apply KeepsBinder_ite
    | apply KeepsBinder_modify
    | intro _
    | dsimp only
    | split
    | exact ⟨rfl, rfl⟩

theorem KeepsBinder_ParseDartValueFinish (vm : VM) (sexp : SExpression) (out : Handle) :
    KeepsBinder (ParseDartValueFinish vm sexp out) := by
  unfold ParseDartValueFinish
  repeat' first
    | with_reducible apply KeepsBinder_bind
    | exact KeepsBinder_pure _
    | exact KeepsBinder_fault _
    | exact KeepsBinder_outOfFuel
    | exact KeepsBinder_get
    | exact KeepsBinder_StoreError _ _
    | exact KeepsBinder_ReadHandle _
    | exact KeepsBinder_WriteHandle _ _
    | exact KeepsBinder_NewHandle _
    | apply KeepsBinder_ite
    | intro _
    | dsimp only
    | split

set_option maxHeartbeats 4000000 in
theorem KeepsBinder_ParseDartValueWith (vm : VM) (self : DartValueParser)
    (hself : ∀ sexp out, KeepsBinder (self sexp out)) (sexp : Option SExpression)
    (out : Handle) : KeepsBinder (ParseDartValueWith vm self sexp out) := by
  unfold ParseDartValueWith CheckSymbol CheckInteger
  repeat' first
    | with_reducible apply KeepsBinder_bind
    | exact KeepsBinder_pure _
    | exact KeepsBinder_fault _
    | exact KeepsBinder_outOfFuel
    | exact KeepsBinder_get
    | exact KeepsBinder_StoreError _ _
    | exact KeepsBinder_ReadHandle _
    | exact KeepsBinder_WriteHandle _ _
    | exact KeepsBinder_NewHandle _
    | exact KeepsBinder_Check _ _
    | exact KeepsBinder_Retrieve _ _
    | exact KeepsBinder_RetrieveKey _ _
    | exact KeepsBinder_IsTag _ _
    | exact KeepsBinder_CheckTaggedList _ _
    | exact KeepsBinder_ExtraLookupValue _ _
    | exact KeepsBinder_ListLength _
    | exact KeepsBinder_ListAt _ _
    | exact KeepsBinder_ListTag _
    | exact KeepsBinder_SymbolValue _
    | exact KeepsBinder_IntegerValue _
    | exact KeepsBinder_BoolValue _
    | exact KeepsBinder_BoundConstant _
    | exact KeepsBinder_NewValue _
    | exact KeepsBinder_SetReachingType _ _
    | exact KeepsBinder_ParseUse _ _
    | exact hself _ _
    | exact KeepsBinder_ParseValueWith vm self hself _
    | exact KeepsBinder_ParseTypeArgumentsLoop vm self hself _ _ _ _
    | exact KeepsBinder_ParseImmutableListLoop vm self hself _ _ _ _
    | exact KeepsBinder_ParseInstanceWith vm self hself _ _
    | exact KeepsBinder_ParseCanonicalName _ _ _
    | exact KeepsBinder_ParseDartValueFinish _ _ _
    | apply KeepsBinder_ite
    | apply KeepsBinder_modify
    | intro _
    | dsimp only
    | split
    | exact ⟨rfl, rfl⟩

theorem KeepsBinder_ParseDartValue (vm : VM) (fuel : Nat) :
    ∀ sexp out, KeepsBinder (ParseDartValue vm fuel sexp out) := by
  induction fuel with
  | zero =>
    intro sexp out
    cases sexp
    · exact KeepsBinder_pure _
    · exact KeepsBinder_outOfFuel
  | succ n ih =>
    intro sexp out
    exact KeepsBinder_ParseDartValueWith vm _ ih sexp out

theorem KeepsBinder_ParseCompileType (vm : VM) (fuel : Nat) (sexp : SExpression) :
    KeepsBinder (ParseCompileType vm fuel sexp) :=
  KeepsBinder_ParseCompileTypeWith vm _ (KeepsBinder_ParseDartValue vm fuel) sexp

/-! ## Integer maps -/

theorem IntMap.LookupValue_Remove_self {V : Type} (m : IntMap V) (key : Int) :
    IntMap.LookupValue (IntMap.Remove m key) key = none := by
  induction m with
  | nil => rfl
  | cons kv rest ih =>
    obtain ⟨k, v⟩ := kv
    by_cases hk : k = key
    · simpa [IntMap.Remove, List.filter, hk] using ih
    · simpa [IntMap.Remove, List.filter, hk, IntMap.LookupValue] using ih

theorem IntMap.LookupValue_Insert_self {V : Type} (m : IntMap V) (key : Int) (value : V) :
    IntMap.LookupValue (IntMap.Insert m key value) key = some value := by
  simp [IntMap.Insert, IntMap.LookupValue]

theorem IntMap.LookupValue_Assign_self {V : Type} (m : IntMap V) (key : Int) (value : V)
    (h : (IntMap.LookupValue m key).isSome = true) :
    IntMap.LookupValue (IntMap.Assign m key value) key = some value := by
  induction m with
  | nil => simp [IntMap.LookupValue] at h
  | cons kv rest ih =>
    obtain ⟨k, v⟩ := kv
    by_cases hk : k = key
    · simp [IntMap.Assign, IntMap.LookupValue, hk]
    · simp only [IntMap.LookupValue, hk, if_false] at h
      simpa [IntMap.Assign, IntMap.LookupValue, hk] using ih h

/-! ## Pending values -/

theorem BindAll_spec (definition : DefinitionPtr) (value_list : List ValuePtr) :
    ∀ d : FlowGraphDeserializer, ∃ d1, BindAll definition value_list d = .ok () d1 ∧
      (∀ v ∈ value_list, (d1.zone_values v).definition_ = definition) ∧
      (∀ v, (d.zone_values v).definition_ = definition →
        (d1.zone_values v).definition_ = definition) ∧
      d1.values_map_ = d.values_map_ ∧ d1.definition_map_ = d.definition_map_ := by
  induction value_list with
  | nil =>
    intro d
    exact ⟨d, rfl, by simp, fun _ h => h, rfl, rfl⟩
  | cons val rest ih =>
    intro d
    obtain ⟨d1, h1, h2, h3, h4, h5⟩ := ih
      { d with
        zone_values :=
          Function.update d.zone_values val { d.zone_values val with definition_ := definition } }
    refine ⟨d1, ?_, ?_, ?_, h4, h5⟩
    · simpa [BindAll, BindTo] using h1
    · intro v hv
      rcases List.mem_cons.mp hv with hv | hv
      · subst hv
        exact h3 v (by simp)
      · exact h2 v hv
    · intro v hv
      apply h3
      by_cases hvv : v = val
      · subst hvv
        simp
      · simpa [Function.update, hvv] using hv

theorem FixPendingValues_spec (index : Int) (definition : DefinitionPtr)
    (d : FlowGraphDeserializer) :
    ∃ d1, FixPendingValues index definition d = .ok () d1 ∧
      (∀ v ∈ (d.values_map_.LookupValue index).getD [],
        (d1.zone_values v).definition_ = definition) ∧
      d1.values_map_.LookupValue index = none ∧ d1.definition_map_ = d.definition_map_ := by
  cases hl : d.values_map_.LookupValue index with
  | none =>
    refine ⟨d, ?_, by simp, hl, rfl⟩
    simp [FixPendingValues, hl]
  | some value_list =>
    obtain ⟨d1, h1, h2, -, h4, h5⟩ := BindAll_spec definition value_list d
    refine ⟨{ d1 with values_map_ := d1.values_map_.Remove index }, ?_, ?_, ?_, h5⟩
    · simp [FixPendingValues, hl, h1]
    · simpa using h2
    · exact IntMap.LookupValue_Remove_self _ _

/-! ## Binding a definition -/

theorem Parse.pure_bind {α β : Type} (a : α) (f : α → Parse β) : (pure a >>= f) = f a := by
  funext d
  rfl

theorem Binds_bind {α : Type} {index : Int} {definition : DefinitionPtr}
    {d0 : FlowGraphDeserializer} {x : Parse α} {f : α → Parse Bool} (hx : KeepsBinder x)
    (hf : ∀ a, Binds index definition d0 (f a)) : Binds index definition d0 (x >>= f) := by
  constructor
  intro d hd d2 h
  rw [Parse.bind_apply] at h
  cases hxd : x d with
  | ok a d1 =>
    rw [hxd] at h
    exact (hf a).post d1 (SameBinder_trans hd (hx.same d a d1 hxd)) d2 h
  | fault e => rw [hxd] at h; cases h
  | outOfFuel => rw [hxd] at h; cases h

theorem Binds_ite {index : Int} {definition : DefinitionPtr} {d0 : FlowGraphDeserializer}
    (c : Prop) [Decidable c] {x y : Parse Bool} (hx : Binds index definition d0 x)
    (hy : Binds index definition d0 y) : Binds index definition d0 (if c then x else y) := by
  split
  · exact hx
  · exact hy

theorem Binds_false (index : Int) (definition : DefinitionPtr) (d0 : FlowGraphDeserializer) :
    Binds index definition d0 (pure false) := by
  constructor
  intro d _ d1 h
  cases h

theorem Binds_FixPendingValues (index : Int) (definition : DefinitionPtr)
    (d0 : FlowGraphDeserializer) :
    Binds index definition d0
      ((Parse.modify fun d =>
          { d with definition_map_ := d.definition_map_.Insert index definition }) >>= fun _ =>
        FixPendingValues index definition >>= fun _ => pure true) := by
  constructor
  intro d hd d1 h
  obtain ⟨d2, h1, h2, h3, h4⟩ := FixPendingValues_spec index definition
    { d with definition_map_ := d.definition_map_.Insert index definition }
  simp only [Parse.bind_apply, Parse.modify_apply, h1, Parse.pure_apply] at h
  cases h
  refine ⟨?_, h3, ?_⟩
  · intro v hv
    apply h2 v
    simpa [hd.1] using hv
  · rw [h4]
    exact IntMap.LookupValue_Insert_self _ _ _

theorem ParseDefinitionWithParsedBody_binds (vm : VM) (fuel : Nat) (digits : List Char)
    (i : Int) (hindex : vm.StringToInt64 (String.mk digits) = some i)
    (tag : Option SExpression) (rest : List (Option SExpression))
    (extra_info : List (String × Option SExpression)) (definition : DefinitionPtr)
    (d d1 : FlowGraphDeserializer)
    (h : ParseDefinitionWithParsedBody vm fuel
        (some (.SExpList (tag :: some (.SExpSymbol (String.mk ('v' :: digits))) :: rest)
          extra_info)) definition d = .ok true d1) :
    Resolved i definition d d1 := by
  have hlen : ¬ ((rest.length : Int) + 1 + 1 ≤ 1) := by omega
  simp [ParseDefinitionWithParsedBody, Retrieve, CheckSymbol, Check, SExpression.Is,
    SExpression.As, ParseSSATemp, ParseSymbolAsPrefixedInt, hindex, hlen,
    ExtraLookupValue, Parse.pure_bind] at h
  refine Binds.post ?_ d (SameBinder_refl d) d1 h
  repeat' first
    | exact Binds_false _ _ _
    | exact Binds_FixPendingValues _ _ _
    | exact KeepsBinder_get
    | exact KeepsBinder_StoreError _ _
    | exact KeepsBinder_CheckTaggedList _ _
    | exact KeepsBinder_ParseCompileType _ _ _
    | apply Binds_bind
    | apply Binds_ite
    | apply KeepsBinder_modify
    | intro _
    | dsimp only
    | split
    | exact ⟨rfl, rfl⟩

/-! ## Forward references -/

/-- The call `ParseValue` with `allow_pending` on a symbol `v<i>` whose index
is not bound in the definition map. -/
theorem ParseValue_symbol_pending (vm : VM) (fuel : Nat) (digits : List Char) (i : Int)
    (hindex : vm.StringToInt64 (String.mk digits) = some i) (d : FlowGraphDeserializer)
    (flow_graph : FlowGraph) (hgraph : d.flow_graph_ = some flow_graph)
    (hdef : d.definition_map_.LookupValue i = none) :
    ParseValue vm fuel (some (.SExpSymbol (String.mk ('v' :: digits)))) true d
      = .ok (some d.zone_values_length)
        { d with
          zone_values :=
            Function.update d.zone_values d.zone_values_length
              { definition_ := flow_graph.constant_null_, reaching_type_ := none }
          zone_values_length := d.zone_values_length + 1
          values_map_ :=
            match d.values_map_.LookupValue i with
            | none => d.values_map_.Insert i [d.zone_values_length]
            | some value_list => d.values_map_.Assign i (value_list ++ [d.zone_values_length]) } := by
  cases hl : d.values_map_.LookupValue i <;>
    simp [ParseValue, ParseValueWith, SExpression.As, SExpression.Is, ParseUse, ParseSSATemp,
      ParseSymbolAsPrefixedInt, hindex, hdef, NewValue, AddNewPendingValue, AddPendingValue,
      hgraph, IntMap.HasKey, hl]

/-- C10: let the symbol `v<i>` name the SSA index `i`. While the definition map
holds nothing at `i`, every call of `ParseValue` with `allow_pending` on the
symbol returns a newly allocated `Value` bound to the null constant of the flow
graph and appends it to the pending list of `i`. Whenever a call of
`ParseDefinitionWithParsedBody` on a form named `v<i>` returns `true`, every
value that was on the pending list of `i` is bound to the definition passed,
the pending table has no entry for `i` any more, and the definition map holds
the definition at `i`. -/
theorem Forward_reference_resolution (vm : VM) (fuel : Nat) (digits : List Char) (i : Int)
    (hindex : vm.StringToInt64 (String.mk digits) = some i) :
    (∀ (d : FlowGraphDeserializer) (flow_graph : FlowGraph),
      d.flow_graph_ = some flow_graph → d.definition_map_.LookupValue i = none →
      ∃ d1, ParseValue vm fuel (some (.SExpSymbol (String.mk ('v' :: digits)))) true d
          = .ok (some d.zone_values_length) d1 ∧
        d1.zone_values d.zone_values_length
          = { definition_ := flow_graph.constant_null_, reaching_type_ := none } ∧
        d1.zone_values_length = d.zone_values_length + 1 ∧
        d1.values_map_.LookupValue i
          = some ((d.values_map_.LookupValue i).getD [] ++ [d.zone_values_length]) ∧
        d1.definition_map_ = d.definition_map_) ∧
    (∀ (tag : Option SExpression) (rest : List (Option SExpression))
      (extra_info : List (String × Option SExpression)) (definition : DefinitionPtr)
      (d d1 : FlowGraphDeserializer),
      ParseDefinitionWithParsedBody vm fuel
          (some (.SExpList (tag :: some (.SExpSymbol (String.mk ('v' :: digits))) :: rest)
            extra_info)) definition d = .ok true d1 →
      (∀ v ∈ (d.values_map_.LookupValue i).getD [],
        (d1.zone_values v).definition_ = definition) ∧
      d1.values_map_.LookupValue i = none ∧
      d1.definition_map_.LookupValue i = some definition) := by
  constructor
  · intro d flow_graph hgraph hdef
    refine ⟨_, ParseValue_symbol_pending vm fuel digits i hindex d flow_graph hgraph hdef,
      by simp, rfl, ?_, rfl⟩
    cases hl : d.values_map_.LookupValue i with
    | none => simp [IntMap.LookupValue_Insert_self]
    | some value_list =>
      simp only [Option.getD_some]
      exact IntMap.LookupValue_Assign_self _ _ _ (by simp [hl])
  · intro tag rest extra_info definition d d1 h
    exact ParseDefinitionWithParsedBody_binds vm fuel digits i hindex tag rest extra_info
      definition d d1 h

/-- C10, witness: a first use of `v7` in a deserializer with a flow graph makes
value 0 a placeholder on the pending list of 7; the form `(def v7 ...)` then
binds instruction 1 to `v7`, rebinds value 0 to it and empties the list. -/
theorem Forward_reference_resolution_witness :
    (∃ d1, ParseValue ExampleVM 0 (some (.SExpSymbol "v7")) true ExampleGraphState
        = .ok (some 0) d1 ∧
      d1.zone_values 0 = { definition_ := 0, reaching_type_ := none } ∧
      d1.values_map_.LookupValue 7 = some [0]) ∧
    (∃ d1, ParseDefinitionWithParsedBody ExampleVM 0 (some ExampleDefinition) 1
        ExamplePendingState = .ok true d1 ∧
      (d1.zone_values 0).definition_ = 1 ∧
      d1.values_map_.LookupValue 7 = none ∧
      d1.definition_map_.LookupValue 7 = some 1) := by
  have h := Forward_reference_resolution ExampleVM 0 ['7'] 7 (by decide)
  constructor
  · obtain ⟨d1, h1, h2, -, h4, -⟩ := h.1 ExampleGraphState { constant_null_ := 0 } rfl
      (by decide)
    exact ⟨d1, h1, h2, h4⟩
  · have hrun : ∃ d1, ParseDefinitionWithParsedBody ExampleVM 0 (some ExampleDefinition) 1
        ExamplePendingState = .ok true d1 := ⟨_, rfl⟩
    obtain ⟨d1, h1⟩ := hrun
    obtain ⟨h2, h3, h4⟩ := h.2 _ _ _ 1 ExamplePendingState d1 h1
    exact ⟨d1, h1, h2 0 (by decide), h3, h4⟩

/-! ## Write-once SSA indices -/

/-- C11: if the definition map already holds a definition at `i`,
`ParseDefinitionWithParsedBody` on a form named `v<i>` returns `false`, records
the error `multiple definitions for the same SSA index` located at the form,
and changes nothing else: the definition map (with the definition stored at
`i`), the pending table and the maximum SSA index are as before. -/
theorem ParseDefinitionWithParsedBody_write_once (vm : VM) (fuel : Nat) (digits : List Char)
    (i : Int) (tag : Option SExpression) (rest : List (Option SExpression))
    (extra_info : List (String × Option SExpression)) (definition : DefinitionPtr)
    (d : FlowGraphDeserializer)
    (hindex : vm.StringToInt64 (String.mk digits) = some i)
    (hbound : d.definition_map_.HasKey i = true) :
    ∃ d1, ParseDefinitionWithParsedBody vm fuel
        (some (.SExpList (tag :: some (.SExpSymbol (String.mk ('v' :: digits))) :: rest)
          extra_info)) definition d = .ok false d1 ∧
      d1.error_message_ = some "multiple definitions for the same SSA index" ∧
      d1.error_sexp_ = some (.SExpList
        (tag :: some (.SExpSymbol (String.mk ('v' :: digits))) :: rest) extra_info) ∧
      d1.definition_map_ = d.definition_map_ ∧
      d1.definition_map_.LookupValue i = d.definition_map_.LookupValue i ∧
      d1.values_map_ = d.values_map_ ∧ d1.max_ssa_index_ = d.max_ssa_index_ ∧
      d1.ssa_temp_index_ = d.ssa_temp_index_ ∧ d1.zone_values = d.zone_values := by
  have hlen : ¬ ((rest.length : Int) + 1 + 1 ≤ 1) := by omega
  refine ⟨{ d with
      error_sexp_ := some (.SExpList
        (tag :: some (.SExpSymbol (String.mk ('v' :: digits))) :: rest) extra_info)
      error_message_ := some "multiple definitions for the same SSA index" },
    ?_, rfl, rfl, rfl, rfl, rfl, rfl, rfl, rfl⟩
  simp [ParseDefinitionWithParsedBody, Retrieve, CheckSymbol, Check, SExpression.Is,
    SExpression.As, ParseSSATemp, ParseSymbolAsPrefixedInt, hindex, hlen, hbound]

/-- C11, witness: a second `(def v7 ...)` in a deserializer where `v7` is bound
to instruction 1. -/
theorem ParseDefinitionWithParsedBody_write_once_witness :
    ∃ d1, ParseDefinitionWithParsedBody ExampleVM 0 (some ExampleDefinition) 0
        ExampleBoundState = .ok false d1 ∧
      d1.error_message_ = some "multiple definitions for the same SSA index" ∧
      d1.definition_map_.LookupValue 7 = some 1 := by
  obtain ⟨d1, h1, h2, -, h4, -⟩ :=
    ParseDefinitionWithParsedBody_write_once ExampleVM 0 ['7'] 7 (some (.SExpSymbol "def"))
      [some (.SExpList [some (.SExpSymbol "Constant"), some (.SExpInteger 3)] [])] [] 0
      ExampleBoundState (by decide) (by decide)
  exact ⟨d1, h1, h2, by rw [h4]; decide⟩

/-! ## Pushed-argument stacks -/

/-- C19: with `S` the stack of the current block and `n` its length,
`FetchPushedArguments(list, len)` with `0 <= len <= n` returns the last `len`
entries of `S` in stack order and truncates `S` to its first `n - len` entries,
nothing else of the deserializer changing, so that the remaining stack followed
by the returned array is `S`; with `len > n` it returns null and records the
error `expected <len> pushed arguments, only <n> on stack` located at `list`,
the stack and all else unchanged. -/
theorem FetchPushedArguments_spec (list : Option SExpression) (len : Int) (stack : StackPtr)
    (d : FlowGraphDeserializer) (hstack : CurrentStack d = .ok stack d) :
    (0 ≤ len → len ≤ (d.zone_stacks stack).length →
      FetchPushedArguments list len d =
          .ok (some ((d.zone_stacks stack).drop ((d.zone_stacks stack).length - len.toNat)))
            { d with
              zone_stacks := Function.update d.zone_stacks stack
                ((d.zone_stacks stack).take ((d.zone_stacks stack).length - len.toNat)) } ∧
        ((d.zone_stacks stack).drop ((d.zone_stacks stack).length - len.toNat)).length = len ∧
        ((d.zone_stacks stack).take ((d.zone_stacks stack).length - len.toNat)).length
          = (d.zone_stacks stack).length - len ∧
        (d.zone_stacks stack).take ((d.zone_stacks stack).length - len.toNat)
          ++ (d.zone_stacks stack).drop ((d.zone_stacks stack).length - len.toNat)
          = d.zone_stacks stack) ∧
    ((d.zone_stacks stack).length < len →
      FetchPushedArguments list len d =
        .ok none
          { d with
            error_sexp_ := list
            error_message_ := some
              ("expected " ++ toString len ++ " pushed arguments, only "
                ++ toString ((d.zone_stacks stack).length : Int) ++ " on stack") }) := by
  constructor
  · intro h0 hle
    obtain ⟨n, rfl⟩ := Int.eq_ofNat_of_zero_le h0
    have hle2 : n ≤ (d.zone_stacks stack).length := by exact_mod_cast hle
    have hnot : ¬ ((d.zone_stacks stack).length : Int) < (n : Int) := by omega
    have hnn : ¬ ((n : Int) < 0) := by omega
    have hsub : (((d.zone_stacks stack).length : Int) - (n : Int)).toNat
        = (d.zone_stacks stack).length - n := by omega
    refine ⟨?_, ?_, ?_, ?_⟩
    · have hnot2 : ¬ (d.zone_stacks stack).length < n := by omega
      simp [FetchPushedArguments, hstack, StackContents, hnot, hnn, hsub, hnot2]
    · simp [List.length_drop]; omega
    · simp [List.length_take]; omega
    · exact List.take_append_drop _ _
  · intro hlt
    simp [FetchPushedArguments, hstack, StackContents, hlt]

/-- C19, witness: the current stack is `[6, 7]`; fetching one argument returns
`[7]` and leaves `[6]`, fetching three fails. -/
theorem FetchPushedArguments_spec_witness :
    CurrentStack ExampleStackState = .ok 1 ExampleStackState ∧
      FetchPushedArguments (some ExampleGoto) 1 ExampleStackState =
        .ok (some [7])
          { ExampleStackState with
            zone_stacks := Function.update ExampleStackState.zone_stacks 1 [6] } ∧
      FetchPushedArguments (some ExampleGoto) 3 ExampleStackState =
        .ok none
          { ExampleStackState with
            error_sexp_ := some ExampleGoto
            error_message_ := some "expected 3 pushed arguments, only 2 on stack" } :=
  ⟨rfl,
    ((FetchPushedArguments_spec (some ExampleGoto) 1 1 ExampleStackState rfl).1
      (by decide) (by decide)).1,
    (FetchPushedArguments_spec (some ExampleGoto) 3 1 ExampleStackState rfl).2 (by decide)⟩

/-! ## Stack consistency at merge points -/

/-- C18, as the code has it: the loop of `AreStacksConsistent` runs
`succ_block->SuccessorCount()` times, not `PredecessorCount()` times. For a
successor whose own successor count is 0, as it is for a block entry, the call
returns `true` and records nothing, whatever the stacks retained for the
predecessors linked to it are. -/
theorem AreStacksConsistent_compares_no_predecessor (list : SExpression)
    (curr_stack : StackPtr) (succ_block : DefinitionPtr) (d : FlowGraphDeserializer)
    (hcount : SuccessorCount succ_block d = .ok 0 d) :
    AreStacksConsistent list curr_stack succ_block d = .ok true d := by
  simp [AreStacksConsistent, StackContents, hcount, AreStacksConsistentLoop]

/-- C18, failing input: the join `B3` has the predecessor `B1`, whose retained
stack `[7, 6]` has the length of the current stack `[6, 7]` and differs from it
at both positions; the check returns `true` and records no error. -/
theorem AreStacksConsistent_compares_no_predecessor_witness :
    SuccessorCount 3 ExampleStackState = .ok 0 ExampleStackState ∧
      PredecessorAt 3 0 ExampleStackState = .ok 1 ExampleStackState ∧
      block_id 1 ExampleStackState = .ok 1 ExampleStackState ∧
      ExampleStackState.pushed_stack_map_.LookupValue 1 = some 0 ∧
      ExampleStackState.zone_stacks 0 = [7, 6] ∧
      ExampleStackState.zone_stacks 1 = [6, 7] ∧
      AreStacksConsistent ExampleGoto 1 3 ExampleStackState = .ok true ExampleStackState :=
  ⟨rfl, rfl, rfl, rfl, rfl, rfl,
    AreStacksConsistent_compares_no_predecessor ExampleGoto 1 3 ExampleStackState rfl⟩

/-! ## Back-references to pushed arguments -/

/-- The call `ParseValue(sexp, false)` on a symbol `a...` fails: the symbol
does not start with `v`. -/
theorem ParseValue_pushed_argument_symbol (vm : VM) (fuel : Nat) (digits : List Char)
    (d : FlowGraphDeserializer) :
    ParseValue vm fuel (some (.SExpSymbol (String.mk ('a' :: digits)))) false d =
      .ok none
        { d with
          error_sexp_ := some (.SExpSymbol (String.mk ('a' :: digits)))
          error_message_ := some ("expected symbol starting with " ++ Quoted 'v') } := by
  simp [ParseValue, ParseValueWith, SExpression.As, SExpression.Is, ParseUse, ParseSSATemp,
    ParseSymbolAsPrefixedInt]

/-- C20, as the code has it: an iteration of the loop of `ParseEnvironment` on
a slot `a<k>`, with `n` the length of the stack of the current block. If
`n <= k` the call returns null with the error `out of range index for pushed
argument` located at the slot and the stack is not indexed. If `0 <= k < n` the
slot becomes a new `Value` on the push instruction at position `k` of the stack
and the loop goes on. If `k < 0` the test `index >= stack->length()` lets the
index through and `stack->At(index)` reads outside the stack. -/
theorem ParseEnvironment_pushed_argument (vm : VM) (fuel : Nat) (digits : List Char)
    (k : Int) (contents : List (Option SExpression))
    (extra_info : List (String × Option SExpression)) (stack : StackPtr) (remaining i : Nat)
    (values : List ValuePtr) (d : FlowGraphDeserializer)
    (hindex : vm.StringToInt64 (String.mk digits) = some k)
    (hslot : contents[i]? = some (some (.SExpSymbol (String.mk ('a' :: digits))))) :
    ((d.zone_stacks stack).length ≤ k →
      ParseEnvironmentLoop vm fuel (.SExpList contents extra_info) stack (remaining + 1) i values d =
        .ok none
          { d with
            error_sexp_ := some (.SExpSymbol (String.mk ('a' :: digits)))
            error_message_ := some "out of range index for pushed argument" }) ∧
    (k < 0 →
      ParseEnvironmentLoop vm fuel (.SExpList contents extra_info) stack (remaining + 1) i values d =
        .fault .outOfBounds) ∧
    (0 ≤ k → k < (d.zone_stacks stack).length →
      ParseEnvironmentLoop vm fuel (.SExpList contents extra_info) stack (remaining + 1) i values d =
        ParseEnvironmentLoop vm fuel (.SExpList contents extra_info) stack remaining (i + 1)
          (values ++ [d.zone_values_length])
          { d with
            error_sexp_ := some (.SExpSymbol (String.mk ('a' :: digits)))
            error_message_ := some ("expected symbol starting with " ++ Quoted 'v')
            zone_values :=
              Function.update d.zone_values d.zone_values_length
                { definition_ := (d.zone_stacks stack).getD k.toNat 0, reaching_type_ := none }
            zone_values_length := d.zone_values_length + 1 }) := by
  have hlt : i < contents.length := by
    rcases Nat.lt_or_ge i contents.length with h | h
    · exact h
    · rw [List.getElem?_eq_none h] at hslot; cases hslot
  have hget : contents[i]?.getD none = some (.SExpSymbol (String.mk ('a' :: digits))) := by
    simp [hslot]
  have hnot : ¬ ((contents.length : Int) ≤ (i : Int)) := by omega
  have hneg : ¬ ((i : Int) < 0) := by omega
  have hretrieve : ∀ d1 : FlowGraphDeserializer,
      Retrieve (some (.SExpList contents extra_info)) (i : Int) d1 =
        .ok (some (.SExpSymbol (String.mk ('a' :: digits)))) d1 := by
    intro d1
    simp [Retrieve, hnot, hneg, hget]
  refine ⟨?_, ?_, ?_⟩
  · intro hk
    have hk2 : ¬ k < ((d.zone_stacks stack).length : Int) := by omega
    simp [ParseEnvironmentLoop, ParseEnvironmentSlot, hretrieve, ParseValue_pushed_argument_symbol, CheckSymbol, Check,
      SExpression.Is, SExpression.As, ParseSymbolAsPrefixedInt, hindex, StackContents, hk, hk2]
  · intro hk
    have hk2 : ¬ ((d.zone_stacks stack).length : Int) ≤ k := by omega
    simp [ParseEnvironmentLoop, ParseEnvironmentSlot, hretrieve, ParseValue_pushed_argument_symbol, CheckSymbol, Check,
      SExpression.Is, SExpression.As, ParseSymbolAsPrefixedInt, hindex, StackContents, hk, hk2]
  · intro hk0 hk
    have hk2 : ¬ ((d.zone_stacks stack).length : Int) ≤ k := by omega
    have hk3 : ¬ k < 0 := by omega
    simp [ParseEnvironmentLoop, ParseEnvironmentSlot, hretrieve, ParseValue_pushed_argument_symbol, CheckSymbol, Check,
      SExpression.Is, SExpression.As, ParseSymbolAsPrefixedInt, hindex, StackContents, hk, hk2,
      hk3, NewValue]

/-- C20, failing input: the environment `(a-1)` in a block whose stack is
`[6, 7]`. -/
theorem ParseEnvironment_pushed_argument_witness :
    ExampleVM.StringToInt64 (String.mk ['-', '1']) = some (-1) ∧
      CurrentStack ExampleStackState = .ok 1 ExampleStackState ∧
      ParseEnvironmentLoop ExampleVM 1 ExampleNegativeEnvironment 1 1 0 [] ExampleStackState =
        .fault .outOfBounds ∧
      ParseEnvironment ExampleVM 1 (some ExampleNegativeEnvironment) ExampleStackState =
        .fault .outOfBounds :=
  ⟨by decide, rfl,
    (ParseEnvironment_pushed_argument ExampleVM 1 ['-', '1'] (-1)
      [some (.SExpSymbol "a-1")] [] 1 0 0 [] ExampleStackState (by decide) rfl).2.1
      (by decide),
    rfl⟩

/-! ## Rounds of the constant pool -/

/-- The failures a round of `ParseConstantPool` returns are the failures it
started with followed by entries of its worklist, in the order of the
worklist. -/
theorem ParseConstantPoolRound_sublist (vm : VM) (fuel : Nat) (worklist : List SExpression) :
    ∀ (parse_failures : List SExpression) (d : FlowGraphDeserializer)
      (result : List SExpression) (d1 : FlowGraphDeserializer),
      ParseConstantPoolRound vm fuel worklist parse_failures d = .ok (some result) d1 →
      ∃ deferred, deferred.Sublist worklist ∧ result = parse_failures ++ deferred := by
  induction worklist with
  | nil =>
    intro parse_failures d result d1 h
    simp [ParseConstantPoolRound] at h
    exact ⟨[], List.Sublist.refl _, by simp [h.1]⟩
  | cons def_sexp worklist ih =>
    intro parse_failures d result d1 h
    simp only [ParseConstantPoolRound, Parse.bind_apply] at h
    split at h
    · rename_i obj d2 _
      split at h
      · rename_i value d3 _
        split at h
        · rename_i parsed d4 _
          cases parsed
          · simp at h
            obtain ⟨deferred, hsub, heq⟩ := ih _ _ _ _ h
            exact ⟨def_sexp :: deferred, hsub.cons₂ _, by simp [heq]⟩
          · simp at h
            split at h
            · split at h
              · split at h
                · rename_i bound d7 _
                  cases bound
                  · simp at h
                  · simp at h
                    obtain ⟨deferred, hsub, heq⟩ := ih _ _ _ _ h
                    exact ⟨deferred, hsub.cons _, heq⟩
                · cases h
                · cases h
              · cases h
              · cases h
            · cases h
            · cases h
        · cases h
        · cases h
      · cases h
      · cases h
    · cases h
    · cases h

/-- What the loop `while (true)` of `ParseConstantPool` does after a round that
ran through the worklist and returned `parse_failures`. -/
theorem ParseConstantPoolRounds_step (vm : VM) (fuel rounds : Nat)
    (worklist parse_failures : List SExpression) (d d1 : FlowGraphDeserializer)
    (hround : ParseConstantPoolRound vm fuel worklist [] d = .ok (some parse_failures) d1) :
    parse_failures.Sublist worklist ∧
      (parse_failures = [] →
        ParseConstantPoolRounds vm fuel (rounds + 1) worklist d = .ok true d1) ∧
      (parse_failures ≠ [] → parse_failures = worklist →
        ParseConstantPoolRounds vm fuel (rounds + 1) worklist d = .ok false d1) ∧
      (parse_failures ≠ [] → parse_failures ≠ worklist →
        parse_failures.length < worklist.length ∧
          ParseConstantPoolRounds vm fuel (rounds + 1) worklist d =
            ParseConstantPoolRounds vm fuel rounds parse_failures d1) := by
  obtain ⟨deferred, hsub, heq⟩ := ParseConstantPoolRound_sublist vm fuel worklist [] d _ _ hround
  simp only [List.nil_append] at heq
  subst heq
  refine ⟨hsub, ?_, ?_, ?_⟩
  · intro h
    simp [ParseConstantPoolRounds, hround, h]
  · intro h1 h2
    have h3 : parse_failures.isEmpty = false := by
      cases parse_failures with
      | nil => exact absurd rfl h1
      | cons _ _ => rfl
    subst h2
    simp [ParseConstantPoolRounds, hround, h3]
  · intro h1 h2
    have h3 : parse_failures.isEmpty = false := by
      cases parse_failures with
      | nil => exact absurd rfl h1
      | cons _ _ => rfl
    have h4 : parse_failures.length ≠ worklist.length := fun h => h2 (hsub.eq_of_length h)
    have h5 : parse_failures.length < worklist.length :=
      lt_of_le_of_ne hsub.length_le h4
    exact ⟨h5, by simp [ParseConstantPoolRounds, hround, h3, h4]⟩

/-- The outcome of the loop `while (true)` of `ParseConstantPool` is the same
for every bound on the rounds from `max 1 n` on, `n` the length of the
worklist. -/
theorem ParseConstantPoolRounds_stable (vm : VM) (fuel : Nat) :
    ∀ (n : Nat) (worklist : List SExpression) (d : FlowGraphDeserializer) (r1 r2 : Nat),
      worklist.length ≤ n → max 1 worklist.length ≤ r1 → max 1 worklist.length ≤ r2 →
      ParseConstantPoolRounds vm fuel r1 worklist d =
        ParseConstantPoolRounds vm fuel r2 worklist d := by
  intro n
  induction n with
  | zero =>
    intro worklist d r1 r2 hn h1 h2
    have hnil : worklist = [] := List.length_eq_zero.mp (Nat.le_zero.mp hn)
    subst hnil
    obtain ⟨a, rfl⟩ : ∃ a, r1 = a + 1 := ⟨r1 - 1, by simp at h1; omega⟩
    obtain ⟨b, rfl⟩ : ∃ b, r2 = b + 1 := ⟨r2 - 1, by simp at h2; omega⟩
    simp [ParseConstantPoolRounds, ParseConstantPoolRound]
  | succ n ih =>
    intro worklist d r1 r2 hn h1 h2
    obtain ⟨a, rfl⟩ : ∃ a, r1 = a + 1 := ⟨r1 - 1, by have := le_max_left 1 worklist.length; omega⟩
    obtain ⟨b, rfl⟩ : ∃ b, r2 = b + 1 := ⟨r2 - 1, by have := le_max_left 1 worklist.length; omega⟩
    cases hround : ParseConstantPoolRound vm fuel worklist [] d with
    | ok result d1 =>
      cases result with
      | none => simp [ParseConstantPoolRounds, hround]
      | some parse_failures =>
        by_cases hnil : parse_failures = []
        · rw [(ParseConstantPoolRounds_step vm fuel a _ _ d d1 hround).2.1 hnil,
            (ParseConstantPoolRounds_step vm fuel b _ _ d d1 hround).2.1 hnil]
        · by_cases hall : parse_failures = worklist
          · rw [(ParseConstantPoolRounds_step vm fuel a _ _ d d1 hround).2.2.1 hnil hall,
              (ParseConstantPoolRounds_step vm fuel b _ _ d d1 hround).2.2.1 hnil hall]
          · obtain ⟨hlt, ha⟩ :=
              (ParseConstantPoolRounds_step vm fuel a _ _ d d1 hround).2.2.2 hnil hall
            obtain ⟨-, hb⟩ :=
              (ParseConstantPoolRounds_step vm fuel b _ _ d d1 hround).2.2.2 hnil hall
            rw [ha, hb]
            have hpos : 0 < parse_failures.length := List.length_pos.mpr hnil
            have hm1 : max 1 worklist.length = worklist.length := max_eq_right (by omega)
            have hm2 : max 1 parse_failures.length = parse_failures.length :=
              max_eq_right (by omega)
            exact ih parse_failures d1 a b (by omega) (by omega) (by omega)
    | fault e => simp [ParseConstantPoolRounds, hround]
    | outOfFuel => simp [ParseConstantPoolRounds, hround]

/-- C15: let a round of `ParseConstantPool` run through `worklist` and defer
`parse_failures`. The deferred entries are entries of the worklist in their
original relative order. If none is deferred the pool is done (`true`). If
every entry the round started with is deferred, the call returns `false` in
the state the round ended in: no further round is started. If some but not all
are deferred, the next round runs over exactly the deferred entries, which are
fewer than before. -/
theorem ParseConstantPool_no_progress_aborts (vm : VM) (fuel rounds : Nat)
    (worklist parse_failures : List SExpression) (d d1 : FlowGraphDeserializer)
    (hround : ParseConstantPoolRound vm fuel worklist [] d = .ok (some parse_failures) d1) :
    parse_failures.Sublist worklist ∧
      (parse_failures = [] →
        ParseConstantPoolRounds vm fuel (rounds + 1) worklist d = .ok true d1) ∧
      (parse_failures ≠ [] → parse_failures = worklist →
        ParseConstantPoolRounds vm fuel (rounds + 1) worklist d = .ok false d1) ∧
      (parse_failures ≠ [] → parse_failures ≠ worklist →
        parse_failures.length < worklist.length ∧
          ParseConstantPoolRounds vm fuel (rounds + 1) worklist d =
            ParseConstantPoolRounds vm fuel rounds parse_failures d1) :=
  ParseConstantPoolRounds_step vm fuel rounds worklist parse_failures d d1 hround

/-- C15, witness: the worklist with the one entry `(def v1 v9)`, whose `v9` is
declared nowhere; the only round defers it and the call returns `false`. -/
theorem ParseConstantPool_no_progress_aborts_witness :
    ParseConstantPoolRound ExampleVM 1 [ExampleDanglingEntry] [] ExampleGraphState =
        .ok (some [ExampleDanglingEntry])
          { ExampleGraphState with
            zone_handles := [none]
            error_sexp_ := some (.SExpSymbol "v9")
            error_message_ := some "found use prior to definition" } ∧
      ParseConstantPoolRounds ExampleVM 1 2 [ExampleDanglingEntry] ExampleGraphState =
        .ok false
          { ExampleGraphState with
            zone_handles := [none]
            error_sexp_ := some (.SExpSymbol "v9")
            error_message_ := some "found use prior to definition" } :=
  ⟨rfl,
    (ParseConstantPool_no_progress_aborts ExampleVM 1 1 [ExampleDanglingEntry]
      [ExampleDanglingEntry] ExampleGraphState _ rfl).2.2.1 (by simp) rfl⟩

/-- C16, as the code has it: a round of `ParseConstantPool` that meets an entry
whose value is a reference `v<j>` to an index not bound yet defers the entry
and goes on with the rest of the worklist in a state in which the error `found
use prior to definition`, located at the reference, is recorded. -/
theorem ParseConstantPoolRound_defers (vm : VM) (fuel : Nat) (digits : List Char) (j : Int)
    (tag name : Option SExpression) (rest : List (Option SExpression))
    (extra_info : List (String × Option SExpression))
    (worklist parse_failures : List SExpression) (d : FlowGraphDeserializer)
    (hindex : vm.StringToInt64 (String.mk digits) = some j)
    (hunbound : d.definition_map_.LookupValue j = none) :
    ParseConstantPoolRound vm (fuel + 1)
        (.SExpList (tag :: name :: some (.SExpSymbol (String.mk ('v' :: digits))) :: rest)
          extra_info :: worklist) parse_failures d =
      ParseConstantPoolRound vm (fuel + 1) worklist
        (parse_failures ++
          [.SExpList (tag :: name :: some (.SExpSymbol (String.mk ('v' :: digits))) :: rest)
            extra_info])
        { d with
          zone_handles := d.zone_handles ++ [none]
          error_sexp_ := some (.SExpSymbol (String.mk ('v' :: digits)))
          error_message_ := some "found use prior to definition" } := by
  have hlen : ¬ ((rest.length : Int) + 1 + 1 + 1 ≤ 2) := by omega
  have hnull : ¬ (String.mk ('v' :: digits) = "null") := by
    intro h
    have h2 := congrArg String.data h
    simp at h2
  simp [ParseConstantPoolRound, NewHandle, Retrieve, hlen, ParseDartValue, ParseDartValueWith,
    WriteHandle, FlowGraphDeserializer.WriteHandle, SExpression.As, SExpression.Is, SymbolValue,
    hnull, ParseValueWith, ParseUse, ParseSSATemp, ParseSymbolAsPrefixedInt, hindex, hunbound]

/-- C16, witness: the entry `(def v1 v2)` in a deserializer without
definitions. -/
theorem ParseConstantPoolRound_defers_witness :
    ExampleVM.StringToInt64 (String.mk ['2']) = some 2 ∧
      ExampleGraphState.definition_map_.LookupValue 2 = none ∧
      ParseConstantPoolRound ExampleVM 1 [ExampleForwardEntry, ExampleNullEntry] []
          ExampleGraphState =
        ParseConstantPoolRound ExampleVM 1 [ExampleNullEntry] [ExampleForwardEntry]
          { ExampleGraphState with
            zone_handles := [none]
            error_sexp_ := some (.SExpSymbol "v2")
            error_message_ := some "found use prior to definition" } :=
  ⟨by decide, by decide,
    ParseConstantPoolRound_defers ExampleVM 0 ['2'] 2 (some (.SExpSymbol "def"))
      (some (.SExpSymbol "v1")) [] [] [ExampleNullEntry] [] ExampleGraphState (by decide)
      (by decide)⟩

/-- C16, counterexample: the pool `(Constants (def v1 v2) (def v2 null))`, read
by a deserializer with no error recorded. The first round defers `v1` and
resolves `v2`, the second resolves `v1`; the call returns `true`, both indices
are bound, and the error of the deferred attempt is still recorded. -/
theorem ParseConstantPool_success_keeps_error :
    ExampleGraphState.error_message_ = none ∧ ExampleGraphState.error_sexp_ = none ∧
      ∃ d1, ParseConstantPool ExampleVM 1 (some ExamplePool) ExampleGraphState = .ok true d1 ∧
        d1.error_message_ = some "found use prior to definition" ∧
        d1.error_sexp_ = some (.SExpSymbol "v2") ∧
        d1.definition_map_.HasKey 1 = true ∧ d1.definition_map_.HasKey 2 = true := by
  refine ⟨rfl, rfl, ?_⟩
  have h : (ParseConstantPool ExampleVM 1 (some ExamplePool) ExampleGraphState).Holds
      (fun r d => r && decide (d.error_message_ = some "found use prior to definition") &&
        (match d.error_sexp_ with
          | some (.SExpSymbol s) => decide (s = "v2")
          | _ => false) &&
        d.definition_map_.HasKey 1 && d.definition_map_.HasKey 2) = true := by
    decide!
  obtain ⟨r, d1, hrun, hp⟩ := Result.Holds_ok h
  simp only [Bool.and_eq_true, decide_eq_true_eq] at hp
  obtain ⟨⟨⟨⟨h0, h1⟩, h2⟩, h3⟩, h4⟩ := hp
  subst h0
  refine ⟨d1, hrun, h1, ?_, h3, h4⟩
  split at h2
  · rename_i s hs
    simp only [decide_eq_true_eq] at h2
    rw [hs, h2]
  · exact absurd h2 (by simp)

/-! ## Canonical names -/

/-- The position `indexOf?` finds holds the character looked for. -/
theorem indexOf?_getD (c dflt : Char) (l : List Char) :
    ∀ i, l.indexOf? c = some i → l.getD i dflt = c := by
  induction l with
  | nil => intro i h; simp [List.indexOf?] at h
  | cons a l ih =>
    intro i h
    simp only [List.indexOf?, List.findIdx?_cons] at h
    split at h
    · rename_i heq
      simp only [Option.some.injEq] at h
      subst h
      simpa using heq
    · rw [List.findIdx?_succ] at h
      simp only [Option.map_eq_some'] at h
      obtain ⟨j, hj, rfl⟩ := h
      have := ih j (by simpa [List.indexOf?] using hj)
      simpa using this

/-- The position `strchr` returns for a character other than the terminator
holds that character. -/
theorem strchr_getD (s : List Char) (start i : Nat) (c : Char) (hc : c ≠ NUL)
    (h : strchr s start c = some i) : s.getD i NUL = c := by
  unfold strchr at h
  rw [if_neg hc] at h
  split at h
  · rename_i j hj
    simp only [Option.some.injEq] at h
    subst h
    have := indexOf?_getD c NUL _ j hj
    simpa [List.getD, List.getElem?_drop] using this
  · cases h

/-- A name with one colon, not at its start, is a library name as a whole:
`ParseCanonicalName` looks the whole text up as a library and returns `true`
with the result of the lookup, null included. -/
theorem ParseCanonicalName_at_library (vm : VM) (value : String) (obj : Handle)
    (d : FlowGraphDeserializer) (first : Nat)
    (hstart : value.data.getD 0 NUL ≠ Char.ofNat 58)
    (hfirst : strchr value.data 0 (Char.ofNat 58) = some first)
    (hsecond : strchr value.data (first + 1) (Char.ofNat 58) = none) :
    ParseCanonicalName vm (some (.SExpSymbol value)) obj d =
      .ok true
        (({ d with
            tmp_string_ := some (Substring value.data 0 value.length)
            name_library_ := vm.LookupLibrary (Substring value.data 0 value.length) }
          ).WriteHandle obj (vm.LookupLibrary (Substring value.data 0 value.length))) := by
  have hstart1 : ¬ value.data[0]?.getD NUL = Char.ofNat 58 := by simpa using hstart
  have hend : value.data[value.length]?.getD NUL = NUL := by
    have : value.data[value.length]? = none := List.getElem?_eq_none (le_refl _)
    simp [this]
  simp [ParseCanonicalName, hstart1, hfirst, hsecond, hend, WriteHandle]

/-- A name `<library>:<class>.<field>`, the library being the text up to the
second colon, resolves to the field when the class and the field are found. -/
theorem ParseCanonicalName_at_field (vm : VM) (value : String) (obj : Handle)
    (d : FlowGraphDeserializer) (first lib_end class_end cls fld : Nat)
    (hstart : value.data.getD 0 NUL ≠ Char.ofNat 58)
    (hfirst : strchr value.data 0 (Char.ofNat 58) = some first)
    (hsecond : strchr value.data (first + 1) (Char.ofNat 58) = some lib_end)
    (hclass_start : value.data.getD (lib_end + 1) NUL ≠ NUL)
    (hcolon : strchr value.data (lib_end + 1) (Char.ofNat 58) = none)
    (hdot : strchr value.data (lib_end + 1) (Char.ofNat 46) = some class_end)
    (hnonempty : class_end ≠ lib_end + 1)
    (hfield_start : value.data.getD (class_end + 1) NUL ≠ NUL)
    (hcls : vm.LookupClassAllowPrivate (vm.LookupLibrary (Substring value.data 0 lib_end))
      (Substring value.data (lib_end + 1) class_end) = some cls)
    (hfld : vm.LookupFieldAllowPrivate (some cls)
      (Substring value.data (class_end + 1) value.length) false = some fld) :
    ParseCanonicalName vm (some (.SExpSymbol value)) obj d =
      .ok true
        (({ d with
            tmp_string_ := some (Substring value.data (class_end + 1) value.length)
            name_library_ := vm.LookupLibrary (Substring value.data 0 lib_end)
            name_class_ := some cls
            name_field_ := some fld }).WriteHandle obj (some fld)) := by
  have hstart1 : ¬ value.data[0]?.getD NUL = Char.ofNat 58 := by simpa using hstart
  have hlib : value.data[lib_end]?.getD NUL = Char.ofNat 58 := by
    simpa using strchr_getD _ _ _ _ (by decide) hsecond
  have hlib1 : ¬ value.data[lib_end]?.getD NUL = NUL := by rw [hlib]; decide
  have hcs : ¬ value.data[lib_end + 1]?.getD NUL = NUL := by simpa using hclass_start
  have hce : value.data[class_end]?.getD NUL = Char.ofNat 46 := by
    simpa using strchr_getD _ _ _ _ (by decide) hdot
  have hce1 : ¬ value.data[class_end]?.getD NUL = NUL := by rw [hce]; decide
  have hfs : ¬ value.data[class_end + 1]?.getD NUL = NUL := by simpa using hfield_start
  have h46 : ¬ Char.ofNat 46 = NUL := by decide
  simp [ParseCanonicalName, h46, hstart1, hfirst, hsecond, hlib1, hcs, hcolon, hdot, hnonempty, hce,
    hce1, hfs, hcls, hfld, WriteHandle]

/-- A name whose non-empty class segment is not found in the library fails
with the class-lookup error. -/
theorem ParseCanonicalName_at_class_failure (vm : VM) (value : String) (obj : Handle)
    (d : FlowGraphDeserializer) (first lib_end class_end : Nat)
    (hstart : value.data.getD 0 NUL ≠ Char.ofNat 58)
    (hfirst : strchr value.data 0 (Char.ofNat 58) = some first)
    (hsecond : strchr value.data (first + 1) (Char.ofNat 58) = some lib_end)
    (hclass_start : value.data.getD (lib_end + 1) NUL ≠ NUL)
    (hclass_end : strchr value.data (lib_end + 1) (Char.ofNat 58) = some class_end ∨
      (strchr value.data (lib_end + 1) (Char.ofNat 58) = none ∧
        strchr value.data (lib_end + 1) (Char.ofNat 46) = some class_end) ∨
      (strchr value.data (lib_end + 1) (Char.ofNat 58) = none ∧
        strchr value.data (lib_end + 1) (Char.ofNat 46) = none ∧ class_end = value.length))
    (hnonempty : class_end ≠ lib_end + 1)
    (hcls : vm.LookupClassAllowPrivate (vm.LookupLibrary (Substring value.data 0 lib_end))
      (Substring value.data (lib_end + 1) class_end) = none) :
    ParseCanonicalName vm (some (.SExpSymbol value)) obj d =
      .ok false
        { d with
          tmp_string_ := some (Substring value.data (lib_end + 1) class_end)
          name_library_ := vm.LookupLibrary (Substring value.data 0 lib_end)
          name_class_ := none
          error_sexp_ := some (.SExpSymbol value)
          error_message_ := some
            ("failure looking up class " ++ Substring value.data (lib_end + 1) class_end
              ++ " in library "
              ++ vm.ToCString (vm.LookupLibrary (Substring value.data 0 lib_end))) } := by
  have hstart1 : ¬ value.data[0]?.getD NUL = Char.ofNat 58 := by simpa using hstart
  have hlib : value.data[lib_end]?.getD NUL = Char.ofNat 58 := by
    simpa using strchr_getD _ _ _ _ (by decide) hsecond
  have hlib1 : ¬ value.data[lib_end]?.getD NUL = NUL := by rw [hlib]; decide
  have hcs : ¬ value.data[lib_end + 1]?.getD NUL = NUL := by simpa using hclass_start
  rcases hclass_end with h | ⟨h1, h2⟩ | ⟨h1, h2, h3⟩
  · simp [ParseCanonicalName, hstart1, hfirst, hsecond, hlib1, hcs, h, hnonempty, hcls]
  · simp [ParseCanonicalName, hstart1, hfirst, hsecond, hlib1, hcs, h1, h2, hnonempty, hcls]
  · subst h3
    simp [ParseCanonicalName, hstart1, hfirst, hsecond, hlib1, hcs, h1, h2, hnonempty, hcls]

/-- A name `<library>:<class>:get:<X>` or `<library>:<class>:set:<X>` resolves
to the function named `get:<X>` or `set:<X>` of the class. -/
theorem ParseCanonicalName_at_accessor (vm : VM) (value : String) (obj : Handle)
    (d : FlowGraphDeserializer) (first lib_end class_end colon cls fn : Nat)
    (hstart : value.data.getD 0 NUL ≠ Char.ofNat 58)
    (hfirst : strchr value.data 0 (Char.ofNat 58) = some first)
    (hsecond : strchr value.data (first + 1) (Char.ofNat 58) = some lib_end)
    (hclass_start : value.data.getD (lib_end + 1) NUL ≠ NUL)
    (hclass_end : strchr value.data (lib_end + 1) (Char.ofNat 58) = some class_end)
    (hnonempty : class_end ≠ lib_end + 1)
    (hfunc_start : value.data.getD (class_end + 1) NUL ≠ NUL)
    (hmarker : strchr value.data (class_end + 1) (Char.ofNat 58) = some colon)
    (hlen : colon - (class_end + 1) = 3)
    (haccessor : strncmp_eq (value.data.drop (class_end + 1)) "get".data 3 = true ∨
      strncmp_eq (value.data.drop (class_end + 1)) "set".data 3 = true)
    (hlast : strchr value.data (colon + 1) (Char.ofNat 58) = none)
    (hcls : vm.LookupClassAllowPrivate (vm.LookupLibrary (Substring value.data 0 lib_end))
      (Substring value.data (lib_end + 1) class_end) = some cls)
    (hfn : vm.LookupFunctionAllowPrivate (some cls)
      (Substring value.data (class_end + 1) value.length) = some fn) :
    ParseCanonicalName vm (some (.SExpSymbol value)) obj d =
      .ok true
        (({ d with
            tmp_string_ := some (Substring value.data (class_end + 1) value.length)
            name_library_ := vm.LookupLibrary (Substring value.data 0 lib_end)
            name_class_ := some cls
            name_function_ := some fn }).WriteHandle obj (some fn)) := by
  have hstart1 : ¬ value.data[0]?.getD NUL = Char.ofNat 58 := by simpa using hstart
  have hlib : value.data[lib_end]?.getD NUL = Char.ofNat 58 := by
    simpa using strchr_getD _ _ _ _ (by decide) hsecond
  have hlib1 : ¬ value.data[lib_end]?.getD NUL = NUL := by rw [hlib]; decide
  have hcs : ¬ value.data[lib_end + 1]?.getD NUL = NUL := by simpa using hclass_start
  have hce : value.data[class_end]?.getD NUL = Char.ofNat 58 := by
    simpa using strchr_getD _ _ _ _ (by decide) hclass_end
  have hfs : ¬ value.data[class_end + 1]?.getD NUL = NUL := by simpa using hfunc_start
  have h58 : ¬ Char.ofNat 58 = NUL := by decide
  have h5846 : ¬ Char.ofNat 58 = Char.ofNat 46 := by decide
  have hend : value.data[value.length]?.getD NUL = NUL := by
    have : value.data[value.length]? = none := List.getElem?_eq_none (le_refl _)
    simp [this]
  rcases haccessor with h | h
  · simp [ParseCanonicalName, ParseCanonicalNameFunctions, h58, h5846, hstart1, hfirst, hsecond,
      hlib1, hcs, hclass_end, hnonempty, hce, hfs, hmarker, hlen, h, hlast, hcls, hfn, hend,
      WriteHandle]
  · simp [ParseCanonicalName, ParseCanonicalNameFunctions, h58, h5846, hstart1, hfirst, hsecond,
      hlib1, hcs, hclass_end, hnonempty, hce, hfs, hmarker, hlen, h, hlast, hcls, hfn, hend,
      WriteHandle]

/-- C22, as the code has it: the library segment of a canonical name is the
text up to the second colon (a library URL such as `dart:core` holds one), the
class segment runs from there to the next colon or, failing that, the next
period. For a name `<library>:<class>.<field>` of this form
`ParseCanonicalName` looks up the library, the class in that library and the
field in that class, and returns the field. -/
theorem ParseCanonicalName_field (vm : VM) (value : String) (obj : Handle)
    (d : FlowGraphDeserializer) (first lib_end class_end cls fld : Nat)
    (hstart : value.data.getD 0 NUL ≠ Char.ofNat 58)
    (hfirst : strchr value.data 0 (Char.ofNat 58) = some first)
    (hsecond : strchr value.data (first + 1) (Char.ofNat 58) = some lib_end)
    (hclass_start : value.data.getD (lib_end + 1) NUL ≠ NUL)
    (hcolon : strchr value.data (lib_end + 1) (Char.ofNat 58) = none)
    (hdot : strchr value.data (lib_end + 1) (Char.ofNat 46) = some class_end)
    (hnonempty : class_end ≠ lib_end + 1)
    (hfield_start : value.data.getD (class_end + 1) NUL ≠ NUL)
    (hcls : vm.LookupClassAllowPrivate (vm.LookupLibrary (Substring value.data 0 lib_end))
      (Substring value.data (lib_end + 1) class_end) = some cls)
    (hfld : vm.LookupFieldAllowPrivate (some cls)
      (Substring value.data (class_end + 1) value.length) false = some fld) :
    ParseCanonicalName vm (some (.SExpSymbol value)) obj d =
      .ok true
        (({ d with
            tmp_string_ := some (Substring value.data (class_end + 1) value.length)
            name_library_ := vm.LookupLibrary (Substring value.data 0 lib_end)
            name_class_ := some cls
            name_field_ := some fld }).WriteHandle obj (some fld)) :=
  ParseCanonicalName_at_field vm value obj d first lib_end class_end cls fld hstart hfirst hsecond hclass_start hcolon hdot hnonempty hfield_start hcls hfld

/-- C22, witness: the name `dart:core:MyClass.myField`. -/
theorem ParseCanonicalName_field_witness :
    ParseCanonicalName ExampleProgramVM (some (.SExpSymbol "dart:core:MyClass.myField"))
        .value_object ExampleState =
      .ok true
        { ExampleState with
          tmp_string_ := some "myField"
          name_library_ := some 10
          name_class_ := some 20
          name_field_ := some 30
          value_object_ := some 30 } :=
  ParseCanonicalName_field ExampleProgramVM "dart:core:MyClass.myField" .value_object
    ExampleState 4 9 17 20 30 (by decide) (by decide) (by decide) (by decide) (by decide)
    (by decide) (by decide) (by decide) (by decide) (by decide)

/-- C22, counterexample: in a program with the library `myLib`, its class
`MyClass` and the field `myField` of that class, the name
`myLib:MyClass.myField` is looked up as a library as a whole; no such library
exists, and the call returns `true` with a null result and no error, the class
and the field never being looked up. -/
theorem ParseCanonicalName_first_colon_is_no_separator :
    ExampleProgramVM.LookupLibrary "myLib" = some 11 ∧
      ExampleProgramVM.LookupClassAllowPrivate (some 11) "MyClass" = some 20 ∧
      ExampleProgramVM.LookupFieldAllowPrivate (some 20) "myField" false = some 30 ∧
      ParseCanonicalName ExampleProgramVM (some (.SExpSymbol "myLib:MyClass.myField"))
          .value_object ExampleState =
        .ok true
          { ExampleState with
            tmp_string_ := some "myLib:MyClass.myField"
            name_library_ := none
            value_object_ := none } :=
  ⟨by decide, by decide, by decide,
    ParseCanonicalName_at_library ExampleProgramVM "myLib:MyClass.myField" .value_object
      ExampleState 5 (by decide) (by decide) (by decide)⟩

/-- C23, as the code has it: with the library segment running to the second
colon, in a name `<library>:<class>:get:<X>` or `<library>:<class>:set:<X>`
the colon of the marker is not a separator: the function looked up in the
class is the one named `get:<X>` (`set:<X>`), and it is returned. -/
theorem ParseCanonicalName_accessor (vm : VM) (value : String) (obj : Handle)
    (d : FlowGraphDeserializer) (first lib_end class_end colon cls fn : Nat)
    (hstart : value.data.getD 0 NUL ≠ Char.ofNat 58)
    (hfirst : strchr value.data 0 (Char.ofNat 58) = some first)
    (hsecond : strchr value.data (first + 1) (Char.ofNat 58) = some lib_end)
    (hclass_start : value.data.getD (lib_end + 1) NUL ≠ NUL)
    (hclass_end : strchr value.data (lib_end + 1) (Char.ofNat 58) = some class_end)
    (hnonempty : class_end ≠ lib_end + 1)
    (hfunc_start : value.data.getD (class_end + 1) NUL ≠ NUL)
    (hmarker : strchr value.data (class_end + 1) (Char.ofNat 58) = some colon)
    (hlen : colon - (class_end + 1) = 3)
    (haccessor : strncmp_eq (value.data.drop (class_end + 1)) "get".data 3 = true ∨
      strncmp_eq (value.data.drop (class_end + 1)) "set".data 3 = true)
    (hlast : strchr value.data (colon + 1) (Char.ofNat 58) = none)
    (hcls : vm.LookupClassAllowPrivate (vm.LookupLibrary (Substring value.data 0 lib_end))
      (Substring value.data (lib_end + 1) class_end) = some cls)
    (hfn : vm.LookupFunctionAllowPrivate (some cls)
      (Substring value.data (class_end + 1) value.length) = some fn) :
    ParseCanonicalName vm (some (.SExpSymbol value)) obj d =
      .ok true
        (({ d with
            tmp_string_ := some (Substring value.data (class_end + 1) value.length)
            name_library_ := vm.LookupLibrary (Substring value.data 0 lib_end)
            name_class_ := some cls
            name_function_ := some fn }).WriteHandle obj (some fn)) :=
  ParseCanonicalName_at_accessor vm value obj d first lib_end class_end colon cls fn hstart hfirst hsecond hclass_start hclass_end hnonempty hfunc_start hmarker hlen haccessor hlast hcls hfn

/-- C23, witness: the name `dart:core:MyClass:get:myProp`. -/
theorem ParseCanonicalName_accessor_witness :
    ParseCanonicalName ExampleProgramVM (some (.SExpSymbol "dart:core:MyClass:get:myProp"))
        .value_object ExampleState =
      .ok true
        { ExampleState with
          tmp_string_ := some "get:myProp"
          name_library_ := some 10
          name_class_ := some 20
          name_function_ := some 40
          value_object_ := some 40 } :=
  ParseCanonicalName_accessor ExampleProgramVM "dart:core:MyClass:get:myProp" .value_object
    ExampleState 4 9 17 21 20 40 (by decide) (by decide) (by decide) (by decide) (by decide)
    (by decide) (by decide) (by decide) (by decide) (Or.inl (by decide)) (by decide)
    (by decide) (by decide)

/-- C23, counterexample: for the name `myLib:MyClass:get:myProp` the library
looked up is `myLib:MyClass` and the class looked up is `get`; the call returns
`false` with a class-lookup error and no function is looked up. -/
theorem ParseCanonicalName_accessor_after_first_colon :
    ExampleProgramVM.LookupFunctionAllowPrivate
        (ExampleProgramVM.LookupClassAllowPrivate (ExampleProgramVM.LookupLibrary "myLib")
          "MyClass") "get:myProp" = some 40 ∧
      ParseCanonicalName ExampleProgramVM (some (.SExpSymbol "myLib:MyClass:get:myProp"))
          .value_object ExampleState =
        .ok false
          { ExampleState with
            tmp_string_ := some "get"
            name_library_ := none
            name_class_ := none
            error_sexp_ := some (.SExpSymbol "myLib:MyClass:get:myProp")
            error_message_ := some "failure looking up class get in library object" } :=
  ⟨by decide,
    ParseCanonicalName_at_class_failure ExampleProgramVM "myLib:MyClass:get:myProp"
      .value_object ExampleState 5 13 17 (by decide) (by decide) (by decide) (by decide)
      (Or.inl (by decide)) (by decide) (by decide)⟩

/-- C24, as the code has it: the result of the library lookup is not tested.
For a name with one colon, not at its start, that names no library,
`ParseCanonicalName` returns `true` with a null result and records no
error. -/
theorem ParseCanonicalName_unknown_library (vm : VM) (value : String) (obj : Handle)
    (d : FlowGraphDeserializer) (first : Nat)
    (hstart : value.data.getD 0 NUL ≠ Char.ofNat 58)
    (hfirst : strchr value.data 0 (Char.ofNat 58) = some first)
    (hsecond : strchr value.data (first + 1) (Char.ofNat 58) = none)
    (hunknown : vm.LookupLibrary (Substring value.data 0 value.length) = none) :
    ∃ d1, ParseCanonicalName vm (some (.SExpSymbol value)) obj d = .ok true d1 ∧
      d1.ReadHandle obj = none ∧ d1.name_library_ = none ∧
      d1.error_message_ = d.error_message_ ∧ d1.error_sexp_ = d.error_sexp_ := by
  refine ⟨_, ParseCanonicalName_at_library vm value obj d first hstart hfirst hsecond, ?_, ?_,
    ?_, ?_⟩
  · rw [hunknown]
    cases obj with
    | zone index =>
      by_cases h : index < d.zone_handles.length <;>
        simp [FlowGraphDeserializer.WriteHandle, FlowGraphDeserializer.ReadHandle,
          List.getElem?_set, h]
    | _ => simp [FlowGraphDeserializer.WriteHandle, FlowGraphDeserializer.ReadHandle]
  · rw [hunknown]
    cases obj <;> simp [FlowGraphDeserializer.WriteHandle]
  · cases obj <;> simp [FlowGraphDeserializer.WriteHandle]
  · cases obj <;> simp [FlowGraphDeserializer.WriteHandle]

/-- C24, failing input: the name `dart:nolib` in a program without such a
library. -/
theorem ParseCanonicalName_unknown_library_witness :
    ExampleProgramVM.LookupLibrary "dart:nolib" = none ∧
      ∃ d1, ParseCanonicalName ExampleProgramVM (some (.SExpSymbol "dart:nolib"))
          .value_object ExampleState = .ok true d1 ∧
        d1.ReadHandle .value_object = none ∧ d1.error_message_ = none :=
  ⟨by decide,
    (ParseCanonicalName_unknown_library ExampleProgramVM "dart:nolib" .value_object
      ExampleState 4 (by decide) (by decide) (by decide) (by decide)).imp
      fun _ h => ⟨h.1, h.2.1, h.2.2.2.1⟩⟩

/-- C25: for a canonical name whose class segment (the text between the colon
that ends the library and the next colon, else the next period, else the end)
is not empty and names no class in the library looked up, `ParseCanonicalName`
returns `false` and records, at the symbol, the error `failure looking up class
<class segment> in library <library>`. -/
theorem ParseCanonicalName_class_not_found (vm : VM) (value : String) (obj : Handle)
    (d : FlowGraphDeserializer) (first lib_end class_end : Nat)
    (hstart : value.data.getD 0 NUL ≠ Char.ofNat 58)
    (hfirst : strchr value.data 0 (Char.ofNat 58) = some first)
    (hsecond : strchr value.data (first + 1) (Char.ofNat 58) = some lib_end)
    (hclass_start : value.data.getD (lib_end + 1) NUL ≠ NUL)
    (hclass_end : strchr value.data (lib_end + 1) (Char.ofNat 58) = some class_end ∨
      (strchr value.data (lib_end + 1) (Char.ofNat 58) = none ∧
        strchr value.data (lib_end + 1) (Char.ofNat 46) = some class_end) ∨
      (strchr value.data (lib_end + 1) (Char.ofNat 58) = none ∧
        strchr value.data (lib_end + 1) (Char.ofNat 46) = none ∧ class_end = value.length))
    (hnonempty : class_end ≠ lib_end + 1)
    (hcls : vm.LookupClassAllowPrivate (vm.LookupLibrary (Substring value.data 0 lib_end))
      (Substring value.data (lib_end + 1) class_end) = none) :
    ParseCanonicalName vm (some (.SExpSymbol value)) obj d =
      .ok false
        { d with
          tmp_string_ := some (Substring value.data (lib_end + 1) class_end)
          name_library_ := vm.LookupLibrary (Substring value.data 0 lib_end)
          name_class_ := none
          error_sexp_ := some (.SExpSymbol value)
          error_message_ := some
            ("failure looking up class " ++ Substring value.data (lib_end + 1) class_end
              ++ " in library "
              ++ vm.ToCString (vm.LookupLibrary (Substring value.data 0 lib_end))) } :=
  ParseCanonicalName_at_class_failure vm value obj d first lib_end class_end hstart hfirst hsecond hclass_start hclass_end hnonempty hcls

/-- C25, witness: the name `dart:core:NoClass.f`. -/
theorem ParseCanonicalName_class_not_found_witness :
    ParseCanonicalName ExampleProgramVM (some (.SExpSymbol "dart:core:NoClass.f"))
        .value_object ExampleState =
      .ok false
        { ExampleState with
          tmp_string_ := some "NoClass"
          name_library_ := some 10
          name_class_ := none
          error_sexp_ := some (.SExpSymbol "dart:core:NoClass.f")
          error_message_ := some "failure looking up class NoClass in library object" } :=
  ParseCanonicalName_class_not_found ExampleProgramVM "dart:core:NoClass.f" .value_object
    ExampleState 4 9 17 (by decide) (by decide) (by decide) (by decide)
    (Or.inr (Or.inl ⟨by decide, by decide⟩)) (by decide) (by decide)

/-! ## Environments -/

theorem KeepsBinder_InstructionAt (instr : DefinitionPtr) :
    KeepsBinder (InstructionAt instr) := by
  constructor
  intro d b d1 h
  unfold InstructionAt at h
  split at h
  · cases h
    exact SameBinder_refl d
  · cases h

theorem KeepsBinder_StackContents (stack : StackPtr) : KeepsBinder (StackContents stack) := by
  constructor
  intro d b d1 h
  cases h
  exact SameBinder_refl d

theorem KeepsBinder_block_id (block : DefinitionPtr) : KeepsBinder (block_id block) := by
  unfold block_id
  repeat' first
    | with_reducible apply KeepsBinder_bind
    | exact KeepsBinder_pure _
    | exact KeepsBinder_fault _
    | exact KeepsBinder_outOfFuel
    | exact KeepsBinder_get
    | exact KeepsBinder_StoreError _ _
    | exact KeepsBinder_NewValue _
    | exact KeepsBinder_Check _ _
    | exact KeepsBinder_Retrieve _ _
    | exact KeepsBinder_ExtraLookupValue _ _
    | exact KeepsBinder_ListLength _
    | exact KeepsBinder_IntegerValue _
    | exact KeepsBinder_ParseSymbolAsPrefixedInt _ _ _
    | exact KeepsBinder_InstructionAt _
    | apply KeepsBinder_ite
    | intro _
    | dsimp only
    | split

theorem KeepsBinder_CurrentStack : KeepsBinder CurrentStack := by
  unfold CurrentStack
  repeat' first
    | with_reducible apply KeepsBinder_bind
    | exact KeepsBinder_pure _
    | exact KeepsBinder_fault _
    | exact KeepsBinder_outOfFuel
    | exact KeepsBinder_get
    | exact KeepsBinder_StoreError _ _
    | exact KeepsBinder_NewValue _
    | exact KeepsBinder_Check _ _
    | exact KeepsBinder_Retrieve _ _
    | exact KeepsBinder_ExtraLookupValue _ _
    | exact KeepsBinder_ListLength _
    | exact KeepsBinder_IntegerValue _
    | exact KeepsBinder_ParseSymbolAsPrefixedInt _ _ _
    | exact KeepsBinder_block_id _
    | apply KeepsBinder_ite
    | intro _
    | dsimp only
    | split

theorem KeepsBinder_ParseValue (vm : VM) (fuel : Nat) (sexp : Option SExpression) :
    KeepsBinder (ParseValue vm fuel sexp false) :=
  KeepsBinder_ParseValueWith vm _ (KeepsBinder_ParseDartValue vm fuel) sexp

theorem KeepsBinder_ParseEnvironmentSlot (vm : VM) (fuel : Nat) (list : SExpression)
    (stack : StackPtr) (i : Int) : KeepsBinder (ParseEnvironmentSlot vm fuel list stack i) := by
  unfold ParseEnvironmentSlot CheckSymbol
  repeat' first
    | with_reducible apply KeepsBinder_bind
    | exact KeepsBinder_pure _
    | exact KeepsBinder_fault _
    | exact KeepsBinder_outOfFuel
    | exact KeepsBinder_get
    | exact KeepsBinder_StoreError _ _
    | exact KeepsBinder_NewValue _
    | exact KeepsBinder_Check _ _
    | exact KeepsBinder_Retrieve _ _
    | exact KeepsBinder_ExtraLookupValue _ _
    | exact KeepsBinder_ListLength _
    | exact KeepsBinder_IntegerValue _
    | exact KeepsBinder_ParseSymbolAsPrefixedInt _ _ _
    | exact KeepsBinder_StackContents _
    | exact KeepsBinder_ParseValue _ _ _
    | apply KeepsBinder_ite
    | intro _
    | dsimp only
    | split

theorem KeepsBinder_ParseEnvironmentLoop (vm : VM) (fuel : Nat) (list : SExpression)
    (stack : StackPtr) (remaining : Nat) :
    ∀ i values, KeepsBinder (ParseEnvironmentLoop vm fuel list stack remaining i values) := by
  induction remaining with
  | zero => intro i values; exact KeepsBinder_pure _
  | succ n ih =>
    intro i values
    unfold ParseEnvironmentLoop
    repeat' first
      | with_reducible apply KeepsBinder_bind
      | exact KeepsBinder_pure _
      | exact KeepsBinder_fault _
      | exact KeepsBinder_outOfFuel
      | exact KeepsBinder_get
      | exact KeepsBinder_StoreError _ _
      | exact KeepsBinder_NewValue _
      | exact KeepsBinder_Check _ _
      | exact KeepsBinder_Retrieve _ _
      | exact KeepsBinder_ExtraLookupValue _ _
      | exact KeepsBinder_ListLength _
      | exact KeepsBinder_IntegerValue _
      | exact KeepsBinder_ParseSymbolAsPrefixedInt _ _ _
      | exact KeepsBinder_ParseEnvironmentSlot _ _ _ _ _
      | exact ih _ _
      | apply KeepsBinder_ite
      | intro _
      | dsimp only
      | split

theorem KeepsBinder_ParseEnvironmentWith (vm : VM) (fuel : Nat)
    (self : Option SExpression → Parse (Option Environment))
    (hself : ∀ list, KeepsBinder (self list)) (list : Option SExpression) :
    KeepsBinder (ParseEnvironmentWith vm fuel self list) := by
  unfold ParseEnvironmentWith CheckInteger CheckList
  repeat' first
    | with_reducible apply KeepsBinder_bind
    | exact KeepsBinder_pure _
    | exact KeepsBinder_fault _
    | exact KeepsBinder_outOfFuel
    | exact KeepsBinder_get
    | exact KeepsBinder_StoreError _ _
    | exact KeepsBinder_NewValue _
    | exact KeepsBinder_Check _ _
    | exact KeepsBinder_Retrieve _ _
    | exact KeepsBinder_ExtraLookupValue _ _
    | exact KeepsBinder_ListLength _
    | exact KeepsBinder_IntegerValue _
    | exact KeepsBinder_ParseSymbolAsPrefixedInt _ _ _
    | exact KeepsBinder_CurrentStack
    | exact KeepsBinder_ParseEnvironmentLoop _ _ _ _ _ _ _
    | exact hself _
    | apply KeepsBinder_ite
    | intro _
    | dsimp only
    | split

theorem KeepsBinder_ParseEnvironment (vm : VM) (fuel : Nat) :
    ∀ list, KeepsBinder (ParseEnvironment vm fuel list) := by
  induction fuel with
  | zero =>
    intro list
    cases list
    · exact KeepsBinder_pure _
    · exact KeepsBinder_outOfFuel
  | succ n ih =>
    intro list
    exact KeepsBinder_ParseEnvironmentWith vm _ _ ih list

theorem Fails_bind {α β : Type} {m : IntMap DefinitionPtr} {x : Parse α}
    {f : α → Parse (Option β)} (hx : KeepsBinder x) (hf : ∀ a, Fails m (f a)) :
    Fails m (x >>= f) := by
  constructor
  intro d hd r d2 h
  rw [Parse.bind_apply] at h
  cases hxd : x d with
  | ok a d1 =>
    rw [hxd] at h
    exact (hf a).post d1 ((hx.same d a d1 hxd).2.trans hd) r d2 h
  | fault e => rw [hxd] at h; cases h
  | outOfFuel => rw [hxd] at h; cases h

theorem Fails_ite {α : Type} {m : IntMap DefinitionPtr} (c : Prop) [Decidable c]
    {x y : Parse (Option α)} (hx : Fails m x) (hy : Fails m y) :
    Fails m (if c then x else y) := by
  split
  · exact hx
  · exact hy

theorem Fails_none {α : Type} (m : IntMap DefinitionPtr) :
    Fails m (pure none : Parse (Option α)) := by
  constructor
  intro d _ r d1 h
  cases h
  rfl

theorem Fails_fault {α : Type} (m : IntMap DefinitionPtr) (e : Fault) :
    Fails m (Parse.fault e : Parse (Option α)) := by
  constructor
  intro d _ r d1 h
  cases h

theorem Fails_get {α : Type} {m : IntMap DefinitionPtr}
    {f : FlowGraphDeserializer → Parse (Option α)}
    (hf : ∀ d, d.definition_map_ = m → Fails m (f d)) : Fails m (Parse.get >>= f) := by
  constructor
  intro d hd r d1 h
  exact (hf d hd).post d hd r d1 h

theorem CheckTaggedList_tagged (tag : String) (rest : List (Option SExpression))
    (extra_info : List (String × Option SExpression)) (d : FlowGraphDeserializer) :
    CheckTaggedList (some (.SExpList (some (.SExpSymbol tag) :: rest) extra_info)) (some tag) d =
      .ok (some (.SExpList (some (.SExpSymbol tag) :: rest) extra_info)) d := by
  have hlen : ¬ ((rest.length : Int) + 1 ≤ 0) := by omega
  simp [CheckTaggedList, CheckList, Check, SExpression.Is, SExpression.As, Retrieve, hlen, IsTag,
    CheckSymbol]

theorem ParseValue_unbound_form (vm : VM) (fuel : Nat) (digits : List Char) (j : Int)
    (rest : List (Option SExpression)) (extra_info : List (String × Option SExpression))
    (d : FlowGraphDeserializer) (r : Option ValuePtr) (d1 : FlowGraphDeserializer)
    (hindex : vm.StringToInt64 (String.mk digits) = some j)
    (hunbound : d.definition_map_.LookupValue j = none)
    (h : ParseValue vm fuel
      (some (.SExpList (some (.SExpSymbol "value") ::
        some (.SExpSymbol (String.mk ('v' :: digits))) :: rest) extra_info)) false d =
        .ok r d1) : r = none := by
  have hlen : ¬ ((rest.length : Int) + 1 + 1 ≤ 1) := by omega
  simp [ParseValue, ParseValueWith, SExpression.As, SExpression.Is, CheckTaggedList_tagged,
    Check, CheckSymbol, Retrieve, hlen, ExtraLookupValue, ParseUse, ParseSSATemp,
    ParseSymbolAsPrefixedInt, hindex, Parse.pure_bind] at h
  rw [← Parse.bind_apply] at h
  refine @Fails.post d.definition_map_ _ _ ?_ d rfl r d1 h
  repeat' first
    | exact Fails_none _
    | exact KeepsBinder_CheckTaggedList _ _
    | exact KeepsBinder_StoreError _ _
    | exact KeepsBinder_ParseCompileTypeWith vm _ (KeepsBinder_ParseDartValue vm fuel) _
    | (apply Fails_get; intro d0 hd0; simp only [hd0, hunbound])
    | apply Fails_bind
    | apply Fails_ite
    | intro _
    | dsimp only
    | split

theorem ParseValue_unbound (vm : VM) (fuel : Nat) (elem : SExpression)
    (d : FlowGraphDeserializer) (r : Option ValuePtr) (d1 : FlowGraphDeserializer)
    (hunbound : NamesUnbound vm d.definition_map_ elem)
    (h : ParseValue vm fuel (some elem) false d = .ok r d1) : r = none := by
  obtain ⟨digits, j, hindex, hj, hshape | ⟨rest, extra_info, hshape⟩⟩ := hunbound
  · subst hshape
    simp [ParseValue, ParseValueWith, SExpression.As, SExpression.Is, ParseUse, ParseSSATemp,
      ParseSymbolAsPrefixedInt, hindex, hj] at h
    exact h.1.symm
  · subst hshape
    exact ParseValue_unbound_form vm fuel digits j rest extra_info d r d1 hindex hj h

theorem Fails_ParseEnvironmentSlot (vm : VM) (fuel : Nat) (contents : List (Option SExpression))
    (extra_info : List (String × Option SExpression)) (stack : StackPtr) (k : Nat)
    (elem : SExpression) (m : IntMap DefinitionPtr) (hslot : contents[k]? = some (some elem))
    (hunbound : NamesUnbound vm m elem) :
    Fails m (ParseEnvironmentSlot vm fuel (.SExpList contents extra_info) stack k) := by
  constructor
  intro d hd r d1 h
  subst hd
  have hlt : k < contents.length := by
    rcases Nat.lt_or_ge k contents.length with h | h
    · exact h
    · rw [List.getElem?_eq_none h] at hslot; cases hslot
  have hget : contents[k]?.getD none = some elem := by simp [hslot]
  have hnot : ¬ ((contents.length : Int) ≤ (k : Int)) := by omega
  have hneg : ¬ ((k : Int) < 0) := by omega
  simp only [ParseEnvironmentSlot, Parse.bind_apply] at h
  have hretrieve : Retrieve (some (.SExpList contents extra_info)) (k : Int) d =
      .ok (some elem) d := by
    simp [Retrieve, hnot, hneg, hget]
  rw [hretrieve] at h
  simp only [Option.isNone_some, Bool.false_eq_true, if_false, Parse.pure_apply,
    Parse.bind_apply] at h
  cases hv : ParseValue vm fuel (some elem) false d with
  | ok a d2 =>
    have ha := ParseValue_unbound vm fuel elem d a d2 hunbound hv
    subst ha
    rw [hv] at h
    obtain ⟨digits, j, hindex, hj, hshape | ⟨rest, extra, hshape⟩⟩ := hunbound
    · subst hshape
      simp [CheckSymbol, Check, SExpression.Is, SExpression.As, ParseSymbolAsPrefixedInt] at h
      exact h.1.symm
    · subst hshape
      simp [CheckSymbol, Check, SExpression.Is, SExpression.As, ParseSymbolAsPrefixedInt] at h
      exact h.1.symm
  | fault e => rw [hv] at h; cases h
  | outOfFuel => rw [hv] at h; cases h

theorem Fails_seq {α β : Type} {m : IntMap DefinitionPtr} {x : Parse (Option α)}
    {f : Option α → Parse (Option β)} (hx : Fails m x) (hk : KeepsBinder x)
    (hf : Fails m (f none)) : Fails m (x >>= f) := by
  constructor
  intro d hd r d2 h
  rw [Parse.bind_apply] at h
  cases hxd : x d with
  | ok a d1 =>
    rw [hxd] at h
    have ha := hx.post d hd a d1 hxd
    subst ha
    exact hf.post d1 ((hk.same d _ d1 hxd).2.trans hd) r d2 h
  | fault e => rw [hxd] at h; cases h
  | outOfFuel => rw [hxd] at h; cases h

theorem Fails_ParseEnvironmentLoop (vm : VM) (fuel : Nat)
    (contents : List (Option SExpression)) (extra_info : List (String × Option SExpression))
    (stack : StackPtr) (k : Nat) (elem : SExpression) (m : IntMap DefinitionPtr)
    (hslot : contents[k]? = some (some elem)) (hunbound : NamesUnbound vm m elem)
    (remaining : Nat) :
    ∀ (i : Nat) (values : List ValuePtr), i ≤ k → k < i + remaining →
      Fails m (ParseEnvironmentLoop vm fuel (.SExpList contents extra_info) stack remaining i
        values) := by
  induction remaining with
  | zero => intro i values h1 h2; omega
  | succ n ih =>
    intro i values h1 h2
    unfold ParseEnvironmentLoop
    rcases Nat.eq_or_lt_of_le h1 with heq | hlt
    · subst heq
      exact Fails_seq (Fails_ParseEnvironmentSlot vm fuel contents extra_info stack i elem m
        hslot hunbound) (KeepsBinder_ParseEnvironmentSlot _ _ _ _ _) (Fails_none _)
    · apply Fails_bind (KeepsBinder_ParseEnvironmentSlot _ _ _ _ _)
      intro a
      cases a with
      | none => exact Fails_none _
      | some val =>
        have := ih (i + 1) (values ++ [val]) (by omega) (by omega)
        simpa using this

theorem Fails_ParseEnvironmentWith (vm : VM) (fuel : Nat)
    (self : Option SExpression → Parse (Option Environment))
    (hself : ∀ list, KeepsBinder (self list)) (m : IntMap DefinitionPtr)
    (hrec : ∀ list, UnboundSlot vm m list → Fails m (self (some list)))
    (list : SExpression) (hunbound : UnboundSlot vm m list) :
    Fails m (ParseEnvironmentWith vm fuel self (some list)) := by
  cases hunbound with
  | slot contents extra_info k elem hslot hnames =>
    have hlt : k < contents.length := by
      rcases Nat.lt_or_ge k contents.length with h | h
      · exact h
      · rw [List.getElem?_eq_none h] at hslot; cases hslot
    simp only [ParseEnvironmentWith, ListLength, Parse.pure_bind, Int.toNat_ofNat]
    repeat' first
      | with_reducible apply KeepsBinder_bind
      | exact Fails_none _
      | exact Fails_fault _ _
      | exact KeepsBinder_pure _
      | exact KeepsBinder_get
      | exact KeepsBinder_Check _ _
      | exact KeepsBinder_ExtraLookupValue _ _
      | exact KeepsBinder_IntegerValue _
      | exact KeepsBinder_CurrentStack
      | exact hself _
      | exact Fails_seq
          (Fails_ParseEnvironmentLoop vm fuel contents extra_info _ k elem m hslot hnames _ 0 []
            (Nat.zero_le _) (by omega))
          (KeepsBinder_ParseEnvironmentLoop _ _ _ _ _ _ _) (Fails_none _)
      | apply Fails_bind
      | apply Fails_ite
      | apply KeepsBinder_ite
      | intro _
      | dsimp only
      | split
  | outer contents extra_info outer_contents outer_extra hlookup houter =>
    simp only [ParseEnvironmentWith, ExtraLookupValue, hlookup, CheckList, Check, SExpression.Is,
      SExpression.As, Parse.pure_bind, Bool.not_true, Bool.false_eq_true, if_false, if_true]
    repeat' first
      | with_reducible apply KeepsBinder_bind
      | exact Fails_none _
      | exact Fails_fault _ _
      | exact KeepsBinder_pure _
      | exact KeepsBinder_get
      | exact KeepsBinder_Check _ _
      | exact KeepsBinder_ExtraLookupValue _ _
      | exact KeepsBinder_IntegerValue _
      | exact KeepsBinder_CurrentStack
      | exact Fails_seq (hrec _ houter) (hself _) (Fails_none _)
      | apply Fails_bind
      | apply Fails_ite
      | apply KeepsBinder_ite
      | intro _
      | dsimp only
      | split

theorem Fails_ParseEnvironment (vm : VM) (m : IntMap DefinitionPtr) (fuel : Nat) :
    ∀ list, UnboundSlot vm m list → Fails m (ParseEnvironment vm fuel (some list)) := by
  induction fuel with
  | zero =>
    intro list _
    constructor
    intro d _ r d1 h
    cases h
  | succ n ih =>
    intro list hunbound
    exact Fails_ParseEnvironmentWith vm _ _ (KeepsBinder_ParseEnvironment vm n) m ih list
      hunbound

theorem Records_bind {α β : Type} {x : Parse α} {f : α → Parse (Option β)}
    (hf : ∀ a, Records (f a)) : Records (x >>= f) := by
  constructor
  intro d r d2 h hr
  rw [Parse.bind_apply] at h
  cases hxd : x d with
  | ok a d1 =>
    rw [hxd] at h
    exact (hf a).post d1 r d2 h hr
  | fault e => rw [hxd] at h; cases h
  | outOfFuel => rw [hxd] at h; cases h

theorem Records_seq {α β : Type} {x : Parse (Option α)} {f : Option α → Parse (Option β)}
    (hx : Records x) (hnone : f none = pure none) (hf : ∀ a, Records (f (some a))) :
    Records (x >>= f) := by
  constructor
  intro d r d2 h hr
  rw [Parse.bind_apply] at h
  cases hxd : x d with
  | ok a d1 =>
    rw [hxd] at h
    cases a with
    | none =>
      have h2 : f none d1 = .ok r d2 := h
      rw [hnone] at h2
      cases h2
      exact hx.post d none _ hxd rfl
    | some a => exact (hf a).post d1 r d2 h hr
  | fault e => rw [hxd] at h; cases h
  | outOfFuel => rw [hxd] at h; cases h

theorem Records_ite {α : Type} (c : Prop) [Decidable c] {x y : Parse (Option α)}
    (hx : Records x) (hy : Records y) : Records (if c then x else y) := by
  split
  · exact hx
  · exact hy

theorem Records_some {α : Type} (a : α) : Records (pure (some a) : Parse (Option α)) := by
  constructor
  intro d r d1 h hr
  cases h
  cases hr

theorem Records_fault {α : Type} (e : Fault) : Records (Parse.fault e : Parse (Option α)) := by
  constructor
  intro d r d1 h
  cases h

theorem Records_StoreError {α : Type} (sexp : Option SExpression) (message : String) :
    Records (StoreError sexp message >>= fun _ => (pure none : Parse (Option α))) := by
  constructor
  intro d r d1 h _
  cases h
  simp

theorem Records_Retrieve (list : SExpression) (index : Int) :
    Records (Retrieve (some list) index) := by
  constructor
  intro d r d1 h hr
  subst hr
  cases list with
  | SExpList contents extra_info =>
    simp only [Retrieve] at h
    split at h
    · cases h; simp
    · split at h
      · cases h
      · cases helem : contents[index.toNat]?.getD none with
        | none =>
          simp only [List.getD_eq_getElem?_getD, helem, Parse.bind_apply, StoreError_apply,
            Parse.pure_apply] at h
          cases h
          simp
        | some e =>
          simp only [List.getD_eq_getElem?_getD, helem, Parse.bind_apply,
            Parse.pure_apply] at h
          cases h
  | _ => cases h

theorem Records_ParseEnvironmentSlot (vm : VM) (fuel : Nat) (list : SExpression)
    (stack : StackPtr) (i : Int) : Records (ParseEnvironmentSlot vm fuel list stack i) := by
  unfold ParseEnvironmentSlot
  apply Records_seq (Records_Retrieve list i)
  · rfl
  · intro elem
    simp only [Option.isNone_some, Bool.false_eq_true, if_false, Parse.pure_bind]
    apply Records_bind
    intro val
    cases val with
    | some v => exact Records_some _
    | none =>
      simp only [Option.isNone_none, if_true]
      repeat' first
        | exact Records_some _
        | exact Records_fault _
        | exact Records_StoreError _ _
        | apply Records_bind
        | apply Records_ite
        | intro _
        | dsimp only
        | split

theorem Records_ParseEnvironmentLoop (vm : VM) (fuel : Nat) (list : SExpression)
    (stack : StackPtr) (remaining : Nat) :
    ∀ i values, Records (ParseEnvironmentLoop vm fuel list stack remaining i values) := by
  induction remaining with
  | zero => intro i values; exact Records_some _
  | succ n ih =>
    intro i values
    unfold ParseEnvironmentLoop
    exact Records_seq (Records_ParseEnvironmentSlot _ _ _ _ _) rfl fun a => ih _ _

theorem Records_ParseEnvironmentWith (vm : VM) (fuel : Nat)
    (self : Option SExpression → Parse (Option Environment))
    (hself : ∀ list, Records (self (some list))) (list : SExpression) :
    Records (ParseEnvironmentWith vm fuel self (some list)) := by
  unfold ParseEnvironmentWith
  dsimp only
  repeat' first
    | exact Records_some _
    | exact Records_fault _
    | exact Records_seq (Records_ParseEnvironmentLoop _ _ _ _ _ _ _) rfl fun _ => Records_some _
    | (refine Records_seq (hself _) rfl ?_)
    | apply Records_bind
    | apply Records_ite
    | intro _
    | dsimp only
    | split

theorem Records_ParseEnvironment (vm : VM) (fuel : Nat) :
    ∀ list, Records (ParseEnvironment vm fuel (some list)) := by
  induction fuel with
  | zero =>
    intro list
    constructor
    intro d r d1 h
    cases h
  | succ n ih =>
    intro list
    exact Records_ParseEnvironmentWith vm _ _ ih list

theorem HandledInstructionForTag_invalid (value : String) (d : FlowGraphDeserializer)
    (hvalue : value ∉ ["Branch", "CheckStackOverflow", "Constant", "Goto", "PushArgument",
      "Parameter", "Return", "SpecialParameter", "StaticCall"]) :
    HandledInstructionForTag (some (.SExpSymbol value)) d = .ok .kHandledInvalid d := by
  simp only [List.mem_cons, List.mem_singleton, not_or, List.not_mem_nil, not_false_eq_true,
    and_true] at hvalue
  obtain ⟨h1, h2, h3, h4, h5, h6, h7, h8, h9⟩ := hvalue
  simp [HandledInstructionForTag, h1, h2, h3, h4, h5, h6, h7, h8, h9]

theorem CheckInteger_some (x : Option SExpression) (e : SExpression)
    (d d0 : FlowGraphDeserializer) (h : CheckInteger x d = .ok (some e) d0) :
    ∃ value, e = .SExpInteger value ∧ x = some e ∧ d0 = d := by
  cases x with
  | none => simp [CheckInteger, Check] at h
  | some y =>
    cases y <;> simp [CheckInteger, Check, SExpression.Is, SExpression.As] at h
    obtain ⟨h1, h2⟩ := h
    subst h1 h2
    exact ⟨_, rfl, rfl, rfl⟩

theorem ParseInstructionWith_unhandled (vm : VM) (fuel : Nat)
    (self : Option SExpression → Parse (Option DefinitionPtr)) (value : String)
    (rest : List (Option SExpression)) (extra_info : List (String × Option SExpression))
    (d d0 : FlowGraphDeserializer) (deopt : Option SExpression)
    (hdeopt : CheckInteger (ExtraLookup "deopt_id" extra_info) d = .ok deopt d0)
    (hvalue : value ∉ ["Branch", "CheckStackOverflow", "Constant", "Goto", "PushArgument",
      "Parameter", "Return", "SpecialParameter", "StaticCall"]) :
    (ExtraLookup "env" extra_info = none →
      ParseInstructionWith vm fuel self
          (some (.SExpList (some (.SExpSymbol value) :: rest) extra_info)) d =
        .ok none
          { d0 with
            error_sexp_ := some (.SExpSymbol value)
            error_message_ := some "unhandled instruction" }) ∧
    (∀ contents extra env d2,
      ExtraLookup "env" extra_info = some (.SExpList contents extra) →
      ParseEnvironment vm fuel (some (.SExpList contents extra)) d0 = .ok (some env) d2 →
      ParseInstructionWith vm fuel self
          (some (.SExpList (some (.SExpSymbol value) :: rest) extra_info)) d =
        .ok none
          { d2 with
            error_sexp_ := some (.SExpSymbol value)
            error_message_ := some "unhandled instruction" }) ∧
    (∀ contents extra d2,
      ExtraLookup "env" extra_info = some (.SExpList contents extra) →
      ParseEnvironment vm fuel (some (.SExpList contents extra)) d0 = .ok none d2 →
      ParseInstructionWith vm fuel self
          (some (.SExpList (some (.SExpSymbol value) :: rest) extra_info)) d = .ok none d2) := by
  have hlen : (0 : Int) < (rest.length : Int) + 1 := by omega
  have htag (d1 : FlowGraphDeserializer) := HandledInstructionForTag_invalid value d1 hvalue
  cases deopt with
  | none =>
    refine ⟨fun henv => ?_, fun contents extra env d2 henv hparse => ?_,
      fun contents extra d2 henv hparse => ?_⟩
    · simp [ParseInstructionWith, TagSymbol, ListAt, hlen, SExpression.As, SExpression.Is,
        ExtraLookupValue, hdeopt, henv, CheckList, Check, htag, DeserializeHandled]
    · simp [ParseInstructionWith, TagSymbol, ListAt, hlen, SExpression.As, SExpression.Is,
        ExtraLookupValue, hdeopt, henv, CheckList, Check, htag, hparse, DeserializeHandled]
    · simp [ParseInstructionWith, TagSymbol, ListAt, hlen, SExpression.As, SExpression.Is,
        ExtraLookupValue, hdeopt, henv, CheckList, Check, htag, hparse, DeserializeHandled]
  | some deopt_int =>
    obtain ⟨v, rfl, -, -⟩ := CheckInteger_some _ _ _ _ hdeopt
    refine ⟨fun henv => ?_, fun contents extra env d2 henv hparse => ?_,
      fun contents extra d2 henv hparse => ?_⟩
    · simp [ParseInstructionWith, TagSymbol, ListAt, hlen, SExpression.As, SExpression.Is,
        ExtraLookupValue, hdeopt, henv, CheckList, Check, htag, IntegerValue, DeserializeHandled]
    · simp [ParseInstructionWith, TagSymbol, ListAt, hlen, SExpression.As, SExpression.Is,
        ExtraLookupValue, hdeopt, henv, CheckList, Check, htag, hparse, IntegerValue, DeserializeHandled]
    · simp [ParseInstructionWith, TagSymbol, ListAt, hlen, SExpression.As, SExpression.Is,
        ExtraLookupValue, hdeopt, henv, CheckList, Check, htag, hparse, IntegerValue, DeserializeHandled]

theorem ParseInstructionWith_no_env (vm : VM) (fuel : Nat)
    (self : Option SExpression → Parse (Option DefinitionPtr)) (value : String)
    (rest : List (Option SExpression)) (extra_info : List (String × Option SExpression))
    (d d0 : FlowGraphDeserializer) (deopt : Option SExpression) (k : HandledInstruction)
    (hdeopt : CheckInteger (ExtraLookup "deopt_id" extra_info) d = .ok deopt d0)
    (henv : ExtraLookup "env" extra_info = none)
    (hk : HandledInstructionForTag (some (.SExpSymbol value)) d0 = .ok k d0) :
    ParseInstructionWith vm fuel self
        (some (.SExpList (some (.SExpSymbol value) :: rest) extra_info)) d =
      DeserializeHandled vm fuel self (.SExpList (some (.SExpSymbol value) :: rest) extra_info)
        (some (.SExpSymbol value))
        { deopt_id := match deopt with
            | some (.SExpInteger deopt_id) => deopt_id
            | _ => vm.kNone
          token_pos := vm.kNoSource } k d0 := by
  have hlen : (0 : Int) < (rest.length : Int) + 1 := by omega
  cases deopt with
  | none =>
    simp [ParseInstructionWith, TagSymbol, ListAt, hlen, SExpression.As, SExpression.Is,
      ExtraLookupValue, hdeopt, henv, CheckList, Check, hk]
    generalize DeserializeHandled vm fuel self _ _ _ k d0 = r
    cases r with
    | ok a d1 => cases a <;> rfl
    | fault e => rfl
    | outOfFuel => rfl
  | some deopt_int =>
    obtain ⟨v, rfl, -, -⟩ := CheckInteger_some _ _ _ _ hdeopt
    simp [ParseInstructionWith, TagSymbol, ListAt, hlen, SExpression.As, SExpression.Is,
      ExtraLookupValue, hdeopt, henv, CheckList, Check, hk, IntegerValue]
    generalize DeserializeHandled vm fuel self _ _ _ k d0 = r
    cases r with
    | ok a d1 => cases a <;> rfl
    | fault e => rfl
    | outOfFuel => rfl

theorem HandledInstructionForTag_spec (value : String) (d : FlowGraphDeserializer) :
    ∃ k, HandledInstructionForTag (some (.SExpSymbol value)) d = .ok k d ∧
      (k = .kHandledInvalid ↔
        value ∉ ["Branch", "CheckStackOverflow", "Constant", "Goto", "PushArgument",
          "Parameter", "Return", "SpecialParameter", "StaticCall"]) ∧
      (value = "Branch" ↔ k = .kHandledBranch) ∧
      (value = "CheckStackOverflow" ↔ k = .kHandledCheckStackOverflow) ∧
      (value = "Constant" ↔ k = .kHandledConstant) ∧
      (value = "Goto" ↔ k = .kHandledGoto) ∧
      (value = "PushArgument" ↔ k = .kHandledPushArgument) ∧
      (value = "Parameter" ↔ k = .kHandledParameter) ∧
      (value = "Return" ↔ k = .kHandledReturn) ∧
      (value = "SpecialParameter" ↔ k = .kHandledSpecialParameter) ∧
      (value = "StaticCall" ↔ k = .kHandledStaticCall) := by
  by_cases h1 : value = "Branch"
  · subst h1; exact ⟨_, rfl, by decide⟩
  by_cases h2 : value = "CheckStackOverflow"
  · subst h2; exact ⟨_, rfl, by decide⟩
  by_cases h3 : value = "Constant"
  · subst h3; exact ⟨_, rfl, by decide⟩
  by_cases h4 : value = "Goto"
  · subst h4; exact ⟨_, rfl, by decide⟩
  by_cases h5 : value = "PushArgument"
  · subst h5; exact ⟨_, rfl, by decide⟩
  by_cases h6 : value = "Parameter"
  · subst h6; exact ⟨_, rfl, by decide⟩
  by_cases h7 : value = "Return"
  · subst h7; exact ⟨_, rfl, by decide⟩
  by_cases h8 : value = "SpecialParameter"
  · subst h8; exact ⟨_, rfl, by decide⟩
  by_cases h9 : value = "StaticCall"
  · subst h9; exact ⟨_, rfl, by decide⟩
  refine ⟨.kHandledInvalid, ?_, ?_⟩
  · simp [HandledInstructionForTag, h1, h2, h3, h4, h5, h6, h7, h8, h9]
  · simp [h1, h2, h3, h4, h5, h6, h7, h8, h9]

theorem Check_zone_instructions (k : SExpKind) (x a : Option SExpression)
    (d d0 : FlowGraphDeserializer) (h : Check k x d = .ok a d0) :
    d0.zone_instructions = d.zone_instructions := by
  unfold Check at h
  split at h
  · cases h; rfl
  · split at h
    · cases h; rfl
    · cases h; rfl

theorem ParseSymbolAsPrefixedInt_some (vm : VM) (value : String) (pfx : Char)
    (d d1 : FlowGraphDeserializer) (id : Int)
    (h : ParseSymbolAsPrefixedInt vm (some (.SExpSymbol value)) pfx d = .ok (some id) d1) :
    d1 = d := by
  simp only [ParseSymbolAsPrefixedInt] at h
  cases hdata : value.data with
  | nil =>
    rw [hdata] at h
    by_cases hp : NUL ≠ pfx
    · simp [hp] at h
    · simp [hp] at h
  | cons c rest =>
    rw [hdata] at h
    by_cases hc : c ≠ pfx
    · simp [hc] at h
    · cases hs : vm.StringToInt64 (String.mk rest) with
      | none => simp [hc, hs] at h
      | some i =>
        simp [hc, hs] at h
        exact h.2.symm

theorem FetchBlock_some (vm : VM) (sym : Option SExpression) (d d1 : FlowGraphDeserializer)
    (block : DefinitionPtr) (h : FetchBlock vm sym d = .ok (some block) d1) :
    d1 = d ∧ ∃ value id, sym = some (.SExpSymbol value) ∧
      ParseBlockId vm sym d = .ok (some id) d ∧ d.block_map_.LookupValue id = some block := by
  cases sym with
  | none => simp [FetchBlock] at h
  | some s =>
    cases s with
    | SExpSymbol value =>
      simp only [FetchBlock, Parse.bind_apply] at h
      cases hid : ParseBlockId vm (some (.SExpSymbol value)) d with
      | ok a d2 =>
        rw [hid] at h
        cases a with
        | none => simp at h
        | some id =>
          have hd2 : d2 = d := ParseSymbolAsPrefixedInt_some vm value 'B' d d2 id hid
          subst hd2
          simp only [Parse.get_apply] at h
          cases hb : d2.block_map_.LookupValue id with
          | none => simp [hb] at h
          | some b =>
            simp [hb] at h
            exact ⟨h.2.symm, value, id, rfl, rfl, by rw [hb, h.1]⟩
      | fault e => rw [hid] at h; cases h
      | outOfFuel => rw [hid] at h; cases h
    | _ =>
      simp [FetchBlock, ParseBlockId, ParseSymbolAsPrefixedInt] at h

theorem Retrieve_some (list : Option SExpression) (index : Int) (e : SExpression)
    (d d1 : FlowGraphDeserializer) (h : Retrieve list index d = .ok (some e) d1) : d1 = d := by
  cases list with
  | none => simp [Retrieve] at h
  | some l =>
    cases l with
    | SExpList contents extra_info =>
      simp only [Retrieve] at h
      split at h
      · simp at h
      · split at h
        · cases h
        · cases helem : contents[index.toNat]?.getD none with
          | none => simp [helem] at h
          | some x =>
            simp [helem] at h
            exact h.2.symm
    | _ => cases h

theorem Check_some (k : SExpKind) (x : Option SExpression) (e : SExpression)
    (d d1 : FlowGraphDeserializer) (h : Check k x d = .ok (some e) d1) :
    x = some e ∧ e.Is k = true ∧ d1 = d := by
  cases x with
  | none => simp [Check] at h
  | some y =>
    by_cases hy : y.Is k = true
    · simp [Check, hy, SExpression.As] at h
      exact ⟨by rw [h.1], h.1 ▸ hy, h.2.symm⟩
    · simp [Check, hy] at h

theorem IsJoinEntry_true (block : DefinitionPtr) (d d1 : FlowGraphDeserializer)
    (h : IsJoinEntry block d = .ok true d1) :
    d1 = d ∧ ∃ id try_index deopt_id,
      d.zone_instructions[block]? = some (.JoinEntry id try_index deopt_id) := by
  simp only [IsJoinEntry, InstructionAt, Parse.bind_apply] at h
  simp only [List.get?_eq_getElem?] at h
  cases hi : d.zone_instructions[block]? with
  | none => simp [hi] at h
  | some i =>
    cases i <;> simp [hi] at h
    exact ⟨h.symm, _, _, _, rfl⟩

theorem IsTargetEntry_true (block : DefinitionPtr) (d d1 : FlowGraphDeserializer)
    (h : IsTargetEntry block d = .ok true d1) :
    d1 = d ∧ ∃ id try_index deopt_id,
      d.zone_instructions[block]? = some (.TargetEntry id try_index deopt_id) := by
  simp only [IsTargetEntry, InstructionAt, Parse.bind_apply] at h
  simp only [List.get?_eq_getElem?] at h
  cases hi : d.zone_instructions[block]? with
  | none => simp [hi] at h
  | some i =>
    cases i <;> simp [hi] at h
    exact ⟨h.symm, _, _, _, rfl⟩

theorem DeserializeGoto_some (vm : VM) (sexp : Option SExpression) (info : InstrInfo)
    (d d2 : FlowGraphDeserializer) (goto : DefinitionPtr)
    (h : DeserializeGoto vm sexp info d = .ok (some goto) d2) :
    ∃ value id block bid try_index deopt_id,
      Retrieve sexp 1 d = .ok (some (.SExpSymbol value)) d ∧
      ParseBlockId vm (some (.SExpSymbol value)) d = .ok (some id) d ∧
      d.block_map_.LookupValue id = some block ∧
      d.zone_instructions[block]? = some (.JoinEntry bid try_index deopt_id) ∧
      goto = d.zone_instructions.length ∧
      d2 = { d with zone_instructions := d.zone_instructions ++ [.Goto block info.deopt_id] } := by
  simp only [DeserializeGoto, Parse.bind_apply] at h
  cases hr : Retrieve sexp 1 d with
  | ok r d1 =>
    rw [hr] at h
    simp only [] at h
    cases hc : CheckSymbol r d1 with
    | ok s d3 =>
      rw [hc] at h
      simp only [] at h
      cases hf : FetchBlock vm s d3 with
      | ok b d4 =>
        rw [hf] at h
        cases b with
        | none => simp at h
        | some block =>
          obtain ⟨hd4, value, id, hs, hid, hlookup⟩ := FetchBlock_some vm s d3 d4 block hf
          subst hd4 hs
          obtain ⟨hr2, -, hd3⟩ := Check_some _ _ _ _ _ hc
          subst hd3 hr2
          have hd1 := Retrieve_some _ _ _ _ _ hr
          subst hd1
          cases sexp with
          | none => simp [Retrieve] at hr
          | some list =>
            simp only [] at h
            cases hj : IsJoinEntry block d4 with
            | ok j d5 =>
              simp only [Parse.bind_apply, hj] at h
              cases j with
              | false =>
                simp only [Bool.not_false, if_true, Parse.bind_apply] at h
                cases hl : ListAt list 1 d5 with
                | ok a d6 => rw [hl] at h; simp at h
                | fault e => rw [hl] at h; cases h
                | outOfFuel => rw [hl] at h; cases h
              | true =>
                obtain ⟨hd5, bid, try_index, deopt_id, hinstr⟩ := IsJoinEntry_true _ _ _ hj
                subst hd5
                simp [NewInstruction] at h
                exact ⟨value, id, block, bid, try_index, deopt_id, rfl, hid, hlookup, hinstr,
                  h.1.symm, h.2.symm⟩
            | fault e => simp only [Parse.bind_apply, hj] at h; cases h
            | outOfFuel => simp only [Parse.bind_apply, hj] at h; cases h
      | fault e => rw [hf] at h; cases h
      | outOfFuel => rw [hf] at h; cases h
    | fault e => rw [hc] at h; cases h
    | outOfFuel => rw [hc] at h; cases h
  | fault e => rw [hr] at h; cases h
  | outOfFuel => rw [hr] at h; cases h

theorem IsComparison_unchanged (inst : DefinitionPtr) (d d1 : FlowGraphDeserializer) (b : Bool)
    (h : IsComparison inst d = .ok b d1) : d1 = d := by
  simp only [IsComparison, InstructionAt, Parse.bind_apply, List.get?_eq_getElem?] at h
  cases hi : d.zone_instructions[inst]? with
  | none => simp [hi] at h
  | some i => cases i <;> simp [hi] at h <;> exact h.2.symm

theorem DeserializeBranchWith_some (vm : VM)
    (self : Option SExpression → Parse (Option DefinitionPtr)) (sexp : Option SExpression)
    (info : InstrInfo) (d d2 : FlowGraphDeserializer) (branch : DefinitionPtr)
    (h : DeserializeBranchWith vm self sexp info d = .ok (some branch) d2) :
    ∃ comp_sexp d0 comp d1 true_value true_id true_block false_value false_id false_block,
      self comp_sexp d0 = .ok (some comp) d1 ∧
      IsComparison comp d1 = .ok true d1 ∧
      Retrieve sexp 2 d1 = .ok (some (.SExpSymbol true_value)) d1 ∧
      ParseBlockId vm (some (.SExpSymbol true_value)) d1 = .ok (some true_id) d1 ∧
      d1.block_map_.LookupValue true_id = some true_block ∧
      IsTargetEntry true_block d1 = .ok true d1 ∧
      Retrieve sexp 3 d1 = .ok (some (.SExpSymbol false_value)) d1 ∧
      ParseBlockId vm (some (.SExpSymbol false_value)) d1 = .ok (some false_id) d1 ∧
      d1.block_map_.LookupValue false_id = some false_block ∧
      IsTargetEntry false_block d1 = .ok true d1 ∧
      branch = d1.zone_instructions.length ∧
      d2 = { d1 with
        zone_instructions := d1.zone_instructions ++
          [.Branch comp info.deopt_id (some true_block) (some false_block)] } := by
  simp only [DeserializeBranchWith, Parse.bind_apply] at h
  cases hr : Retrieve sexp 1 d with
  | fault e => rw [hr] at h; cases h
  | outOfFuel => rw [hr] at h; cases h
  | ok r da =>
  rw [hr] at h
  simp only [] at h
  cases hc : CheckTaggedList r none da with
  | fault e => rw [hc] at h; cases h
  | outOfFuel => rw [hc] at h; cases h
  | ok comp_sexp d0 =>
  rw [hc] at h
  simp only [] at h
  cases hs : self comp_sexp d0 with
  | fault e => rw [hs] at h; cases h
  | outOfFuel => rw [hs] at h; cases h
  | ok c d1 =>
  rw [hs] at h
  cases c with
  | none => simp at h
  | some comp =>
  cases sexp with
  | none => simp at h
  | some list =>
  simp only [Parse.bind_apply] at h
  cases hi : IsComparison comp d1 with
  | fault e => rw [hi] at h; cases h
  | outOfFuel => rw [hi] at h; cases h
  | ok b db =>
  have hdb := IsComparison_unchanged _ _ _ _ hi
  subst hdb
  rw [hi] at h
  cases b with
  | false =>
    simp only [Bool.not_false, if_true, Parse.bind_apply] at h
    cases hl : ListAt list 1 db with
    | ok a d6 => rw [hl] at h; simp at h
    | fault e => rw [hl] at h; cases h
    | outOfFuel => rw [hl] at h; cases h
  | true =>
  simp only [Bool.not_true, Bool.false_eq_true, if_false, Parse.bind_apply, Parse.pure_apply]
    at h
  cases hr2 : Retrieve (some list) 2 db with
  | fault e => rw [hr2] at h; cases h
  | outOfFuel => rw [hr2] at h; cases h
  | ok r2 dc =>
  rw [hr2] at h
  simp only [] at h
  cases hc2 : CheckSymbol r2 dc with
  | fault e => rw [hc2] at h; cases h
  | outOfFuel => rw [hc2] at h; cases h
  | ok s2 dd =>
  rw [hc2] at h
  simp only [] at h
  cases hf2 : FetchBlock vm s2 dd with
  | fault e => rw [hf2] at h; cases h
  | outOfFuel => rw [hf2] at h; cases h
  | ok tb de =>
  rw [hf2] at h
  cases tb with
  | none => simp at h
  | some true_block =>
  obtain ⟨hde, true_value, true_id, hs2, htid, htlookup⟩ := FetchBlock_some vm s2 dd de _ hf2
  subst hde hs2
  obtain ⟨hr2e, -, hdd⟩ := Check_some _ _ _ _ _ hc2
  subst hdd hr2e
  have hdc := Retrieve_some _ _ _ _ _ hr2
  subst hdc
  simp only [Parse.bind_apply] at h
  cases ht : IsTargetEntry true_block de with
  | fault e => rw [ht] at h; cases h
  | outOfFuel => rw [ht] at h; cases h
  | ok t df =>
  rw [ht] at h
  cases t with
  | false =>
    simp only [Bool.not_false, if_true, Parse.bind_apply] at h
    cases hl : ListAt list 2 df with
    | ok a d6 => rw [hl] at h; simp at h
    | fault e => rw [hl] at h; cases h
    | outOfFuel => rw [hl] at h; cases h
  | true =>
  obtain ⟨hdf, -⟩ := IsTargetEntry_true _ _ _ ht
  subst hdf
  simp only [Bool.not_true, Bool.false_eq_true, if_false, Parse.bind_apply, Parse.pure_apply]
    at h
  cases hr3 : Retrieve (some list) 3 df with
  | fault e => rw [hr3] at h; cases h
  | outOfFuel => rw [hr3] at h; cases h
  | ok r3 dg =>
  rw [hr3] at h
  simp only [] at h
  cases hc3 : CheckSymbol r3 dg with
  | fault e => rw [hc3] at h; cases h
  | outOfFuel => rw [hc3] at h; cases h
  | ok s3 dh =>
  rw [hc3] at h
  simp only [] at h
  cases hf3 : FetchBlock vm s3 dh with
  | fault e => rw [hf3] at h; cases h
  | outOfFuel => rw [hf3] at h; cases h
  | ok fb di =>
  rw [hf3] at h
  cases fb with
  | none => simp at h
  | some false_block =>
  obtain ⟨hdi, false_value, false_id, hs3, hfid, hflookup⟩ := FetchBlock_some vm s3 dh di _ hf3
  subst hdi hs3
  obtain ⟨hr3e, -, hdh⟩ := Check_some _ _ _ _ _ hc3
  subst hdh hr3e
  have hdg := Retrieve_some _ _ _ _ _ hr3
  subst hdg
  simp only [Parse.bind_apply] at h
  cases hu : IsTargetEntry false_block di with
  | fault e => rw [hu] at h; cases h
  | outOfFuel => rw [hu] at h; cases h
  | ok u dj =>
  rw [hu] at h
  cases u with
  | false =>
    simp only [Bool.not_false, if_true, Parse.bind_apply] at h
    cases hl : ListAt list 3 dj with
    | ok a d6 => rw [hl] at h; simp at h
    | fault e => rw [hl] at h; cases h
    | outOfFuel => rw [hl] at h; cases h
  | true =>
  obtain ⟨hdj, -⟩ := IsTargetEntry_true _ _ _ hu
  subst hdj
  simp [NewInstruction] at h
  exact ⟨comp_sexp, d0, comp, dj, true_value, true_id, true_block, false_value, false_id,
    false_block, hs, hi, hr2, htid, htlookup, ht, hr3, hfid, hflookup, hu, h.1.symm,
    h.2.symm⟩

theorem CheckTaggedList_any (tag : String) (rest : List (Option SExpression))
    (extra_info : List (String × Option SExpression)) (d : FlowGraphDeserializer) :
    CheckTaggedList (some (.SExpList (some (.SExpSymbol tag) :: rest) extra_info)) none d =
      .ok (some (.SExpList (some (.SExpSymbol tag) :: rest) extra_info)) d := by
  have hlen : ¬ ((rest.length : Int) + 1 ≤ 0) := by omega
  simp [CheckTaggedList, CheckList, Check, SExpression.Is, SExpression.As, Retrieve, hlen, IsTag,
    CheckSymbol]

theorem DeserializeGoto_target (vm : VM) (digits : List Char) (id : Int)
    (tag : Option SExpression) (rest : List (Option SExpression))
    (extra_info : List (String × Option SExpression)) (info : InstrInfo)
    (d : FlowGraphDeserializer) (hid : vm.StringToInt64 (String.mk digits) = some id) :
    (d.block_map_.LookupValue id = none →
      DeserializeGoto vm
          (some (.SExpList (tag :: some (.SExpSymbol (String.mk ('B' :: digits))) :: rest)
            extra_info)) info d =
        .ok none
          { d with
            error_sexp_ := some (.SExpSymbol (String.mk ('B' :: digits))),
            error_message_ := some "reference to undefined block" }) ∧
    (∀ block, d.block_map_.LookupValue id = some block → IsJoinEntry block d = .ok false d →
      DeserializeGoto vm
          (some (.SExpList (tag :: some (.SExpSymbol (String.mk ('B' :: digits))) :: rest)
            extra_info)) info d =
        .ok none
          { d with
            error_sexp_ := some (.SExpSymbol (String.mk ('B' :: digits))),
            error_message_ := some "target of goto must be join entry" }) ∧
    (∀ block, d.block_map_.LookupValue id = some block → IsJoinEntry block d = .ok true d →
      DeserializeGoto vm
          (some (.SExpList (tag :: some (.SExpSymbol (String.mk ('B' :: digits))) :: rest)
            extra_info)) info d =
        .ok (some d.zone_instructions.length)
          { d with
            zone_instructions := d.zone_instructions ++ [.Goto block info.deopt_id] }) := by
  have hlen : ¬ ((rest.length : Int) + 1 + 1 ≤ 1) := by omega
  have hlen2 : (1 : Int) < (rest.length : Int) + 1 + 1 := by omega
  refine ⟨fun hnone => ?_, fun block hsome hjoin => ?_, fun block hsome hjoin => ?_⟩
  · simp [DeserializeGoto, Retrieve, hlen, CheckSymbol, Check, SExpression.Is, SExpression.As,
      FetchBlock, ParseBlockId, ParseSymbolAsPrefixedInt, hid, hnone]
  · simp [DeserializeGoto, Retrieve, hlen, CheckSymbol, Check, SExpression.Is, SExpression.As,
      FetchBlock, ParseBlockId, ParseSymbolAsPrefixedInt, hid, hsome, hjoin, ListAt, hlen2]
  · simp [DeserializeGoto, Retrieve, hlen, CheckSymbol, Check, SExpression.Is, SExpression.As,
      FetchBlock, ParseBlockId, ParseSymbolAsPrefixedInt, hid, hsome, hjoin, NewInstruction]

theorem DeserializeBranchWith_targets (vm : VM)
    (self : Option SExpression → Parse (Option DefinitionPtr)) (true_digits false_digits :
      List Char) (true_id false_id : Int) (tag : Option SExpression) (comp_tag : String)
    (comp_rest : List (Option SExpression))
    (comp_extra : List (String × Option SExpression)) (rest : List (Option SExpression))
    (extra_info : List (String × Option SExpression)) (info : InstrInfo)
    (d d1 : FlowGraphDeserializer) (comp : DefinitionPtr) (sexp : SExpression)
    (hsexp : sexp = .SExpList
      (tag :: some (.SExpList (some (.SExpSymbol comp_tag) :: comp_rest) comp_extra) ::
        some (.SExpSymbol (String.mk ('B' :: true_digits))) ::
        some (.SExpSymbol (String.mk ('B' :: false_digits))) :: rest) extra_info)
    (htrue : vm.StringToInt64 (String.mk true_digits) = some true_id)
    (hfalse : vm.StringToInt64 (String.mk false_digits) = some false_id)
    (hself : self (some (.SExpList (some (.SExpSymbol comp_tag) :: comp_rest) comp_extra)) d =
      .ok (some comp) d1)
    (hcomp : IsComparison comp d1 = .ok true d1) :
    (d1.block_map_.LookupValue true_id = none →
      DeserializeBranchWith vm self (some sexp) info d =
        .ok none
          { d1 with
            error_sexp_ := some (.SExpSymbol (String.mk ('B' :: true_digits))),
            error_message_ := some "reference to undefined block" }) ∧
    (∀ true_block, d1.block_map_.LookupValue true_id = some true_block →
      IsTargetEntry true_block d1 = .ok false d1 →
      DeserializeBranchWith vm self (some sexp) info d =
        .ok none
          { d1 with
            error_sexp_ := some (.SExpSymbol (String.mk ('B' :: true_digits))),
            error_message_ := some "true successor is not a target block" }) ∧
    (∀ true_block, d1.block_map_.LookupValue true_id = some true_block →
      IsTargetEntry true_block d1 = .ok true d1 →
      (d1.block_map_.LookupValue false_id = none →
        DeserializeBranchWith vm self (some sexp) info d =
          .ok none
            { d1 with
              error_sexp_ := some (.SExpSymbol (String.mk ('B' :: false_digits))),
              error_message_ := some "reference to undefined block" }) ∧
      (∀ false_block, d1.block_map_.LookupValue false_id = some false_block →
        IsTargetEntry false_block d1 = .ok false d1 →
        DeserializeBranchWith vm self (some sexp) info d =
          .ok none
            { d1 with
              error_sexp_ := some (.SExpSymbol (String.mk ('B' :: false_digits))),
              error_message_ := some "false successor is not a target block" }) ∧
      (∀ false_block, d1.block_map_.LookupValue false_id = some false_block →
        IsTargetEntry false_block d1 = .ok true d1 →
        DeserializeBranchWith vm self (some sexp) info d =
          .ok (some d1.zone_instructions.length)
            { d1 with
              zone_instructions := d1.zone_instructions ++
                [.Branch comp info.deopt_id (some true_block) (some false_block)] })) := by
  subst hsexp
  have hlen1 : ¬ ((rest.length : Int) + 1 + 1 + 1 + 1 ≤ 1) := by omega
  have hlen2 : ¬ ((rest.length : Int) + 1 + 1 + 1 + 1 ≤ 2) := by omega
  have hlen3 : ¬ ((rest.length : Int) + 1 + 1 + 1 + 1 ≤ 3) := by omega
  have hlt2 : (2 : Int) < (rest.length : Int) + 1 + 1 + 1 + 1 := by omega
  have hlt3 : (3 : Int) < (rest.length : Int) + 1 + 1 + 1 + 1 := by omega
  refine ⟨fun hnone => ?_, fun true_block hsome htarget => ?_, fun true_block hsome htarget =>
    ⟨fun hnone => ?_, fun false_block hfsome hftarget => ?_,
      fun false_block hfsome hftarget => ?_⟩⟩
  · simp [DeserializeBranchWith, Retrieve, hlen1, hlen2, CheckTaggedList_any, hself, hcomp,
      CheckSymbol, Check, SExpression.Is, SExpression.As, FetchBlock, ParseBlockId,
      ParseSymbolAsPrefixedInt, htrue, hnone]
  · simp [DeserializeBranchWith, Retrieve, hlen1, hlen2, CheckTaggedList_any, hself, hcomp,
      CheckSymbol, Check, SExpression.Is, SExpression.As, FetchBlock, ParseBlockId,
      ParseSymbolAsPrefixedInt, htrue, hsome, htarget, ListAt, hlt2]
  · simp [DeserializeBranchWith, Retrieve, hlen1, hlen2, hlen3, CheckTaggedList_any, hself,
      hcomp, CheckSymbol, Check, SExpression.Is, SExpression.As, FetchBlock, ParseBlockId,
      ParseSymbolAsPrefixedInt, htrue, hfalse, hsome, htarget, hnone]
  · simp [DeserializeBranchWith, Retrieve, hlen1, hlen2, hlen3, CheckTaggedList_any, hself,
      hcomp, CheckSymbol, Check, SExpression.Is, SExpression.As, FetchBlock, ParseBlockId,
      ParseSymbolAsPrefixedInt, htrue, hfalse, hsome, htarget, hfsome, hftarget, ListAt, hlt3]
  · simp [DeserializeBranchWith, Retrieve, hlen1, hlen2, hlen3, CheckTaggedList_any, hself,
      hcomp, CheckSymbol, Check, SExpression.Is, SExpression.As, FetchBlock, ParseBlockId,
      ParseSymbolAsPrefixedInt, htrue, hfalse, hsome, htarget, hfsome, hftarget, NewInstruction]

/-- C26: `DeserializeGoto` returns a goto only if its operand is a symbol `B<id>`
whose id the block-id table maps to a block that is a `JoinEntry`, and
`DeserializeBranch` returns a branch only if its comparison was parsed and both
its target operands are symbols `B<id>` whose ids the table maps to blocks
that are `TargetEntry` blocks. A target id that is not in the table yields null
with the error `reference to undefined block` located at the operand, and a
target that is a block of another kind yields null with the error `target of
goto must be join entry` (`true successor is not a target block`, `false
successor is not a target block`) located at the operand; with the right kinds
the new instruction is returned. The call of `ParseInstruction` for the
comparison is any `self`. -/
theorem Deserialize_control_targets (vm : VM)
    (self : Option SExpression → Parse (Option DefinitionPtr)) (info : InstrInfo) :
    (∀ (sexp : Option SExpression) (d d2 : FlowGraphDeserializer) (goto : DefinitionPtr),
        DeserializeGoto vm sexp info d = .ok (some goto) d2 →
        (∃ value id block bid try_index deopt_id, Retrieve sexp 1 d = .ok (some (.SExpSymbol value))
            d ∧ ParseBlockId vm (some (.SExpSymbol value)) d = .ok (some id) d ∧
            d.block_map_.LookupValue id = some block ∧ d.zone_instructions[block]? = some
            (.JoinEntry bid try_index deopt_id) ∧ goto = d.zone_instructions.length ∧ d2 =
            { d with zone_instructions := d.zone_instructions ++ [.Goto block info.deopt_id] })) ∧
    (∀ (sexp : Option SExpression) (d d2 : FlowGraphDeserializer) (branch : DefinitionPtr),
        DeserializeBranchWith vm self sexp info d = .ok (some branch) d2 →
        (∃ comp_sexp d0 comp d1 true_value true_id true_block false_value false_id false_block, self
            comp_sexp d0 = .ok (some comp) d1 ∧ IsComparison comp d1 = .ok true d1 ∧ Retrieve sexp 2
            d1 = .ok (some (.SExpSymbol true_value)) d1 ∧ ParseBlockId vm (some (.SExpSymbol
            true_value)) d1 = .ok (some true_id) d1 ∧ d1.block_map_.LookupValue true_id = some
            true_block ∧ IsTargetEntry true_block d1 = .ok true d1 ∧ Retrieve sexp 3 d1 = .ok (some
            (.SExpSymbol false_value)) d1 ∧ ParseBlockId vm (some (.SExpSymbol false_value)) d1 =
            .ok (some false_id) d1 ∧ d1.block_map_.LookupValue false_id = some false_block ∧
            IsTargetEntry false_block d1 = .ok true d1 ∧ branch = d1.zone_instructions.length ∧ d2 =
            { d1 with zone_instructions := d1.zone_instructions ++ [.Branch comp info.deopt_id (some true_block) (some false_block)] })) ∧
    (∀ (digits : List Char) (id : Int) (tag : Option SExpression) (rest : List (Option
          SExpression)) (extra_info : List (String × Option SExpression)) (d :
          FlowGraphDeserializer),
        vm.StringToInt64 (String.mk digits) = some id →
        ((d.block_map_.LookupValue id = none → DeserializeGoto vm (some (.SExpList (tag :: some
            (.SExpSymbol (String.mk ('B' :: digits))) :: rest) extra_info)) info d = .ok none
            { d with error_sexp_ := some (.SExpSymbol (String.mk ('B' :: digits))), error_message_ := some "reference to undefined block" })
            ∧ (∀ block, d.block_map_.LookupValue id = some block → IsJoinEntry block d = .ok false d
            → DeserializeGoto vm (some (.SExpList (tag :: some (.SExpSymbol (String.mk ('B' ::
            digits))) :: rest) extra_info)) info d = .ok none
            { d with error_sexp_ := some (.SExpSymbol (String.mk ('B' :: digits))), error_message_ := some "target of goto must be join entry" })
            ∧ (∀ block, d.block_map_.LookupValue id = some block → IsJoinEntry block d = .ok true d
            → DeserializeGoto vm (some (.SExpList (tag :: some (.SExpSymbol (String.mk ('B' ::
            digits))) :: rest) extra_info)) info d = .ok (some d.zone_instructions.length)
            { d with zone_instructions := d.zone_instructions ++ [.Goto block info.deopt_id] }))) ∧
    (∀ (true_digits false_digits : List Char) (true_id false_id : Int) (tag : Option SExpression)
          (comp_tag : String) (comp_rest : List (Option SExpression)) (comp_extra : List (String ×
          Option SExpression)) (rest : List (Option SExpression)) (extra_info : List (String ×
          Option SExpression)) (d d1 : FlowGraphDeserializer) (comp : DefinitionPtr) (sexp :
          SExpression),
        sexp = .SExpList (tag :: some (.SExpList (some (.SExpSymbol comp_tag) :: comp_rest)
            comp_extra) :: some (.SExpSymbol (String.mk ('B' :: true_digits))) :: some (.SExpSymbol
            (String.mk ('B' :: false_digits))) :: rest) extra_info →
        vm.StringToInt64 (String.mk true_digits) = some true_id →
        vm.StringToInt64 (String.mk false_digits) = some false_id →
        self (some (.SExpList (some (.SExpSymbol comp_tag) :: comp_rest) comp_extra)) d = .ok (some
            comp) d1 →
        IsComparison comp d1 = .ok true d1 →
        ((d1.block_map_.LookupValue true_id = none → DeserializeBranchWith vm self (some sexp) info
            d = .ok none
            { d1 with error_sexp_ := some (.SExpSymbol (String.mk ('B' :: true_digits))), error_message_ := some "reference to undefined block" })
            ∧ (∀ true_block, d1.block_map_.LookupValue true_id = some true_block → IsTargetEntry
            true_block d1 = .ok false d1 → DeserializeBranchWith vm self (some sexp) info d = .ok
            none
            { d1 with error_sexp_ := some (.SExpSymbol (String.mk ('B' :: true_digits))), error_message_ := some "true successor is not a target block" })
            ∧ (∀ true_block, d1.block_map_.LookupValue true_id = some true_block → IsTargetEntry
            true_block d1 = .ok true d1 → (d1.block_map_.LookupValue false_id = none →
            DeserializeBranchWith vm self (some sexp) info d = .ok none
            { d1 with error_sexp_ := some (.SExpSymbol (String.mk ('B' :: false_digits))), error_message_ := some "reference to undefined block" })
            ∧ (∀ false_block, d1.block_map_.LookupValue false_id = some false_block → IsTargetEntry
            false_block d1 = .ok false d1 → DeserializeBranchWith vm self (some sexp) info d = .ok
            none
            { d1 with error_sexp_ := some (.SExpSymbol (String.mk ('B' :: false_digits))), error_message_ := some "false successor is not a target block" })
            ∧ (∀ false_block, d1.block_map_.LookupValue false_id = some false_block → IsTargetEntry
            false_block d1 = .ok true d1 → DeserializeBranchWith vm self (some sexp) info d = .ok
            (some d1.zone_instructions.length)
            { d1 with zone_instructions := d1.zone_instructions ++ [.Branch comp info.deopt_id (some true_block) (some false_block)] })))) :=
  ⟨fun sexp d d2 goto h => DeserializeGoto_some vm sexp info d d2 goto h,
    fun sexp d d2 branch h => DeserializeBranchWith_some vm self sexp info d d2 branch h,
    fun digits id tag rest extra_info d hid =>
      DeserializeGoto_target vm digits id tag rest extra_info info d hid,
    fun true_digits false_digits true_id false_id tag comp_tag comp_rest comp_extra rest
        extra_info d d1 comp sexp hsexp htrue hfalse hself hcomp =>
      DeserializeBranchWith_targets vm self true_digits false_digits true_id false_id tag
        comp_tag comp_rest comp_extra rest extra_info info d d1 comp sexp hsexp htrue hfalse
        hself hcomp⟩

/-- The three outcomes of `(Goto B9)`, `(Goto B1)` and `(Goto B3)`, and two of a
branch, in a state whose table holds the target entries `B1`, `B2` and the join
entry `B3`. -/
theorem Deserialize_control_targets_witness :
    (DeserializeGoto ExampleVM
        (some (.SExpList [some (.SExpSymbol "Goto"), some (.SExpSymbol "B9")] []))
        { deopt_id := -1, token_pos := -1 } ExampleStackState =
      .ok none
        { ExampleStackState with
          error_sexp_ := some (.SExpSymbol "B9"),
          error_message_ := some "reference to undefined block" }) ∧
    (DeserializeGoto ExampleVM
        (some (.SExpList [some (.SExpSymbol "Goto"), some (.SExpSymbol "B1")] []))
        { deopt_id := -1, token_pos := -1 } ExampleStackState =
      .ok none
        { ExampleStackState with
          error_sexp_ := some (.SExpSymbol "B1"),
          error_message_ := some "target of goto must be join entry" }) ∧
    (DeserializeGoto ExampleVM (some ExampleGoto) { deopt_id := -1, token_pos := -1 }
        ExampleStackState =
      .ok (some 8)
        { ExampleStackState with
          zone_instructions := ExampleStackState.zone_instructions ++ [.Goto 3 (-1)] }) ∧
    (∃ id block bid try_index deopt_id,
      ExampleStackState.block_map_.LookupValue id = some block ∧
        ExampleStackState.zone_instructions[block]? =
          some (.JoinEntry bid try_index deopt_id)) ∧
    (DeserializeBranchWith ExampleVM ExampleComparison (some ExampleBranchToJoin)
        { deopt_id := -1, token_pos := -1 } ExampleStackState =
      .ok none
        { ExampleStackState with
          zone_instructions :=
            ExampleStackState.zone_instructions ++ [.StrictCompare (-1) 0 0 1 false (-1)],
          error_sexp_ := some (.SExpSymbol "B3"),
          error_message_ := some "false successor is not a target block" }) ∧
    (DeserializeBranchWith ExampleVM ExampleComparison (some ExampleBranch)
        { deopt_id := -1, token_pos := -1 } ExampleStackState =
      .ok (some 9)
        { ExampleStackState with
          zone_instructions :=
            ExampleStackState.zone_instructions ++
              [.StrictCompare (-1) 0 0 1 false (-1), .Branch 8 (-1) (some 1) (some 2)] }) :=
  have hgoto :=
    ((Deserialize_control_targets ExampleVM ExampleComparison
      { deopt_id := -1, token_pos := -1 }).2.2.1 ['3'] 3 (some (.SExpSymbol "Goto")) [] []
      ExampleStackState rfl).2.2 3 rfl rfl
  ⟨((Deserialize_control_targets ExampleVM ExampleComparison
      { deopt_id := -1, token_pos := -1 }).2.2.1 ['9'] 9 (some (.SExpSymbol "Goto")) [] []
      ExampleStackState rfl).1 rfl,
    ((Deserialize_control_targets ExampleVM ExampleComparison
      { deopt_id := -1, token_pos := -1 }).2.2.1 ['1'] 1 (some (.SExpSymbol "Goto")) [] []
      ExampleStackState rfl).2.1 1 rfl rfl,
    hgoto,
    (let ⟨_, id, block, bid, try_index, deopt_id, _, _, h3, h4, _⟩ :=
      (Deserialize_control_targets ExampleVM ExampleComparison
        { deopt_id := -1, token_pos := -1 }).1 (some ExampleGoto) ExampleStackState _ _ hgoto
     ⟨id, block, bid, try_index, deopt_id, h3, h4⟩),
    (((Deserialize_control_targets ExampleVM ExampleComparison
      { deopt_id := -1, token_pos := -1 }).2.2.2 ['1'] ['3'] 1 3 (some (.SExpSymbol "Branch"))
      "StrictCompare" [] [] [] [] ExampleStackState _ 8 ExampleBranchToJoin rfl rfl rfl rfl
      rfl).2.2 1 rfl rfl).2.1 3 rfl rfl,
    (((Deserialize_control_targets ExampleVM ExampleComparison
      { deopt_id := -1, token_pos := -1 }).2.2.2 ['1'] ['2'] 1 2 (some (.SExpSymbol "Branch"))
      "StrictCompare" [] [] [] [] ExampleStackState _ 8 ExampleBranch rfl rfl rfl rfl
      rfl).2.2 1 rfl rfl).2.2 2 rfl rfl⟩

/-! ## The order of the block worklist -/

theorem BlockIds_singleton (entry : DefinitionPtr) (id : Int) (d : FlowGraphDeserializer)
    (h : block_id entry d = .ok id d) : BlockIds [entry] d = .ok [id] d := by
  simp only [BlockIds, Parse.bind_apply, h]
  rfl

theorem BlockIds_nil (d : FlowGraphDeserializer) : BlockIds [] d = .ok [] d := rfl

theorem SeedBlockWorklist_eq (graph : DefinitionPtr) (d : FlowGraphDeserializer)
    (indirect catch_ids osr unchecked normal : List Int)
    (hindirect : BlockIds (d.indirect_entries_ graph) d = .ok indirect d)
    (hcatch : BlockIds (d.catch_entries_ graph) d = .ok catch_ids d)
    (hosr : BlockIds (d.osr_entry_ graph).toList d = .ok osr d)
    (hunchecked : BlockIds (d.unchecked_entry_ graph).toList d = .ok unchecked d)
    (hnormal : BlockIds (d.normal_entry_ graph).toList d = .ok normal d) :
    SeedBlockWorklist graph d = .ok (indirect ++ catch_ids ++ osr ++ unchecked ++ normal) d := by
  simp only [SeedBlockWorklist, Parse.bind_apply, Parse.get, hindirect, hcatch, hosr,
    hunchecked, hnormal]
  rfl

theorem ParseBlocksLoop_pop (vm : VM) (fuel steps : Nat) (block_sexp_map : IntMap SExpression)
    (rest : List Int) (id : Int) :
    ParseBlocksLoop vm fuel block_sexp_map (steps + 1) (rest ++ [id]) [] =
      (do
        match ← ParseBlocksVisit vm fuel block_sexp_map id rest with
        | none => return none
        | some worklist =>
          ParseBlocksLoop vm fuel block_sexp_map steps worklist
            (IntMap.Insert ([] : IntMap Bool) id true)) := by
  rw [ParseBlocksLoop]
  simp only [List.getLast?_append, List.getLast?_singleton, List.dropLast_concat]
  rfl

/-- C30: the worklist `ParseFlowGraph` hands to `ParseBlocks` is the block ids of
the indirect-target entries, of the catch-handler entries, of the OSR entry, of
the unchecked entry and of the normal entry of the graph entry, in this order;
the loop of `ParseBlocks` starts with no block marked as parsed and removes the
last element. So when the graph entry has a normal entry, the first iteration
visits the normal entry (the block becomes the current block and its contents
are parsed) with the rest of the array as the worklist; without a normal entry
it visits the unchecked entry, and without either the OSR entry. -/
theorem ParseFlowGraph_first_block (vm : VM) (fuel steps : Nat)
    (block_sexp_map : IntMap SExpression) (graph : DefinitionPtr) (d : FlowGraphDeserializer)
    (indirect catch_ids osr unchecked normal : List Int)
    (hindirect : BlockIds (d.indirect_entries_ graph) d = .ok indirect d)
    (hcatch : BlockIds (d.catch_entries_ graph) d = .ok catch_ids d)
    (hosr : BlockIds (d.osr_entry_ graph).toList d = .ok osr d)
    (hunchecked : BlockIds (d.unchecked_entry_ graph).toList d = .ok unchecked d)
    (hnormal : BlockIds (d.normal_entry_ graph).toList d = .ok normal d) :
    SeedBlockWorklist graph d = .ok (indirect ++ catch_ids ++ osr ++ unchecked ++ normal) d ∧
    (∀ entry id,
      (d.normal_entry_ graph = some entry ∨
        (d.normal_entry_ graph = none ∧ d.unchecked_entry_ graph = some entry) ∨
        (d.normal_entry_ graph = none ∧ d.unchecked_entry_ graph = none ∧
          d.osr_entry_ graph = some entry)) →
      block_id entry d = .ok id d →
      ∃ rest, indirect ++ catch_ids ++ osr ++ unchecked ++ normal = rest ++ [id] ∧
        ParseBlocksLoop vm fuel block_sexp_map (steps + 1) (rest ++ [id]) [] =
          (do
            match ← ParseBlocksVisit vm fuel block_sexp_map id rest with
            | none => return none
            | some worklist =>
              ParseBlocksLoop vm fuel block_sexp_map steps worklist
                (IntMap.Insert ([] : IntMap Bool) id true))) := by
  refine ⟨SeedBlockWorklist_eq graph d _ _ _ _ _ hindirect hcatch hosr hunchecked hnormal, ?_⟩
  intro entry id hentry hid
  have hone := BlockIds_singleton entry id d hid
  rcases hentry with hn | ⟨hn, hu⟩ | ⟨hn, hu, ho⟩
  · rw [hn, Option.toList_some, hone] at hnormal
    cases hnormal
    exact ⟨indirect ++ catch_ids ++ osr ++ unchecked, rfl,
      ParseBlocksLoop_pop vm fuel steps block_sexp_map _ id⟩
  · rw [hn, Option.toList_none, BlockIds_nil] at hnormal
    rw [hu, Option.toList_some, hone] at hunchecked
    cases hnormal
    cases hunchecked
    exact ⟨indirect ++ catch_ids ++ osr, by simp,
      ParseBlocksLoop_pop vm fuel steps block_sexp_map _ id⟩
  · rw [hn, Option.toList_none, BlockIds_nil] at hnormal
    rw [hu, Option.toList_none, BlockIds_nil] at hunchecked
    rw [ho, Option.toList_some, hone] at hosr
    cases hnormal
    cases hunchecked
    cases hosr
    exact ⟨indirect ++ catch_ids, by simp,
      ParseBlocksLoop_pop vm fuel steps block_sexp_map _ id⟩

/-- A graph entry with a normal entry `B1` and an unchecked entry `B2`: the
worklist is `[2, 1]` and the first iteration visits `B1`. -/
theorem ParseFlowGraph_first_block_witness :
    SeedBlockWorklist 0 ExampleEntriesState = .ok [2, 1] ExampleEntriesState ∧
    ∃ rest, [2, 1] = rest ++ [(1 : Int)] ∧
      ParseBlocksLoop ExampleVM 1 [] 1 (rest ++ [1]) [] =
        (do
          match ← ParseBlocksVisit ExampleVM 1 [] 1 rest with
          | none => return none
          | some worklist =>
            ParseBlocksLoop ExampleVM 1 [] 0 worklist
              (IntMap.Insert ([] : IntMap Bool) 1 true)) :=
  have h := ParseFlowGraph_first_block ExampleVM 1 0 [] 0 ExampleEntriesState [] [] [] [2] [1]
    rfl rfl rfl rfl rfl
  ⟨h.1, h.2 1 1 (Or.inl rfl) rfl⟩

/-! ## Unhandled instructions of a graph -/

theorem AllUnhandledInitialDefinitions_eq (vm : VM) (defs unhandled : List IlInstruction) :
    AllUnhandledInitialDefinitions vm defs unhandled =
      unhandled ++ defs.filter fun inst => !IsHandledInstruction vm inst := by
  induction defs generalizing unhandled with
  | nil => simp [AllUnhandledInitialDefinitions]
  | cons current rest ih =>
    rw [AllUnhandledInitialDefinitions, ih]
    cases h : IsHandledInstruction vm current <;> simp [List.filter_cons, h]

theorem AllUnhandledBody_eq (vm : VM) (body unhandled : List IlInstruction)
    (hbranch : ∀ inst ∈ body, inst.Is "Branch" = true → inst.comparison.isSome = true) :
    AllUnhandledBody vm body unhandled =
      .ok (unhandled ++
        (body.map fun inst =>
          if inst.Is "Branch" then inst.comparison.getD inst else inst).filter
          fun inst => !IsHandledInstruction vm inst) := by
  induction body generalizing unhandled with
  | nil => simp [AllUnhandledBody]
  | cons current rest ih =>
    have hrest : ∀ inst ∈ rest, inst.Is "Branch" = true → inst.comparison.isSome = true :=
      fun inst hmem => hbranch inst (List.mem_cons_of_mem _ hmem)
    rw [AllUnhandledBody]
    by_cases hb : current.Is "Branch" = true
    · have hsome := hbranch current (List.mem_cons_self _ _) hb
      cases hc : current.comparison with
      | none => rw [hc] at hsome; cases hsome
      | some comp =>
        simp only [hb, if_true, List.map_cons, hc, Option.getD_some]
        rw [ih _ hrest]
        cases h : IsHandledInstruction vm comp <;> simp [List.filter_cons, h]
    · simp only [hb, if_false, List.map_cons]
      rw [ih _ hrest]
      cases h : IsHandledInstruction vm current <;> simp [List.filter_cons, h]

theorem AllUnhandledBlocks_eq (vm : VM) (blocks : List IlBlock) (unhandled : List IlInstruction)
    (hbranch : ∀ block ∈ blocks, ∀ inst ∈ block.instructions,
      inst.Is "Branch" = true → inst.comparison.isSome = true) :
    AllUnhandledBlocks vm blocks unhandled =
      .ok (unhandled ++
        (blocks.flatMap SpecExaminedInBlock).filter
          fun inst => !IsHandledInstruction vm inst) := by
  induction blocks generalizing unhandled with
  | nil => simp [AllUnhandledBlocks]
  | cons block rest ih =>
    have hrest : ∀ block ∈ rest, ∀ inst ∈ block.instructions,
        inst.Is "Branch" = true → inst.comparison.isSome = true :=
      fun b hmem => hbranch b (List.mem_cons_of_mem _ hmem)
    rw [AllUnhandledBlocks]
    rw [AllUnhandledBody_eq vm _ _ (hbranch block (List.mem_cons_self _ _))]
    dsimp only
    rw [ih _ hrest]
    congr 1
    rw [List.flatMap_cons, SpecExaminedInBlock]
    cases hd : block.initial_definitions with
    | none =>
      cases h : IsHandledInstruction vm block.entry <;>
        simp [List.filter_cons, List.filter_append, h]
    | some defs =>
      simp only [AllUnhandledInitialDefinitions_eq]
      cases h : IsHandledInstruction vm block.entry <;>
        simp [List.filter_cons, List.filter_append, h]

/-- C28: on a graph whose branches all have a comparison,
`AllUnhandledInstructions(graph, unhandled)` returns with the array extended
by exactly the instructions that fail `IsHandledInstruction` among the
instructions the specification lists (every block entry, every initial
definition of an entry that has initial definitions, every body instruction
with each branch replaced by its comparison; no phi), in the order of the
traversal. So nothing is appended exactly if all of them are handled, and for
every name the appended instructions of that name are as many as the
unhandled ones of that name among those instructions. -/
theorem AllUnhandledInstructions_spec (vm : VM) (graph : IlFlowGraph)
    (unhandled : List IlInstruction)
    (hbranch : ∀ block ∈ graph.reverse_postorder, ∀ inst ∈ block.instructions,
      inst.Is "Branch" = true → inst.comparison.isSome = true) :
    ∃ appended, AllUnhandledInstructions vm graph unhandled = .ok (unhandled ++ appended) ∧
      appended = (SpecExamined graph).filter (fun inst => !IsHandledInstruction vm inst) ∧
      (appended = [] ↔ ∀ inst ∈ SpecExamined graph, IsHandledInstruction vm inst = true) ∧
      ∀ name : String,
        appended.countP (fun inst => inst.DebugName = name) =
          (SpecExamined graph).countP
            (fun inst => !IsHandledInstruction vm inst && inst.DebugName = name) := by
  refine ⟨_, AllUnhandledBlocks_eq vm _ unhandled hbranch, rfl, ?_, ?_⟩
  · simp [SpecExamined, List.filter_eq_nil_iff]
  · intro name
    rw [List.countP_filter]
    congr 1
    funext inst
    cases IsHandledInstruction vm inst <;> simp

/-- The example graph: the rejected constant, `Foo` and the comparison of the
branch are appended, in this order; the phi and the branch itself are not. -/
theorem AllUnhandledInstructions_spec_witness :
    AllUnhandledInstructions ExampleVM ExampleIlGraph [] =
      .ok [.mk "Constant" (some 99) none, .mk "Foo" none none,
        .mk "StrictCompare" none none] := by
  obtain ⟨appended, h1, h2, -⟩ :=
    AllUnhandledInstructions_spec ExampleVM ExampleIlGraph [] (by
      simp [ExampleIlGraph, IlInstruction.Is, IlInstruction.DebugName,
        IlInstruction.comparison])
  subst h2
  exact h1

/-! ## The round trip -/

/-- The form `(FlowGraph f (Entries))` deserializes: the call returns a graph,
no use is pending, the stack of the graph entry is still registered and the
error of the probe for a constant pool is still recorded. -/
theorem ParseFlowGraph_empty_graph :
    ∃ new_graph d,
      ParseFlowGraph ExampleVM 1 1
          (FlowGraphDeserializer.New ExampleEmptyGraph (some { function := none })) =
        .ok (some new_graph) d ∧
      d.values_map_ = [] ∧ d.pushed_stack_map_ = [(0, 0)] ∧
      d.error_message_ = some "expected symbol Constants" := by
  have h : (ParseFlowGraph ExampleVM 1 1
      (FlowGraphDeserializer.New ExampleEmptyGraph (some { function := none }))).Holds
      (fun r d => r.isSome && decide (d.values_map_ = []) &&
        decide (d.pushed_stack_map_ = [(0, 0)]) &&
        decide (d.error_message_ = some "expected symbol Constants")) = true := by
    decide!
  obtain ⟨r, d1, hrun, hp⟩ := Result.Holds_ok h
  simp only [Bool.and_eq_true, decide_eq_true_eq, Option.isSome_iff_exists] at hp
  obtain ⟨⟨⟨⟨g, hg⟩, h1⟩, h2⟩, h3⟩ := hp
  subst hg
  exact ⟨g, d1, hrun, h1, h2, h3⟩

/-- A root that is not a list: the call returns null with `expected List`
recorded at the root. -/
theorem ParseFlowGraph_not_a_list :
    ParseFlowGraph ExampleVM 0 0
        (FlowGraphDeserializer.New (.SExpSymbol "root") (some { function := none })) =
      .ok none
        { FlowGraphDeserializer.New (.SExpSymbol "root") (some { function := none }) with
          error_sexp_ := some (.SExpSymbol "root"),
          error_message_ := some "expected List" } := rfl

/-- C29: `RoundTripSerialization` on a state whose flow graph is `flow_graph`.
When `AllUnhandledInstructions` finds an instruction, the call returns with
the flow graph of the state unchanged and with results that hold the
instructions found and nothing else, whatever the serializer and the
deserializer would do. When it finds none and `ParseFlowGraph` on the
serialized form returns a graph, the flow graph of the state is that graph and
the results record success. When `ParseFlowGraph` returns null with an error
message and an error location recorded, the flow graph of the state is
unchanged and the results hold that message and that location. So whenever the
call returns, the flow graph of the state was replaced exactly if the
deserializer returned a graph. -/
theorem RoundTripSerialization_spec (vm : VM) (fuel steps : Nat)
    (SerializeToSExp : IlFlowGraph → Option SExpression) (flow_graph : IlFlowGraph) :
    (∀ unhandled, AllUnhandledInstructions vm flow_graph [] = .ok unhandled → unhandled ≠ [] →
      RoundTripSerialization vm fuel steps SerializeToSExp flow_graph =
        .returned (.original flow_graph,
          { function := flow_graph.parsed_function.function, unhandled := unhandled })) ∧
    (∀ root new_graph d, AllUnhandledInstructions vm flow_graph [] = .ok [] →
      SerializeToSExp flow_graph = some root →
      ParseFlowGraph vm fuel steps
          (FlowGraphDeserializer.New root (some flow_graph.parsed_function)) =
        .ok (some new_graph) d →
      RoundTripSerialization vm fuel steps SerializeToSExp flow_graph =
        .returned (.deserialized new_graph d,
          { function := flow_graph.parsed_function.function, serialized := some root,
            success := true })) ∧
    (∀ root d message sexp, AllUnhandledInstructions vm flow_graph [] = .ok [] →
      SerializeToSExp flow_graph = some root →
      ParseFlowGraph vm fuel steps
          (FlowGraphDeserializer.New root (some flow_graph.parsed_function)) = .ok none d →
      d.error_message_ = some message → d.error_sexp_ = some sexp →
      RoundTripSerialization vm fuel steps SerializeToSExp flow_graph =
        .returned (.original flow_graph,
          { function := flow_graph.parsed_function.function, serialized := some root,
            error_message := some message, error_sexp := some sexp })) ∧
    (∀ graph results,
      RoundTripSerialization vm fuel steps SerializeToSExp flow_graph =
        .returned (graph, results) →
      (graph = .original flow_graph ∧ results.success = false ∧
        ¬ ∃ root new_graph d, SerializeToSExp flow_graph = some root ∧
          AllUnhandledInstructions vm flow_graph [] = .ok [] ∧
          ParseFlowGraph vm fuel steps
              (FlowGraphDeserializer.New root (some flow_graph.parsed_function)) =
            .ok (some new_graph) d) ∨
      (∃ root new_graph d, SerializeToSExp flow_graph = some root ∧
        AllUnhandledInstructions vm flow_graph [] = .ok [] ∧
        ParseFlowGraph vm fuel steps
            (FlowGraphDeserializer.New root (some flow_graph.parsed_function)) =
          .ok (some new_graph) d ∧
        graph = .deserialized new_graph d ∧ results.success = true)) := by
  refine ⟨?_, ?_, ?_, ?_⟩
  · intro unhandled h hne
    cases unhandled with
    | nil => exact absurd rfl hne
    | cons a l => simp [RoundTripSerialization, h]
  · intro root new_graph d h hs hp
    simp [RoundTripSerialization, h, hs, hp]
  · intro root d message sexp h hs hp hm he
    simp [RoundTripSerialization, h, hs, hp, hm, he]
  · intro graph results h
    simp only [RoundTripSerialization] at h
    cases hu : AllUnhandledInstructions vm flow_graph [] with
    | error f => simp [hu] at h
    | ok unhandled =>
      cases unhandled with
      | cons a l =>
        simp [hu] at h
        refine Or.inl ⟨h.1.symm, ?_, ?_⟩
        · rw [← h.2]
        · rintro ⟨_, _, _, _, h2, _⟩
          cases h2
      | nil =>
        cases hs : SerializeToSExp flow_graph with
        | none => simp [hu, hs] at h
        | some root =>
          cases hp : ParseFlowGraph vm fuel steps
              (FlowGraphDeserializer.New root (some flow_graph.parsed_function)) with
          | fault f => simp [hu, hs, hp] at h
          | outOfFuel => simp [hu, hs, hp] at h
          | ok r d =>
            cases r with
            | none =>
              simp [hu, hs, hp] at h
              split at h
              · simp at h
                refine Or.inl ⟨h.1.symm, ?_, ?_⟩
                · rw [← h.2]
                · rintro ⟨root2, g, d2, h1, _, h3⟩
                  cases h1
                  rw [hp] at h3
                  cases h3
              · cases h
            | some new_graph =>
              simp [hu, hs, hp] at h
              refine Or.inr ⟨root, new_graph, d, rfl, rfl, hp, h.1.symm, ?_⟩
              rw [← h.2]

/-- Three round trips: a graph with unhandled instructions; the handled graph
with a serializer that yields `(FlowGraph f (Entries))`, which deserializes;
and the handled graph with a serializer that yields the symbol `root`, on
which the deserializer fails. -/
theorem RoundTripSerialization_spec_witness :
    RoundTripSerialization ExampleVM 0 0 (fun _ => none) ExampleIlGraph =
      .returned (.original ExampleIlGraph,
        { function := none,
          unhandled :=
            [.mk "Constant" (some 99) none, .mk "Foo" none none,
              .mk "StrictCompare" none none] }) ∧
    (∃ new_graph d,
      RoundTripSerialization ExampleVM 1 1 (fun _ => some ExampleEmptyGraph)
          ExampleHandledIlGraph =
        .returned (.deserialized new_graph d,
          { function := none, serialized := some ExampleEmptyGraph, success := true })) ∧
    RoundTripSerialization ExampleVM 0 0 (fun _ => some (.SExpSymbol "root"))
        ExampleHandledIlGraph =
      .returned (.original ExampleHandledIlGraph,
        { function := none, serialized := some (.SExpSymbol "root"),
          error_message := some "expected List",
          error_sexp := some (.SExpSymbol "root") }) ∧
    ((PassFlowGraph.original ExampleHandledIlGraph = .original ExampleHandledIlGraph ∧
        (false = false) ∧
        ¬ ∃ root new_graph d, (fun _ => some (.SExpSymbol "root")) ExampleHandledIlGraph =
            some root ∧
          AllUnhandledInstructions ExampleVM ExampleHandledIlGraph [] = .ok [] ∧
          ParseFlowGraph ExampleVM 0 0
              (FlowGraphDeserializer.New root
                (some ExampleHandledIlGraph.parsed_function)) =
            .ok (some new_graph) d) ∨
      (∃ root new_graph d, (fun _ => some (.SExpSymbol "root")) ExampleHandledIlGraph =
          some root ∧
        AllUnhandledInstructions ExampleVM ExampleHandledIlGraph [] = .ok [] ∧
        ParseFlowGraph ExampleVM 0 0
            (FlowGraphDeserializer.New root (some ExampleHandledIlGraph.parsed_function)) =
          .ok (some new_graph) d ∧
        PassFlowGraph.original ExampleHandledIlGraph = .deserialized new_graph d ∧
        false = true)) :=
  have hfail :=
    (RoundTripSerialization_spec ExampleVM 0 0 (fun _ => some (.SExpSymbol "root"))
      ExampleHandledIlGraph).2.2.1 (.SExpSymbol "root") _ "expected List"
      (.SExpSymbol "root") rfl rfl ParseFlowGraph_not_a_list rfl rfl
  ⟨(RoundTripSerialization_spec ExampleVM 0 0 (fun _ => none) ExampleIlGraph).1 _ rfl
      (List.cons_ne_nil _ _),
    (let ⟨new_graph, d, h, _⟩ := ParseFlowGraph_empty_graph
     ⟨new_graph, d,
      (RoundTripSerialization_spec ExampleVM 1 1 (fun _ => some ExampleEmptyGraph)
        ExampleHandledIlGraph).2.1 ExampleEmptyGraph new_graph d rfl rfl h⟩),
    hfail,
    (RoundTripSerialization_spec ExampleVM 0 0 (fun _ => some (.SExpSymbol "root"))
      ExampleHandledIlGraph).2.2.2 _ _ hfail⟩

/-! ## Uses that are never defined -/

/-- The graph `(FlowGraph f (Entries (Normal B1)) (Block B1 (Return v7)))`: the
entries and the block are parsed, and the use of `v7` is left pending. -/
theorem ParseFlowGraphBlocks_dangling :
    ∃ d1,
      ParseFlowGraphBlocks ExampleVM 1 2
          (FlowGraphDeserializer.New ExampleDanglingGraph (some { function := none })) =
        .ok (some ()) d1 ∧
      d1.values_map_ = [(7, [0])] := by
  have h : (ParseFlowGraphBlocks ExampleVM 1 2
      (FlowGraphDeserializer.New ExampleDanglingGraph (some { function := none }))).Holds
      (fun r d => decide (r = some ()) && decide (d.values_map_ = [(7, [0])])) = true := by
    decide!
  obtain ⟨r, d1, hrun, hp⟩ := Result.Holds_ok h
  simp only [Bool.and_eq_true, decide_eq_true_eq] at hp
  obtain ⟨hr, h1⟩ := hp
  subst hr
  exact ⟨d1, hrun, h1⟩

/-- C12: when the blocks are parsed (`ParseBlocks` returned true) and an SSA
index still has pending uses, `ParseFlowGraph` returns null and records the
error `no definition found for variable index in flow graph` at a new symbol
`v<key>`, where `key` is an index that has pending uses: the first one the
iterator of `values_map_` yields, which is `index` when no other index has
pending uses. No graph is returned. -/
theorem ParseFlowGraph_unresolved_use (vm : VM) (fuel steps : Nat)
    (d d1 : FlowGraphDeserializer) (index : Int)
    (hblocks : ParseFlowGraphBlocks vm fuel steps d = .ok (some ()) d1)
    (hpending : d1.values_map_.HasKey index = true) :
    ∃ key, d1.values_map_.HasKey key = true ∧
      ((∀ other, d1.values_map_.HasKey other = true → other = index) → key = index) ∧
      ParseFlowGraph vm fuel steps d =
        .ok none
          { d1 with
            error_sexp_ := some (.SExpSymbol ("v" ++ toString key)),
            error_message_ := some "no definition found for variable index in flow graph" } := by
  have hne : d1.values_map_ ≠ [] := by
    intro h
    rw [h] at hpending
    cases hpending
  obtain ⟨kv, rest, hm⟩ := List.exists_cons_of_ne_nil hne
  have hkey : d1.values_map_.HasKey kv.1 = true := by
    rw [hm]
    simp [IntMap.HasKey, IntMap.LookupValue]
  refine ⟨kv.1, hkey, fun h => h _ hkey, ?_⟩
  have hlen : d1.values_map_.Length > 0 := by
    rw [hm]
    simp [IntMap.Length, List.length_pos]
  simp only [ParseFlowGraph, Parse.bind_apply, hblocks, ParseFlowGraphFinish, Parse.get]
  have hhead : d1.values_map_.head? = some kv := by
    rw [hm]
    rfl
  rw [if_pos hlen]
  simp only [hhead]
  rfl

/-- The graph `(FlowGraph f (Entries (Normal B1)) (Block B1 (Return v7)))`, in
which `v7` is used and never defined: the call returns null and the error is
located at `v7`. -/
theorem ParseFlowGraph_unresolved_use_witness :
    ∃ d1,
      ParseFlowGraph ExampleVM 1 2
          (FlowGraphDeserializer.New ExampleDanglingGraph (some { function := none })) =
        .ok none d1 ∧
      d1.error_sexp_ = some (.SExpSymbol "v7") ∧
      d1.error_message_ = some "no definition found for variable index in flow graph" := by
  obtain ⟨d1, hblocks, hvalues⟩ := ParseFlowGraphBlocks_dangling
  obtain ⟨key, -, hkey, h⟩ :=
    ParseFlowGraph_unresolved_use ExampleVM 1 2 _ d1 7 hblocks (by rw [hvalues]; rfl)
  have h7 : key = 7 := by
    apply hkey
    intro other hother
    rw [hvalues] at hother
    simp [IntMap.HasKey, IntMap.LookupValue] at hother
    exact hother.symm
  subst h7
  exact ⟨_, h, rfl, rfl⟩

/-! ## The tables after a successful parse -/

theorem IntMap_Length_eq_zero {V : Type} (m : IntMap V) (h : ¬ m.Length > 0) : m = [] := by
  cases m with
  | nil => rfl
  | cons kv rest =>
    exfalso
    apply h
    simp [IntMap.Length, List.length_pos]

theorem ParseFlowGraphFinish_some (d d1 : FlowGraphDeserializer) (graph : FlowGraph)
    (h : ParseFlowGraphFinish d = .ok (some graph) d1) :
    d.values_map_ = [] ∧ d1 = { d with flow_graph_ := some graph } := by
  simp only [ParseFlowGraphFinish, Parse.bind_apply, Parse.get] at h
  by_cases hlen : d.values_map_.Length > 0
  · rw [if_pos hlen] at h
    cases hhead : d.values_map_.head? with
    | none => simp [hhead, Parse.fault] at h
    | some kv =>
      simp only [hhead] at h
      cases h
  · rw [if_neg hlen] at h
    refine ⟨IntMap_Length_eq_zero _ hlen, ?_⟩
    cases hg : d.flow_graph_ with
    | none => simp [hg, Parse.fault, Parse.bind_apply] at h
    | some flow_graph =>
      simp [hg, Parse.modify, Parse.bind_apply] at h
      obtain ⟨h1, h2⟩ := h
      rw [← h2, ← h1]

/-- C13, as the code has it: whenever `ParseFlowGraph` returns a graph, the
pending-value table `values_map_` is empty, and the state is the one
`ParseBlocks` left but for the member `flow_graph_`; so the stack map
`pushed_stack_map_` is the one `ParseBlocks` left: `ParseFlowGraph` removes
nothing from it. -/
theorem ParseFlowGraph_success_no_pending (vm : VM) (fuel steps : Nat)
    (d d1 : FlowGraphDeserializer) (graph : FlowGraph)
    (h : ParseFlowGraph vm fuel steps d = .ok (some graph) d1) :
    d1.values_map_ = [] ∧
      ∃ d0, ParseFlowGraphBlocks vm fuel steps d = .ok (some ()) d0 ∧
        d1.pushed_stack_map_ = d0.pushed_stack_map_ := by
  simp only [ParseFlowGraph, Parse.bind_apply] at h
  cases hb : ParseFlowGraphBlocks vm fuel steps d with
  | fault f => rw [hb] at h; cases h
  | outOfFuel => rw [hb] at h; cases h
  | ok r d0 =>
    rw [hb] at h
    cases r with
    | none => cases h
    | some u =>
      obtain ⟨h1, h2⟩ := ParseFlowGraphFinish_some d0 d1 graph h
      subst h2
      exact ⟨h1, d0, rfl, rfl⟩

/-- The graph `(FlowGraph f (Entries))` deserializes, and no use is pending
afterwards. -/
theorem ParseFlowGraph_success_no_pending_witness :
    ∃ graph d1,
      ParseFlowGraph ExampleVM 1 1
          (FlowGraphDeserializer.New ExampleEmptyGraph (some { function := none })) =
        .ok (some graph) d1 ∧
      d1.values_map_ = [] := by
  obtain ⟨graph, d1, h, -⟩ := ParseFlowGraph_empty_graph
  exact ⟨graph, d1, h, (ParseFlowGraph_success_no_pending ExampleVM 1 1 _ d1 graph h).1⟩

/-- C13, counterexample: the graph `(FlowGraph f (Entries))` deserializes, and
the stack map still holds the stack registered for the graph entry under
block id 0. -/
theorem ParseFlowGraph_success_keeps_stack_map :
    ∃ graph d1,
      ParseFlowGraph ExampleVM 1 1
          (FlowGraphDeserializer.New ExampleEmptyGraph (some { function := none })) =
        .ok (some graph) d1 ∧
      d1.pushed_stack_map_ = [(0, 0)] ∧ d1.pushed_stack_map_ ≠ [] := by
  obtain ⟨graph, d1, h, -, hmap, -⟩ := ParseFlowGraph_empty_graph
  exact ⟨graph, d1, h, hmap, by rw [hmap]; exact List.cons_ne_nil _ _⟩

/-! ## Calls that leave the flow graph and the instructions alone -/

theorem SameZone_refl (d : FlowGraphDeserializer) : SameZone d d := ⟨rfl, rfl⟩

theorem SameZone_trans {d d1 d2 : FlowGraphDeserializer} (h1 : SameZone d d1)
    (h2 : SameZone d1 d2) : SameZone d d2 :=
  ⟨h2.1.trans h1.1, h2.2.trans h1.2⟩

theorem KeepsZone_pure {α : Type} (a : α) : KeepsZone (pure a : Parse α) := by
  constructor
  intro d b d1 h
  cases h
  exact SameZone_refl d

theorem KeepsZone_bind {α β : Type} {x : Parse α} {f : α → Parse β} (hx : KeepsZone x)
    (hf : ∀ a, KeepsZone (f a)) : KeepsZone (x >>= f) := by
  constructor
  intro d b d2 h
  rw [Parse.bind_apply] at h
  cases hxd : x d with
  | ok a d1 =>
    rw [hxd] at h
    exact SameZone_trans (hx.same d a d1 hxd) ((hf a).same d1 b d2 h)
  | fault e => rw [hxd] at h; cases h
  | outOfFuel => rw [hxd] at h; cases h

theorem KeepsZone_ite {α : Type} (c : Prop) [Decidable c] {x y : Parse α}
    (hx : KeepsZone x) (hy : KeepsZone y) : KeepsZone (if c then x else y) := by
  split
  · exact hx
  · exact hy

theorem KeepsZone_fault {α : Type} (e : Fault) : KeepsZone (Parse.fault e : Parse α) := by
  constructor
  intro d b d1 h
  cases h

theorem KeepsZone_outOfFuel {α : Type} :
    KeepsZone (fun _ => Result.outOfFuel : Parse α) := by
  constructor
  intro d b d1 h
  cases h

theorem KeepsZone_get : KeepsZone Parse.get := by
  constructor
  intro d b d1 h
  cases h
  exact SameZone_refl d

theorem KeepsZone_modify (f : FlowGraphDeserializer → FlowGraphDeserializer)
    (hf : ∀ d, SameZone d (f d)) : KeepsZone (Parse.modify f) := by
  constructor
  intro d b d1 h
  cases h
  exact hf d

theorem KeepsZone_StoreError (sexp : Option SExpression) (message : String) :
    KeepsZone (StoreError sexp message) :=
  KeepsZone_modify _ fun _ => ⟨rfl, rfl⟩

theorem KeepsZone_ReadHandle (handle : Handle) : KeepsZone (ReadHandle handle) := by
  constructor
  intro d b d1 h
  cases h
  exact SameZone_refl d

theorem KeepsZone_WriteHandle (handle : Handle) (raw : RawObject) :
    KeepsZone (WriteHandle handle raw) :=
  KeepsZone_modify _ fun _ => by cases handle <;> exact ⟨rfl, rfl⟩

theorem KeepsZone_NewHandle (raw : RawObject) : KeepsZone (NewHandle raw) := by
  constructor
  intro d b d1 h
  cases h
  exact ⟨rfl, rfl⟩

theorem KeepsZone_NewValue (definition : DefinitionPtr) :
    KeepsZone (NewValue definition) := by
  constructor
  intro d b d1 h
  cases h
  exact ⟨rfl, rfl⟩

theorem KeepsZone_SetReachingType (val : ValuePtr) (type : CompileType) :
    KeepsZone (SetReachingType val type) :=
  KeepsZone_modify _ fun _ => ⟨rfl, rfl⟩

theorem KeepsZone_ListLength (list : SExpression) :
    KeepsZone (ListLength list) := by
  unfold ListLength
  repeat' first
    | with_reducible apply KeepsZone_bind
    | exact KeepsZone_pure _
    | exact KeepsZone_fault _
    | apply KeepsZone_ite
    | intro _
    | dsimp only
    | split

theorem KeepsZone_ListAt (list : SExpression) (index : Int) :
    KeepsZone (ListAt list index) := by
  unfold ListAt
  repeat' first
    | with_reducible apply KeepsZone_bind
    | exact KeepsZone_pure _
    | exact KeepsZone_fault _
    | apply KeepsZone_ite
    | intro _
    | dsimp only
    | split

theorem KeepsZone_ListTag (list : SExpression) :
    KeepsZone (ListTag list) := by
  unfold ListTag
  repeat' first
    | with_reducible apply KeepsZone_bind
    | exact KeepsZone_pure _
    | exact KeepsZone_fault _
    | apply KeepsZone_ite
    | intro _
    | dsimp only
    | split

theorem KeepsZone_SymbolValue (sym : SExpression) :
    KeepsZone (SymbolValue sym) := by
  unfold SymbolValue
  repeat' first
    | with_reducible apply KeepsZone_bind
    | exact KeepsZone_pure _
    | exact KeepsZone_fault _
    | apply KeepsZone_ite
    | intro _
    | dsimp only
    | split

theorem KeepsZone_IntegerValue (i : SExpression) :
    KeepsZone (IntegerValue i) := by
  unfold IntegerValue
  repeat' first
    | with_reducible apply KeepsZone_bind
    | exact KeepsZone_pure _
    | exact KeepsZone_fault _
    | apply KeepsZone_ite
    | intro _
    | dsimp only
    | split

theorem KeepsZone_BoolValue (b : SExpression) :
    KeepsZone (BoolValue b) := by
  unfold BoolValue
  repeat' first
    | with_reducible apply KeepsZone_bind
    | exact KeepsZone_pure _
    | exact KeepsZone_fault _
    | apply KeepsZone_ite
    | intro _
    | dsimp only
    | split

theorem KeepsZone_ExtraLookupValue (list : SExpression) (key : String) :
    KeepsZone (ExtraLookupValue list key) := by
  unfold ExtraLookupValue
  repeat' first
    | with_reducible apply KeepsZone_bind
    | exact KeepsZone_pure _
    | exact KeepsZone_fault _
    | apply KeepsZone_ite
    | intro _
    | dsimp only
    | split

theorem KeepsZone_BoundConstant (val : ValuePtr) : KeepsZone (BoundConstant val) := by
  constructor
  intro d b d1 h
  unfold BoundConstant at h
  split at h <;> cases h <;> exact SameZone_refl d

theorem KeepsZone_Retrieve (list : Option SExpression) (index : Int) :
    KeepsZone (Retrieve list index) := by
  unfold Retrieve
  repeat' first
    | with_reducible apply KeepsZone_bind
    | exact KeepsZone_pure _
    | exact KeepsZone_fault _
    | exact KeepsZone_StoreError _ _
    | apply KeepsZone_ite
    | intro _
    | dsimp only
    | split

theorem KeepsZone_RetrieveKey (list : Option SExpression) (key : String) :
    KeepsZone (RetrieveKey list key) := by
  unfold RetrieveKey
  repeat' first
    | with_reducible apply KeepsZone_bind
    | exact KeepsZone_pure _
    | exact KeepsZone_fault _
    | exact KeepsZone_StoreError _ _
    | apply KeepsZone_ite
    | intro _
    | dsimp only
    | split

theorem KeepsZone_Check (k : SExpKind) (sexp : Option SExpression) :
    KeepsZone (Check k sexp) := by
  unfold Check
  repeat' first
    | with_reducible apply KeepsZone_bind
    | exact KeepsZone_pure _
    | exact KeepsZone_fault _
    | exact KeepsZone_StoreError _ _
    | apply KeepsZone_ite
    | intro _
    | dsimp only
    | split

theorem KeepsZone_IsTag (sexp : Option SExpression) (label : Option String) :
    KeepsZone (IsTag sexp label) := by
  unfold IsTag CheckSymbol
  repeat' first
    | with_reducible apply KeepsZone_bind
    | exact KeepsZone_pure _
    | exact KeepsZone_fault _
    | exact KeepsZone_StoreError _ _
    | exact KeepsZone_Check _ _
    | apply KeepsZone_ite
    | intro _
    | dsimp only
    | split

theorem KeepsZone_CheckTaggedList (sexp : Option SExpression) (label : Option String) :
    KeepsZone (CheckTaggedList sexp label) := by
  unfold CheckTaggedList CheckList
  repeat' first
    | with_reducible apply KeepsZone_bind
    | exact KeepsZone_pure _
    | exact KeepsZone_fault _
    | exact KeepsZone_StoreError _ _
    | exact KeepsZone_Check _ _
    | exact KeepsZone_Retrieve _ _
    | exact KeepsZone_RetrieveKey _ _
    | exact KeepsZone_IsTag _ _
    | apply KeepsZone_ite
    | intro _
    | dsimp only
    | split

theorem KeepsZone_ParseSymbolAsPrefixedInt (vm : VM) (sym : Option SExpression) (pfx : Char) :
    KeepsZone (ParseSymbolAsPrefixedInt vm sym pfx) := by
  unfold ParseSymbolAsPrefixedInt
  repeat' first
    | with_reducible apply KeepsZone_bind
    | exact KeepsZone_pure _
    | exact KeepsZone_fault _
    | exact KeepsZone_StoreError _ _
    | apply KeepsZone_ite
    | intro _
    | dsimp only
    | split

theorem KeepsZone_ParseUse (vm : VM) (sym : Option SExpression) :
    KeepsZone (ParseUse vm sym) :=
  KeepsZone_ParseSymbolAsPrefixedInt vm sym _

theorem KeepsZone_ParseCompileTypeWith (vm : VM) (self : DartValueParser)
    (hself : ∀ sexp out, KeepsZone (self sexp out)) (sexp : SExpression) :
    KeepsZone (ParseCompileTypeWith vm self sexp) := by
  unfold ParseCompileTypeWith CheckBool CheckInteger
  repeat' first
    | with_reducible apply KeepsZone_bind
    | exact KeepsZone_pure _
    | exact KeepsZone_fault _
    | exact KeepsZone_outOfFuel
    | exact KeepsZone_get
    | exact KeepsZone_StoreError _ _
    | exact KeepsZone_ReadHandle _
    | exact KeepsZone_WriteHandle _ _
    | exact KeepsZone_NewHandle _
    | exact KeepsZone_Check _ _
    | exact KeepsZone_Retrieve _ _
    | exact KeepsZone_RetrieveKey _ _
    | exact KeepsZone_IsTag _ _
    | exact KeepsZone_CheckTaggedList _ _
    | exact KeepsZone_ExtraLookupValue _ _
    | exact KeepsZone_ListLength _
    | exact KeepsZone_ListAt _ _
    | exact KeepsZone_ListTag _
    | exact KeepsZone_SymbolValue _
    | exact KeepsZone_IntegerValue _
    | exact KeepsZone_BoolValue _
    | exact KeepsZone_BoundConstant _
    | exact KeepsZone_NewValue _
    | exact KeepsZone_SetReachingType _ _
    | exact KeepsZone_ParseUse _ _
    | exact hself _ _
    | apply KeepsZone_ite
    | intro _
    | dsimp only
    | split

theorem KeepsZone_ParseValueWith (vm : VM) (self : DartValueParser)
    (hself : ∀ sexp out, KeepsZone (self sexp out)) (sexp : Option SExpression) :
    KeepsZone (ParseValueWith vm self sexp false) := by
  unfold ParseValueWith CheckSymbol
  split
  · exact KeepsZone_fault _
  simp only [Bool.not_false, if_true]
  repeat' first
    | with_reducible apply KeepsZone_bind
    | exact KeepsZone_pure _
    | exact KeepsZone_fault _
    | exact KeepsZone_outOfFuel
    | exact KeepsZone_get
    | exact KeepsZone_StoreError _ _
    | exact KeepsZone_ReadHandle _
    | exact KeepsZone_WriteHandle _ _
    | exact KeepsZone_NewHandle _
    | exact KeepsZone_Check _ _
    | exact KeepsZone_Retrieve _ _
    | exact KeepsZone_RetrieveKey _ _
    | exact KeepsZone_IsTag _ _
    | exact KeepsZone_CheckTaggedList _ _
    | exact KeepsZone_ExtraLookupValue _ _
    | exact KeepsZone_ListLength _
    | exact KeepsZone_ListAt _ _
    | exact KeepsZone_ListTag _
    | exact KeepsZone_SymbolValue _
    | exact KeepsZone_IntegerValue _
    | exact KeepsZone_BoolValue _
    | exact KeepsZone_BoundConstant _
    | exact KeepsZone_NewValue _
    | exact KeepsZone_SetReachingType _ _
    | exact KeepsZone_ParseUse _ _
    | exact hself _ _
    | exact KeepsZone_ParseCompileTypeWith vm self hself _
    | apply KeepsZone_ite
    | intro _
    | dsimp only
    | split

theorem KeepsZone_ParseTypeArgumentsLoop (vm : VM) (self : DartValueParser)
    (hself : ∀ sexp out, KeepsZone (self sexp out)) (list : SExpression)
    (out : Handle) (remaining : Nat) :
    ∀ i, KeepsZone (ParseTypeArgumentsLoop vm self list out remaining i) := by
  induction remaining with
  | zero => intro i; exact KeepsZone_pure _
  | succ n ih =>
    intro i
    unfold ParseTypeArgumentsLoop
    repeat' first
      | with_reducible apply KeepsZone_bind
      | exact KeepsZone_pure _
      | exact KeepsZone_fault _
      | exact KeepsZone_outOfFuel
      | exact KeepsZone_get
      | exact KeepsZone_StoreError _ _
      | exact KeepsZone_ReadHandle _
      | exact KeepsZone_WriteHandle _ _
      | exact KeepsZone_NewHandle _
      | exact KeepsZone_Check _ _
      | exact KeepsZone_Retrieve _ _
      | exact KeepsZone_RetrieveKey _ _
      | exact KeepsZone_IsTag _ _
      | exact KeepsZone_CheckTaggedList _ _
      | exact KeepsZone_ExtraLookupValue _ _
      | exact KeepsZone_ListLength _
      | exact KeepsZone_ListAt _ _
      | exact KeepsZone_ListTag _
      | exact KeepsZone_SymbolValue _
      | exact KeepsZone_IntegerValue _
      | exact KeepsZone_BoolValue _
      | exact KeepsZone_BoundConstant _
      | exact KeepsZone_NewValue _
      | exact KeepsZone_SetReachingType _ _
      | exact KeepsZone_ParseUse _ _
      | exact hself _ _
      | exact ih _
      | apply KeepsZone_ite
      | intro _
      | dsimp only
      | split

theorem KeepsZone_ParseImmutableListLoop (vm : VM) (self : DartValueParser)
    (hself : ∀ sexp out, KeepsZone (self sexp out)) (list : SExpression)
    (arr : Handle) (remaining : Nat) :
    ∀ i, KeepsZone (ParseImmutableListLoop vm self list arr remaining i) := by
  induction remaining with
  | zero => intro i; exact KeepsZone_pure _
  | succ n ih =>
    intro i
    unfold ParseImmutableListLoop
    repeat' first
      | with_reducible apply KeepsZone_bind
      | exact KeepsZone_pure _
      | exact KeepsZone_fault _
      | exact KeepsZone_outOfFuel
      | exact KeepsZone_get
      | exact KeepsZone_StoreError _ _
      | exact KeepsZone_ReadHandle _
      | exact KeepsZone_WriteHandle _ _
      | exact KeepsZone_NewHandle _
      | exact KeepsZone_Check _ _
      | exact KeepsZone_Retrieve _ _
      | exact KeepsZone_RetrieveKey _ _
      | exact KeepsZone_IsTag _ _
      | exact KeepsZone_CheckTaggedList _ _
      | exact KeepsZone_ExtraLookupValue _ _
      | exact KeepsZone_ListLength _
      | exact KeepsZone_ListAt _ _
      | exact KeepsZone_ListTag _
      | exact KeepsZone_SymbolValue _
      | exact KeepsZone_IntegerValue _
      | exact KeepsZone_BoolValue _
      | exact KeepsZone_BoundConstant _
      | exact KeepsZone_NewValue _
      | exact KeepsZone_SetReachingType _ _
      | exact KeepsZone_ParseUse _ _
      | exact hself _ _
      | exact ih _
      | apply KeepsZone_ite
      | intro _
      | dsimp only
      | split

theorem KeepsZone_ParseInstanceFieldsLoop (vm : VM) (self : DartValueParser)
    (hself : ∀ sexp out, KeepsZone (self sexp out)) (list : SExpression)
    (out : Handle) (entries : List (String × Option SExpression)) :
    KeepsZone (ParseInstanceFieldsLoop vm self list out entries) := by
  induction entries with
  | nil => exact KeepsZone_pure _
  | cons entry rest ih =>
    obtain ⟨key, value⟩ := entry
    unfold ParseInstanceFieldsLoop
    repeat' first
      | with_reducible apply KeepsZone_bind
      | exact KeepsZone_pure _
      | exact KeepsZone_fault _
      | exact KeepsZone_outOfFuel
      | exact KeepsZone_get
      | exact KeepsZone_StoreError _ _
      | exact KeepsZone_ReadHandle _
      | exact KeepsZone_WriteHandle _ _
      | exact KeepsZone_NewHandle _
      | exact KeepsZone_Check _ _
      | exact KeepsZone_Retrieve _ _
      | exact KeepsZone_RetrieveKey _ _
      | exact KeepsZone_IsTag _ _
      | exact KeepsZone_CheckTaggedList _ _
      | exact KeepsZone_ExtraLookupValue _ _
      | exact KeepsZone_ListLength _
      | exact KeepsZone_ListAt _ _
      | exact KeepsZone_ListTag _
      | exact KeepsZone_SymbolValue _
      | exact KeepsZone_IntegerValue _
      | exact KeepsZone_BoolValue _
      | exact KeepsZone_BoundConstant _
      | exact KeepsZone_NewValue _
      | exact KeepsZone_SetReachingType _ _
      | exact KeepsZone_ParseUse _ _
      | exact hself _ _
      | exact ih
      | apply KeepsZone_ite
      | apply KeepsZone_modify
      | intro _
      | dsimp only
      | split
      | exact ⟨rfl, rfl⟩

theorem KeepsZone_ParseInstanceWith (vm : VM) (self : DartValueParser)
    (hself : ∀ sexp out, KeepsZone (self sexp out)) (list : SExpression)
    (out : Handle) : KeepsZone (ParseInstanceWith vm self list out) := by
  unfold ParseInstanceWith CheckInteger
  repeat' first
    | with_reducible apply KeepsZone_bind
    | exact KeepsZone_pure _
    | exact KeepsZone_fault _
    | exact KeepsZone_outOfFuel
    | exact KeepsZone_get
    | exact KeepsZone_StoreError _ _
    | exact KeepsZone_ReadHandle _
    | exact KeepsZone_WriteHandle _ _
    | exact KeepsZone_NewHandle _
    | exact KeepsZone_Check _ _
    | exact KeepsZone_Retrieve _ _
    | exact KeepsZone_RetrieveKey _ _
    | exact KeepsZone_IsTag _ _
    | exact KeepsZone_CheckTaggedList _ _
    | exact KeepsZone_ExtraLookupValue _ _
    | exact KeepsZone_ListLength _
    | exact KeepsZone_ListAt _ _
    | exact KeepsZone_ListTag _
    | exact KeepsZone_SymbolValue _
    | exact KeepsZone_IntegerValue _
    | exact KeepsZone_BoolValue _
    | exact KeepsZone_BoundConstant _
    | exact KeepsZone_NewValue _
    | exact KeepsZone_SetReachingType _ _
    | exact KeepsZone_ParseUse _ _
    | exact hself _ _
    | exact KeepsZone_ParseInstanceFieldsLoop vm self hself _ _ _
    | apply KeepsZone_ite
    | apply KeepsZone_modify
    | intro _
    | dsimp only
    | split
    | exact ⟨rfl, rfl⟩

set_option maxHeartbeats 1000000 in
theorem KeepsZone_ParseCanonicalNameFunctions (vm : VM) (sym : Option SExpression)
    (name : List Char) (obj : Handle) (fuel : Nat) :
    ∀ func_start, KeepsZone (ParseCanonicalNameFunctions vm sym name obj fuel func_start) := by
  induction fuel with
  | zero => intro func_start; exact KeepsZone_outOfFuel
  | succ n ih =>
    intro func_start
    unfold ParseCanonicalNameFunctions
    repeat' first
      | with_reducible apply KeepsZone_bind
      | exact KeepsZone_pure _
      | exact KeepsZone_fault _
      | exact KeepsZone_outOfFuel
      | exact KeepsZone_get
      | exact KeepsZone_StoreError _ _
      | exact KeepsZone_ReadHandle _
      | exact KeepsZone_WriteHandle _ _
      | exact KeepsZone_NewHandle _
      | exact ih _
      | apply KeepsZone_ite
      | apply KeepsZone_modify
      | intro _
      | dsimp only
      | split
      | exact ⟨rfl, rfl⟩

set_option maxHeartbeats 1000000 in
theorem KeepsZone_ParseCanonicalName (vm : VM) (sym : Option SExpression) (obj : Handle) :
    KeepsZone (ParseCanonicalName vm sym obj) := by
  unfold ParseCanonicalName
  repeat' first
    | with_reducible apply KeepsZone_bind
    | exact KeepsZone_pure _
    | exact KeepsZone_fault _
    | exact KeepsZone_outOfFuel
    | exact KeepsZone_get
    | exact KeepsZone_StoreError _ _
    | exact KeepsZone_ReadHandle _
    | exact KeepsZone_WriteHandle _ _
    | exact KeepsZone_NewHandle _
    | exact KeepsZone_ParseCanonicalNameFunctions _ _ _ _ _ _
    | apply KeepsZone_ite
    | apply KeepsZone_modify
    | intro _
    | dsimp only
    | split
    | exact ⟨rfl, rfl⟩

theorem KeepsZone_ParseDartValueFinish (vm : VM) (sexp : SExpression) (out : Handle) :
    KeepsZone (ParseDartValueFinish vm sexp out) := by
  unfold ParseDartValueFinish
  repeat' first
    | with_reducible apply KeepsZone_bind
    | exact KeepsZone_pure _
    | exact KeepsZone_fault _
    | exact KeepsZone_outOfFuel
    | exact KeepsZone_get
    | exact KeepsZone_StoreError _ _
    | exact KeepsZone_ReadHandle _
    | exact KeepsZone_WriteHandle _ _
    | exact KeepsZone_NewHandle _
    | apply KeepsZone_ite
    | intro _
    | dsimp only
    | split

set_option maxHeartbeats 4000000 in
theorem KeepsZone_ParseDartValueWith (vm : VM) (self : DartValueParser)
    (hself : ∀ sexp out, KeepsZone (self sexp out)) (sexp : Option SExpression)
    (out : Handle) : KeepsZone (ParseDartValueWith vm self sexp out) := by
  unfold ParseDartValueWith CheckSymbol CheckInteger
  repeat' first
    | with_reducible apply KeepsZone_bind
    | exact KeepsZone_pure _
    | exact KeepsZone_fault _
    | exact KeepsZone_outOfFuel
    | exact KeepsZone_get
    | exact KeepsZone_StoreError _ _
    | exact KeepsZone_ReadHandle _
    | exact KeepsZone_WriteHandle _ _
    | exact KeepsZone_NewHandle _
    | exact KeepsZone_Check _ _
    | exact KeepsZone_Retrieve _ _
    | exact KeepsZone_RetrieveKey _ _
    | exact KeepsZone_IsTag _ _
    | exact KeepsZone_CheckTaggedList _ _
    | exact KeepsZone_ExtraLookupValue _ _
    | exact KeepsZone_ListLength _
    | exact KeepsZone_ListAt _ _
    | exact KeepsZone_ListTag _
    | exact KeepsZone_SymbolValue _
    | exact KeepsZone_IntegerValue _
    | exact KeepsZone_BoolValue _
    | exact KeepsZone_BoundConstant _
    | exact KeepsZone_NewValue _
    | exact KeepsZone_SetReachingType _ _
    | exact KeepsZone_ParseUse _ _
    | exact hself _ _
    | exact KeepsZone_ParseValueWith vm self hself _
    | exact KeepsZone_ParseTypeArgumentsLoop vm self hself _ _ _ _
    | exact KeepsZone_ParseImmutableListLoop vm self hself _ _ _ _
    | exact KeepsZone_ParseInstanceWith vm self hself _ _
    | exact KeepsZone_ParseCanonicalName _ _ _
    | exact KeepsZone_ParseDartValueFinish _ _ _
    | apply KeepsZone_ite
    | apply KeepsZone_modify
    | intro _
    | dsimp only
    | split
    | exact ⟨rfl, rfl⟩

theorem KeepsZone_ParseDartValue (vm : VM) (fuel : Nat) :
    ∀ sexp out, KeepsZone (ParseDartValue vm fuel sexp out) := by
  induction fuel with
  | zero =>
    intro sexp out
    cases sexp
    · exact KeepsZone_pure _
    · exact KeepsZone_outOfFuel
  | succ n ih =>
    intro sexp out
    exact KeepsZone_ParseDartValueWith vm _ ih sexp out

theorem KeepsZone_ParseCompileType (vm : VM) (fuel : Nat) (sexp : SExpression) :
    KeepsZone (ParseCompileType vm fuel sexp) :=
  KeepsZone_ParseCompileTypeWith vm _ (KeepsZone_ParseDartValue vm fuel) sexp

/-! ## Acyclic constant pools -/

theorem PoolInvariant_of_same {d d1 : FlowGraphDeserializer} (hb : SameBinder d d1)
    (hz : SameZone d d1) (h : PoolInvariant d) : PoolInvariant d1 := by
  obtain ⟨h1, ⟨flow_graph, graph_entry, h2, h3, h4⟩, h5⟩ := h
  refine ⟨by rw [hb.1, h1], ⟨flow_graph, graph_entry, by rw [hz.1, h2], h3, ?_⟩, ?_⟩
  · intro obj constant hc
    obtain ⟨value, token_pos, hv⟩ := h4 obj constant hc
    exact ⟨value, token_pos, by rw [hz.2]; exact hv⟩
  · intro index definition hdef
    rw [hb.2] at hdef
    obtain ⟨value, token_pos, hv⟩ := h5 index definition hdef
    exact ⟨value, token_pos, by rw [hz.2]; exact hv⟩

theorem IsConstantAt_append {d d1 : FlowGraphDeserializer} (instr : Instruction)
    (hz : d1.zone_instructions = d.zone_instructions ++ [instr]) {definition : DefinitionPtr}
    (h : IsConstantAt d definition) : IsConstantAt d1 definition := by
  obtain ⟨value, token_pos, hv⟩ := h
  refine ⟨value, token_pos, ?_⟩
  rw [hz]
  have hlt : definition < d.zone_instructions.length := by
    by_contra hge
    have hle : d.zone_instructions.length ≤ definition := Nat.le_of_not_lt hge
    rw [List.getElem?_eq_none hle] at hv
    cases hv
  rw [List.getElem?_append_left hlt]
  exact hv

theorem List_lookup_append_singleton {α β : Type} [BEq α] [LawfulBEq α] (l : List (α × β))
    (a x : α) (b y : β) (h : (l ++ [(a, b)]).lookup x = some y) :
    l.lookup x = some y ∨ (l.lookup x = none ∧ x = a ∧ y = b) := by
  induction l with
  | nil =>
    simp only [List.nil_append, List.lookup] at h
    by_cases hx : x == a
    · simp only [hx] at h
      cases h
      exact Or.inr ⟨rfl, eq_of_beq hx, rfl⟩
    · simp [hx] at h
  | cons p l ih =>
    obtain ⟨k, v⟩ := p
    simp only [List.cons_append, List.lookup] at h ⊢
    by_cases hx : x == k
    · simp only [hx] at h ⊢
      exact Or.inl h
    · simp only [hx] at h ⊢
      exact ih h

theorem GetConstant_pool (vm : VM) (obj : RawObject) (d : FlowGraphDeserializer)
    (h : PoolInvariant d) :
    ∃ definition d1, GetConstant vm obj d = .ok definition d1 ∧ SameBinder d d1 ∧
      PoolInvariant d1 ∧ IsConstantAt d1 definition := by
  obtain ⟨h1, ⟨flow_graph, graph_entry, h2, h3, h4⟩, h5⟩ := h
  cases hc : flow_graph.constant_instr_pool_.lookup obj with
  | some constant =>
    refine ⟨constant, d, ?_, SameBinder_refl d, ⟨h1, ⟨flow_graph, graph_entry, h2, h3, h4⟩, h5⟩,
      h4 obj constant hc⟩
    simp [GetConstant, Parse.bind_apply, Parse.get, h2, hc]
  | none =>
    refine ⟨d.zone_instructions.length,
      { d with
        zone_instructions := d.zone_instructions ++ [.Constant obj vm.kConstant]
        ssa_temp_index_ :=
          Function.update d.ssa_temp_index_ d.zone_instructions.length
            flow_graph.current_ssa_temp_index_
        initial_definitions_ :=
          Function.update d.initial_definitions_ graph_entry
            (d.initial_definitions_ graph_entry ++ [d.zone_instructions.length])
        flow_graph_ := some
          { flow_graph with
            current_ssa_temp_index_ := flow_graph.current_ssa_temp_index_ + 1
            constant_instr_pool_ :=
              flow_graph.constant_instr_pool_ ++ [(obj, d.zone_instructions.length)] } },
      ?_, ?_, ?_, ?_⟩
    · simp [GetConstant, Parse.bind_apply, Parse.get, h2, hc, h3, NewInstruction, Parse.modify]
    · exact ⟨rfl, rfl⟩
    · refine ⟨h1, ⟨_, graph_entry, rfl, h3, ?_⟩, ?_⟩
      · intro o c hl
        rcases List_lookup_append_singleton _ _ _ _ _ hl with hold | ⟨-, -, rfl⟩
        · exact IsConstantAt_append (d := d) _ rfl (h4 o c hold)
        · exact ⟨obj, vm.kConstant, by simp⟩
      · intro index definition hdef
        exact IsConstantAt_append (d := d) _ rfl (h5 index definition hdef)
    · exact ⟨obj, vm.kConstant, by simp⟩

theorem CheckTaggedList_returns (x : Option SExpression) (label : Option String)
    (d : FlowGraphDeserializer) :
    ∃ r d1, CheckTaggedList x label d = .ok r d1 ∧ (r = none ∨ r = x) := by
  rcases x with _ | e
  · exact ⟨none, d, by simp [CheckTaggedList, CheckList, Check, Retrieve, IsTag, CheckSymbol],
      Or.inl rfl⟩
  · cases e with
    | SExpList contents extra_info =>
      rcases contents with _ | ⟨a, l⟩
      · exact ⟨none, _, by
          simp [CheckTaggedList, CheckList, Check, Retrieve, IsTag, CheckSymbol, SExpression.Is,
            SExpression.As, StoreError, Parse.modify, Parse.bind_apply]
          rfl, Or.inl rfl⟩
      · have hlen : ¬ ((l.length : Int) + 1 ≤ 0) := by omega
        rcases a with _ | elem
        · exact ⟨none, _, by
            simp [CheckTaggedList, CheckList, Check, Retrieve, IsTag, CheckSymbol, SExpression.Is,
              SExpression.As, StoreError, Parse.modify, Parse.bind_apply, hlen]
            rfl, Or.inl rfl⟩
        · cases elem with
          | SExpSymbol value =>
            rcases label with _ | lbl
            · exact ⟨_, d, CheckTaggedList_any value l extra_info d, Or.inr rfl⟩
            · by_cases hl : lbl = value
              · subst hl
                exact ⟨_, d, CheckTaggedList_tagged lbl l extra_info d, Or.inr rfl⟩
              · exact ⟨none, _, by
                  simp [CheckTaggedList, CheckList, Check, Retrieve, IsTag, CheckSymbol,
                    SExpression.Is, SExpression.As, StoreError, Parse.modify, Parse.bind_apply,
                    hlen, hl]
                  rfl, Or.inl rfl⟩
          | _ =>
            exact ⟨none, _, by
              simp [CheckTaggedList, CheckList, Check, Retrieve, IsTag, CheckSymbol,
                SExpression.Is, SExpression.As, StoreError, Parse.modify, Parse.bind_apply, hlen]
              rfl, Or.inl rfl⟩
    | _ =>
      exact ⟨none, _, by
        simp [CheckTaggedList, CheckList, Check, Retrieve, IsTag, CheckSymbol, SExpression.Is,
          SExpression.As, StoreError, Parse.modify, Parse.bind_apply]
        rfl, Or.inl rfl⟩

theorem IntMap.LookupValue_Remove_other {V : Type} (m : IntMap V) (key other : Int)
    (h : key ≠ other) : (m.Remove key).LookupValue other = m.LookupValue other := by
  induction m with
  | nil => rfl
  | cons kv rest ih =>
    obtain ⟨k, v⟩ := kv
    by_cases hk : k = key
    · subst hk
      simp only [IntMap.Remove, List.filter_cons, ne_eq, not_true_eq_false, decide_False,
        Bool.false_eq_true, if_false, IntMap.LookupValue, h]
      exact ih
    · simp only [IntMap.Remove, List.filter_cons, ne_eq, hk, not_false_eq_true, decide_True,
        if_true, IntMap.LookupValue]
      by_cases ho : k = other
      · simp only [ho, if_true]
      · simp only [ho, if_false]
        exact ih

theorem IntMap.LookupValue_Insert_other {V : Type} (m : IntMap V) (key other : Int) (value : V)
    (h : key ≠ other) : (m.Insert key value).LookupValue other = m.LookupValue other := by
  simp only [IntMap.Insert, IntMap.LookupValue, h, if_false]
  exact IntMap.LookupValue_Remove_other m key other h

theorem NewFlowGraph_pool (vm : VM) (graph : Option DefinitionPtr)
    (d d1 : FlowGraphDeserializer) (hvalues : d.values_map_ = [])
    (hmap : d.definition_map_ = []) (h : NewFlowGraph vm graph d = .ok () d1) :
    PoolInvariant d1 := by
  simp only [NewFlowGraph, Parse.bind_apply, Parse.get] at h
  split at h
  · cases h
  · cases graph with
    | none => cases h
    | some graph_entry =>
      simp [NewInstruction, Parse.modify, Parse.bind_apply, AddToInitialDefinitions] at h
      subst h
      refine ⟨hvalues, ⟨_, graph_entry, rfl, rfl, ?_⟩, ?_⟩
      · intro obj constant hl
        simp only [List.lookup] at hl
        split at hl
        · cases hl
          exact ⟨none, vm.kConstant, by simp⟩
        · cases hl
      · intro index definition hdef
        simp only [hmap] at hdef
        cases hdef

theorem ParseDefinitionWithParsedBody_tail (vm : VM) (fuel : Nat) (e : PoolEntry)
    (definition : DefinitionPtr) (d : FlowGraphDeserializer)
    (htype : TypeParses vm fuel e) (hinv : PoolInvariant d)
    (hconst : IsConstantAt d definition) :
    ∃ d1,
      (do
        match ← CheckTaggedList (ExtraLookup "type" e.extra_info) (some "CompileType") with
        | some type_sexp =>
          match ← ParseCompileType vm fuel type_sexp with
          | none => return false
          | some typ =>
            Parse.modify fun d => { d with type_ := Function.update d.type_ definition (some typ) }
        | none => pure ()
        Parse.modify fun d =>
          { d with definition_map_ := d.definition_map_.Insert e.index definition }
        FixPendingValues e.index definition
        return true : Parse Bool) d = .ok true d1 ∧
      PoolInvariant d1 ∧ d1.definition_map_ = d.definition_map_.Insert e.index definition := by
  obtain ⟨r, d2, hr, hcase⟩ :=
    CheckTaggedList_returns (ExtraLookup "type" e.extra_info) (some "CompileType") d
  have hb2 := (KeepsBinder_CheckTaggedList _ _).same d r d2 hr
  have hz2 := (KeepsZone_CheckTaggedList _ _).same d r d2 hr
  have hinv2 := PoolInvariant_of_same hb2 hz2 hinv
  have hbound : ∀ (d3 : FlowGraphDeserializer), PoolInvariant d3 → IsConstantAt d3 definition →
      d3.definition_map_ = d.definition_map_ →
      PoolInvariant { d3 with definition_map_ := d3.definition_map_.Insert e.index definition } ∧
      ({ d3 with definition_map_ := d3.definition_map_.Insert e.index definition } :
        FlowGraphDeserializer).definition_map_ = d.definition_map_.Insert e.index definition := by
    intro d3 h3 hc3 hm3
    obtain ⟨h1, hg, h5⟩ := h3
    refine ⟨⟨h1, hg, ?_⟩, by rw [← hm3]⟩
    intro index def2 hdef
    by_cases hi : e.index = index
    · subst hi
      simp only [IntMap.LookupValue_Insert_self] at hdef
      cases hdef
      exact hc3
    · have : (d3.definition_map_.Insert e.index definition).LookupValue index =
          d3.definition_map_.LookupValue index := IntMap.LookupValue_Insert_other _ _ _ _ hi
      rw [this] at hdef
      exact h5 index def2 hdef
  have hconst_of : ∀ (d3 : FlowGraphDeserializer), SameZone d d3 → IsConstantAt d3 definition := by
    intro d3 hz
    obtain ⟨value, token_pos, hv⟩ := hconst
    exact ⟨value, token_pos, by rw [hz.2]; exact hv⟩
  rcases r with _ | type_sexp
  · refine ⟨{ d2 with definition_map_ := d2.definition_map_.Insert e.index definition }, ?_,
      hbound d2 hinv2 (hconst_of d2 hz2) hb2.2⟩
    simp [Parse.bind_apply, hr, Parse.modify, FixPendingValues, Parse.get, hinv2.1,
      IntMap.LookupValue]
  · have hlookup : ExtraLookup "type" e.extra_info = some type_sexp := by
      rcases hcase with h | h
      · cases h
      · exact h.symm
    obtain ⟨typ, d3, hp⟩ := htype type_sexp hlookup d2 hinv2
    have hb3 := (KeepsBinder_ParseCompileType vm fuel type_sexp).same d2 _ d3 hp
    have hz3 := (KeepsZone_ParseCompileType vm fuel type_sexp).same d2 _ d3 hp
    have hinv3 := PoolInvariant_of_same hb3 hz3 hinv2
    have hinv4 : PoolInvariant
        { d3 with type_ := Function.update d3.type_ definition (some typ) } :=
      PoolInvariant_of_same (d := d3) ⟨rfl, rfl⟩ ⟨rfl, rfl⟩ hinv3
    have hz4 : SameZone d { d3 with type_ := Function.update d3.type_ definition (some typ) } :=
      ⟨hz3.1.trans hz2.1, hz3.2.trans hz2.2⟩
    refine ⟨{ d3 with
        type_ := Function.update d3.type_ definition (some typ)
        definition_map_ := d3.definition_map_.Insert e.index definition }, ?_,
      hbound _ hinv4 (hconst_of _ hz4) (hb3.2.trans hb2.2)⟩
    simp [Parse.bind_apply, hr, hp, Parse.modify, FixPendingValues, Parse.get, hinv3.1,
      IntMap.LookupValue]

theorem ParseDefinitionWithParsedBody_pool (vm : VM) (fuel : Nat) (e : PoolEntry)
    (definition : DefinitionPtr) (d : FlowGraphDeserializer)
    (hindex : vm.StringToInt64 (String.mk e.digits) = some e.index)
    (htype : TypeParses vm fuel e) (hinv : PoolInvariant d)
    (hfresh : d.definition_map_.HasKey e.index = false) (hconst : IsConstantAt d definition) :
    ∃ d1, ParseDefinitionWithParsedBody vm fuel (some e.sexp) definition d = .ok true d1 ∧
      PoolInvariant d1 ∧ d1.definition_map_ = d.definition_map_.Insert e.index definition := by
  have hlen : ¬ ((e.rest.length : Int) + 1 + 1 + 1 ≤ 1) := by omega
  have hstep : ∀ d0 : FlowGraphDeserializer, SameBinder d d0 → SameZone d d0 →
      ParseDefinitionWithParsedBody vm fuel (some e.sexp) definition d =
        (do
          match ← CheckTaggedList (ExtraLookup "type" e.extra_info) (some "CompileType") with
          | some type_sexp =>
            match ← ParseCompileType vm fuel type_sexp with
            | none => return false
            | some typ =>
              Parse.modify fun d =>
                { d with type_ := Function.update d.type_ definition (some typ) }
          | none => pure ()
          Parse.modify fun d =>
            { d with definition_map_ := d.definition_map_.Insert e.index definition }
          FixPendingValues e.index definition
          return true : Parse Bool) d0 →
      ∃ d1, ParseDefinitionWithParsedBody vm fuel (some e.sexp) definition d = .ok true d1 ∧
        PoolInvariant d1 ∧ d1.definition_map_ = d.definition_map_.Insert e.index definition := by
    intro d0 hb hz heq
    obtain ⟨value, token_pos, hv⟩ := hconst
    obtain ⟨d1, h1, h2, h3⟩ := ParseDefinitionWithParsedBody_tail vm fuel e definition d0 htype
      (PoolInvariant_of_same hb hz hinv) ⟨value, token_pos, by rw [hz.2]; exact hv⟩
    exact ⟨d1, heq.trans h1, h2, by rw [h3, hb.2]⟩
  by_cases hmax : d.max_ssa_index_ < e.index
  · refine hstep
      { d with
        ssa_temp_index_ := Function.update d.ssa_temp_index_ definition e.index
        max_ssa_index_ := e.index } ⟨rfl, rfl⟩ ⟨rfl, rfl⟩ ?_
    simp [PoolEntry.sexp, ParseDefinitionWithParsedBody, Retrieve, CheckSymbol, Check,
      SExpression.Is, SExpression.As, ParseSSATemp, ParseSymbolAsPrefixedInt, hindex, hlen,
      ExtraLookupValue, Parse.pure_bind, hfresh, Parse.bind_apply, Parse.get, Parse.modify, hmax]
    all_goals
      split
      · rename_i a d1 _
        cases a with
        | none => rfl
        | some type_sexp =>
          simp only [Parse.bind_apply]
          split
          · rename_i r d2 _
            cases r <;> rfl
          · rfl
          · rfl
      · rfl
      · rfl
  · refine hstep
      { d with ssa_temp_index_ := Function.update d.ssa_temp_index_ definition e.index }
      ⟨rfl, rfl⟩ ⟨rfl, rfl⟩ ?_
    simp [PoolEntry.sexp, ParseDefinitionWithParsedBody, Retrieve, CheckSymbol, Check,
      SExpression.Is, SExpression.As, ParseSSATemp, ParseSymbolAsPrefixedInt, hindex, hlen,
      ExtraLookupValue, Parse.pure_bind, hfresh, Parse.bind_apply, Parse.get, Parse.modify, hmax]
    all_goals
      split
      · rename_i a d1 _
        cases a with
        | none => rfl
        | some type_sexp =>
          simp only [Parse.bind_apply]
          split
          · rename_i r d2 _
            cases r <;> rfl
          · rfl
          · rfl
      · rfl
      · rfl

theorem IntMap.HasKey_Insert {V : Type} (m : IntMap V) (key other : Int) (value : V) :
    (m.Insert key value).HasKey other = true ↔ key = other ∨ m.HasKey other = true := by
  by_cases h : key = other
  · subst h
    simp [IntMap.HasKey, IntMap.LookupValue_Insert_self]
  · simp [IntMap.HasKey, IntMap.LookupValue_Insert_other _ _ _ _ h, h]

theorem Retrieve_pool_value (e : PoolEntry) (d : FlowGraphDeserializer) :
    Retrieve (some e.sexp) 2 d = .ok (some e.value) d := by
  have hlen : ¬ ((e.rest.length : Int) + 1 + 1 + 1 ≤ 2) := by omega
  simp [PoolEntry.sexp, Retrieve, hlen]

theorem ParseConstantPoolRound_pool (vm : VM) (fuel : Nat) (worklist : List PoolEntry) :
    ∀ (parse_failures : List SExpression) (d : FlowGraphDeserializer),
      PoolInvariant d →
      (∀ e ∈ worklist, vm.StringToInt64 (String.mk e.digits) = some e.index) →
      (worklist.map PoolEntry.index).Nodup →
      (∀ e ∈ worklist, d.definition_map_.HasKey e.index = false) →
      (∀ e ∈ worklist, Evaluates vm fuel e) → (∀ e ∈ worklist, TypeParses vm fuel e) →
      ∃ (deferred : List PoolEntry) (d1 : FlowGraphDeserializer),
        ParseConstantPoolRound vm fuel (worklist.map PoolEntry.sexp) parse_failures d =
          .ok (some (parse_failures ++ deferred.map PoolEntry.sexp)) d1 ∧
        deferred.Sublist worklist ∧ PoolInvariant d1 ∧
        (∀ k, d1.definition_map_.HasKey k = true ↔
          (d.definition_map_.HasKey k = true ∨ ∃ e ∈ worklist, e ∉ deferred ∧ e.index = k)) ∧
        ∀ e ∈ deferred, ∃ i ∈ e.deps, d.definition_map_.HasKey i = false := by
  induction worklist with
  | nil =>
    intro parse_failures d hinv _ _ _ _ _
    exact ⟨[], d, by simp [ParseConstantPoolRound], List.Sublist.refl _, hinv, by simp, by simp⟩
  | cons e w ih =>
    intro parse_failures d hinv hindex hnodup hfresh heval htype
    have hindex_w : ∀ e ∈ w, vm.StringToInt64 (String.mk e.digits) = some e.index :=
      fun x hx => hindex x (List.mem_cons_of_mem _ hx)
    have heval_w : ∀ e ∈ w, Evaluates vm fuel e := fun x hx => heval x (List.mem_cons_of_mem _ hx)
    have htype_w : ∀ e ∈ w, TypeParses vm fuel e := fun x hx => htype x (List.mem_cons_of_mem _ hx)
    rw [List.map_cons, List.nodup_cons] at hnodup
    obtain ⟨hnotin, hnodup_w⟩ := hnodup
    have hne : ∀ x ∈ w, e.index ≠ x.index := by
      intro x hx heq
      exact hnotin (heq ▸ List.mem_map_of_mem _ hx)
    have he_notin : e ∉ w := fun hmem => hne e hmem rfl
    have hnew : NewHandle none d =
        .ok (.zone d.zone_handles.length) { d with zone_handles := d.zone_handles ++ [none] } := rfl
    have hinv0 : PoolInvariant { d with zone_handles := d.zone_handles ++ [none] } :=
      PoolInvariant_of_same (d := d) ⟨rfl, rfl⟩ ⟨rfl, rfl⟩ hinv
    obtain ⟨parsed, d2, hparse, htrue⟩ :=
      heval e (List.mem_cons_self _ _) _ (.zone d.zone_handles.length) hinv0
    have hb2 := (KeepsBinder_ParseDartValue vm fuel _ _).same _ _ _ hparse
    have hz2 := (KeepsZone_ParseDartValue vm fuel _ _).same _ _ _ hparse
    have hinv2 := PoolInvariant_of_same hb2 hz2 hinv0
    have hmap2 : d2.definition_map_ = d.definition_map_ := hb2.2
    simp only [List.map_cons, ParseConstantPoolRound, Parse.bind_apply, hnew, Retrieve_pool_value,
      hparse]
    cases parsed with
    | false =>
      have hmissing : ∃ i ∈ e.deps, d.definition_map_.HasKey i = false := by
        by_contra hall
        push_neg at hall
        have := htrue fun i hi => by
          have := hall i hi
          simpa using this
        cases this
      obtain ⟨deferred, d1, hround, hsub, hinv1, hkeys, hdef⟩ :=
        ih (parse_failures ++ [e.sexp]) d2 hinv2 hindex_w hnodup_w
          (fun x hx => by rw [hmap2]; exact hfresh x (List.mem_cons_of_mem _ hx)) heval_w htype_w
      refine ⟨e :: deferred, d1, ?_, hsub.cons₂ _, hinv1, ?_, ?_⟩
      · simp only [Bool.not_false, if_true]
        rw [hround]
        simp
      · intro k
        rw [hkeys k, hmap2]
        constructor
        · rintro (h | ⟨x, hx, hxd, hxk⟩)
          · exact Or.inl h
          · refine Or.inr ⟨x, List.mem_cons_of_mem _ hx, ?_, hxk⟩
            intro hmem
            rcases List.mem_cons.mp hmem with h | h
            · exact he_notin (h ▸ hx)
            · exact hxd h
        · rintro (h | ⟨x, hx, hxd, hxk⟩)
          · exact Or.inl h
          · rcases List.mem_cons.mp hx with h | h
            · exact absurd (h ▸ List.mem_cons_self _ _) hxd
            · exact Or.inr ⟨x, h, fun hm => hxd (List.mem_cons_of_mem _ hm), hxk⟩
      · intro x hx
        rcases List.mem_cons.mp hx with h | h
        · rw [h]
          exact hmissing
        · obtain ⟨i, hi, hk⟩ := hdef x h
          exact ⟨i, hi, by rw [← hmap2]; exact hk⟩
    | true =>
      have hread : ReadHandle (.zone d.zone_handles.length) d2 =
          .ok (d2.ReadHandle (.zone d.zone_handles.length)) d2 := rfl
      obtain ⟨definition, d3, hget, hb3, hinv3, hconst3⟩ :=
        GetConstant_pool vm (d2.ReadHandle (.zone d.zone_handles.length)) d2 hinv2
      have hmap3 : d3.definition_map_ = d.definition_map_ := hb3.2.trans hmap2
      obtain ⟨d4, hbind, hinv4, hmap4⟩ :=
        ParseDefinitionWithParsedBody_pool vm fuel e definition d3
          (hindex e (List.mem_cons_self _ _)) (htype e (List.mem_cons_self _ _)) hinv3
          (by rw [hmap3]; exact hfresh e (List.mem_cons_self _ _)) hconst3
      have hkeys4 : ∀ k, d4.definition_map_.HasKey k = true ↔
          (e.index = k ∨ d.definition_map_.HasKey k = true) := by
        intro k
        rw [hmap4, hmap3]
        exact IntMap.HasKey_Insert _ _ _ _
      obtain ⟨deferred, d1, hround, hsub, hinv1, hkeys, hdef⟩ :=
        ih parse_failures d4 hinv4 hindex_w hnodup_w
          (fun x hx => by
            have h1 := hfresh x (List.mem_cons_of_mem _ hx)
            have h2 := hkeys4 x.index
            by_contra hc
            have h3 := h2.mp (by simpa using hc)
            rcases h3 with h3 | h3
            · exact hne x hx h3
            · rw [h1] at h3
              cases h3) heval_w htype_w
      have he_def : e ∉ deferred := fun hmem => he_notin (hsub.subset hmem)
      refine ⟨deferred, d1, ?_, hsub.cons _, hinv1, ?_, ?_⟩
      · simp only [Bool.not_true, Bool.false_eq_true, if_false]
        simp only [Parse.bind_apply, hread, hget, hbind, Bool.not_true, Bool.false_eq_true,
          if_false]
        exact hround
      · intro k
        rw [hkeys k, hkeys4 k]
        constructor
        · rintro ((h | h) | ⟨x, hx, hxd, hxk⟩)
          · exact Or.inr ⟨e, List.mem_cons_self _ _, he_def, h⟩
          · exact Or.inl h
          · exact Or.inr ⟨x, List.mem_cons_of_mem _ hx, hxd, hxk⟩
        · rintro (h | ⟨x, hx, hxd, hxk⟩)
          · exact Or.inl (Or.inr h)
          · rcases List.mem_cons.mp hx with h | h
            · exact Or.inl (Or.inl (h ▸ hxk))
            · exact Or.inr ⟨x, h, hxd, hxk⟩
      · intro x hx
        obtain ⟨i, hi, hk⟩ := hdef x hx
        refine ⟨i, hi, ?_⟩
        by_contra hc
        have : d4.definition_map_.HasKey i = true := (hkeys4 i).mpr (Or.inr (by simpa using hc))
        rw [hk] at this
        cases this

theorem List_exists_min {α : Type} (f : α → Nat) (l : List α) (h : l ≠ []) :
    ∃ m ∈ l, ∀ x ∈ l, f m ≤ f x := by
  induction l with
  | nil => exact absurd rfl h
  | cons a l ih =>
    by_cases hl : l = []
    · subst hl
      exact ⟨a, List.mem_cons_self _ _, fun x hx => by simp at hx; rw [hx]⟩
    · obtain ⟨m, hm, hmin⟩ := ih hl
      by_cases hle : f a ≤ f m
      · refine ⟨a, List.mem_cons_self _ _, fun x hx => ?_⟩
        rcases List.mem_cons.mp hx with h1 | h1
        · rw [h1]
        · exact hle.trans (hmin x h1)
      · refine ⟨m, List.mem_cons_of_mem _ hm, fun x hx => ?_⟩
        rcases List.mem_cons.mp hx with h1 | h1
        · rw [h1]
          omega
        · exact hmin x h1

theorem ParseConstantPoolRounds_pool (vm : VM) (fuel : Nat) (entries : List PoolEntry)
    (rank : Int → Nat) (d0 : FlowGraphDeserializer)
    (hindex : ∀ e ∈ entries, vm.StringToInt64 (String.mk e.digits) = some e.index)
    (hacyclic : ∀ e ∈ entries, ∀ i ∈ e.deps, d0.definition_map_.HasKey i = true ∨
      ∃ e2 ∈ entries, e2.index = i ∧ rank i < rank e.index)
    (heval : ∀ e ∈ entries, Evaluates vm fuel e) (htype : ∀ e ∈ entries, TypeParses vm fuel e) :
    ∀ (n : Nat) (w : List PoolEntry) (d : FlowGraphDeserializer), w.length ≤ n →
      PoolInvariant d → (∀ e ∈ w, e ∈ entries) → (w.map PoolEntry.index).Nodup →
      (∀ e ∈ w, d.definition_map_.HasKey e.index = false) →
      (∀ e ∈ entries, e ∉ w → d.definition_map_.HasKey e.index = true) →
      (∀ k, d0.definition_map_.HasKey k = true → d.definition_map_.HasKey k = true) →
      ∃ d1, ParseConstantPoolRounds vm fuel (w.length + 1) (w.map PoolEntry.sexp) d =
          .ok true d1 ∧
        ∀ e ∈ entries, d1.definition_map_.HasKey e.index = true := by
  intro n
  induction n with
  | zero =>
    intro w d hn hinv hsub hnodup hfresh hdone hbase
    have hnil : w = [] := List.length_eq_zero.mp (Nat.le_zero.mp hn)
    subst hnil
    refine ⟨d, by simp [ParseConstantPoolRounds, ParseConstantPoolRound], ?_⟩
    exact fun e he => hdone e he (List.not_mem_nil _)
  | succ n ih =>
    intro w d hn hinv hsub hnodup hfresh hdone hbase
    obtain ⟨deferred, d1, hround, hsublist, hinv1, hkeys, hmissing⟩ :=
      ParseConstantPoolRound_pool vm fuel w [] d hinv (fun e he => hindex e (hsub e he)) hnodup
        hfresh (fun e he => heval e (hsub e he)) (fun e he => htype e (hsub e he))
    rw [List.nil_append] at hround
    obtain ⟨-, hempty, -, hnext⟩ :=
      ParseConstantPoolRounds_step vm fuel w.length (w.map PoolEntry.sexp)
        (deferred.map PoolEntry.sexp) d d1 hround
    have hinj := List.inj_on_of_nodup_map hnodup
    have hdone1 : ∀ e ∈ entries, e ∉ deferred → d1.definition_map_.HasKey e.index = true := by
      intro e he hnot
      by_cases hw : e ∈ w
      · exact (hkeys e.index).mpr (Or.inr ⟨e, hw, hnot, rfl⟩)
      · exact (hkeys e.index).mpr (Or.inl (hdone e he hw))
    by_cases hd : deferred = []
    · subst hd
      refine ⟨d1, ?_, fun e he => hdone1 e he (List.not_mem_nil _)⟩
      exact hempty rfl
    · have hne : deferred.map PoolEntry.sexp ≠ [] := by
        intro h
        exact hd (List.map_eq_nil_iff.mp h)
      have hprogress : deferred.map PoolEntry.sexp ≠ w.map PoolEntry.sexp := by
        intro heq
        have hlen : deferred.length = w.length := by
          have := congrArg List.length heq
          simpa using this
        have hdw : deferred = w := hsublist.eq_of_length hlen
        have hwne : w ≠ [] := hdw ▸ hd
        obtain ⟨m, hm, hmin⟩ := List_exists_min (fun e => rank e.index) w hwne
        obtain ⟨i, hi, hkey⟩ := hmissing m (hdw ▸ hm)
        rcases hacyclic m (hsub m hm) i hi with h0 | ⟨e2, he2, hidx, hrank⟩
        · rw [hbase i h0] at hkey
          cases hkey
        · by_cases hw : e2 ∈ w
          · have := hmin e2 hw
            simp only [hidx] at this
            omega
          · have := hdone e2 he2 hw
            rw [hidx, hkey] at this
            cases this
      obtain ⟨hlt, hrounds⟩ := hnext hne hprogress
      rw [List.length_map, List.length_map] at hlt
      have hfresh1 : ∀ e ∈ deferred, d1.definition_map_.HasKey e.index = false := by
        intro e he
        by_contra hc
        have hc2 : d1.definition_map_.HasKey e.index = true := by simpa using hc
        rcases (hkeys e.index).mp hc2 with h | ⟨x, hx, hxd, hxk⟩
        · rw [hfresh e (hsublist.subset he)] at h
          cases h
        · have := hinj hx (hsublist.subset he) hxk
          exact hxd (this ▸ he)
      obtain ⟨d2, hd2, hall⟩ :=
        ih deferred d1 (by omega) hinv1 (fun e he => hsub e (hsublist.subset he))
          ((hsublist.map _).nodup hnodup) hfresh1 hdone1
          (fun k hk => (hkeys k).mpr (Or.inl (hbase k hk)))
      refine ⟨d2, ?_, hall⟩
      rw [hrounds]
      have hstable := ParseConstantPoolRounds_stable vm fuel deferred.length
        (deferred.map PoolEntry.sexp) d1 w.length (deferred.length + 1)
        (by rw [List.length_map]) (by rw [List.length_map]; omega)
        (by rw [List.length_map]; omega)
      rw [hstable]
      exact hd2

theorem ParseConstantPoolWorklist_pool (tag : Option SExpression) (entries : List PoolEntry)
    (extra_info : List (String × Option SExpression)) (d : FlowGraphDeserializer)
    (hdef : ∀ e ∈ entries, e.tag = some (.SExpSymbol "def")) :
    ∀ (k : Nat) (worklist : List SExpression), k ≤ entries.length →
      ParseConstantPoolWorklist (PoolSexp tag entries extra_info) k worklist d =
        .ok (some (worklist ++ ((entries.take k).reverse.map PoolEntry.sexp))) d := by
  intro k
  induction k with
  | zero =>
    intro worklist _
    simp [ParseConstantPoolWorklist]
  | succ k ih =>
    intro worklist hk
    have hlt : k < entries.length := hk
    have hat : ListAt (PoolSexp tag entries extra_info) ((k + 1 : Nat) : Int) d =
        .ok (some (entries.get ⟨k, hlt⟩).sexp) d := by
      have h1 : (0 : Int) ≤ ((k + 1 : Nat) : Int) ∧
          ((k + 1 : Nat) : Int) < ((entries.length : Int) + 1) := by
        constructor <;> omega
      have h2 : (0 : Int) ≤ (k : Int) + 1 := by omega
      simp [ListAt, PoolSexp, h1, hlt, h2]
    have htag := hdef _ (List.get_mem entries k hlt)
    have hcheck : CheckTaggedList (some (entries.get ⟨k, hlt⟩).sexp) (some "def") d =
        .ok (some (entries.get ⟨k, hlt⟩).sexp) d := by
      simp only [PoolEntry.sexp, htag]
      exact CheckTaggedList_tagged "def" _ _ d
    simp only [ParseConstantPoolWorklist, Parse.bind_apply, hat, hcheck]
    rw [ih _ (Nat.le_of_lt hlt)]
    congr 2
    rw [List.append_assoc]
    congr 1
    rw [List.take_succ, List.getElem?_eq_getElem hlt, Option.toList_some, List.reverse_append,
      List.reverse_singleton]
    rfl

theorem ParseConstantPool_pool (vm : VM) (fuel : Nat) (tag : Option SExpression)
    (entries : List PoolEntry) (extra_info : List (String × Option SExpression))
    (rank : Int → Nat) (d : FlowGraphDeserializer)
    (hinv : PoolInvariant d)
    (hdef : ∀ e ∈ entries, e.tag = some (.SExpSymbol "def"))
    (hindex : ∀ e ∈ entries, vm.StringToInt64 (String.mk e.digits) = some e.index)
    (hdistinct : (entries.map PoolEntry.index).Nodup)
    (hfresh : ∀ e ∈ entries, d.definition_map_.HasKey e.index = false)
    (hacyclic : ∀ e ∈ entries, ∀ i ∈ e.deps, d.definition_map_.HasKey i = true ∨
      ∃ e2 ∈ entries, e2.index = i ∧ rank i < rank e.index)
    (heval : ∀ e ∈ entries, Evaluates vm fuel e) (htype : ∀ e ∈ entries, TypeParses vm fuel e) :
    ∃ d1, ParseConstantPool vm fuel (some (PoolSexp tag entries extra_info)) d = .ok true d1 ∧
      ∀ e ∈ entries, d1.definition_map_.HasKey e.index = true := by
  obtain ⟨d1, hrounds, hall⟩ :=
    ParseConstantPoolRounds_pool vm fuel entries rank d hindex hacyclic heval htype entries.length
      entries d (le_refl _) hinv (fun e he => he) hdistinct hfresh
      (fun e he hnot => absurd he hnot) (fun k hk => hk)
  refine ⟨d1, ?_, hall⟩
  obtain ⟨-, ⟨flow_graph, graph_entry, hflow, -, -⟩, -⟩ := hinv
  have hlength : ListLength (PoolSexp tag entries extra_info) d =
      .ok ((entries.length : Int) + 1) d := by
    simp [ListLength, PoolSexp]
  have hwork := ParseConstantPoolWorklist_pool tag entries extra_info d hdef entries.length []
    (le_refl _)
  simp only [List.take_length, List.nil_append] at hwork
  simp only [ParseConstantPool, Parse.bind_apply, Parse.get, hflow, Option.isNone_some,
    Bool.false_eq_true, if_false, hlength, Int.add_sub_cancel, Int.toNat_ofNat, hwork,
    List.length_map, List.length_reverse, List.map_reverse, List.reverse_reverse]
  exact hrounds

theorem Evaluates_null (vm : VM) (fuel : Nat) (e : PoolEntry)
    (hvalue : e.value = .SExpSymbol "null") : Evaluates vm (fuel + 1) e := by
  intro d obj _
  refine ⟨true, d.WriteHandle obj none, ?_, fun _ => rfl⟩
  rw [hvalue]
  simp [ParseDartValue, ParseDartValueWith, SExpression.As, SExpression.Is, SymbolValue,
    WriteHandle, Parse.modify, Parse.bind_apply]

theorem Evaluates_use (vm : VM) (fuel : Nat) (e : PoolEntry) (digits : List Char) (j : Int)
    (hvalue : e.value = .SExpSymbol (String.mk ('v' :: digits)))
    (hindex : vm.StringToInt64 (String.mk digits) = some j) (hdep : j ∈ e.deps) :
    Evaluates vm (fuel + 1) e := by
  intro d obj hinv
  have hnull : ¬ (String.mk ('v' :: digits) = "null") := by
    intro h
    have h2 := congrArg String.data h
    simp at h2
  have hmap : (d.WriteHandle obj none).definition_map_ = d.definition_map_ := by
    cases obj <;> rfl
  have hzone : (d.WriteHandle obj none).zone_instructions = d.zone_instructions := by
    cases obj <;> rfl
  rw [hvalue]
  cases hdef : d.definition_map_.LookupValue j with
  | none =>
    have hrun : ∃ d1, ParseDartValue vm (fuel + 1)
        (some (.SExpSymbol (String.mk ('v' :: digits)))) obj d = .ok false d1 := by
      simp [ParseDartValue, ParseDartValueWith, SExpression.As, SExpression.Is, SymbolValue,
        WriteHandle, Parse.modify, Parse.bind_apply, hnull, ParseValueWith, ParseUse,
        ParseSSATemp, ParseSymbolAsPrefixedInt, hindex, hmap, hdef, StoreError, Parse.get]
    obtain ⟨d1, h1⟩ := hrun
    refine ⟨false, d1, h1, fun hall => ?_⟩
    have := hall j hdep
    simp [IntMap.HasKey, hdef] at this
  | some definition =>
    obtain ⟨value, token_pos, hconst⟩ := hinv.2.2 j definition hdef
    have hconst2 : d.zone_instructions[definition]? = some (.Constant value token_pos) := hconst
    have hrun : ∃ d1, ParseDartValue vm (fuel + 1)
        (some (.SExpSymbol (String.mk ('v' :: digits)))) obj d = .ok true d1 := by
      simp [ParseDartValue, ParseDartValueWith, SExpression.As, SExpression.Is, SymbolValue,
        WriteHandle, Parse.modify, Parse.bind_apply, hnull, ParseValueWith, ParseUse,
        ParseSSATemp, ParseSymbolAsPrefixedInt, hindex, hmap, hdef, StoreError, Parse.get,
        NewValue, BoundConstant, hzone, hconst2]
    obtain ⟨d1, h1⟩ := hrun
    exact ⟨true, d1, h1, fun _ => rfl⟩

/-- C14: a constant pool whose entries `(def v<i> <value>)` name distinct SSA
indices that are not bound yet, called in the state in which `ParseFlowGraph`
calls `ParseConstantPool`. Let every value refer only to indices that are
bound already or are named by entries of the pool of smaller rank (no cycle),
let `ParseDartValue` return on every value and return `true` once the indices
the value refers to are bound, and let the `type` attribute of an entry, if it
has one, be parsed. Then for every ordering of the entries `ParseConstantPool`
returns `true`, and afterwards the definition map has an entry for the index
of every entry. -/
theorem ParseConstantPool_acyclic (vm : VM) (fuel : Nat) (tag : Option SExpression)
    (entries : List PoolEntry) (extra_info : List (String × Option SExpression))
    (rank : Int → Nat) (d : FlowGraphDeserializer)
    (hinv : PoolInvariant d)
    (hdef : ∀ e ∈ entries, e.tag = some (.SExpSymbol "def"))
    (hindex : ∀ e ∈ entries, vm.StringToInt64 (String.mk e.digits) = some e.index)
    (hdistinct : (entries.map PoolEntry.index).Nodup)
    (hfresh : ∀ e ∈ entries, d.definition_map_.HasKey e.index = false)
    (hacyclic : ∀ e ∈ entries, ∀ i ∈ e.deps, d.definition_map_.HasKey i = true ∨
      ∃ e2 ∈ entries, e2.index = i ∧ rank i < rank e.index)
    (heval : ∀ e ∈ entries, Evaluates vm fuel e) (htype : ∀ e ∈ entries, TypeParses vm fuel e) :
    ∀ ordering : List PoolEntry, ordering.Perm entries →
      ∃ d1, ParseConstantPool vm fuel (some (PoolSexp tag ordering extra_info)) d = .ok true d1 ∧
        ∀ e ∈ entries, d1.definition_map_.HasKey e.index = true := by
  intro ordering hperm
  have hmem : ∀ e, e ∈ ordering ↔ e ∈ entries := fun e => hperm.mem_iff
  obtain ⟨d1, h1, h2⟩ :=
    ParseConstantPool_pool vm fuel tag ordering extra_info rank d hinv
      (fun e he => hdef e ((hmem e).mp he)) (fun e he => hindex e ((hmem e).mp he))
      ((hperm.map PoolEntry.index).nodup_iff.mpr hdistinct)
      (fun e he => hfresh e ((hmem e).mp he))
      (fun e he i hi => by
        rcases hacyclic e ((hmem e).mp he) i hi with h | ⟨e2, he2, h⟩
        · exact Or.inl h
        · exact Or.inr ⟨e2, (hmem e2).mpr he2, h⟩)
      (fun e he => heval e ((hmem e).mp he)) (fun e he => htype e ((hmem e).mp he))
  exact ⟨d1, h1, fun e he => h2 e ((hmem e).mpr he)⟩

/-- The pool of `(def v1 v2)` and `(def v2 null)` in a deserializer that has its
flow graph: in either order the call returns `true` and binds `v1` and `v2`. -/
theorem ParseConstantPool_acyclic_witness :
    (∃ d1, ParseConstantPool ExampleVM 1 (some ExamplePool) ExampleGraphState = .ok true d1 ∧
      d1.definition_map_.HasKey 1 = true ∧ d1.definition_map_.HasKey 2 = true) ∧
    ∃ d1, ParseConstantPool ExampleVM 1
        (some (.SExpList
          [some (.SExpSymbol "Constants"), some ExampleNullEntry, some ExampleForwardEntry] []))
        ExampleGraphState = .ok true d1 ∧
      d1.definition_map_.HasKey 1 = true ∧ d1.definition_map_.HasKey 2 = true := by
  have h := ParseConstantPool_acyclic ExampleVM 1 (some (.SExpSymbol "Constants"))
    [ExampleForwardPoolEntry, ExampleNullPoolEntry] [] (fun i => if i = 1 then 1 else 0)
    ExampleGraphState
    ⟨rfl, ⟨_, 0, rfl, rfl, fun obj constant h => by cases h⟩,
      fun index definition h => by cases h⟩
    (fun e he => by
      simp only [List.mem_cons, List.mem_singleton, List.not_mem_nil, or_false] at he
      rcases he with rfl | rfl <;> rfl)
    (fun e he => by
      simp only [List.mem_cons, List.mem_singleton, List.not_mem_nil, or_false] at he
      rcases he with rfl | rfl <;> decide)
    (by decide)
    (fun e he => by
      simp only [List.mem_cons, List.mem_singleton, List.not_mem_nil, or_false] at he
      rcases he with rfl | rfl <;> rfl)
    (fun e he i hi => by
      simp only [List.mem_cons, List.mem_singleton, List.not_mem_nil, or_false] at he
      rcases he with rfl | rfl
      · simp only [ExampleForwardPoolEntry, List.mem_singleton] at hi
        subst hi
        exact Or.inr ⟨ExampleNullPoolEntry, by simp, rfl, by decide⟩
      · simp [ExampleNullPoolEntry] at hi)
    (fun e he => by
      simp only [List.mem_cons, List.mem_singleton, List.not_mem_nil, or_false] at he
      rcases he with rfl | rfl
      · exact Evaluates_use ExampleVM 0 _ ['2'] 2 rfl (by decide) (by simp [ExampleForwardPoolEntry])
      · exact Evaluates_null ExampleVM 0 _ rfl)
    (fun e he type_sexp ht => by
      simp only [List.mem_cons, List.mem_singleton, List.not_mem_nil, or_false] at he
      rcases he with rfl | rfl <;> cases ht)
  obtain ⟨d1, h1, h2⟩ := h [ExampleForwardPoolEntry, ExampleNullPoolEntry] (List.Perm.refl _)
  obtain ⟨d2, h3, h4⟩ := h [ExampleNullPoolEntry, ExampleForwardPoolEntry] (List.Perm.swap _ _ _)
  exact ⟨⟨d1, h1, h2 ExampleForwardPoolEntry (by simp), h2 ExampleNullPoolEntry (by simp)⟩,
    ⟨d2, h3, h4 ExampleForwardPoolEntry (by simp), h4 ExampleNullPoolEntry (by simp)⟩⟩

/-! ## Blocks parsed once -/

theorem ParseBlocksLoop_skip (vm : VM) (fuel steps : Nat) (block_sexp_map : IntMap SExpression)
    (rest : List Int) (id : Int) (fully_parsed_block_map : IntMap Bool)
    (h : fully_parsed_block_map.LookupValue id = some true) :
    ParseBlocksLoop vm fuel block_sexp_map (steps + 1) (rest ++ [id]) fully_parsed_block_map =
      ParseBlocksLoop vm fuel block_sexp_map steps rest fully_parsed_block_map := by
  rw [ParseBlocksLoop]
  simp only [List.getLast?_append, List.getLast?_singleton, List.dropLast_concat]
  simp [h]

theorem ParseBlocksLoop_visit (vm : VM) (fuel steps : Nat) (block_sexp_map : IntMap SExpression)
    (rest : List Int) (id : Int) (fully_parsed_block_map : IntMap Bool)
    (h : fully_parsed_block_map.LookupValue id ≠ some true) :
    ParseBlocksLoop vm fuel block_sexp_map (steps + 1) (rest ++ [id]) fully_parsed_block_map =
      (do
        match ← ParseBlocksVisit vm fuel block_sexp_map id rest with
        | none => return none
        | some worklist =>
          ParseBlocksLoop vm fuel block_sexp_map steps worklist
            (fully_parsed_block_map.Insert id true)) := by
  rw [ParseBlocksLoop]
  simp only [List.getLast?_append, List.getLast?_singleton, List.dropLast_concat]
  simp [h] <;> rfl

theorem IntMap.LookupValue_Insert_true (m : IntMap Bool) (key other : Int)
    (h : m.LookupValue other = some true) : (m.Insert key true).LookupValue other = some true := by
  by_cases hk : key = other
  · subst hk
    exact IntMap.LookupValue_Insert_self _ _ _
  · rw [IntMap.LookupValue_Insert_other _ _ _ _ hk]
    exact h

/-- C31: the worklist loop of `ParseBlocks` with the block id `id` at the end of
the worklist. When `id` is marked in `fully_parsed_block_map`, the iteration
only removes it: the loop goes on with the rest of the worklist, the same map
and the same state, so nothing of the deserializer is touched. When it is not
marked, the block is visited, and if its contents are parsed the loop goes on
with `id` marked. A mark is never taken back: marking a block leaves every
marked block marked. So a body is parsed at most once, however often its id is
added to the worklist. -/
theorem ParseBlocks_body_parsed_once (vm : VM) (fuel steps : Nat)
    (block_sexp_map : IntMap SExpression) (rest : List Int) (id : Int)
    (fully_parsed_block_map : IntMap Bool) :
    (fully_parsed_block_map.LookupValue id = some true →
      ∀ d, ParseBlocksLoop vm fuel block_sexp_map (steps + 1) (rest ++ [id])
          fully_parsed_block_map d =
        ParseBlocksLoop vm fuel block_sexp_map steps rest fully_parsed_block_map d) ∧
    (fully_parsed_block_map.LookupValue id ≠ some true →
      ParseBlocksLoop vm fuel block_sexp_map (steps + 1) (rest ++ [id])
          fully_parsed_block_map =
        (do
          match ← ParseBlocksVisit vm fuel block_sexp_map id rest with
          | none => return none
          | some worklist =>
            ParseBlocksLoop vm fuel block_sexp_map steps worklist
              (fully_parsed_block_map.Insert id true))) ∧
    (fully_parsed_block_map.Insert id true).LookupValue id = some true ∧
    ∀ other, fully_parsed_block_map.LookupValue other = some true →
      (fully_parsed_block_map.Insert id true).LookupValue other = some true :=
  ⟨fun h d => by rw [ParseBlocksLoop_skip vm fuel steps block_sexp_map rest id _ h],
    ParseBlocksLoop_visit vm fuel steps block_sexp_map rest id _,
    IntMap.LookupValue_Insert_self _ _ _,
    fun other h => IntMap.LookupValue_Insert_true _ id other h⟩

/-- The worklist `[3]` with block 3 marked: the loop returns with the map and
the state it was given. -/
theorem ParseBlocks_body_parsed_once_witness :
    ParseBlocksLoop ExampleVM 1 [] 2 [3] [(3, true)] ExampleStackState =
      .ok (some [(3, true)]) ExampleStackState :=
  ((ParseBlocks_body_parsed_once ExampleVM 1 1 [] [] 3 [(3, true)]).1 rfl
    ExampleStackState).trans rfl

/-! ## A root without the name of the function -/

theorem Check_returns (k : SExpKind) (x : Option SExpression) (d : FlowGraphDeserializer) :
    ∃ r d1, Check k x d = .ok r d1 := by
  cases x with
  | none => exact ⟨none, d, rfl⟩
  | some y =>
    by_cases hy : y.Is k = true
    · exact ⟨y.As k, d, by simp [Check, hy]⟩
    · exact ⟨none, _, by simp [Check, hy, Parse.bind_apply, StoreError, Parse.modify]; rfl⟩

theorem NewFlowGraph_null (vm : VM) (d : FlowGraphDeserializer) :
    NewFlowGraph vm none d = .fault .nullDereference := by
  simp only [NewFlowGraph, Parse.bind_apply, Parse.get]
  split <;> rfl

theorem DeserializeGraphEntry_no_name (vm : VM) (tag : Option SExpression)
    (rest : List (Option SExpression)) (extra_info : List (String × Option SExpression))
    (info : EntryInfo) (d : FlowGraphDeserializer)
    (hname : ∀ name, rest.head? = some (some (.SExpSymbol name)) → False) :
    ∃ d1, DeserializeGraphEntry vm (.SExpList (tag :: rest) extra_info) info d = .ok none d1 ∧
      d1.error_message_ ≠ none := by
  rcases rest with _ | ⟨elem, rest⟩
  · exact ⟨_, by
      simp [DeserializeGraphEntry, Retrieve, CheckSymbol, Check, Parse.bind_apply, StoreError,
        Parse.modify]
      rfl, by simp⟩
  · have hlen : ¬ ((rest.length : Int) + 1 + 1 ≤ 1) := by omega
    rcases elem with _ | e
    · exact ⟨_, by
        simp [DeserializeGraphEntry, Retrieve, CheckSymbol, Check, Parse.bind_apply, StoreError,
          Parse.modify, hlen]
        rfl, by simp⟩
    · cases e with
      | SExpSymbol name => exact (hname name rfl).elim
      | _ =>
        exact ⟨_, by
          simp [DeserializeGraphEntry, Retrieve, CheckSymbol, Check, Parse.bind_apply, StoreError,
            Parse.modify, hlen, SExpression.Is]
          rfl, by simp⟩

theorem ParseFlowGraph_no_name (vm : VM) (fuel steps : Nat) (rest : List (Option SExpression))
    (extra_info : List (String × Option SExpression)) (d : FlowGraphDeserializer)
    (hroot : d.root_sexp_ = .SExpList (some (.SExpSymbol "FlowGraph") :: rest) extra_info)
    (hname : ∀ name, rest.head? = some (some (.SExpSymbol name)) → False) :
    ParseFlowGraph vm fuel steps d = .fault .nullDereference := by
  have hcheck := CheckTaggedList_tagged "FlowGraph" rest extra_info d
  simp only [ParseFlowGraph, ParseFlowGraphBlocks, Parse.bind_apply, Parse.get, hroot, hcheck,
    ExtraLookupValue, Parse.pure_apply]
  obtain ⟨r, d1, hr⟩ := Check_returns .kInteger (ExtraLookup "deopt_id" extra_info) d
  simp only [CheckInteger, hr]
  cases r with
  | none =>
    obtain ⟨d2, h2, -⟩ := DeserializeGraphEntry_no_name vm (some (.SExpSymbol "FlowGraph")) rest
      extra_info { block_id := 0, try_index := vm.kInvalidTryIndex, deopt_id := vm.kNone } d1 hname
    simp [Parse.bind_apply, h2, NewFlowGraph_null]
  | some e =>
    obtain ⟨value, hv, -, hd⟩ := CheckInteger_some _ e d d1 hr
    subst hv
    obtain ⟨d2, h2, -⟩ := DeserializeGraphEntry_no_name vm (some (.SExpSymbol "FlowGraph")) rest
      extra_info { block_id := 0, try_index := vm.kInvalidTryIndex, deopt_id := value } d1 hname
    simp [Parse.bind_apply, IntegerValue, h2, NewFlowGraph_null]

/-- C34: a deserializer whose root is a list tagged `FlowGraph` with no element
at position 1, a null element there, or an element that is not a symbol.
`DeserializeGraphEntry` returns null with an error recorded, and
`ParseFlowGraph` does not return at that point: it hands the null graph entry
to the constructor of `FlowGraph`, which dereferences it. -/
theorem ParseFlowGraph_null_graph_entry (vm : VM) (fuel steps : Nat)
    (rest : List (Option SExpression)) (extra_info : List (String × Option SExpression))
    (d : FlowGraphDeserializer)
    (hroot : d.root_sexp_ = .SExpList (some (.SExpSymbol "FlowGraph") :: rest) extra_info)
    (hname : ∀ name, rest.head? = some (some (.SExpSymbol name)) → False) :
    (∀ info d0, ∃ d1,
      DeserializeGraphEntry vm (.SExpList (some (.SExpSymbol "FlowGraph") :: rest) extra_info)
          info d0 = .ok none d1 ∧
        d1.error_message_ ≠ none) ∧
    ParseFlowGraph vm fuel steps d = .fault .nullDereference ∧
    ∀ d1, ParseFlowGraph vm fuel steps d ≠ .ok none d1 := by
  have h := ParseFlowGraph_no_name vm fuel steps rest extra_info d hroot hname
  refine ⟨fun info d0 => DeserializeGraphEntry_no_name vm _ rest extra_info info d0 hname, h, ?_⟩
  intro d1 h1
  rw [h] at h1
  cases h1

/-- The root `(FlowGraph)`. -/
theorem ParseFlowGraph_null_graph_entry_witness :
    ParseFlowGraph ExampleVM 1 1
        (FlowGraphDeserializer.New ExampleNamelessGraph (some { function := none })) =
      .fault .nullDereference :=
  (ParseFlowGraph_null_graph_entry ExampleVM 1 1 [] []
    (FlowGraphDeserializer.New ExampleNamelessGraph (some { function := none })) rfl
    (fun _ h => by cases h)).2.1

/-! ## Entries without a block form -/

theorem ParseBlocksVisit_no_form (vm : VM) (fuel : Nat) (block_sexp_map : IntMap SExpression)
    (id : Int) (worklist : List Int) (d : FlowGraphDeserializer)
    (h : block_sexp_map.LookupValue id = none) :
    ParseBlocksVisit vm fuel block_sexp_map id worklist d = .fault .assertion := by
  simp [ParseBlocksVisit, h, Parse.fault]

theorem ParseBlocksLoop_no_form (vm : VM) (fuel steps : Nat) (block_sexp_map : IntMap SExpression)
    (rest : List Int) (id : Int) (fully_parsed_block_map : IntMap Bool)
    (d : FlowGraphDeserializer)
    (hparsed : fully_parsed_block_map.LookupValue id ≠ some true)
    (h : block_sexp_map.LookupValue id = none) :
    ParseBlocksLoop vm fuel block_sexp_map (steps + 1) (rest ++ [id]) fully_parsed_block_map d =
      .fault .assertion := by
  rw [ParseBlocksLoop_visit vm fuel steps block_sexp_map rest id _ hparsed]
  simp only [Parse.bind_apply, ParseBlocksVisit_no_form vm fuel block_sexp_map id rest d h]

/-- The run of `ParseFlowGraph` on `(FlowGraph f (Entries (Normal B1)))`: the
worklist is seeded with block 1, which has no form in the map of the block
forms. -/
theorem ParseFlowGraph_missing_block :
    ParseFlowGraph ExampleVM 1 1
        (FlowGraphDeserializer.New ExampleMissingBlockGraph (some { function := none })) =
      .fault .assertion :=
  Result.Fails_stopped (by decide!)

/-- C35: the worklist loop of `ParseBlocks` pops a block id that is not marked
and has no `Block` form in `block_sexp_map`: the statement
`ASSERT(block_sexp != nullptr)` fails, whatever the state. The root
`(FlowGraph f (Entries (Normal B1)))` reaches that statement: the listing of the
entries registers the function entry `B1`, the worklist is seeded with its id,
and `ParseFlowGraph` ends in the failed assertion instead of returning null
with an error. -/
theorem ParseBlocks_missing_form_asserts (vm : VM) (fuel steps : Nat)
    (block_sexp_map : IntMap SExpression) (rest : List Int) (id : Int)
    (fully_parsed_block_map : IntMap Bool) (d : FlowGraphDeserializer)
    (hparsed : fully_parsed_block_map.LookupValue id ≠ some true)
    (h : block_sexp_map.LookupValue id = none) :
    ParseBlocksLoop vm fuel block_sexp_map (steps + 1) (rest ++ [id]) fully_parsed_block_map d =
      .fault .assertion ∧
    ParseFlowGraph ExampleVM 1 1
        (FlowGraphDeserializer.New ExampleMissingBlockGraph (some { function := none })) =
      .fault .assertion :=
  ⟨ParseBlocksLoop_no_form vm fuel steps block_sexp_map rest id fully_parsed_block_map d hparsed h,
    ParseFlowGraph_missing_block⟩

/-- The worklist `[1]` with no block form at all, and the root
`(FlowGraph f (Entries (Normal B1)))`. -/
theorem ParseBlocks_missing_form_asserts_witness :
    ParseBlocksLoop ExampleVM 1 [] 1 [1] [] ExampleStackState = .fault .assertion ∧
    ParseFlowGraph ExampleVM 1 1
        (FlowGraphDeserializer.New ExampleMissingBlockGraph (some { function := none })) =
      .fault .assertion :=
  ParseBlocks_missing_form_asserts ExampleVM 1 0 [] [] 1 [] ExampleStackState (by decide) rfl

/-! ## Entries that the worklist never reaches -/

/-- The run of `ParseFlowGraph` on `(FlowGraph f (Entries (Target B5)))`: it
returns a graph; block 5 is in `block_map_`, it was never the current block
(no stack was recorded for it, no instruction follows it), and the maximum
block id of the graph is -1. -/
theorem ParseFlowGraph_unvisited_entry :
    ∃ graph d1,
      ParseFlowGraph ExampleVM 1 1
          (FlowGraphDeserializer.New ExampleUnvisitedEntryGraph (some { function := none })) =
        .ok (some graph) d1 ∧
      d1.block_map_ = [(5, 2)] ∧ d1.pushed_stack_map_ = [(0, 0)] ∧
      d1.zone_instructions =
        [.GraphEntry (-1) (-1), .Constant none (-2), .TargetEntry 5 (-1) (-1)] ∧
      d1.next_ 2 = none ∧ graph.max_block_id_ = -1 := by
  have h : (ParseFlowGraph ExampleVM 1 1
      (FlowGraphDeserializer.New ExampleUnvisitedEntryGraph (some { function := none }))).Holds
      (fun r d => (match r with
          | some graph => decide (graph.max_block_id_ = -1)
          | none => false) &&
        decide (d.block_map_ = [(5, 2)]) && decide (d.pushed_stack_map_ = [(0, 0)]) &&
        decide (d.zone_instructions =
          [.GraphEntry (-1) (-1), .Constant none (-2), .TargetEntry 5 (-1) (-1)]) &&
        decide (d.next_ 2 = none)) = true := by
    decide!
  obtain ⟨r, d1, hrun, hp⟩ := Result.Holds_ok h
  simp only [Bool.and_eq_true, decide_eq_true_eq] at hp
  obtain ⟨⟨⟨⟨h0, h1⟩, h2⟩, h3⟩, h4⟩ := hp
  cases r with
  | none => exact absurd h0 (by simp)
  | some graph =>
    simp only [decide_eq_true_eq] at h0
    exact ⟨graph, d1, hrun, h1, h2, h3, h4, h0⟩

/-! ## Blocks that the worklist reaches -/

theorem Parse.bind_ok {α β : Type} {x : Parse α} {f : α → Parse β} {d d2 : FlowGraphDeserializer}
    {b : β} (h : (x >>= f) d = .ok b d2) : ∃ a d1, x d = .ok a d1 ∧ f a d1 = .ok b d2 := by
  rw [Parse.bind_apply] at h
  cases hx : x d with
  | ok a d1 =>
    rw [hx] at h
    exact ⟨a, d1, rfl, h⟩
  | fault e => rw [hx] at h; cases h
  | outOfFuel => rw [hx] at h; cases h

theorem CheckAllBlocksParsed_true (fully_parsed_block_map : IntMap Bool) :
    ∀ (l : List (Int × SExpression)) (d d1 : FlowGraphDeserializer),
      CheckAllBlocksParsed fully_parsed_block_map l d = .ok true d1 →
      d1 = d ∧ ∀ kv ∈ l, fully_parsed_block_map.LookupValue kv.1 = some true := by
  intro l
  induction l with
  | nil =>
    intro d d1 h
    cases h
    exact ⟨rfl, by simp⟩
  | cons kv rest ih =>
    intro d d1 h
    obtain ⟨key, value⟩ := kv
    by_cases hk : fully_parsed_block_map.LookupValue key = some true
    · have h2 : CheckAllBlocksParsed fully_parsed_block_map rest d = .ok true d1 := by
        simpa [CheckAllBlocksParsed, hk] using h
      obtain ⟨h3, h4⟩ := ih d d1 h2
      refine ⟨h3, ?_⟩
      intro kv hkv
      rcases List.mem_cons.mp hkv with hkv | hkv
      · subst hkv
        exact hk
      · exact h4 kv hkv
    · simp [CheckAllBlocksParsed, hk, StoreError, Parse.modify] at h

theorem CheckAllBlocksParsed_unreached (fully_parsed_block_map : IntMap Bool) :
    ∀ (l : List (Int × SExpression)) (d : FlowGraphDeserializer),
      (∃ kv ∈ l, fully_parsed_block_map.LookupValue kv.1 ≠ some true) →
      ∃ key value, (key, value) ∈ l ∧ fully_parsed_block_map.LookupValue key ≠ some true ∧
        CheckAllBlocksParsed fully_parsed_block_map l d =
          .ok false
            { d with
              error_sexp_ := some value
              error_message_ := some "block unreachable in flow graph" } := by
  intro l
  induction l with
  | nil =>
    intro d h
    obtain ⟨kv, hkv, -⟩ := h
    cases hkv
  | cons kv rest ih =>
    intro d h
    obtain ⟨key, value⟩ := kv
    by_cases hk : fully_parsed_block_map.LookupValue key = some true
    · have hrest : ∃ kv ∈ rest, fully_parsed_block_map.LookupValue kv.1 ≠ some true := by
        obtain ⟨kv, hkv, hne⟩ := h
        rcases List.mem_cons.mp hkv with hkv | hkv
        · subst hkv
          exact (hne hk).elim
        · exact ⟨kv, hkv, hne⟩
      obtain ⟨key2, value2, hmem, hne, hrun⟩ := ih d hrest
      refine ⟨key2, value2, List.mem_cons_of_mem _ hmem, hne, ?_⟩
      simpa [CheckAllBlocksParsed, hk] using hrun
    · refine ⟨key, value, List.mem_cons_self _ _, hk, ?_⟩
      simp [CheckAllBlocksParsed, hk, StoreError, Parse.modify] <;> rfl

theorem List_eq_append_of_getLast? {α : Type} (l : List α) (a : α) (h : l.getLast? = some a) :
    l = l.dropLast ++ [a] := by
  have := List.dropLast_append_getLast? a (by simpa using h)
  exact this.symm

theorem ParseBlocksLoop_marks (vm : VM) (fuel : Nat) (block_sexp_map : IntMap SExpression) :
    ∀ (steps : Nat) (worklist : List Int) (fully_parsed_block_map : IntMap Bool)
      (d : FlowGraphDeserializer) (result : IntMap Bool) (d1 : FlowGraphDeserializer),
      ParseBlocksLoop vm fuel block_sexp_map steps worklist fully_parsed_block_map d =
        .ok (some result) d1 →
      ∀ id, result.LookupValue id = some true →
        fully_parsed_block_map.LookupValue id = some true ∨
        ∃ rest d2 worklist2 d3,
          ParseBlocksVisit vm fuel block_sexp_map id rest d2 = .ok (some worklist2) d3 := by
  intro steps
  induction steps with
  | zero =>
    intro worklist fpm d result d1 h
    cases h
  | succ n ih =>
    intro worklist fpm d result d1 h id hid
    cases hlast : worklist.getLast? with
    | none =>
      rw [ParseBlocksLoop] at h
      simp only [hlast] at h
      cases h
      exact Or.inl hid
    | some id0 =>
      have hw := List_eq_append_of_getLast? worklist id0 hlast
      rw [hw] at h
      by_cases hmark : fpm.LookupValue id0 = some true
      · rw [ParseBlocksLoop_skip vm fuel n block_sexp_map _ id0 fpm hmark] at h
        exact ih _ fpm d result d1 h id hid
      · rw [ParseBlocksLoop_visit vm fuel n block_sexp_map _ id0 fpm hmark] at h
        rw [Parse.bind_apply] at h
        cases hv : ParseBlocksVisit vm fuel block_sexp_map id0 worklist.dropLast d with
        | ok r d2 =>
          rw [hv] at h
          cases r with
          | none => cases h
          | some worklist2 =>
            rcases ih _ _ d2 result d1 h id hid with hprev | hvisit
            · by_cases hid0 : id0 = id
              · subst hid0
                exact Or.inr ⟨_, _, _, _, hv⟩
              · rw [IntMap.LookupValue_Insert_other _ _ _ _ hid0] at hprev
                exact Or.inl hprev
            · exact Or.inr hvisit
        | fault e => rw [hv] at h; cases h
        | outOfFuel => rw [hv] at h; cases h

theorem ParseBlocks_true (vm : VM) (fuel steps : Nat) (list : SExpression) (pos : Int)
    (worklist : List Int) (d d1 : FlowGraphDeserializer)
    (h : ParseBlocks vm fuel steps list pos worklist d = .ok true d1) :
    ∃ (n : Int) (block_sexp_map : IntMap SExpression) (d2 : FlowGraphDeserializer)
      (fully_parsed_block_map : IntMap Bool),
      ListLength list d = .ok n d ∧
      ParseBlockHeadersLoop vm fuel list (n - pos).toNat pos [] d = .ok (some block_sexp_map) d2 ∧
      ParseBlocksLoop vm fuel block_sexp_map steps worklist [] d2 =
        .ok (some fully_parsed_block_map) d1 ∧
      ∀ kv ∈ block_sexp_map, fully_parsed_block_map.LookupValue kv.1 = some true := by
  unfold ParseBlocks at h
  obtain ⟨n, d0, hn, h1⟩ := Parse.bind_ok h
  have hd0 : d0 = d := by
    cases list <;> first | (cases hn; rfl) | cases hn
  subst hd0
  obtain ⟨r, d2, hh, h2⟩ := Parse.bind_ok h1
  cases r with
  | none => cases h2
  | some block_sexp_map =>
    obtain ⟨r2, d3, hl, h3⟩ := Parse.bind_ok h2
    cases r2 with
    | none => cases h3
    | some fpm =>
      obtain ⟨h4, h5⟩ := CheckAllBlocksParsed_true fpm block_sexp_map d3 d1 h3
      subst h4
      exact ⟨n, block_sexp_map, d2, fpm, hn, hh, hl, h5⟩

theorem ParseBlocks_unreached (vm : VM) (fuel steps : Nat) (list : SExpression) (pos : Int)
    (worklist : List Int) (d : FlowGraphDeserializer) (n : Int)
    (block_sexp_map : IntMap SExpression) (d2 : FlowGraphDeserializer)
    (fully_parsed_block_map : IntMap Bool) (d3 : FlowGraphDeserializer)
    (hn : ListLength list d = .ok n d)
    (hh : ParseBlockHeadersLoop vm fuel list (n - pos).toNat pos [] d =
      .ok (some block_sexp_map) d2)
    (hl : ParseBlocksLoop vm fuel block_sexp_map steps worklist [] d2 =
      .ok (some fully_parsed_block_map) d3)
    (hkv : ∃ kv ∈ block_sexp_map, fully_parsed_block_map.LookupValue kv.1 ≠ some true) :
    ∃ key value, (key, value) ∈ block_sexp_map ∧
      fully_parsed_block_map.LookupValue key ≠ some true ∧
      ParseBlocks vm fuel steps list pos worklist d =
        .ok false
          { d3 with
            error_sexp_ := some value
            error_message_ := some "block unreachable in flow graph" } := by
  obtain ⟨key, value, hmem, hne, hrun⟩ :=
    CheckAllBlocksParsed_unreached fully_parsed_block_map block_sexp_map d3 hkv
  refine ⟨key, value, hmem, hne, ?_⟩
  simp only [ParseBlocks, Parse.bind_apply, hn, hh, hl, hrun]

theorem ParseBlockHeadersLoop_unreachable :
    ParseBlockHeadersLoop ExampleVM 1 ExampleUnreachableBlockGraph 1 3 [] ExampleEntriesState =
      .ok (some [(3, .SExpList
        [some (.SExpSymbol "Block"), some (.SExpSymbol "B3"),
          some (.SExpList [some (.SExpSymbol "Return"), some (.SExpSymbol "v7")] [])] [])])
        ExampleUnreachableBlockState := rfl

/-- C32, as the code has it: a call of `ParseBlocks`. When it returns `true`,
the loop over the `Block` forms of the list returned the map of the block
forms, the worklist loop returned the map of the fully parsed blocks, every
block that has a `Block` form is marked in that map, and a block is marked
only after a call of `ParseBlocksVisit` for it returned with its contents
parsed. When the worklist loop returns and a block with a `Block` form is not
marked, `ParseBlocks` returns `false` with the error `block unreachable in flow
graph` recorded at the first such form. The check runs over the `Block` forms,
not over `block_map_`: a block registered by `ParseEntries` alone is not looked
at. -/
theorem ParseBlocks_reaches_block_forms (vm : VM) (fuel steps : Nat) (list : SExpression)
    (pos : Int) (worklist : List Int) (d : FlowGraphDeserializer) :
    (∀ d1, ParseBlocks vm fuel steps list pos worklist d = .ok true d1 →
      ∃ (n : Int) (block_sexp_map : IntMap SExpression) (d2 : FlowGraphDeserializer)
        (fully_parsed_block_map : IntMap Bool),
        ListLength list d = .ok n d ∧
        ParseBlockHeadersLoop vm fuel list (n - pos).toNat pos [] d =
          .ok (some block_sexp_map) d2 ∧
        ParseBlocksLoop vm fuel block_sexp_map steps worklist [] d2 =
          .ok (some fully_parsed_block_map) d1 ∧
        (∀ kv ∈ block_sexp_map, fully_parsed_block_map.LookupValue kv.1 = some true) ∧
        ∀ id, fully_parsed_block_map.LookupValue id = some true →
          ∃ rest d3 worklist2 d4,
            ParseBlocksVisit vm fuel block_sexp_map id rest d3 = .ok (some worklist2) d4) ∧
    (∀ (n : Int) (block_sexp_map : IntMap SExpression) (d2 : FlowGraphDeserializer)
        (fully_parsed_block_map : IntMap Bool) (d3 : FlowGraphDeserializer),
      ListLength list d = .ok n d →
      ParseBlockHeadersLoop vm fuel list (n - pos).toNat pos [] d =
        .ok (some block_sexp_map) d2 →
      ParseBlocksLoop vm fuel block_sexp_map steps worklist [] d2 =
        .ok (some fully_parsed_block_map) d3 →
      (∃ kv ∈ block_sexp_map, fully_parsed_block_map.LookupValue kv.1 ≠ some true) →
      ∃ key value, (key, value) ∈ block_sexp_map ∧
        fully_parsed_block_map.LookupValue key ≠ some true ∧
        ParseBlocks vm fuel steps list pos worklist d =
          .ok false
            { d3 with
              error_sexp_ := some value
              error_message_ := some "block unreachable in flow graph" }) := by
  constructor
  · intro d1 h
    obtain ⟨n, block_sexp_map, d2, fpm, hn, hh, hl, hall⟩ :=
      ParseBlocks_true vm fuel steps list pos worklist d d1 h
    refine ⟨n, block_sexp_map, d2, fpm, hn, hh, hl, hall, ?_⟩
    intro id hid
    rcases ParseBlocksLoop_marks vm fuel block_sexp_map steps worklist [] d2 fpm d1 hl id hid
      with hnil | hvisit
    · cases hnil
    · exact hvisit
  · intro n block_sexp_map d2 fpm d3 hn hh hl hkv
    exact ParseBlocks_unreached vm fuel steps list pos worklist d n block_sexp_map d2 fpm d3 hn hh
      hl hkv

/-- The list `(FlowGraph f (Entries) (Block B3 (Return v7)))` from position 3
on, in a state after `ParseEntries`, with an empty worklist: the header of `B3`
is parsed, the worklist loop ends at once, and `ParseBlocks` returns `false`
with the error recorded at the form of `B3`. -/
theorem ParseBlocks_reaches_block_forms_witness :
    ∃ d4, ParseBlocks ExampleVM 1 1 ExampleUnreachableBlockGraph 3 [] ExampleEntriesState =
        .ok false d4 ∧
      d4.error_message_ = some "block unreachable in flow graph" ∧
      d4.block_map_.LookupValue 3 = some 4 := by
  obtain ⟨key, value, -, -, h⟩ :=
    (ParseBlocks_reaches_block_forms ExampleVM 1 1 ExampleUnreachableBlockGraph 3 []
      ExampleEntriesState).2 4 _ ExampleUnreachableBlockState [] ExampleUnreachableBlockState rfl
      ParseBlockHeadersLoop_unreachable rfl ⟨_, List.mem_singleton.mpr rfl, by decide⟩
  exact ⟨_, h, rfl, rfl⟩

/-- C32, counterexample: the root `(FlowGraph f (Entries (Target B5)))`.
`ParseFlowGraph` returns a graph, so `ParseBlocks` returned `true` (on the
final state it still does); block 5 is registered in `block_map_` as
instruction 2, and its body was never parsed: no stack was recorded for it and
no instruction follows its entry. -/
theorem ParseBlocks_unreached_entry :
    ∃ graph d1,
      ParseFlowGraph ExampleVM 1 1
          (FlowGraphDeserializer.New ExampleUnvisitedEntryGraph (some { function := none })) =
        .ok (some graph) d1 ∧
      d1.block_map_.LookupValue 5 = some 2 ∧
      d1.zone_instructions[2]? = some (.TargetEntry 5 (-1) (-1)) ∧
      d1.pushed_stack_map_.LookupValue 5 = none ∧
      d1.next_ 2 = none ∧
      ParseBlocks ExampleVM 1 1 ExampleUnvisitedEntryGraph 3 [] d1 = .ok true d1 := by
  obtain ⟨graph, d1, h1, h2, h3, h4, h5, -⟩ := ParseFlowGraph_unvisited_entry
  refine ⟨graph, d1, h1, ?_, ?_, ?_, h5, rfl⟩
  · rw [h2]; rfl
  · rw [h4]; rfl
  · rw [h3]; rfl

/-! ## Phi definitions at the head of a block -/

theorem CheckTaggedList_decides (x : Option SExpression) (label : String)
    (d : FlowGraphDeserializer) :
    ∃ d1, CheckTaggedList x (some label) d =
      .ok (if IsTaggedList label x = true then x else none) d1 := by
  rcases x with _ | e
  · exact ⟨d, by simp [CheckTaggedList, CheckList, Check, Retrieve, IsTag, CheckSymbol,
      IsTaggedList]⟩
  · cases e with
    | SExpList contents extra_info =>
      rcases contents with _ | ⟨a, l⟩
      · exact ⟨_, by
          simp [CheckTaggedList, CheckList, Check, SExpression.Is, SExpression.As, Retrieve,
            IsTag, CheckSymbol, IsTaggedList]
          rfl⟩
      · have hlen : ¬ ((l.length : Int) + 1 ≤ 0) := by omega
        rcases a with _ | a
        · exact ⟨_, by
            simp [CheckTaggedList, CheckList, Check, SExpression.Is, SExpression.As, Retrieve,
              IsTag, CheckSymbol, IsTaggedList, hlen]
            rfl⟩
        · cases a with
          | SExpSymbol tag =>
            by_cases ht : tag = label
            · subst ht
              exact ⟨d, by
                simp [CheckTaggedList, CheckList, Check, SExpression.Is, SExpression.As,
                  Retrieve, IsTag, CheckSymbol, IsTaggedList, hlen]⟩
            · have ht2 : ¬ label = tag := fun h => ht h.symm
              exact ⟨_, by
                simp [CheckTaggedList, CheckList, Check, SExpression.Is, SExpression.As,
                  Retrieve, IsTag, CheckSymbol, IsTaggedList, hlen, ht, ht2]
                rfl⟩
          | _ =>
            exact ⟨_, by
              simp [CheckTaggedList, CheckList, Check, SExpression.Is, SExpression.As, Retrieve,
                IsTag, CheckSymbol, IsTaggedList, hlen]
              rfl⟩
    | _ =>
      exact ⟨_, by
        simp [CheckTaggedList, CheckList, Check, SExpression.Is, SExpression.As, Retrieve,
          IsTag, CheckSymbol, IsTaggedList]
        rfl⟩

theorem Retrieve_element (contents : List (Option SExpression))
    (extra_info : List (String × Option SExpression)) (i : Nat) (d : FlowGraphDeserializer) :
    ∃ d1, Retrieve (some (.SExpList contents extra_info)) i d =
      .ok (contents.getD i none) d1 := by
  by_cases hi : i < contents.length
  · have hlen : ¬ ((contents.length : Int) ≤ (i : Int)) := by omega
    have hneg : ¬ ((i : Int) < 0) := by omega
    simp only [Retrieve, hlen, hneg, if_false, Int.toNat_ofNat]
    generalize contents.getD i none = elem
    cases elem
    · exact ⟨_, rfl⟩
    · exact ⟨_, rfl⟩
  · have hlen : (contents.length : Int) ≤ (i : Int) := by omega
    have he : contents.getD i none = none := by
      rw [List.getD_eq_getElem?_getD, List.getElem?_eq_none (by omega)]
      rfl
    rw [he]
    simp only [Retrieve, hlen, if_true]
    exact ⟨_, rfl⟩

theorem Retrieve_element_of (x : Option SExpression) (i : Nat) (d : FlowGraphDeserializer)
    (hx : IsTaggedList "def" x = true) :
    ∃ d1, Retrieve x i d = .ok (ElementAt x i) d1 := by
  rcases x with _ | e
  · cases hx
  · cases e with
    | SExpList contents extra_info => exact Retrieve_element contents extra_info i d
    | _ => cases hx

theorem SkipPhisLoop_step (contents : List (Option SExpression))
    (extra_info : List (String × Option SExpression)) (remaining i : Nat)
    (d : FlowGraphDeserializer) :
    ∃ d1, SkipPhisLoop (.SExpList contents extra_info) (remaining + 1) (i : Int) d =
      (if IsPhiDefinition (contents.getD i none) = true then
        SkipPhisLoop (.SExpList contents extra_info) remaining ((i : Int) + 1) d1
      else .ok (some (i : Int)) d1) := by
  obtain ⟨d1, h1⟩ := Retrieve_element contents extra_info i d
  unfold IsPhiDefinition
  generalize contents.getD i none = elem at h1 ⊢
  obtain ⟨d2, h2⟩ := CheckTaggedList_decides elem "def" d1
  cases hdef : IsTaggedList "def" elem with
  | true =>
    obtain ⟨d3, h3⟩ := Retrieve_element_of elem 2 d2 hdef
    have h3b : Retrieve elem 2 d2 = .ok (ElementAt elem 2) d3 := h3
    generalize ElementAt elem 2 = phi at h3b ⊢
    obtain ⟨d4, h4⟩ := CheckTaggedList_decides phi "Phi" d3
    refine ⟨d4, ?_⟩
    rw [SkipPhisLoop]
    have hsome : elem.isNone = false := by
      cases elem with
      | none => cases hdef
      | some e => rfl
    rw [hdef] at h2
    cases hphi : IsTaggedList "Phi" phi with
    | true =>
      have hsome2 : phi.isNone = false := by
        cases phi with
        | none => cases hphi
        | some e => rfl
      rw [hphi] at h4
      simp only [Parse.bind_apply, h1, h2, if_true, hsome, Bool.false_eq_true, if_false, h3b,
        h4, Bool.true_and, hsome2]
      all_goals rfl
    | false =>
      rw [hphi] at h4
      simp only [Parse.bind_apply, h1, h2, if_true, hsome, Bool.false_eq_true, if_false, h3b,
        h4, Bool.true_and, Option.isNone_none, Bool.and_false]
      all_goals rfl
  | false =>
    refine ⟨d2, ?_⟩
    rw [SkipPhisLoop]
    rw [hdef] at h2
    simp only [Parse.bind_apply, h1, h2, if_false, Option.isNone_none, if_true,
      Bool.false_and, Bool.false_eq_true]
    all_goals rfl

theorem List_find?_range' (p : Nat → Bool) :
    ∀ (remaining i : Nat),
      (∀ n, (List.range' i remaining).find? p = some n →
        i ≤ n ∧ n < i + remaining ∧ p n = true ∧ ∀ j, i ≤ j → j < n → p j = false) ∧
      ((List.range' i remaining).find? p = none →
        ∀ j, i ≤ j → j < i + remaining → p j = false) := by
  intro remaining
  induction remaining with
  | zero =>
    intro i
    refine ⟨fun n h => by simp at h, fun _ j h1 h2 => by omega⟩
  | succ k ih =>
    intro i
    obtain ⟨ih1, ih2⟩ := ih (i + 1)
    rw [List.range'_succ, List.find?_cons]
    cases hp : p i with
    | true =>
      refine ⟨fun n h => ?_, fun h => by cases h⟩
      simp only [Option.some.injEq] at h
      subst h
      exact ⟨le_refl _, by omega, hp, fun j h1 h2 => by omega⟩
    | false =>
      refine ⟨fun n h => ?_, fun h j h1 h2 => ?_⟩
      · obtain ⟨h1, h2, h3, h4⟩ := ih1 n h
        refine ⟨by omega, by omega, h3, fun j hj1 hj2 => ?_⟩
        by_cases hji : j = i
        · subst hji
          exact hp
        · exact h4 j (by omega) hj2
      · by_cases hji : j = i
        · subst hji
          exact hp
        · exact ih2 h j (by omega) (by omega)

theorem SkipPhisLoop_find (contents : List (Option SExpression))
    (extra_info : List (String × Option SExpression)) :
    ∀ (remaining i : Nat) (d : FlowGraphDeserializer),
      ∃ d1, SkipPhisLoop (.SExpList contents extra_info) remaining (i : Int) d =
        .ok (((List.range' i remaining).find?
          fun j => !IsPhiDefinition (contents.getD j none)).map Int.ofNat) d1 := by
  intro remaining
  induction remaining with
  | zero =>
    intro i d
    exact ⟨d, rfl⟩
  | succ k ih =>
    intro i d
    obtain ⟨d1, h1⟩ := SkipPhisLoop_step contents extra_info k i d
    rw [h1, List.range'_succ, List.find?_cons]
    cases hp : IsPhiDefinition (contents.getD i none) with
    | true =>
      obtain ⟨d2, h2⟩ := ih (i + 1) d1
      exact ⟨d2, by simpa using h2⟩
    | false => exact ⟨d1, by simp⟩

theorem SkipPhis_eq (contents : List (Option SExpression))
    (extra_info : List (String × Option SExpression)) (d : FlowGraphDeserializer) :
    ∃ d1, SkipPhis (.SExpList contents extra_info) d = .ok (SpecSkipPhis contents) d1 ∧
      (SpecSkipPhis contents = -1 →
        d1.error_message_ = some "block is empty or contains only Phi definitions" ∧
        d1.error_sexp_ = some (.SExpList contents extra_info)) := by
  obtain ⟨d1, h1⟩ := SkipPhisLoop_find contents extra_info (contents.length - 2) 2 d
  have hlen : ((contents.length : Int) - 2).toNat = contents.length - 2 := by omega
  have h2 : SkipPhisLoop (.SExpList contents extra_info) ((contents.length : Int) - 2).toNat 2 d =
      .ok (((List.range' 2 (contents.length - 2)).find?
          fun j => !IsPhiDefinition (contents.getD j none)).map Int.ofNat) d1 := by
    rw [hlen]
    exact h1
  unfold SpecSkipPhis
  cases hf : (List.range' 2 (contents.length - 2)).find?
      fun j => !IsPhiDefinition (contents.getD j none) with
  | none =>
    rw [hf] at h2
    refine ⟨{ d1 with
      error_sexp_ := some (.SExpList contents extra_info)
      error_message_ := some "block is empty or contains only Phi definitions" }, ?_,
      fun _ => ⟨rfl, rfl⟩⟩
    simp only [SkipPhis, ListLength, Parse.bind_apply, Parse.pure_apply, h2, Option.map_none']
    rfl
  | some n =>
    rw [hf] at h2
    refine ⟨d1, ?_, fun h => ?_⟩
    · simp only [SkipPhis, ListLength, Parse.bind_apply, Parse.pure_apply, h2, Option.map_some']
      rfl
    · simp only at h
      omega

theorem SpecSkipPhis_least (contents : List (Option SExpression)) :
    (∀ n : Nat, SpecSkipPhis contents = n →
      2 ≤ n ∧ n < contents.length ∧ IsPhiDefinition (contents.getD n none) = false ∧
      ∀ j, 2 ≤ j → j < n → IsPhiDefinition (contents.getD j none) = true) ∧
    (SpecSkipPhis contents = -1 →
      ∀ j, 2 ≤ j → j < contents.length → IsPhiDefinition (contents.getD j none) = true) ∧
    (SpecSkipPhis contents = -1 ∨ 2 ≤ SpecSkipPhis contents) := by
  obtain ⟨h1, h2⟩ := List_find?_range' (fun i => !IsPhiDefinition (contents.getD i none))
    (contents.length - 2) 2
  unfold SpecSkipPhis
  cases hf : (List.range' 2 (contents.length - 2)).find?
      fun j => !IsPhiDefinition (contents.getD j none) with
  | none =>
    refine ⟨fun n h => ?_, fun _ j hj1 hj2 => ?_, Or.inl rfl⟩
    · simp only at h
      omega
    · have := h2 hf j hj1 (by omega)
      simpa using this
  | some m =>
    obtain ⟨h3, h4, h5, h6⟩ := h1 m hf
    refine ⟨fun n h => ?_, fun h => ?_, Or.inr ?_⟩
    · simp only at h
      have hmn : m = n := by omega
      subst hmn
      refine ⟨h3, by omega, by simpa using h5, fun j hj1 hj2 => ?_⟩
      have := h6 j hj1 hj2
      simpa using this
    · simp only at h
      omega
    · simp only
      omega

theorem Parse.bind_assoc {α β γ : Type} (x : Parse α) (f : α → Parse β) (g : β → Parse γ) :
    (x >>= f) >>= g = x >>= fun a => f a >>= g := by
  funext d
  simp only [Parse.bind_apply]
  cases x d <;> rfl

theorem Parse.bind_congr {α β : Type} (x : Parse α) {f g : α → Parse β} (h : ∀ a, f a = g a) :
    x >>= f = x >>= g := by
  have : f = g := funext h
  rw [this]

theorem ParseBlockContents_parts (vm : VM) (fuel : Nat) (list : SExpression)
    (worklist : List Int) :
    ParseBlockContents vm fuel list worklist =
      (do
        match (← Parse.get).current_block_ with
        | none => Parse.fault .assertion
        | some current_block =>
          let curr_stack ← CurrentStack
          if (← IsJoinEntry current_block) then
            if !(← ParsePhis vm fuel list) then return none
          if !(← ParseBlockEnvironment vm fuel list current_block) then return none
          ParseBlockBody vm fuel list worklist current_block curr_stack) := by
  simp only [ParseBlockContents, ParseBlockEnvironment, ParseBlockBody, ParseBlockSuccessors,
    Parse.bind_assoc, Parse.pure_bind]
  apply Parse.bind_congr
  intro d
  cases d.current_block_ with
  | none => rfl
  | some current_block =>
    repeat' first
      | rfl
      | (apply Parse.bind_congr; intro _)
      | (split <;> first | contradiction | (rename_i h; injection h with h2; subst h2) | skip)
      | simp only [Parse.bind_assoc, Parse.pure_bind, Bool.not_true, Bool.not_false,
          Bool.false_eq_true, if_false, if_true]

theorem ParsePhis_positions (vm : VM) (fuel : Nat) (contents : List (Option SExpression))
    (extra_info : List (String × Option SExpression)) (d : FlowGraphDeserializer)
    (join : DefinitionPtr) (hblock : d.current_block_ = some join)
    (hjoin : IsJoinEntry join d = .ok true d) :
    ∃ d1, SkipPhis (.SExpList contents extra_info) d = .ok (SpecSkipPhis contents) d1 ∧
      ParsePhis vm fuel (.SExpList contents extra_info) d =
        (if SpecSkipPhis contents < 2 then .ok false d1
         else ParsePhisLoop vm fuel (.SExpList contents extra_info) join
          (SpecSkipPhis contents - 2).toNat 2 d1) := by
  obtain ⟨d1, h1, -⟩ := SkipPhis_eq contents extra_info d
  refine ⟨d1, h1, ?_⟩
  simp only [ParsePhis, Parse.bind_apply, Parse.get_apply, hblock, hjoin, Bool.not_true,
    Bool.false_eq_true, if_false, h1]
  split <;> rfl

theorem ParseBlockBody_positions (vm : VM) (fuel : Nat) (contents : List (Option SExpression))
    (extra_info : List (String × Option SExpression)) (worklist : List Int)
    (current_block : DefinitionPtr) (curr_stack : StackPtr) (d : FlowGraphDeserializer) :
    ∃ d1, SkipPhis (.SExpList contents extra_info) d = .ok (SpecSkipPhis contents) d1 ∧
      ParseBlockBody vm fuel (.SExpList contents extra_info) worklist current_block curr_stack d =
        (if SpecSkipPhis contents < 2 then .ok none d1
         else
          (do
            match ← ParseBodyLoop vm fuel (.SExpList contents extra_info)
                ((contents.length : Int) - SpecSkipPhis contents).toNat (SpecSkipPhis contents)
                current_block with
            | none => return none
            | some last_inst =>
              ParseBlockSuccessors (.SExpList contents extra_info) worklist current_block
                curr_stack last_inst) d1) := by
  obtain ⟨d1, h1, -⟩ := SkipPhis_eq contents extra_info d
  refine ⟨d1, h1, ?_⟩
  simp only [ParseBlockBody, Parse.bind_apply, h1, ListLength]
  split <;> rfl

/-- C38: `SkipPhis` on a block list with the elements `contents`. The call
returns, in every state, the index the specification names, `SpecSkipPhis
contents`: the least index from 2 on whose element is not a Phi definition (a
`def`-tagged list whose element 2 is a `Phi`-tagged list), every element from 2
up to it being one; and -1, with the error `block is empty or contains only Phi
definitions` recorded at the list, when the list has no element past position
1 or every element from 2 on is a Phi definition. The result does not depend on
the state, so the two calls of `SkipPhis` on a block agree: the loop of
`ParsePhis` runs over the positions from 2 up to that index, and the loop over
the body from that index up to the length of the list. -/
theorem SkipPhis_spec (vm : VM) (fuel : Nat) (contents : List (Option SExpression))
    (extra_info : List (String × Option SExpression)) :
    (∀ d, ∃ d1, SkipPhis (.SExpList contents extra_info) d = .ok (SpecSkipPhis contents) d1 ∧
      (SpecSkipPhis contents = -1 →
        d1.error_message_ = some "block is empty or contains only Phi definitions" ∧
        d1.error_sexp_ = some (.SExpList contents extra_info))) ∧
    (∀ n : Nat, SpecSkipPhis contents = n →
      2 ≤ n ∧ n < contents.length ∧ IsPhiDefinition (contents.getD n none) = false ∧
      ∀ j, 2 ≤ j → j < n → IsPhiDefinition (contents.getD j none) = true) ∧
    (SpecSkipPhis contents = -1 →
      ∀ j, 2 ≤ j → j < contents.length → IsPhiDefinition (contents.getD j none) = true) ∧
    (SpecSkipPhis contents = -1 ∨ 2 ≤ SpecSkipPhis contents) ∧
    (∀ d join, d.current_block_ = some join → IsJoinEntry join d = .ok true d →
      ∃ d1, SkipPhis (.SExpList contents extra_info) d = .ok (SpecSkipPhis contents) d1 ∧
        ParsePhis vm fuel (.SExpList contents extra_info) d =
          (if SpecSkipPhis contents < 2 then .ok false d1
           else ParsePhisLoop vm fuel (.SExpList contents extra_info) join
            (SpecSkipPhis contents - 2).toNat 2 d1)) ∧
    (∀ worklist current_block curr_stack d,
      ∃ d1, SkipPhis (.SExpList contents extra_info) d = .ok (SpecSkipPhis contents) d1 ∧
        ParseBlockBody vm fuel (.SExpList contents extra_info) worklist current_block
            curr_stack d =
          (if SpecSkipPhis contents < 2 then .ok none d1
           else
            (do
              match ← ParseBodyLoop vm fuel (.SExpList contents extra_info)
                  ((contents.length : Int) - SpecSkipPhis contents).toNat
                  (SpecSkipPhis contents) current_block with
              | none => return none
              | some last_inst =>
                ParseBlockSuccessors (.SExpList contents extra_info) worklist current_block
                  curr_stack last_inst) d1)) :=
  ⟨SkipPhis_eq contents extra_info, (SpecSkipPhis_least contents).1,
    (SpecSkipPhis_least contents).2.1, (SpecSkipPhis_least contents).2.2,
    fun d join => ParsePhis_positions vm fuel contents extra_info d join,
    fun worklist current_block curr_stack d =>
      ParseBlockBody_positions vm fuel contents extra_info worklist current_block curr_stack d⟩

/-- The block `(Block B3 (def v1 (Phi v2 v4)) (Return v1))`: element 2 is a Phi
definition and element 3 is not, so `SkipPhis` returns 3; on the block `(Block
B3)` it returns -1 with the error recorded. -/
theorem SkipPhis_spec_witness :
    (∃ d1, SkipPhis (.SExpList ExamplePhiBlockContents []) ExampleState = .ok 3 d1) ∧
    (IsPhiDefinition (ExamplePhiBlockContents.getD 2 none) = true ∧
      IsPhiDefinition (ExamplePhiBlockContents.getD 3 none) = false) ∧
    ∃ d1, SkipPhis (.SExpList [some (.SExpSymbol "Block"), some (.SExpSymbol "B3")] [])
        ExampleState = .ok (-1) d1 ∧
      d1.error_message_ = some "block is empty or contains only Phi definitions" := by
  have h := SkipPhis_spec ExampleVM 0 ExamplePhiBlockContents []
  have h3 : SpecSkipPhis ExamplePhiBlockContents = (3 : Nat) := by decide
  obtain ⟨d1, h1, -⟩ := h.1 ExampleState
  obtain ⟨-, -, h4, h5⟩ := h.2.1 3 h3
  obtain ⟨d2, h6, h7⟩ :=
    (SkipPhis_spec ExampleVM 0 [some (.SExpSymbol "Block"), some (.SExpSymbol "B3")] []).1
      ExampleState
  exact ⟨⟨d1, h1⟩, ⟨h5 2 (le_refl 2) (by decide), h4⟩, d2, h6, (h7 rfl).1⟩

/-! ## Termination of the block worklist -/

/-- Every returning call of `x` returns a value that satisfies `Q`. -/
theorem Parse.bind_post {α β : Type} {Q : β → Prop} {x : Parse α} {f : α → Parse β}
    (hf : ∀ a d b d1, f a d = .ok b d1 → Q b) :
    ∀ d b d1, (x >>= f) d = .ok b d1 → Q b := by
  intro d b d1 h
  obtain ⟨a, d0, -, h2⟩ := Parse.bind_ok h
  exact hf a d0 b d1 h2

theorem LinkSuccessorsLoop_length (list : SExpression) (curr_stack : StackPtr)
    (current_block last_inst : DefinitionPtr) :
    ∀ (count : Nat) (worklist : List Int) (d : FlowGraphDeserializer) (result : List Int)
      (d1 : FlowGraphDeserializer),
      LinkSuccessorsLoop list curr_stack current_block last_inst count worklist d =
        .ok (some result) d1 →
      result.length = worklist.length + count := by
  intro count
  induction count with
  | zero =>
    intro worklist d result d1 h
    cases h
    rfl
  | succ n ih =>
    intro worklist d result d1 h
    unfold LinkSuccessorsLoop at h
    obtain ⟨succ_block, d2, -, h2⟩ := Parse.bind_ok h
    obtain ⟨consistent, d3, -, h3⟩ := Parse.bind_ok h2
    cases consistent with
    | false => cases h3
    | true =>
      simp only [Bool.not_true, Bool.false_eq_true, if_false] at h3
      obtain ⟨u0, d4, -, h4⟩ := Parse.bind_ok h3
      obtain ⟨u, d5, -, h5⟩ := Parse.bind_ok h4
      obtain ⟨id, d6, -, h6⟩ := Parse.bind_ok h5
      have := ih _ d6 result d1 h6
      rw [this, List.length_append, List.length_singleton]
      omega

theorem SuccessorCount_le (instr : DefinitionPtr) (d : FlowGraphDeserializer) (count : Int)
    (d1 : FlowGraphDeserializer) (h : SuccessorCount instr d = .ok count d1) :
    count.toNat ≤ 2 := by
  unfold SuccessorCount at h
  obtain ⟨i, d2, -, h2⟩ := Parse.bind_ok h
  cases i <;> first
    | (cases h2; decide)
    | (obtain ⟨d3, d4, -, h3⟩ := Parse.bind_ok h2
       cases h3
       split <;> split <;> decide)

theorem ParseBlockSuccessors_length (list : SExpression) (worklist : List Int)
    (current_block : DefinitionPtr) (curr_stack : StackPtr) (last_inst : DefinitionPtr)
    (d : FlowGraphDeserializer) (result : Option (List Int)) (d1 : FlowGraphDeserializer)
    (h : ParseBlockSuccessors list worklist current_block curr_stack last_inst d =
      .ok result d1) :
    ∀ worklist2, result = some worklist2 → worklist2.length ≤ worklist.length + 2 := by
  intro worklist2 hr
  subst hr
  unfold ParseBlockSuccessors at h
  split at h
  · cases h
  · obtain ⟨count, d2, hc, h2⟩ := Parse.bind_ok h
    have h3 := LinkSuccessorsLoop_length list curr_stack current_block last_inst _ worklist d2
      worklist2 d1 h2
    have h4 := SuccessorCount_le last_inst d count d2 hc
    omega

theorem ParseBlockBody_length (vm : VM) (fuel : Nat) (list : SExpression) (worklist : List Int)
    (current_block : DefinitionPtr) (curr_stack : StackPtr) (d : FlowGraphDeserializer)
    (result : Option (List Int)) (d1 : FlowGraphDeserializer)
    (h : ParseBlockBody vm fuel list worklist current_block curr_stack d = .ok result d1) :
    ∀ worklist2, result = some worklist2 → worklist2.length ≤ worklist.length + 2 := by
  unfold ParseBlockBody at h
  revert h
  refine Parse.bind_post (Q := fun result => ∀ worklist2, result = some worklist2 →
    worklist2.length ≤ worklist.length + 2) ?_ d result d1
  intro pos d2 result d3 h
  split at h
  · cases h
    intro _ hr
    cases hr
  · obtain ⟨u, d4, -, h2⟩ := Parse.bind_ok h
    obtain ⟨n, d5, -, h3⟩ := Parse.bind_ok h2
    obtain ⟨last, d6, -, h4⟩ := Parse.bind_ok h3
    cases last with
    | none =>
      cases h4
      intro _ hr
      cases hr
    | some last_inst =>
      exact ParseBlockSuccessors_length list worklist current_block curr_stack last_inst d6
        result d3 h4

theorem ParseBlockContents_length (vm : VM) (fuel : Nat) (list : SExpression)
    (worklist : List Int) (d : FlowGraphDeserializer) (result : Option (List Int))
    (d1 : FlowGraphDeserializer)
    (h : ParseBlockContents vm fuel list worklist d = .ok result d1) :
    ∀ worklist2, result = some worklist2 → worklist2.length ≤ worklist.length + 2 := by
  rw [ParseBlockContents_parts] at h
  obtain ⟨d0, d2, -, h2⟩ := Parse.bind_ok h
  cases hcb : d0.current_block_ with
  | none =>
    simp only [hcb] at h2
    cases h2
  | some current_block =>
    simp only [hcb] at h2
    obtain ⟨curr_stack, d3, -, h3⟩ := Parse.bind_ok h2
    obtain ⟨join, d4, -, h4⟩ := Parse.bind_ok h3
    have hnone : ∀ d5 : FlowGraphDeserializer,
        (pure none : Parse (Option (List Int))) d5 = .ok result d1 →
        ∀ worklist2, result = some worklist2 → worklist2.length ≤ worklist.length + 2 := by
      intro d5 h5 _ hr
      cases h5
      cases hr
    have htail : ∀ d5 : FlowGraphDeserializer,
        (do
          if !(← ParseBlockEnvironment vm fuel list current_block) then return none
          ParseBlockBody vm fuel list worklist current_block curr_stack :
            Parse (Option (List Int))) d5 =
          .ok result d1 →
        ∀ worklist2, result = some worklist2 → worklist2.length ≤ worklist.length + 2 := by
      intro d5 h5
      obtain ⟨env, d6, -, h6⟩ := Parse.bind_ok h5
      split at h6
      · exact hnone _ h6
      · obtain ⟨u, d7, -, h7⟩ := Parse.bind_ok h6
        exact ParseBlockBody_length vm fuel list worklist current_block curr_stack d7 result d1 h7
    split at h4
    · obtain ⟨parsed, d5, -, h5⟩ := Parse.bind_ok h4
      split at h5
      · exact hnone _ h5
      · obtain ⟨u, d6, -, h6⟩ := Parse.bind_ok h5
        exact htail d6 h6
    · obtain ⟨u, d6, -, h6⟩ := Parse.bind_ok h4
      exact htail d6 h6

theorem ParseBlocksVisit_some (vm : VM) (fuel : Nat) (block_sexp_map : IntMap SExpression)
    (id : Int) (worklist : List Int) (d : FlowGraphDeserializer) (worklist2 : List Int)
    (d1 : FlowGraphDeserializer)
    (h : ParseBlocksVisit vm fuel block_sexp_map id worklist d = .ok (some worklist2) d1) :
    (∃ block_sexp, block_sexp_map.LookupValue id = some block_sexp) ∧
      worklist2.length ≤ worklist.length + 2 := by
  unfold ParseBlocksVisit at h
  cases hform : block_sexp_map.LookupValue id with
  | none =>
    simp only [hform] at h
    cases h
  | some block_sexp =>
    simp only [hform] at h
    refine ⟨⟨block_sexp, rfl⟩, ?_⟩
    obtain ⟨d0, d2, -, h2⟩ := Parse.bind_ok h
    cases hblock : d0.block_map_.LookupValue id with
    | none =>
      simp only [hblock] at h2
      obtain ⟨u, d3, -, h3⟩ := Parse.bind_ok h2
      cases h3
    | some block =>
      simp only [hblock] at h2
      obtain ⟨u, d3, -, h3⟩ := Parse.bind_ok h2
      obtain ⟨count, d4, -, h4⟩ := Parse.bind_ok h3
      split at h4
      · cases h4
      · obtain ⟨pred, d5, -, h5⟩ := Parse.bind_ok h4
        obtain ⟨pred_id, d6, -, h6⟩ := Parse.bind_ok h5
        obtain ⟨d7, d8, -, h7⟩ := Parse.bind_ok h6
        cases hstack : d7.pushed_stack_map_.LookupValue pred_id with
        | none =>
          simp only [hstack] at h7
          cases h7
        | some pred_stack =>
          simp only [hstack] at h7
          obtain ⟨contents, d9, -, h9⟩ := Parse.bind_ok h7
          obtain ⟨new_stack, d10, -, h10⟩ := Parse.bind_ok h9
          obtain ⟨u2, d11, -, h11⟩ := Parse.bind_ok h10
          exact ParseBlockContents_length vm fuel block_sexp worklist d11 _ d1 h11 worklist2 rfl

theorem List_filter_length_mark {α : Type} [DecidableEq α] (p q : α → Bool) (a : α)
    (hp : p a = true) (hq : q a = false) (hpq : ∀ x, x ≠ a → q x = p x) :
    ∀ l : List α, l.Nodup → a ∈ l → (l.filter q).length + 1 = (l.filter p).length := by
  intro l
  induction l with
  | nil => intro _ h; cases h
  | cons x rest ih =>
    intro hnodup hmem
    obtain ⟨hx, hrest⟩ := List.nodup_cons.mp hnodup
    by_cases hxa : x = a
    · subst hxa
      have hsame : rest.filter q = rest.filter p := by
        apply List.filter_congr
        intro y hy
        exact hpq y (fun h => hx (h ▸ hy))
      simp [List.filter_cons, hp, hq, hsame]
    · have hmem2 : a ∈ rest := by
        rcases List.mem_cons.mp hmem with h | h
        · exact (hxa h.symm).elim
        · exact h
      have := ih hrest hmem2
      rw [List.filter_cons, List.filter_cons, hpq x hxa]
      cases p x <;> simp [this]

theorem IntMap.mem_keys_of_LookupValue {V : Type} (m : IntMap V) (key : Int) (value : V)
    (h : m.LookupValue key = some value) : key ∈ m.map Prod.fst := by
  induction m with
  | nil => cases h
  | cons kv rest ih =>
    obtain ⟨k, v⟩ := kv
    by_cases hk : k = key
    · subst hk
      simp
    · simp only [IntMap.LookupValue, hk, if_false] at h
      exact List.mem_cons_of_mem _ (ih h)

theorem BlocksToParse_mark (block_sexp_map : IntMap SExpression)
    (fully_parsed_block_map : IntMap Bool) (id : Int) (block_sexp : SExpression)
    (hform : block_sexp_map.LookupValue id = some block_sexp)
    (hmark : fully_parsed_block_map.LookupValue id ≠ some true) :
    BlocksToParse block_sexp_map (fully_parsed_block_map.Insert id true) + 1 =
      BlocksToParse block_sexp_map fully_parsed_block_map := by
  unfold BlocksToParse
  apply List_filter_length_mark _ _ id
  · simpa using hmark
  · simp [IntMap.LookupValue_Insert_self]
  · intro x hx
    have hne : id ≠ x := fun h => hx h.symm
    rw [IntMap.LookupValue_Insert_other _ _ _ _ hne]
  · exact List.nodup_dedup _
  · exact List.mem_dedup.mpr (IntMap.mem_keys_of_LookupValue _ _ _ hform)

theorem ParseBlocksLoop_empty (vm : VM) (fuel steps : Nat) (block_sexp_map : IntMap SExpression)
    (fully_parsed_block_map : IntMap Bool) (d : FlowGraphDeserializer) :
    ParseBlocksLoop vm fuel block_sexp_map (steps + 1) [] fully_parsed_block_map d =
      .ok (some fully_parsed_block_map) d := by
  rw [ParseBlocksLoop]
  rfl

theorem ParseBlocksLoop_stable (vm : VM) (fuel : Nat) (block_sexp_map : IntMap SExpression) :
    ∀ (steps : Nat) (worklist : List Int) (fully_parsed_block_map : IntMap Bool)
      (d : FlowGraphDeserializer),
      WorklistBound block_sexp_map worklist fully_parsed_block_map ≤ steps →
      ParseBlocksLoop vm fuel block_sexp_map (steps + 1) worklist fully_parsed_block_map d =
        ParseBlocksLoop vm fuel block_sexp_map steps worklist fully_parsed_block_map d := by
  intro steps
  induction steps with
  | zero =>
    intro worklist fpm d h
    unfold WorklistBound at h
    omega
  | succ n ih =>
    intro worklist fpm d h
    cases hlast : worklist.getLast? with
    | none =>
      have hnil : worklist = [] := List.getLast?_eq_none_iff.mp hlast
      subst hnil
      rw [ParseBlocksLoop_empty, ParseBlocksLoop_empty]
    | some id =>
      have hw := List_eq_append_of_getLast? worklist id hlast
      generalize worklist.dropLast = rest at hw
      subst hw
      have hbound : WorklistBound block_sexp_map (rest ++ [id]) fpm =
          rest.length + 2 * BlocksToParse block_sexp_map fpm + 2 := by
        simp only [WorklistBound, List.length_append, List.length_singleton]
        omega
      by_cases hmark : fpm.LookupValue id = some true
      · rw [ParseBlocksLoop_skip vm fuel (n + 1) block_sexp_map rest id fpm hmark,
          ParseBlocksLoop_skip vm fuel n block_sexp_map rest id fpm hmark]
        apply ih
        unfold WorklistBound
        omega
      · rw [ParseBlocksLoop_visit vm fuel (n + 1) block_sexp_map rest id fpm hmark,
          ParseBlocksLoop_visit vm fuel n block_sexp_map rest id fpm hmark]
        simp only [Parse.bind_apply]
        cases hv : ParseBlocksVisit vm fuel block_sexp_map id rest d with
        | ok r d2 =>
          cases r with
          | none => rfl
          | some worklist2 =>
            obtain ⟨⟨block_sexp, hform⟩, hlen⟩ :=
              ParseBlocksVisit_some vm fuel block_sexp_map id rest d worklist2 d2 hv
            have hm := BlocksToParse_mark block_sexp_map fpm id block_sexp hform hmark
            apply ih
            unfold WorklistBound
            omega
        | fault e => rfl
        | outOfFuel => rfl

theorem ParseBlocksLoop_enough (vm : VM) (fuel : Nat) (block_sexp_map : IntMap SExpression)
    (worklist : List Int) (fully_parsed_block_map : IntMap Bool) (d : FlowGraphDeserializer) :
    ∀ steps, WorklistBound block_sexp_map worklist fully_parsed_block_map ≤ steps →
      ParseBlocksLoop vm fuel block_sexp_map steps worklist fully_parsed_block_map d =
        ParseBlocksLoop vm fuel block_sexp_map
          (WorklistBound block_sexp_map worklist fully_parsed_block_map) worklist
          fully_parsed_block_map d := by
  intro steps h
  induction steps with
  | zero =>
    have : WorklistBound block_sexp_map worklist fully_parsed_block_map = 0 := by omega
    rw [this]
  | succ n ih =>
    by_cases hn : WorklistBound block_sexp_map worklist fully_parsed_block_map ≤ n
    · rw [ParseBlocksLoop_stable vm fuel block_sexp_map n worklist fully_parsed_block_map d hn]
      exact ih hn
    · have : WorklistBound block_sexp_map worklist fully_parsed_block_map = n + 1 := by omega
      rw [this]

theorem ParseBlocksLoop_steps_suffice (vm : VM) (fuel : Nat)
    (block_sexp_map : IntMap SExpression) :
    ∀ (steps : Nat) (worklist : List Int) (fully_parsed_block_map : IntMap Bool)
      (d : FlowGraphDeserializer),
      WorklistBound block_sexp_map worklist fully_parsed_block_map ≤ steps →
      ParseBlocksLoop vm fuel block_sexp_map steps worklist fully_parsed_block_map d =
        .outOfFuel →
      ∃ id rest d2, ParseBlocksVisit vm fuel block_sexp_map id rest d2 = .outOfFuel := by
  intro steps
  induction steps with
  | zero =>
    intro worklist fpm d h
    unfold WorklistBound at h
    omega
  | succ n ih =>
    intro worklist fpm d h hout
    cases hlast : worklist.getLast? with
    | none =>
      have hnil : worklist = [] := List.getLast?_eq_none_iff.mp hlast
      subst hnil
      rw [ParseBlocksLoop_empty] at hout
      cases hout
    | some id =>
      have hw := List_eq_append_of_getLast? worklist id hlast
      generalize worklist.dropLast = rest at hw
      subst hw
      have hbound : WorklistBound block_sexp_map (rest ++ [id]) fpm =
          rest.length + 2 * BlocksToParse block_sexp_map fpm + 2 := by
        simp only [WorklistBound, List.length_append, List.length_singleton]
        omega
      by_cases hmark : fpm.LookupValue id = some true
      · rw [ParseBlocksLoop_skip vm fuel n block_sexp_map rest id fpm hmark] at hout
        apply ih rest fpm d _ hout
        unfold WorklistBound
        omega
      · rw [ParseBlocksLoop_visit vm fuel n block_sexp_map rest id fpm hmark] at hout
        simp only [Parse.bind_apply] at hout
        cases hv : ParseBlocksVisit vm fuel block_sexp_map id rest d with
        | ok r d2 =>
          rw [hv] at hout
          cases r with
          | none => cases hout
          | some worklist2 =>
            obtain ⟨⟨block_sexp, hform⟩, hlen⟩ :=
              ParseBlocksVisit_some vm fuel block_sexp_map id rest d worklist2 d2 hv
            have hm := BlocksToParse_mark block_sexp_map fpm id block_sexp hform hmark
            apply ih worklist2 _ d2 _ hout
            unfold WorklistBound
            omega
        | fault e => rw [hv] at hout; cases hout
        | outOfFuel => exact ⟨id, rest, d, hv⟩

/-- C39: the worklist loop of `ParseBlocks` on any worklist, with any map of
block forms and any map of marks. `WorklistBound` iterations are enough: with
more the loop does what it does with that many, and when it still stops for
lack of fuel, it is a visit of a block that ran out of the fuel for nested
forms, not the loop that ran out of iterations. The bound decreases with every
iteration: a visit of a block marks one more of the blocks that have a form,
and leaves at most two more ids on the worklist than it was given; the pop of a
marked id only removes it. Nothing depends on the shape of the graph, so it
holds for back-edges and self-loops. -/
theorem ParseBlocks_worklist_terminates (vm : VM) (fuel : Nat)
    (block_sexp_map : IntMap SExpression) (worklist : List Int)
    (fully_parsed_block_map : IntMap Bool) (d : FlowGraphDeserializer) :
    (∀ steps, WorklistBound block_sexp_map worklist fully_parsed_block_map ≤ steps →
      ParseBlocksLoop vm fuel block_sexp_map steps worklist fully_parsed_block_map d =
        ParseBlocksLoop vm fuel block_sexp_map
          (WorklistBound block_sexp_map worklist fully_parsed_block_map) worklist
          fully_parsed_block_map d) ∧
    (∀ steps, WorklistBound block_sexp_map worklist fully_parsed_block_map ≤ steps →
      ParseBlocksLoop vm fuel block_sexp_map steps worklist fully_parsed_block_map d =
        .outOfFuel →
      ∃ id rest d2, ParseBlocksVisit vm fuel block_sexp_map id rest d2 = .outOfFuel) ∧
    (∀ id rest d0 worklist2 d2, fully_parsed_block_map.LookupValue id ≠ some true →
      ParseBlocksVisit vm fuel block_sexp_map id rest d0 = .ok (some worklist2) d2 →
      BlocksToParse block_sexp_map (fully_parsed_block_map.Insert id true) + 1 =
        BlocksToParse block_sexp_map fully_parsed_block_map ∧
      worklist2.length ≤ rest.length + 2 ∧
      WorklistBound block_sexp_map worklist2 (fully_parsed_block_map.Insert id true) <
        WorklistBound block_sexp_map (rest ++ [id]) fully_parsed_block_map) ∧
    (∀ id rest, fully_parsed_block_map.LookupValue id = some true →
      ParseBlocksLoop vm fuel block_sexp_map
          (WorklistBound block_sexp_map (rest ++ [id]) fully_parsed_block_map) (rest ++ [id])
          fully_parsed_block_map d =
        ParseBlocksLoop vm fuel block_sexp_map
          (WorklistBound block_sexp_map rest fully_parsed_block_map) rest
          fully_parsed_block_map d ∧
      WorklistBound block_sexp_map rest fully_parsed_block_map <
        WorklistBound block_sexp_map (rest ++ [id]) fully_parsed_block_map) := by
  refine ⟨ParseBlocksLoop_enough vm fuel block_sexp_map worklist fully_parsed_block_map d,
    fun steps h => ParseBlocksLoop_steps_suffice vm fuel block_sexp_map steps worklist
      fully_parsed_block_map d h, ?_, ?_⟩
  · intro id rest d0 worklist2 d2 hmark hv
    obtain ⟨⟨block_sexp, hform⟩, hlen⟩ :=
      ParseBlocksVisit_some vm fuel block_sexp_map id rest d0 worklist2 d2 hv
    have hm := BlocksToParse_mark block_sexp_map fully_parsed_block_map id block_sexp hform hmark
    refine ⟨hm, hlen, ?_⟩
    simp only [WorklistBound, List.length_append, List.length_singleton]
    omega
  · intro id rest hmark
    have hb : WorklistBound block_sexp_map (rest ++ [id]) fully_parsed_block_map =
        WorklistBound block_sexp_map rest fully_parsed_block_map + 1 := by
      simp only [WorklistBound, List.length_append, List.length_singleton]
      omega
    refine ⟨?_, by omega⟩
    rw [hb, ParseBlocksLoop_skip vm fuel _ block_sexp_map rest id fully_parsed_block_map hmark]

/-- The worklist `[3, 3]` with block 3 marked, as a block with a self-loop
leaves it: 3 iterations are enough, and with 7 the loop returns the map of
marks and the state it was given. -/
theorem ParseBlocks_worklist_terminates_witness :
    WorklistBound [] [3, 3] [(3, true)] = 3 ∧
    ParseBlocksLoop ExampleVM 1 [] 7 [3, 3] [(3, true)] ExampleStackState =
      .ok (some [(3, true)]) ExampleStackState :=
  ⟨by decide,
    ((ParseBlocks_worklist_terminates ExampleVM 1 [] [3, 3] [(3, true)] ExampleStackState).1 7
      (by decide)).trans rfl⟩

/-! ## The binder invariant -/

theorem BinderInvariant_of_same {d d1 : FlowGraphDeserializer} (h : SameBinder d d1)
    (hinv : BinderInvariant d) : BinderInvariant d1 := by
  obtain ⟨h1, h2⟩ := h
  unfold BinderInvariant
  rw [h1, h2]
  exact hinv

theorem Maintains_of_KeepsBinder {α : Type} {x : Parse α} (hx : KeepsBinder x) :
    Maintains BinderInvariant x := by
  constructor
  intro d a d1 hinv h
  exact BinderInvariant_of_same (hx.same d a d1 h) hinv

theorem Maintains_bind {P : FlowGraphDeserializer → Prop} {α β : Type} {x : Parse α}
    {f : α → Parse β} (hx : Maintains P x) (hf : ∀ a, Maintains P (f a)) :
    Maintains P (x >>= f) := by
  constructor
  intro d b d2 hinv h
  obtain ⟨a, d1, h1, h2⟩ := Parse.bind_ok h
  exact (hf a).post d1 b d2 (hx.post d a d1 hinv h1) h2

theorem Maintains_ite {P : FlowGraphDeserializer → Prop} {α : Type} (c : Prop) [Decidable c]
    {x y : Parse α} (hx : Maintains P x) (hy : Maintains P y) :
    Maintains P (if c then x else y) := by
  split
  · exact hx
  · exact hy

theorem Maintains_pure {P : FlowGraphDeserializer → Prop} {α : Type} (a : α) :
    Maintains P (pure a : Parse α) := by
  constructor
  intro d b d1 hinv h
  cases h
  exact hinv

theorem Maintains_fault {P : FlowGraphDeserializer → Prop} {α : Type} (e : Fault) :
    Maintains P (Parse.fault e : Parse α) := by
  constructor
  intro d b d1 _ h
  cases h

theorem IntMap.HasKey_Assign {V : Type} (m : IntMap V) (key other : Int) (value : V) :
    (m.Assign key value).HasKey other = m.HasKey other := by
  induction m with
  | nil => rfl
  | cons kv rest ih =>
    obtain ⟨k, v⟩ := kv
    simp only [IntMap.HasKey] at ih ⊢
    by_cases hk : k = key
    · subst hk
      by_cases ho : k = other
      · simp [IntMap.Assign, IntMap.LookupValue, ho]
      · simp [IntMap.Assign, IntMap.LookupValue, ho]
    · by_cases ho : k = other
      · subst ho
        simp [IntMap.Assign, IntMap.LookupValue, hk]
      · simp only [IntMap.Assign, hk, if_false, IntMap.LookupValue, ho]
        exact ih

theorem IntMap.LookupValue_Assign {V : Type} (m : IntMap V) (key other : Int) (value v : V)
    (h : (m.Assign key value).LookupValue other = some v) :
    v = value ∨ m.LookupValue other = some v := by
  induction m with
  | nil => cases h
  | cons kv rest ih =>
    obtain ⟨k, w⟩ := kv
    by_cases hk : k = key
    · subst hk
      by_cases ho : k = other
      · simp only [IntMap.Assign, if_true, IntMap.LookupValue, ho] at h
        exact Or.inl (Option.some.inj h).symm
      · simp only [IntMap.Assign, if_true, IntMap.LookupValue, ho, if_false] at h ⊢
        exact Or.inr h
    · by_cases ho : k = other
      · subst ho
        simp only [IntMap.Assign, hk, if_false, IntMap.LookupValue, if_true] at h ⊢
        exact Or.inr h
      · simp only [IntMap.Assign, hk, if_false, IntMap.LookupValue, ho] at h ⊢
        exact ih h

theorem Maintains_AddPendingValue (index : Int) (val : ValuePtr) :
    Maintains BinderInvariant (AddPendingValue index val) := by
  constructor
  intro d a d1 hinv h
  obtain ⟨h1, h2⟩ := hinv
  unfold AddPendingValue at h
  split at h
  · cases h
  · rename_i hkey
    cases hl : d.values_map_.LookupValue index with
    | none =>
      simp only [hl] at h
      cases h
      constructor
      · intro k hk
        have hne : index ≠ k := fun heq => hkey (heq ▸ hk)
        have := h1 k hk
        simp only [IntMap.HasKey] at this ⊢
        rw [IntMap.LookupValue_Insert_other _ _ _ _ hne]
        exact this
      · intro k l hkl
        by_cases hik : index = k
        · subst hik
          simp only [IntMap.LookupValue_Insert_self] at hkl
          cases hkl
          simp
        · simp only [IntMap.LookupValue_Insert_other _ _ _ _ hik] at hkl
          exact h2 k l hkl
    | some value_list =>
      simp only [hl] at h
      cases h
      constructor
      · intro k hk
        simp only [IntMap.HasKey_Assign]
        exact h1 k hk
      · intro k l hkl
        rcases IntMap.LookupValue_Assign _ _ _ _ _ hkl with hv | hv
        · subst hv
          simp
        · exact h2 k l hv

theorem Maintains_AddNewPendingValue (index : Int) :
    Maintains BinderInvariant (AddNewPendingValue index) := by
  unfold AddNewPendingValue
  repeat' first
    | with_reducible apply Maintains_bind
    | exact Maintains_pure _
    | exact Maintains_fault _
    | exact Maintains_AddPendingValue _ _
    | exact Maintains_of_KeepsBinder KeepsBinder_get
    | exact Maintains_of_KeepsBinder (KeepsBinder_NewValue _)
    | apply Maintains_ite
    | intro _
    | dsimp only
    | split

theorem Maintains_ParseValueWith (vm : VM) (self : DartValueParser)
    (hself : ∀ sexp out, KeepsBinder (self sexp out)) (sexp : Option SExpression)
    (allow_pending : Bool) :
    Maintains BinderInvariant (ParseValueWith vm self sexp allow_pending) := by
  unfold ParseValueWith CheckSymbol
  repeat' first
    | with_reducible apply Maintains_bind
    | exact Maintains_pure _
    | exact Maintains_fault _
    | exact Maintains_AddNewPendingValue _
    | exact Maintains_of_KeepsBinder KeepsBinder_get
    | exact Maintains_of_KeepsBinder (KeepsBinder_NewValue _)
    | exact Maintains_of_KeepsBinder (KeepsBinder_StoreError _ _)
    | exact Maintains_of_KeepsBinder (KeepsBinder_SetReachingType _ _)
    | exact Maintains_of_KeepsBinder (KeepsBinder_Check _ _)
    | exact Maintains_of_KeepsBinder (KeepsBinder_Retrieve _ _)
    | exact Maintains_of_KeepsBinder (KeepsBinder_ExtraLookupValue _ _)
    | exact Maintains_of_KeepsBinder (KeepsBinder_CheckTaggedList _ _)
    | exact Maintains_of_KeepsBinder (KeepsBinder_ParseUse _ _)
    | exact Maintains_of_KeepsBinder (KeepsBinder_ParseCompileTypeWith vm self hself _)
    | apply Maintains_ite
    | intro _
    | dsimp only
    | split

theorem Maintains_ParseValue (vm : VM) (fuel : Nat) (sexp : Option SExpression)
    (allow_pending : Bool) :
    Maintains BinderInvariant (ParseValue vm fuel sexp allow_pending) :=
  Maintains_ParseValueWith vm _ (KeepsBinder_ParseDartValue vm fuel) sexp allow_pending

theorem FixPendingValues_tables (index : Int) (definition : DefinitionPtr)
    (d d1 : FlowGraphDeserializer) (u : Unit)
    (h : FixPendingValues index definition d = .ok u d1) :
    d1.definition_map_ = d.definition_map_ ∧
    d1.values_map_.LookupValue index = none ∧
    ∀ k, k ≠ index → d1.values_map_.LookupValue k = d.values_map_.LookupValue k := by
  cases hl : d.values_map_.LookupValue index with
  | none =>
    have hd : d1 = d := by
      simp only [FixPendingValues, Parse.bind_apply, Parse.get_apply, hl] at h
      cases h
      rfl
    subst hd
    exact ⟨rfl, hl, fun _ _ => rfl⟩
  | some value_list =>
    obtain ⟨d2, h1, -, -, h4, h5⟩ := BindAll_spec definition value_list d
    have hd : d1 = { d2 with values_map_ := d2.values_map_.Remove index } := by
      simp only [FixPendingValues, Parse.bind_apply, Parse.get_apply, hl, h1,
        Parse.modify_apply] at h
      cases h
      rfl
    subst hd
    refine ⟨h5, IntMap.LookupValue_Remove_self _ _, fun k hk => ?_⟩
    show (d2.values_map_.Remove index).LookupValue k = _
    rw [IntMap.LookupValue_Remove_other _ _ _ (fun h => hk h.symm), h4]

theorem Maintains_FixPendingValues (index : Int) (definition : DefinitionPtr) :
    Maintains BinderInvariant
      ((Parse.modify fun d =>
          { d with definition_map_ := d.definition_map_.Insert index definition }) >>= fun _ =>
        FixPendingValues index definition >>= fun _ => pure true) := by
  constructor
  intro d a d1 hinv h
  obtain ⟨h1, h2⟩ := hinv
  obtain ⟨u, d2, hm, h3⟩ := Parse.bind_ok h
  cases hm
  obtain ⟨u2, d3, hf, h4⟩ := Parse.bind_ok h3
  cases h4
  obtain ⟨hdef, hnone, hother⟩ := FixPendingValues_tables index definition _ _ _ hf
  constructor
  · intro k hk
    rw [hdef] at hk
    by_cases hik : k = index
    · subst hik
      simp only [IntMap.HasKey, hnone]
      rfl
    · have hk2 : d.definition_map_.HasKey k = true := by
        rcases (IntMap.HasKey_Insert _ _ _ _).mp hk with heq | hk2
        · exact (hik heq.symm).elim
        · exact hk2
      have := h1 k hk2
      simp only [IntMap.HasKey] at this ⊢
      rw [hother k hik]
      exact this
  · intro k l hkl
    by_cases hik : k = index
    · subst hik
      rw [hnone] at hkl
      cases hkl
    · rw [hother k hik] at hkl
      exact h2 k l hkl

theorem Maintains_ParseDefinitionWithParsedBody (vm : VM) (fuel : Nat)
    (list : Option SExpression) (definition : DefinitionPtr) :
    Maintains BinderInvariant (ParseDefinitionWithParsedBody vm fuel list definition) := by
  unfold ParseDefinitionWithParsedBody CheckSymbol ParseSSATemp
  repeat' first
    | exact Maintains_pure _
    | exact Maintains_fault _
    | exact Maintains_FixPendingValues _ _
    | exact Maintains_of_KeepsBinder KeepsBinder_get
    | exact Maintains_of_KeepsBinder (KeepsBinder_StoreError _ _)
    | exact Maintains_of_KeepsBinder (KeepsBinder_Check _ _)
    | exact Maintains_of_KeepsBinder (KeepsBinder_Retrieve _ _)
    | exact Maintains_of_KeepsBinder (KeepsBinder_ExtraLookupValue _ _)
    | exact Maintains_of_KeepsBinder (KeepsBinder_CheckTaggedList _ _)
    | exact Maintains_of_KeepsBinder (KeepsBinder_ParseSymbolAsPrefixedInt _ _ _)
    | exact Maintains_of_KeepsBinder (KeepsBinder_ParseCompileType _ _ _)
    | exact Maintains_of_KeepsBinder (KeepsBinder_modify _ fun _ => ⟨rfl, rfl⟩)
    | apply Maintains_bind
    | apply Maintains_ite
    | intro _
    | dsimp only
    | split

theorem BinderInvariant_New (root : SExpression) (parsed_function : Option ParsedFunction) :
    BinderInvariant (FlowGraphDeserializer.New root parsed_function) := by
  constructor
  · intro index h
    cases h
  · intro index value_list h
    cases h

/-- C40: the binder invariant. A fresh deserializer satisfies it; every
returning call of `ParseValue`, with or without `allow_pending`, and every
returning call of `ParseDefinitionWithParsedBody`, whatever it returns, ends in
a state that satisfies it if it started in one. So it holds in every state
reached from a fresh deserializer through such calls and through calls that
leave the two tables alone: no SSA index is at once in the definition map and
in the pending table, and every pending list is non-empty. -/
theorem Binder_invariant (vm : VM) (fuel : Nat) :
    (∀ root parsed_function, BinderInvariant (FlowGraphDeserializer.New root parsed_function)) ∧
    (∀ sexp allow_pending d val d1, BinderInvariant d →
      ParseValue vm fuel sexp allow_pending d = .ok val d1 → BinderInvariant d1) ∧
    (∀ list definition d parsed d1, BinderInvariant d →
      ParseDefinitionWithParsedBody vm fuel list definition d = .ok parsed d1 →
      BinderInvariant d1) ∧
    ∀ root parsed_function d, BinderReachable vm fuel root parsed_function d →
      BinderInvariant d := by
  refine ⟨BinderInvariant_New, ?_, ?_, ?_⟩
  · intro sexp allow_pending d val d1 hinv h
    exact (Maintains_ParseValue vm fuel sexp allow_pending).post d val d1 hinv h
  · intro list definition d parsed d1 hinv h
    exact (Maintains_ParseDefinitionWithParsedBody vm fuel list definition).post d parsed d1
      hinv h
  · intro root parsed_function d hreach
    induction hreach with
    | start => exact BinderInvariant_New root parsed_function
    | value d d1 sexp allow_pending val _ h ih =>
      exact (Maintains_ParseValue vm fuel sexp allow_pending).post d val d1 ih h
    | definition d d1 list definition parsed _ h ih =>
      exact (Maintains_ParseDefinitionWithParsedBody vm fuel list definition).post d parsed d1
        ih h
    | other d d1 _ h ih => exact BinderInvariant_of_same h ih

/-- The use `v7` in a deserializer without a definition for it: value 0 is a
placeholder on the pending list of index 7, and the state reached satisfies the
invariant. -/
theorem Binder_invariant_witness :
    ∃ d1, ParseValue ExampleVM 0 (some (.SExpSymbol "v7")) true ExampleGraphState =
        .ok (some 0) d1 ∧
      d1.values_map_ = [(7, [0])] ∧ BinderInvariant d1 := by
  have hrun := ParseValue_symbol_pending ExampleVM 0 ['7'] 7 (by decide) ExampleGraphState
    { constant_null_ := 0 } rfl rfl
  exact ⟨_, hrun, rfl,
    (Binder_invariant ExampleVM 0).2.1 _ true ExampleGraphState _ _
      ((Binder_invariant ExampleVM 0).1 _ none |> BinderInvariant_of_same (d := ExampleState)
        ⟨rfl, rfl⟩) hrun⟩

/-! ## Relations between the states of a parse -/

theorem SameCore_refl (d : FlowGraphDeserializer) : SameCore d d := rfl

theorem SameCore_trans {d d1 d2 : FlowGraphDeserializer} (h1 : SameCore d d1)
    (h2 : SameCore d1 d2) : SameCore d d2 :=
  Eq.trans h2 h1

theorem SameCore_fields {d d1 : FlowGraphDeserializer} (h : SameCore d d1) :
    d1.values_map_ = d.values_map_ ∧ d1.definition_map_ = d.definition_map_ ∧
    d1.max_block_id_ = d.max_block_id_ ∧ d1.max_ssa_index_ = d.max_ssa_index_ ∧
    d1.zone_instructions = d.zone_instructions ∧ d1.current_block_ = d.current_block_ ∧
    d1.block_map_ = d.block_map_ ∧ d1.pushed_stack_map_ = d.pushed_stack_map_ ∧
    d1.zone_stacks = d.zone_stacks ∧ d1.zone_stacks_length = d.zone_stacks_length := by
  unfold SameCore Core at h
  simp only [Prod.mk.injEq] at h
  exact h

instance : IsRefl FlowGraphDeserializer SameCore := ⟨SameCore_refl⟩

instance : IsTrans FlowGraphDeserializer SameCore := ⟨fun _ _ _ h1 h2 => SameCore_trans h1 h2⟩

theorem StackOf_congr {d d1 : FlowGraphDeserializer}
    (hblock : d1.current_block_ = d.current_block_)
    (hmap : d1.pushed_stack_map_ = d.pushed_stack_map_)
    (hinstr : d.zone_instructions <+: d1.zone_instructions) (stack : StackPtr)
    (h : StackOf d = some stack) : StackOf d1 = some stack := by
  unfold StackOf at h ⊢
  rw [hblock, hmap]
  cases hb : d.current_block_ with
  | none => rw [hb] at h; cases h
  | some block =>
    rw [hb] at h
    simp only [Option.bind_eq_bind, Option.some_bind] at h ⊢
    cases hi : d.zone_instructions[block]? with
    | none => rw [hi] at h; cases h
    | some instr =>
      have hi1 : d1.zone_instructions[block]? = some instr := by
        obtain ⟨t, ht⟩ := hinstr
        rw [← ht]
        have hlt : block < d.zone_instructions.length := by
          by_contra hge
          rw [List.getElem?_eq_none (Nat.le_of_not_lt hge)] at hi
          cases hi
        rw [List.getElem?_append_left hlt]
        exact hi
      rw [hi] at h
      rw [hi1]
      exact h

theorem InstructionAt_ok (instr : DefinitionPtr) (d d1 : FlowGraphDeserializer)
    (i : Instruction) (h : InstructionAt instr d = .ok i d1) :
    d.zone_instructions[instr]? = some i ∧ d1 = d := by
  unfold InstructionAt at h
  rw [List.get?_eq_getElem?] at h
  cases hi : d.zone_instructions[instr]? with
  | none => rw [hi] at h; cases h
  | some i0 =>
    rw [hi] at h
    cases h
    exact ⟨rfl, rfl⟩

theorem block_id_ok (block : DefinitionPtr) (d d1 : FlowGraphDeserializer) (id : Int)
    (h : block_id block d = .ok id d1) :
    (∃ instr, d.zone_instructions[block]? = some instr ∧ BlockIdOf instr = some id) ∧
      d1 = d := by
  unfold block_id at h
  obtain ⟨instr, d2, hi, h2⟩ := Parse.bind_ok h
  obtain ⟨hi1, hd⟩ := InstructionAt_ok block d d2 instr hi
  subst hd
  cases instr <;> first
    | (cases h2; exact ⟨⟨_, hi1, rfl⟩, rfl⟩)
    | cases h2

theorem CurrentStack_StackOf (d d1 : FlowGraphDeserializer) (stack : StackPtr)
    (h : CurrentStack d = .ok stack d1) : StackOf d = some stack ∧ d1 = d := by
  unfold CurrentStack at h
  obtain ⟨d0, d2, hg, h2⟩ := Parse.bind_ok h
  cases hg
  cases hb : d.current_block_ with
  | none => simp only [hb] at h2; cases h2
  | some block =>
    simp only [hb] at h2
    obtain ⟨d3, d4, hg2, h3⟩ := Parse.bind_ok h2
    cases hg2
    obtain ⟨id, d5, hid, h4⟩ := Parse.bind_ok h3
    obtain ⟨⟨instr, hi, hbid⟩, hd⟩ := block_id_ok block d d5 id hid
    subst d5
    cases hs : d.pushed_stack_map_.LookupValue id with
    | none => simp only [hs] at h4; cases h4
    | some s =>
      simp only [hs] at h4
      cases h4
      refine ⟨?_, rfl⟩
      unfold StackOf
      rw [hb]
      simp only [Option.bind_eq_bind, Option.some_bind, hi, hbid, hs]

theorem Extends_refl (d : FlowGraphDeserializer) : Extends d d :=
  ⟨le_refl _, le_refl _, fun _ _ h => h, List.prefix_refl _, fun h => h⟩

theorem Extends_trans {d d1 d2 : FlowGraphDeserializer} (h1 : Extends d d1)
    (h2 : Extends d1 d2) : Extends d d2 :=
  ⟨le_trans h1.max_block_id h2.max_block_id, le_trans h1.max_ssa_index h2.max_ssa_index,
    fun index definition h => h2.definitions index definition (h1.definitions index definition h),
    List.IsPrefix.trans h1.instructions h2.instructions, fun h => h2.bound (h1.bound h)⟩

instance : IsRefl FlowGraphDeserializer Extends := ⟨Extends_refl⟩

instance : IsTrans FlowGraphDeserializer Extends := ⟨fun _ _ _ h1 h2 => Extends_trans h1 h2⟩

theorem SameBlock_refl (d : FlowGraphDeserializer) : SameBlock d d :=
  ⟨Extends_refl d, rfl, rfl, rfl, rfl, rfl, fun _ _ _ _ => rfl⟩

theorem SameBlock_trans {d d1 d2 : FlowGraphDeserializer} (h1 : SameBlock d d1)
    (h2 : SameBlock d1 d2) : SameBlock d d2 :=
  ⟨Extends_trans h1.grows h2.grows, h2.current_block.trans h1.current_block,
    h2.block_map.trans h1.block_map, h2.pushed_stack_map.trans h1.pushed_stack_map,
    h2.max_block_id.trans h1.max_block_id, h2.stacks_length.trans h1.stacks_length,
    fun current hc stack hs =>
      (h2.other_stacks current
        (StackOf_congr h1.current_block h1.pushed_stack_map h1.grows.instructions current hc)
        stack hs).trans (h1.other_stacks current hc stack hs)⟩

instance : IsRefl FlowGraphDeserializer SameBlock := ⟨SameBlock_refl⟩

instance : IsTrans FlowGraphDeserializer SameBlock := ⟨fun _ _ _ h1 h2 => SameBlock_trans h1 h2⟩

theorem Extends_of_tables {d d1 : FlowGraphDeserializer}
    (h1 : d.max_block_id_ ≤ d1.max_block_id_) (h2 : d1.max_ssa_index_ = d.max_ssa_index_)
    (h3 : d1.definition_map_ = d.definition_map_)
    (h4 : d.zone_instructions <+: d1.zone_instructions) : Extends d d1 :=
  ⟨h1, le_of_eq h2.symm, fun _ _ h => by rw [h3]; exact h, h4, fun h => by
    unfold SsaBound
    rw [h2, h3]
    exact h⟩

theorem SameBlock_of_SameCore {d d1 : FlowGraphDeserializer} (h : SameCore d d1) :
    SameBlock d d1 := by
  obtain ⟨-, h2, h3, h4, h5, h6, h7, h8, h9, h10⟩ := SameCore_fields h
  exact ⟨Extends_of_tables (le_of_eq h3.symm) h4 h2 (by rw [h5]), h6, h7, h8, h3, h10,
    fun _ _ stack _ => by rw [h9]⟩

theorem Steps_pure {R : FlowGraphDeserializer → FlowGraphDeserializer → Prop}
    [IsRefl FlowGraphDeserializer R] {α : Type} (a : α) : Steps R (pure a : Parse α) := by
  constructor
  intro d b d1 h
  cases h
  exact IsRefl.refl d

theorem Steps_bind {R : FlowGraphDeserializer → FlowGraphDeserializer → Prop}
    [IsTrans FlowGraphDeserializer R] {α β : Type} {x : Parse α} {f : α → Parse β}
    (hx : Steps R x) (hf : ∀ a, Steps R (f a)) : Steps R (x >>= f) := by
  constructor
  intro d b d2 h
  obtain ⟨a, d1, h1, h2⟩ := Parse.bind_ok h
  exact IsTrans.trans _ _ _ (hx.post d a d1 h1) ((hf a).post d1 b d2 h2)

theorem Steps_ite {R : FlowGraphDeserializer → FlowGraphDeserializer → Prop} {α : Type}
    (c : Prop) [Decidable c] {x y : Parse α} (hx : Steps R x) (hy : Steps R y) :
    Steps R (if c then x else y) := by
  split
  · exact hx
  · exact hy

theorem Steps_fault {R : FlowGraphDeserializer → FlowGraphDeserializer → Prop} {α : Type}
    (e : Fault) : Steps R (Parse.fault e : Parse α) := by
  constructor
  intro d b d1 h
  cases h

theorem Steps_outOfFuel {R : FlowGraphDeserializer → FlowGraphDeserializer → Prop} {α : Type} :
    Steps R (fun _ => Result.outOfFuel : Parse α) := by
  constructor
  intro d b d1 h
  cases h

theorem Steps_get {R : FlowGraphDeserializer → FlowGraphDeserializer → Prop}
    [IsRefl FlowGraphDeserializer R] : Steps R Parse.get := by
  constructor
  intro d b d1 h
  cases h
  exact IsRefl.refl d

theorem Steps_modify {R : FlowGraphDeserializer → FlowGraphDeserializer → Prop}
    (f : FlowGraphDeserializer → FlowGraphDeserializer) (hf : ∀ d, R d (f d)) :
    Steps R (Parse.modify f) := by
  constructor
  intro d b d1 h
  cases h
  exact hf d

theorem Steps_mono {R Q : FlowGraphDeserializer → FlowGraphDeserializer → Prop} {α : Type}
    {x : Parse α} (h : ∀ d d1, R d d1 → Q d d1) (hx : Steps R x) : Steps Q x :=
  ⟨fun d a d1 hd => h d d1 (hx.post d a d1 hd)⟩

theorem Steps_block {α : Type} {x : Parse α} (hx : Steps SameCore x) : Steps SameBlock x :=
  Steps_mono (fun _ _ h => SameBlock_of_SameCore h) hx

theorem Steps_grows {α : Type} {x : Parse α} (hx : Steps SameBlock x) : Steps Extends x :=
  Steps_mono (fun _ _ h => h.grows) hx

/-! ## Calls that leave the tables of the parser alone -/

theorem KeepsCore_StoreError (sexp : Option SExpression) (message : String) :
    Steps SameCore (StoreError sexp message) :=
  Steps_modify _ fun _ => rfl

theorem KeepsCore_ReadHandle (handle : Handle) : Steps SameCore (ReadHandle handle) := by
  constructor
  intro d b d1 h
  cases h
  exact SameCore_refl d

theorem KeepsCore_WriteHandle (handle : Handle) (raw : RawObject) :
    Steps SameCore (WriteHandle handle raw) :=
  Steps_modify _ fun _ => by cases handle <;> exact rfl

theorem KeepsCore_NewHandle (raw : RawObject) : Steps SameCore (NewHandle raw) := by
  constructor
  intro d b d1 h
  cases h
  exact rfl

theorem KeepsCore_NewValue (definition : DefinitionPtr) :
    Steps SameCore (NewValue definition) := by
  constructor
  intro d b d1 h
  cases h
  exact rfl

theorem KeepsCore_SetReachingType (val : ValuePtr) (type : CompileType) :
    Steps SameCore (SetReachingType val type) :=
  Steps_modify _ fun _ => rfl

theorem KeepsCore_ListLength (list : SExpression) :
    Steps SameCore (ListLength list) := by
  unfold ListLength
  repeat' first
    | with_reducible apply Steps_bind
    | exact Steps_pure _
    | exact Steps_fault _
    | apply Steps_ite
    | intro _
    | dsimp only
    | split

theorem KeepsCore_ListAt (list : SExpression) (index : Int) :
    Steps SameCore (ListAt list index) := by
  unfold ListAt
  repeat' first
    | with_reducible apply Steps_bind
    | exact Steps_pure _
    | exact Steps_fault _
    | apply Steps_ite
    | intro _
    | dsimp only
    | split

theorem KeepsCore_ListTag (list : SExpression) :
    Steps SameCore (ListTag list) := by
  unfold ListTag
  repeat' first
    | with_reducible apply Steps_bind
    | exact Steps_pure _
    | exact Steps_fault _
    | apply Steps_ite
    | intro _
    | dsimp only
    | split

theorem KeepsCore_SymbolValue (sym : SExpression) :
    Steps SameCore (SymbolValue sym) := by
  unfold SymbolValue
  repeat' first
    | with_reducible apply Steps_bind
    | exact Steps_pure _
    | exact Steps_fault _
    | apply Steps_ite
    | intro _
    | dsimp only
    | split

theorem KeepsCore_IntegerValue (i : SExpression) :
    Steps SameCore (IntegerValue i) := by
  unfold IntegerValue
  repeat' first
    | with_reducible apply Steps_bind
    | exact Steps_pure _
    | exact Steps_fault _
    | apply Steps_ite
    | intro _
    | dsimp only
    | split

theorem KeepsCore_BoolValue (b : SExpression) :
    Steps SameCore (BoolValue b) := by
  unfold BoolValue
  repeat' first
    | with_reducible apply Steps_bind
    | exact Steps_pure _
    | exact Steps_fault _
    | apply Steps_ite
    | intro _
    | dsimp only
    | split

theorem KeepsCore_ExtraLookupValue (list : SExpression) (key : String) :
    Steps SameCore (ExtraLookupValue list key) := by
  unfold ExtraLookupValue
  repeat' first
    | with_reducible apply Steps_bind
    | exact Steps_pure _
    | exact Steps_fault _
    | apply Steps_ite
    | intro _
    | dsimp only
    | split

theorem KeepsCore_BoundConstant (val : ValuePtr) : Steps SameCore (BoundConstant val) := by
  constructor
  intro d b d1 h
  unfold BoundConstant at h
  split at h <;> cases h <;> exact SameCore_refl d

theorem KeepsCore_Retrieve (list : Option SExpression) (index : Int) :
    Steps SameCore (Retrieve list index) := by
  unfold Retrieve
  repeat' first
    | with_reducible apply Steps_bind
    | exact Steps_pure _
    | exact Steps_fault _
    | exact KeepsCore_StoreError _ _
    | apply Steps_ite
    | intro _
    | dsimp only
    | split

theorem KeepsCore_RetrieveKey (list : Option SExpression) (key : String) :
    Steps SameCore (RetrieveKey list key) := by
  unfold RetrieveKey
  repeat' first
    | with_reducible apply Steps_bind
    | exact Steps_pure _
    | exact Steps_fault _
    | exact KeepsCore_StoreError _ _
    | apply Steps_ite
    | intro _
    | dsimp only
    | split

theorem KeepsCore_Check (k : SExpKind) (sexp : Option SExpression) :
    Steps SameCore (Check k sexp) := by
  unfold Check
  repeat' first
    | with_reducible apply Steps_bind
    | exact Steps_pure _
    | exact Steps_fault _
    | exact KeepsCore_StoreError _ _
    | apply Steps_ite
    | intro _
    | dsimp only
    | split

theorem KeepsCore_IsTag (sexp : Option SExpression) (label : Option String) :
    Steps SameCore (IsTag sexp label) := by
  unfold IsTag CheckSymbol
  repeat' first
    | with_reducible apply Steps_bind
    | exact Steps_pure _
    | exact Steps_fault _
    | exact KeepsCore_StoreError _ _
    | exact KeepsCore_Check _ _
    | apply Steps_ite
    | intro _
    | dsimp only
    | split

theorem KeepsCore_CheckTaggedList (sexp : Option SExpression) (label : Option String) :
    Steps SameCore (CheckTaggedList sexp label) := by
  unfold CheckTaggedList CheckList
  repeat' first
    | with_reducible apply Steps_bind
    | exact Steps_pure _
    | exact Steps_fault _
    | exact KeepsCore_StoreError _ _
    | exact KeepsCore_Check _ _
    | exact KeepsCore_Retrieve _ _
    | exact KeepsCore_RetrieveKey _ _
    | exact KeepsCore_IsTag _ _
    | apply Steps_ite
    | intro _
    | dsimp only
    | split

theorem KeepsCore_ParseSymbolAsPrefixedInt (vm : VM) (sym : Option SExpression) (pfx : Char) :
    Steps SameCore (ParseSymbolAsPrefixedInt vm sym pfx) := by
  unfold ParseSymbolAsPrefixedInt
  repeat' first
    | with_reducible apply Steps_bind
    | exact Steps_pure _
    | exact Steps_fault _
    | exact KeepsCore_StoreError _ _
    | apply Steps_ite
    | intro _
    | dsimp only
    | split

theorem KeepsCore_ParseUse (vm : VM) (sym : Option SExpression) :
    Steps SameCore (ParseUse vm sym) :=
  KeepsCore_ParseSymbolAsPrefixedInt vm sym _

theorem KeepsCore_ParseCompileTypeWith (vm : VM) (self : DartValueParser)
    (hself : ∀ sexp out, Steps SameCore (self sexp out)) (sexp : SExpression) :
    Steps SameCore (ParseCompileTypeWith vm self sexp) := by
  unfold ParseCompileTypeWith CheckBool CheckInteger
  repeat' first
    | with_reducible apply Steps_bind
    | exact Steps_pure _
    | exact Steps_fault _
    | exact Steps_outOfFuel
    | exact Steps_get
    | exact KeepsCore_StoreError _ _
    | exact KeepsCore_ReadHandle _
    | exact KeepsCore_WriteHandle _ _
    | exact KeepsCore_NewHandle _
    | exact KeepsCore_Check _ _
    | exact KeepsCore_Retrieve _ _
    | exact KeepsCore_RetrieveKey _ _
    | exact KeepsCore_IsTag _ _
    | exact KeepsCore_CheckTaggedList _ _
    | exact KeepsCore_ExtraLookupValue _ _
    | exact KeepsCore_ListLength _
    | exact KeepsCore_ListAt _ _
    | exact KeepsCore_ListTag _
    | exact KeepsCore_SymbolValue _
    | exact KeepsCore_IntegerValue _
    | exact KeepsCore_BoolValue _
    | exact KeepsCore_BoundConstant _
    | exact KeepsCore_NewValue _
    | exact KeepsCore_SetReachingType _ _
    | exact KeepsCore_ParseUse _ _
    | exact hself _ _
    | apply Steps_ite
    | intro _
    | dsimp only
    | split

theorem KeepsCore_ParseValueWith (vm : VM) (self : DartValueParser)
    (hself : ∀ sexp out, Steps SameCore (self sexp out)) (sexp : Option SExpression) :
    Steps SameCore (ParseValueWith vm self sexp false) := by
  unfold ParseValueWith CheckSymbol
  split
  · exact Steps_fault _
  simp only [Bool.not_false, if_true]
  repeat' first
    | with_reducible apply Steps_bind
    | exact Steps_pure _
    | exact Steps_fault _
    | exact Steps_outOfFuel
    | exact Steps_get
    | exact KeepsCore_StoreError _ _
    | exact KeepsCore_ReadHandle _
    | exact KeepsCore_WriteHandle _ _
    | exact KeepsCore_NewHandle _
    | exact KeepsCore_Check _ _
    | exact KeepsCore_Retrieve _ _
    | exact KeepsCore_RetrieveKey _ _
    | exact KeepsCore_IsTag _ _
    | exact KeepsCore_CheckTaggedList _ _
    | exact KeepsCore_ExtraLookupValue _ _
    | exact KeepsCore_ListLength _
    | exact KeepsCore_ListAt _ _
    | exact KeepsCore_ListTag _
    | exact KeepsCore_SymbolValue _
    | exact KeepsCore_IntegerValue _
    | exact KeepsCore_BoolValue _
    | exact KeepsCore_BoundConstant _
    | exact KeepsCore_NewValue _
    | exact KeepsCore_SetReachingType _ _
    | exact KeepsCore_ParseUse _ _
    | exact hself _ _
    | exact KeepsCore_ParseCompileTypeWith vm self hself _
    | apply Steps_ite
    | intro _
    | dsimp only
    | split

theorem KeepsCore_ParseTypeArgumentsLoop (vm : VM) (self : DartValueParser)
    (hself : ∀ sexp out, Steps SameCore (self sexp out)) (list : SExpression)
    (out : Handle) (remaining : Nat) :
    ∀ i, Steps SameCore (ParseTypeArgumentsLoop vm self list out remaining i) := by
  induction remaining with
  | zero => intro i; exact Steps_pure _
  | succ n ih =>
    intro i
    unfold ParseTypeArgumentsLoop
    repeat' first
      | with_reducible apply Steps_bind
      | exact Steps_pure _
      | exact Steps_fault _
      | exact Steps_outOfFuel
      | exact Steps_get
      | exact KeepsCore_StoreError _ _
      | exact KeepsCore_ReadHandle _
      | exact KeepsCore_WriteHandle _ _
      | exact KeepsCore_NewHandle _
      | exact KeepsCore_Check _ _
      | exact KeepsCore_Retrieve _ _
      | exact KeepsCore_RetrieveKey _ _
      | exact KeepsCore_IsTag _ _
      | exact KeepsCore_CheckTaggedList _ _
      | exact KeepsCore_ExtraLookupValue _ _
      | exact KeepsCore_ListLength _
      | exact KeepsCore_ListAt _ _
      | exact KeepsCore_ListTag _
      | exact KeepsCore_SymbolValue _
      | exact KeepsCore_IntegerValue _
      | exact KeepsCore_BoolValue _
      | exact KeepsCore_BoundConstant _
      | exact KeepsCore_NewValue _
      | exact KeepsCore_SetReachingType _ _
      | exact KeepsCore_ParseUse _ _
      | exact hself _ _
      | exact ih _
      | apply Steps_ite
      | intro _
      | dsimp only
      | split

theorem KeepsCore_ParseImmutableListLoop (vm : VM) (self : DartValueParser)
    (hself : ∀ sexp out, Steps SameCore (self sexp out)) (list : SExpression)
    (arr : Handle) (remaining : Nat) :
    ∀ i, Steps SameCore (ParseImmutableListLoop vm self list arr remaining i) := by
  induction remaining with
  | zero => intro i; exact Steps_pure _
  | succ n ih =>
    intro i
    unfold ParseImmutableListLoop
    repeat' first
      | with_reducible apply Steps_bind
      | exact Steps_pure _
      | exact Steps_fault _
      | exact Steps_outOfFuel
      | exact Steps_get
      | exact KeepsCore_StoreError _ _
      | exact KeepsCore_ReadHandle _
      | exact KeepsCore_WriteHandle _ _
      | exact KeepsCore_NewHandle _
      | exact KeepsCore_Check _ _
      | exact KeepsCore_Retrieve _ _
      | exact KeepsCore_RetrieveKey _ _
      | exact KeepsCore_IsTag _ _
      | exact KeepsCore_CheckTaggedList _ _
      | exact KeepsCore_ExtraLookupValue _ _
      | exact KeepsCore_ListLength _
      | exact KeepsCore_ListAt _ _
      | exact KeepsCore_ListTag _
      | exact KeepsCore_SymbolValue _
      | exact KeepsCore_IntegerValue _
      | exact KeepsCore_BoolValue _
      | exact KeepsCore_BoundConstant _
      | exact KeepsCore_NewValue _
      | exact KeepsCore_SetReachingType _ _
      | exact KeepsCore_ParseUse _ _
      | exact hself _ _
      | exact ih _
      | apply Steps_ite
      | intro _
      | dsimp only
      | split

theorem KeepsCore_ParseInstanceFieldsLoop (vm : VM) (self : DartValueParser)
    (hself : ∀ sexp out, Steps SameCore (self sexp out)) (list : SExpression)
    (out : Handle) (entries : List (String × Option SExpression)) :
    Steps SameCore (ParseInstanceFieldsLoop vm self list out entries) := by
  induction entries with
  | nil => exact Steps_pure _
  | cons entry rest ih =>
    obtain ⟨key, value⟩ := entry
    unfold ParseInstanceFieldsLoop
    repeat' first
      | with_reducible apply Steps_bind
      | exact Steps_pure _
      | exact Steps_fault _
      | exact Steps_outOfFuel
      | exact Steps_get
      | exact KeepsCore_StoreError _ _
      | exact KeepsCore_ReadHandle _
      | exact KeepsCore_WriteHandle _ _
      | exact KeepsCore_NewHandle _
      | exact KeepsCore_Check _ _
      | exact KeepsCore_Retrieve _ _
      | exact KeepsCore_RetrieveKey _ _
      | exact KeepsCore_IsTag _ _
      | exact KeepsCore_CheckTaggedList _ _
      | exact KeepsCore_ExtraLookupValue _ _
      | exact KeepsCore_ListLength _
      | exact KeepsCore_ListAt _ _
      | exact KeepsCore_ListTag _
      | exact KeepsCore_SymbolValue _
      | exact KeepsCore_IntegerValue _
      | exact KeepsCore_BoolValue _
      | exact KeepsCore_BoundConstant _
      | exact KeepsCore_NewValue _
      | exact KeepsCore_SetReachingType _ _
      | exact KeepsCore_ParseUse _ _
      | exact hself _ _
      | exact ih
      | apply Steps_ite
      | apply Steps_modify
      | intro _
      | dsimp only
      | split
      | exact rfl

theorem KeepsCore_ParseInstanceWith (vm : VM) (self : DartValueParser)
    (hself : ∀ sexp out, Steps SameCore (self sexp out)) (list : SExpression)
    (out : Handle) : Steps SameCore (ParseInstanceWith vm self list out) := by
  unfold ParseInstanceWith CheckInteger
  repeat' first
    | with_reducible apply Steps_bind
    | exact Steps_pure _
    | exact Steps_fault _
    | exact Steps_outOfFuel
    | exact Steps_get
    | exact KeepsCore_StoreError _ _
    | exact KeepsCore_ReadHandle _
    | exact KeepsCore_WriteHandle _ _
    | exact KeepsCore_NewHandle _
    | exact KeepsCore_Check _ _
    | exact KeepsCore_Retrieve _ _
    | exact KeepsCore_RetrieveKey _ _
    | exact KeepsCore_IsTag _ _
    | exact KeepsCore_CheckTaggedList _ _
    | exact KeepsCore_ExtraLookupValue _ _
    | exact KeepsCore_ListLength _
    | exact KeepsCore_ListAt _ _
    | exact KeepsCore_ListTag _
    | exact KeepsCore_SymbolValue _
    | exact KeepsCore_IntegerValue _
    | exact KeepsCore_BoolValue _
    | exact KeepsCore_BoundConstant _
    | exact KeepsCore_NewValue _
    | exact KeepsCore_SetReachingType _ _
    | exact KeepsCore_ParseUse _ _
    | exact hself _ _
    | exact KeepsCore_ParseInstanceFieldsLoop vm self hself _ _ _
    | apply Steps_ite
    | apply Steps_modify
    | intro _
    | dsimp only
    | split
    | exact rfl

set_option maxHeartbeats 1000000 in
theorem KeepsCore_ParseCanonicalNameFunctions (vm : VM) (sym : Option SExpression)
    (name : List Char) (obj : Handle) (fuel : Nat) :
    ∀ func_start, Steps SameCore (ParseCanonicalNameFunctions vm sym name obj fuel func_start) := by
  induction fuel with
  | zero => intro func_start; exact Steps_outOfFuel
  | succ n ih =>
    intro func_start
    unfold ParseCanonicalNameFunctions
    repeat' first
      | with_reducible apply Steps_bind
      | exact Steps_pure _
      | exact Steps_fault _
      | exact Steps_outOfFuel
      | exact Steps_get
      | exact KeepsCore_StoreError _ _
      | exact KeepsCore_ReadHandle _
      | exact KeepsCore_WriteHandle _ _
      | exact KeepsCore_NewHandle _
      | exact ih _
      | apply Steps_ite
      | apply Steps_modify
      | intro _
      | dsimp only
      | split
      | exact rfl

set_option maxHeartbeats 1000000 in
theorem KeepsCore_ParseCanonicalName (vm : VM) (sym : Option SExpression) (obj : Handle) :
    Steps SameCore (ParseCanonicalName vm sym obj) := by
  unfold ParseCanonicalName
  repeat' first
    | with_reducible apply Steps_bind
    | exact Steps_pure _
    | exact Steps_fault _
    | exact Steps_outOfFuel
    | exact Steps_get
    | exact KeepsCore_StoreError _ _
    | exact KeepsCore_ReadHandle _
    | exact KeepsCore_WriteHandle _ _
    | exact KeepsCore_NewHandle _
    | exact KeepsCore_ParseCanonicalNameFunctions _ _ _ _ _ _
    | apply Steps_ite
    | apply Steps_modify
    | intro _
    | dsimp only
    | split
    | exact rfl

theorem KeepsCore_ParseDartValueFinish (vm : VM) (sexp : SExpression) (out : Handle) :
    Steps SameCore (ParseDartValueFinish vm sexp out) := by
  unfold ParseDartValueFinish
  repeat' first
    | with_reducible apply Steps_bind
    | exact Steps_pure _
    | exact Steps_fault _
    | exact Steps_outOfFuel
    | exact Steps_get
    | exact KeepsCore_StoreError _ _
    | exact KeepsCore_ReadHandle _
    | exact KeepsCore_WriteHandle _ _
    | exact KeepsCore_NewHandle _
    | apply Steps_ite
    | intro _
    | dsimp only
    | split

set_option maxHeartbeats 4000000 in
theorem KeepsCore_ParseDartValueWith (vm : VM) (self : DartValueParser)
    (hself : ∀ sexp out, Steps SameCore (self sexp out)) (sexp : Option SExpression)
    (out : Handle) : Steps SameCore (ParseDartValueWith vm self sexp out) := by
  unfold ParseDartValueWith CheckSymbol CheckInteger
  repeat' first
    | with_reducible apply Steps_bind
    | exact Steps_pure _
    | exact Steps_fault _
    | exact Steps_outOfFuel
    | exact Steps_get
    | exact KeepsCore_StoreError _ _
    | exact KeepsCore_ReadHandle _
    | exact KeepsCore_WriteHandle _ _
    | exact KeepsCore_NewHandle _
    | exact KeepsCore_Check _ _
    | exact KeepsCore_Retrieve _ _
    | exact KeepsCore_RetrieveKey _ _
    | exact KeepsCore_IsTag _ _
    | exact KeepsCore_CheckTaggedList _ _
    | exact KeepsCore_ExtraLookupValue _ _
    | exact KeepsCore_ListLength _
    | exact KeepsCore_ListAt _ _
    | exact KeepsCore_ListTag _
    | exact KeepsCore_SymbolValue _
    | exact KeepsCore_IntegerValue _
    | exact KeepsCore_BoolValue _
    | exact KeepsCore_BoundConstant _
    | exact KeepsCore_NewValue _
    | exact KeepsCore_SetReachingType _ _
    | exact KeepsCore_ParseUse _ _
    | exact hself _ _
    | exact KeepsCore_ParseValueWith vm self hself _
    | exact KeepsCore_ParseTypeArgumentsLoop vm self hself _ _ _ _
    | exact KeepsCore_ParseImmutableListLoop vm self hself _ _ _ _
    | exact KeepsCore_ParseInstanceWith vm self hself _ _
    | exact KeepsCore_ParseCanonicalName _ _ _
    | exact KeepsCore_ParseDartValueFinish _ _ _
    | apply Steps_ite
    | apply Steps_modify
    | intro _
    | dsimp only
    | split
    | exact rfl

theorem KeepsCore_ParseDartValue (vm : VM) (fuel : Nat) :
    ∀ sexp out, Steps SameCore (ParseDartValue vm fuel sexp out) := by
  induction fuel with
  | zero =>
    intro sexp out
    cases sexp
    · exact Steps_pure _
    · exact Steps_outOfFuel
  | succ n ih =>
    intro sexp out
    exact KeepsCore_ParseDartValueWith vm _ ih sexp out

theorem KeepsCore_ParseCompileType (vm : VM) (fuel : Nat) (sexp : SExpression) :
    Steps SameCore (ParseCompileType vm fuel sexp) :=
  KeepsCore_ParseCompileTypeWith vm _ (KeepsCore_ParseDartValue vm fuel) sexp

theorem KeepsCore_InstructionAt (instr : DefinitionPtr) :
    Steps SameCore (InstructionAt instr) := by
  constructor
  intro d b d1 h
  unfold InstructionAt at h
  split at h
  · cases h
    exact SameCore_refl d
  · cases h

theorem KeepsCore_StackContents (stack : StackPtr) : Steps SameCore (StackContents stack) := by
  constructor
  intro d b d1 h
  cases h
  exact SameCore_refl d

theorem KeepsCore_block_id (block : DefinitionPtr) : Steps SameCore (block_id block) := by
  unfold block_id
  repeat' first
    | with_reducible apply Steps_bind
    | exact Steps_pure _
    | exact Steps_fault _
    | exact Steps_outOfFuel
    | exact Steps_get
    | exact KeepsCore_StoreError _ _
    | exact KeepsCore_NewValue _
    | exact KeepsCore_Check _ _
    | exact KeepsCore_Retrieve _ _
    | exact KeepsCore_ExtraLookupValue _ _
    | exact KeepsCore_ListLength _
    | exact KeepsCore_IntegerValue _
    | exact KeepsCore_ParseSymbolAsPrefixedInt _ _ _
    | exact KeepsCore_InstructionAt _
    | apply Steps_ite
    | intro _
    | dsimp only
    | split

theorem KeepsCore_CurrentStack : Steps SameCore CurrentStack := by
  unfold CurrentStack
  repeat' first
    | with_reducible apply Steps_bind
    | exact Steps_pure _
    | exact Steps_fault _
    | exact Steps_outOfFuel
    | exact Steps_get
    | exact KeepsCore_StoreError _ _
    | exact KeepsCore_NewValue _
    | exact KeepsCore_Check _ _
    | exact KeepsCore_Retrieve _ _
    | exact KeepsCore_ExtraLookupValue _ _
    | exact KeepsCore_ListLength _
    | exact KeepsCore_IntegerValue _
    | exact KeepsCore_ParseSymbolAsPrefixedInt _ _ _
    | exact KeepsCore_block_id _
    | apply Steps_ite
    | intro _
    | dsimp only
    | split

theorem KeepsCore_ParseValue (vm : VM) (fuel : Nat) (sexp : Option SExpression) :
    Steps SameCore (ParseValue vm fuel sexp false) :=
  KeepsCore_ParseValueWith vm _ (KeepsCore_ParseDartValue vm fuel) sexp

theorem KeepsCore_ParseEnvironmentSlot (vm : VM) (fuel : Nat) (list : SExpression)
    (stack : StackPtr) (i : Int) : Steps SameCore (ParseEnvironmentSlot vm fuel list stack i) := by
  unfold ParseEnvironmentSlot CheckSymbol
  repeat' first
    | with_reducible apply Steps_bind
    | exact Steps_pure _
    | exact Steps_fault _
    | exact Steps_outOfFuel
    | exact Steps_get
    | exact KeepsCore_StoreError _ _
    | exact KeepsCore_NewValue _
    | exact KeepsCore_Check _ _
    | exact KeepsCore_Retrieve _ _
    | exact KeepsCore_ExtraLookupValue _ _
    | exact KeepsCore_ListLength _
    | exact KeepsCore_IntegerValue _
    | exact KeepsCore_ParseSymbolAsPrefixedInt _ _ _
    | exact KeepsCore_StackContents _
    | exact KeepsCore_ParseValue _ _ _
    | apply Steps_ite
    | intro _
    | dsimp only
    | split

theorem KeepsCore_ParseEnvironmentLoop (vm : VM) (fuel : Nat) (list : SExpression)
    (stack : StackPtr) (remaining : Nat) :
    ∀ i values, Steps SameCore (ParseEnvironmentLoop vm fuel list stack remaining i values) := by
  induction remaining with
  | zero => intro i values; exact Steps_pure _
  | succ n ih =>
    intro i values
    unfold ParseEnvironmentLoop
    repeat' first
      | with_reducible apply Steps_bind
      | exact Steps_pure _
      | exact Steps_fault _
      | exact Steps_outOfFuel
      | exact Steps_get
      | exact KeepsCore_StoreError _ _
      | exact KeepsCore_NewValue _
      | exact KeepsCore_Check _ _
      | exact KeepsCore_Retrieve _ _
      | exact KeepsCore_ExtraLookupValue _ _
      | exact KeepsCore_ListLength _
      | exact KeepsCore_IntegerValue _
      | exact KeepsCore_ParseSymbolAsPrefixedInt _ _ _
      | exact KeepsCore_ParseEnvironmentSlot _ _ _ _ _
      | exact ih _ _
      | apply Steps_ite
      | intro _
      | dsimp only
      | split

theorem KeepsCore_ParseEnvironmentWith (vm : VM) (fuel : Nat)
    (self : Option SExpression → Parse (Option Environment))
    (hself : ∀ list, Steps SameCore (self list)) (list : Option SExpression) :
    Steps SameCore (ParseEnvironmentWith vm fuel self list) := by
  unfold ParseEnvironmentWith CheckInteger CheckList
  repeat' first
    | with_reducible apply Steps_bind
    | exact Steps_pure _
    | exact Steps_fault _
    | exact Steps_outOfFuel
    | exact Steps_get
    | exact KeepsCore_StoreError _ _
    | exact KeepsCore_NewValue _
    | exact KeepsCore_Check _ _
    | exact KeepsCore_Retrieve _ _
    | exact KeepsCore_ExtraLookupValue _ _
    | exact KeepsCore_ListLength _
    | exact KeepsCore_IntegerValue _
    | exact KeepsCore_ParseSymbolAsPrefixedInt _ _ _
    | exact KeepsCore_CurrentStack
    | exact KeepsCore_ParseEnvironmentLoop _ _ _ _ _ _ _
    | exact hself _
    | apply Steps_ite
    | intro _
    | dsimp only
    | split

theorem KeepsCore_ParseEnvironment (vm : VM) (fuel : Nat) :
    ∀ list, Steps SameCore (ParseEnvironment vm fuel list) := by
  induction fuel with
  | zero =>
    intro list
    cases list
    · exact Steps_pure _
    · exact Steps_outOfFuel
  | succ n ih =>
    intro list
    exact KeepsCore_ParseEnvironmentWith vm _ _ ih list

/-! ## Steps within a block -/

theorem SameBlock_values (d : FlowGraphDeserializer) (m : IntMap (List ValuePtr)) :
    SameBlock d { d with values_map_ := m } :=
  ⟨Extends_of_tables (le_refl _) rfl rfl (List.prefix_refl _), rfl, rfl, rfl, rfl, rfl,
    fun _ _ _ _ => rfl⟩

theorem SameBlock_NewInstruction (instr : Instruction) :
    Steps SameBlock (NewInstruction instr) := by
  constructor
  intro d a d1 h
  cases h
  exact ⟨Extends_of_tables (le_refl _) rfl rfl (List.prefix_append _ _), rfl, rfl, rfl, rfl, rfl,
    fun _ _ _ _ => rfl⟩

theorem SameBlock_AddPendingValue (index : Int) (val : ValuePtr) :
    Steps SameBlock (AddPendingValue index val) := by
  constructor
  intro d a d1 h
  unfold AddPendingValue at h
  split at h
  · cases h
  · split at h <;> (cases h; exact SameBlock_values d _)

theorem SameBlock_stack_update (d : FlowGraphDeserializer) (stack : StackPtr)
    (contents : List DefinitionPtr) (h : StackOf d = some stack) :
    SameBlock d { d with zone_stacks := Function.update d.zone_stacks stack contents } :=
  ⟨Extends_of_tables (le_refl _) rfl rfl (List.prefix_refl _), rfl, rfl, rfl, rfl, rfl,
    fun current hc s hs => by
      rw [h] at hc
      cases hc
      exact Function.update_noteq hs _ _⟩

theorem SameBlock_push (push : DefinitionPtr) :
    Steps SameBlock
      (CurrentStack >>= fun stack =>
        (Parse.modify fun d =>
          { d with
            zone_stacks := Function.update d.zone_stacks stack (d.zone_stacks stack ++ [push]) })
          >>= fun _ => (pure (some push) : Parse (Option DefinitionPtr))) := by
  constructor
  intro d a d1 h
  obtain ⟨stack, d2, hs, h2⟩ := Parse.bind_ok h
  obtain ⟨hstack, hd⟩ := CurrentStack_StackOf d d2 stack hs
  subst d2
  obtain ⟨u, d3, hm, h3⟩ := Parse.bind_ok h2
  cases hm
  cases h3
  exact SameBlock_stack_update d stack _ hstack

theorem SameBlock_FetchPushedArguments (list : Option SExpression) (len : Int) :
    Steps SameBlock (FetchPushedArguments list len) := by
  constructor
  intro d a d1 h
  unfold FetchPushedArguments at h
  obtain ⟨stack, d2, hs, h2⟩ := Parse.bind_ok h
  obtain ⟨hstack, hd⟩ := CurrentStack_StackOf d d2 stack hs
  subst d2
  obtain ⟨contents, d3, hc, h3⟩ := Parse.bind_ok h2
  cases hc
  dsimp only at h3
  split at h3
  · obtain ⟨u, d4, he, h4⟩ := Parse.bind_ok h3
    cases he
    cases h4
    exact SameBlock_of_SameCore rfl
  · obtain ⟨u, d4, he, h4⟩ := Parse.bind_ok h3
    cases he
    split at h4
    · cases h4
    · obtain ⟨u2, d5, hm, h5⟩ := Parse.bind_ok h4
      cases hm
      cases h5
      exact SameBlock_stack_update d stack _ hstack

theorem SameBlock_bind_definition (index : Int) (definition : DefinitionPtr)
    (d : FlowGraphDeserializer) (hfresh : d.definition_map_.HasKey index = false)
    (hmax : index ≤ d.max_ssa_index_) :
    SameBlock d { d with definition_map_ := d.definition_map_.Insert index definition } := by
  refine ⟨⟨le_refl _, le_refl _, ?_, List.prefix_refl _, ?_⟩, rfl, rfl, rfl, rfl, rfl,
    fun _ _ _ _ => rfl⟩
  · intro k v hk
    have hne : index ≠ k := by
      intro heq
      subst heq
      simp [IntMap.HasKey, hk] at hfresh
    show (d.definition_map_.Insert index definition).LookupValue k = some v
    rw [IntMap.LookupValue_Insert_other _ _ _ _ hne]
    exact hk
  · intro hb k hk
    rcases (IntMap.HasKey_Insert _ _ _ _).mp hk with heq | hk2
    · subst heq
      exact hmax
    · exact hb k hk2

theorem ParseDefinitionWithParsedBody_parts (vm : VM) (fuel : Nat)
    (list : Option SExpression) (definition : DefinitionPtr) :
    ParseDefinitionWithParsedBody vm fuel list definition =
      (do
        let name_sexp ← CheckSymbol (← Retrieve list 1)
        if name_sexp.isNone then return false
        match ← ParseSSATemp vm name_sexp with
        | some index =>
          if (← Parse.get).definition_map_.HasKey index then
            StoreError list "multiple definitions for the same SSA index"
            return false
          Parse.modify fun d =>
            { d with ssa_temp_index_ := Function.update d.ssa_temp_index_ definition index }
          if index > (← Parse.get).max_ssa_index_ then
            Parse.modify fun d => { d with max_ssa_index_ := index }
          BindDefinition vm fuel list definition index
        | none =>
          StoreError list "unhandled name for definition"
          return false) := by
  simp only [ParseDefinitionWithParsedBody, BindDefinition, Parse.bind_assoc, Parse.pure_bind]
  repeat' first
    | rfl
    | (apply Parse.bind_congr; intro _)
    | (split <;> first | contradiction | (rename_i h; injection h with h2; subst h2) | skip)
    | simp only [Parse.bind_assoc, Parse.pure_bind, Bool.not_true, Bool.not_false,
        Bool.false_eq_true, if_false, if_true]

theorem SameBlock_BindTo (val : ValuePtr) (definition : DefinitionPtr) :
    Steps SameBlock (BindTo val definition) :=
  Steps_modify _ (fun _ => SameBlock_of_SameCore rfl)

theorem SameBlock_BindAll (definition : DefinitionPtr) (value_list : List ValuePtr) :
    Steps SameBlock (BindAll definition value_list) := by
  induction value_list with
  | nil => exact Steps_pure _
  | cons val rest ih =>
    unfold BindAll
    exact Steps_bind (SameBlock_BindTo _ _) (fun _ => ih)

theorem SameBlock_FixPendingValues (index : Int) (definition : DefinitionPtr) :
    Steps SameBlock (FixPendingValues index definition) := by
  unfold FixPendingValues
  repeat' first
    | with_reducible apply Steps_bind
    | exact Steps_pure _
    | exact Steps_get
    | exact SameBlock_BindAll _ _
    | exact Steps_modify _ (fun d => SameBlock_values d _)
    | intro _
    | dsimp only
    | split

theorem SameBlock_FixPendingValues_tail (index : Int) (definition : DefinitionPtr)
    (d : FlowGraphDeserializer) (hfresh : d.definition_map_.HasKey index = false)
    (hmax : index ≤ d.max_ssa_index_) (r : Bool) (d1 : FlowGraphDeserializer)
    (hbind : Steps SameBlock (FixPendingValues index definition))
    (h : ((Parse.modify fun d =>
          { d with definition_map_ := d.definition_map_.Insert index definition }) >>= fun _ =>
        FixPendingValues index definition >>= fun _ => pure true) d = .ok r d1) :
    SameBlock d d1 := by
  obtain ⟨u, d2, hm, h2⟩ := Parse.bind_ok h
  cases hm
  obtain ⟨u2, d3, hf, h3⟩ := Parse.bind_ok h2
  cases h3
  exact SameBlock_trans (SameBlock_bind_definition index definition d hfresh hmax)
    (hbind.post _ _ _ hf)

theorem SameBlock_BindDefinition (vm : VM) (fuel : Nat) (list : Option SExpression)
    (definition : DefinitionPtr) (index : Int) (d : FlowGraphDeserializer)
    (hfresh : d.definition_map_.HasKey index = false) (hmax : index ≤ d.max_ssa_index_)
    (r : Bool) (d1 : FlowGraphDeserializer)
    (h : BindDefinition vm fuel list definition index d = .ok r d1) : SameBlock d d1 := by
  have htail : ∀ (d2 : FlowGraphDeserializer), SameCore d d2 →
      ((Parse.modify fun d =>
          { d with definition_map_ := d.definition_map_.Insert index definition }) >>= fun _ =>
        FixPendingValues index definition >>= fun _ => pure true) d2 = .ok r d1 →
      SameBlock d d1 := by
    intro d2 hc ht
    obtain ⟨-, h2, -, h4, -⟩ := SameCore_fields hc
    exact SameBlock_trans (SameBlock_of_SameCore hc)
      (SameBlock_FixPendingValues_tail index definition d2 (by rw [h2]; exact hfresh)
        (by rw [h4]; exact hmax) r d1 (SameBlock_FixPendingValues index definition) ht)
  unfold BindDefinition at h
  cases list with
  | none => cases h
  | some l =>
    dsimp only at h
    obtain ⟨e1, da, h1, k1⟩ := Parse.bind_ok h
    have c1 := (KeepsCore_ExtraLookupValue _ _).post _ _ _ h1
    obtain ⟨type_sexp, db, h2, k2⟩ := Parse.bind_ok k1
    have c2 := SameCore_trans c1 ((KeepsCore_CheckTaggedList _ _).post _ _ _ h2)
    cases type_sexp with
    | none =>
      dsimp only at k2
      obtain ⟨u, dc, hu, k3⟩ := Parse.bind_ok k2
      cases hu
      exact htail _ c2 k3
    | some t =>
      dsimp only at k2
      obtain ⟨typ, dc, h3, k3⟩ := Parse.bind_ok k2
      have c3 := SameCore_trans c2 ((KeepsCore_ParseCompileType _ _ _).post _ _ _ h3)
      cases typ with
      | none =>
        cases k3
        exact SameBlock_of_SameCore c3
      | some ty =>
        dsimp only at k3
        obtain ⟨u, de, hm, k4⟩ := Parse.bind_ok k3
        cases hm
        refine htail _ ?_ k4
        exact SameCore_trans c3 rfl

theorem SameBlock_ParseDefinitionWithParsedBody (vm : VM) (fuel : Nat)
    (list : Option SExpression) (definition : DefinitionPtr) :
    Steps SameBlock (ParseDefinitionWithParsedBody vm fuel list definition) := by
  constructor
  intro d r d1 h
  rw [ParseDefinitionWithParsedBody_parts] at h
  obtain ⟨e1, da, h1, k1⟩ := Parse.bind_ok h
  have c1 := (KeepsCore_Retrieve _ _).post _ _ _ h1
  obtain ⟨name, db, h2, k2⟩ := Parse.bind_ok k1
  have c2 := SameCore_trans c1 ((KeepsCore_Check _ _).post _ _ _ h2)
  dsimp only at k2
  split at k2
  · cases k2
    exact SameBlock_of_SameCore c2
  · obtain ⟨u, dc, hu, k3⟩ := Parse.bind_ok k2
    cases hu
    obtain ⟨idx, dd, h3, k4⟩ := Parse.bind_ok k3
    have c3 := SameCore_trans c2 ((KeepsCore_ParseSymbolAsPrefixedInt _ _ _).post _ _ _ h3)
    cases idx with
    | none =>
      dsimp only at k4
      obtain ⟨u2, de, he, k5⟩ := Parse.bind_ok k4
      cases he
      cases k5
      exact SameBlock_of_SameCore c3
    | some index =>
      dsimp only at k4
      obtain ⟨d0, de, hg, k5⟩ := Parse.bind_ok k4
      cases hg
      split at k5
      · obtain ⟨u2, df, he, k6⟩ := Parse.bind_ok k5
        cases he
        cases k6
        exact SameBlock_of_SameCore c3
      · rename_i hfresh
        obtain ⟨u3, dg, hu3, k6⟩ := Parse.bind_ok k5
        cases hu3
        obtain ⟨u4, dh, hm, k7⟩ := Parse.bind_ok k6
        cases hm
        obtain ⟨d00, di, hg2, k8⟩ := Parse.bind_ok k7
        cases hg2
        obtain ⟨-, hdef, -, hmaxeq, -⟩ := SameCore_fields c3
        have hfresh2 : dd.definition_map_.HasKey index = false := by
          simpa using hfresh
        split at k8
        · rename_i hgt
          obtain ⟨u5, dj, hm2, k9⟩ := Parse.bind_ok k8
          cases hm2
          refine SameBlock_trans (SameBlock_of_SameCore c3) (SameBlock_trans ?_
            (SameBlock_BindDefinition vm fuel list definition index _ ?_ ?_ r d1 k9))
          · exact ⟨⟨le_refl _, le_of_lt hgt, fun _ _ hk => hk, List.prefix_refl _,
              fun hb k hk => le_trans (hb k hk) (le_of_lt hgt)⟩, rfl, rfl, rfl, rfl, rfl,
              fun _ _ _ _ => rfl⟩
          · exact hfresh2
          · exact le_refl _
        · rename_i hle
          obtain ⟨u5, dj, hm2, k9⟩ := Parse.bind_ok k8
          cases hm2
          refine SameBlock_trans (SameBlock_of_SameCore c3) (SameBlock_trans ?_
            (SameBlock_BindDefinition vm fuel list definition index _ ?_ ?_ r d1 k9))
          · exact SameBlock_of_SameCore rfl
          · exact hfresh2
          · exact le_of_not_lt hle
theorem SameBlock_PredecessorCount (block : DefinitionPtr) :
    Steps SameBlock (PredecessorCount block) := by
  constructor
  intro d a d1 h
  cases h
  exact SameBlock_refl d

theorem SameBlock_PredecessorAt (block : DefinitionPtr) (index : Int) :
    Steps SameBlock (PredecessorAt block index) := by
  constructor
  intro d a d1 h
  unfold PredecessorAt at h
  split at h
  · cases h
    exact SameBlock_refl d
  · cases h

theorem SameBlock_AppendInstruction (last_inst inst : DefinitionPtr) :
    Steps SameBlock (AppendInstruction last_inst inst) := by
  unfold AppendInstruction
  repeat' first
    | with_reducible apply Steps_bind
    | exact Steps_pure _
    | exact Steps_fault _
    | exact Steps_outOfFuel
    | exact Steps_get
    | exact Steps_modify _ (fun _ => SameBlock_of_SameCore rfl)
    | apply Steps_ite
    | intro _
    | dsimp only
    | split

theorem SameBlock_DeepCopyTo (env : Environment) (inst : DefinitionPtr) :
    Steps SameBlock (DeepCopyTo env inst) := by
  unfold DeepCopyTo
  repeat' first
    | with_reducible apply Steps_bind
    | exact Steps_pure _
    | exact Steps_fault _
    | exact Steps_outOfFuel
    | exact Steps_get
    | exact Steps_modify _ (fun _ => SameBlock_of_SameCore rfl)
    | apply Steps_ite
    | intro _
    | dsimp only
    | split

theorem SameBlock_AddPredecessor (block pred : DefinitionPtr) :
    Steps SameBlock (AddPredecessor block pred) := by
  unfold AddPredecessor
  repeat' first
    | with_reducible apply Steps_bind
    | exact Steps_pure _
    | exact Steps_fault _
    | exact Steps_outOfFuel
    | exact Steps_get
    | exact Steps_modify _ (fun _ => SameBlock_of_SameCore rfl)
    | apply Steps_ite
    | intro _
    | dsimp only
    | split

theorem SameBlock_IsComparison (inst : DefinitionPtr) :
    Steps SameBlock (IsComparison inst) := by
  unfold IsComparison
  repeat' first
    | with_reducible apply Steps_bind
    | exact Steps_pure _
    | exact Steps_fault _
    | exact Steps_outOfFuel
    | exact Steps_get
    | exact Steps_block (KeepsCore_InstructionAt _)
    | exact Steps_modify _ (fun _ => SameBlock_of_SameCore rfl)
    | apply Steps_ite
    | intro _
    | dsimp only
    | split

theorem SameBlock_IsTargetEntry (block : DefinitionPtr) :
    Steps SameBlock (IsTargetEntry block) := by
  unfold IsTargetEntry
  repeat' first
    | with_reducible apply Steps_bind
    | exact Steps_pure _
    | exact Steps_fault _
    | exact Steps_outOfFuel
    | exact Steps_get
    | exact Steps_block (KeepsCore_InstructionAt _)
    | exact Steps_modify _ (fun _ => SameBlock_of_SameCore rfl)
    | apply Steps_ite
    | intro _
    | dsimp only
    | split

theorem SameBlock_IsJoinEntry (block : DefinitionPtr) :
    Steps SameBlock (IsJoinEntry block) := by
  unfold IsJoinEntry
  repeat' first
    | with_reducible apply Steps_bind
    | exact Steps_pure _
    | exact Steps_fault _
    | exact Steps_outOfFuel
    | exact Steps_get
    | exact Steps_block (KeepsCore_InstructionAt _)
    | exact Steps_modify _ (fun _ => SameBlock_of_SameCore rfl)
    | apply Steps_ite
    | intro _
    | dsimp only
    | split

theorem SameBlock_IsDefinition (inst : DefinitionPtr) :
    Steps SameBlock (IsDefinition inst) := by
  unfold IsDefinition
  repeat' first
    | with_reducible apply Steps_bind
    | exact Steps_pure _
    | exact Steps_fault _
    | exact Steps_outOfFuel
    | exact Steps_get
    | exact Steps_block (KeepsCore_InstructionAt _)
    | exact Steps_modify _ (fun _ => SameBlock_of_SameCore rfl)
    | apply Steps_ite
    | intro _
    | dsimp only
    | split

theorem SameBlock_SuccessorCount (instr : DefinitionPtr) :
    Steps SameBlock (SuccessorCount instr) := by
  unfold SuccessorCount
  repeat' first
    | with_reducible apply Steps_bind
    | exact Steps_pure _
    | exact Steps_fault _
    | exact Steps_outOfFuel
    | exact Steps_get
    | exact Steps_block (KeepsCore_InstructionAt _)
    | exact Steps_modify _ (fun _ => SameBlock_of_SameCore rfl)
    | apply Steps_ite
    | intro _
    | dsimp only
    | split

theorem SameBlock_SuccessorAt (instr : DefinitionPtr) (index : Int) :
    Steps SameBlock (SuccessorAt instr index) := by
  unfold SuccessorAt
  repeat' first
    | with_reducible apply Steps_bind
    | exact Steps_pure _
    | exact Steps_fault _
    | exact Steps_outOfFuel
    | exact Steps_get
    | exact Steps_block (KeepsCore_InstructionAt _)
    | exact Steps_modify _ (fun _ => SameBlock_of_SameCore rfl)
    | apply Steps_ite
    | intro _
    | dsimp only
    | split

theorem SameBlock_PushedIndex (push : DefinitionPtr) :
    Steps SameBlock (PushedIndex push) := by
  unfold PushedIndex
  repeat' first
    | with_reducible apply Steps_bind
    | exact Steps_pure _
    | exact Steps_fault _
    | exact Steps_outOfFuel
    | exact Steps_get
    | exact Steps_block (KeepsCore_InstructionAt _)
    | exact Steps_modify _ (fun _ => SameBlock_of_SameCore rfl)
    | apply Steps_ite
    | intro _
    | dsimp only
    | split

theorem SameBlock_TagSymbol (list : SExpression) :
    Steps SameBlock (TagSymbol list) := by
  unfold TagSymbol
  repeat' first
    | with_reducible apply Steps_bind
    | exact Steps_pure _
    | exact Steps_fault _
    | exact Steps_outOfFuel
    | exact Steps_get
    | exact Steps_block (KeepsCore_ListAt _ _)
    | exact Steps_modify _ (fun _ => SameBlock_of_SameCore rfl)
    | apply Steps_ite
    | intro _
    | dsimp only
    | split

theorem SameBlock_HandledInstructionForTag (tag : Option SExpression) :
    Steps SameBlock (HandledInstructionForTag tag) := by
  unfold HandledInstructionForTag
  repeat' first
    | with_reducible apply Steps_bind
    | exact Steps_pure _
    | exact Steps_fault _
    | exact Steps_outOfFuel
    | exact Steps_get
    | exact Steps_modify _ (fun _ => SameBlock_of_SameCore rfl)
    | apply Steps_ite
    | intro _
    | dsimp only
    | split

theorem SameBlock_FetchBlock (vm : VM) (sym : Option SExpression) :
    Steps SameBlock (FetchBlock vm sym) := by
  unfold FetchBlock ParseBlockId
  repeat' first
    | with_reducible apply Steps_bind
    | exact Steps_pure _
    | exact Steps_fault _
    | exact Steps_outOfFuel
    | exact Steps_get
    | exact Steps_block (KeepsCore_StoreError _ _)
    | exact Steps_block (KeepsCore_ParseSymbolAsPrefixedInt _ _ _)
    | exact Steps_modify _ (fun _ => SameBlock_of_SameCore rfl)
    | apply Steps_ite
    | intro _
    | dsimp only
    | split

theorem SameBlock_AddNewPendingValue (index : Int) :
    Steps SameBlock (AddNewPendingValue index) := by
  unfold AddNewPendingValue
  repeat' first
    | with_reducible apply Steps_bind
    | exact Steps_pure _
    | exact Steps_fault _
    | exact Steps_outOfFuel
    | exact Steps_get
    | exact SameBlock_AddPendingValue _ _
    | exact Steps_block (KeepsCore_NewValue _)
    | exact Steps_modify _ (fun _ => SameBlock_of_SameCore rfl)
    | apply Steps_ite
    | intro _
    | dsimp only
    | split

theorem SameBlock_ParseValueWith (vm : VM) (self : DartValueParser)
    (hself : ∀ sexp out, Steps SameCore (self sexp out)) (sexp : Option SExpression)
    (allow_pending : Bool) :
    Steps SameBlock (ParseValueWith vm self sexp allow_pending) := by
  unfold ParseValueWith CheckSymbol ParseUse ParseSSATemp
  repeat' first
    | with_reducible apply Steps_bind
    | exact Steps_pure _
    | exact Steps_fault _
    | exact Steps_outOfFuel
    | exact Steps_get
    | exact SameBlock_AddNewPendingValue _
    | exact Steps_block (KeepsCore_ParseCompileTypeWith vm self hself _)
    | exact Steps_block (KeepsCore_StoreError _ _)
    | exact Steps_block (KeepsCore_Check _ _)
    | exact Steps_block (KeepsCore_Retrieve _ _)
    | exact Steps_block (KeepsCore_CheckTaggedList _ _)
    | exact Steps_block (KeepsCore_ExtraLookupValue _ _)
    | exact Steps_block (KeepsCore_ParseSymbolAsPrefixedInt _ _ _)
    | exact Steps_block (KeepsCore_NewValue _)
    | exact Steps_block (KeepsCore_SetReachingType _ _)
    | exact Steps_modify _ (fun _ => SameBlock_of_SameCore rfl)
    | apply Steps_ite
    | intro _
    | dsimp only
    | split

theorem SameBlock_ParseValue (vm : VM) (fuel : Nat) (sexp : Option SExpression)
    (allow_pending : Bool) : Steps SameBlock (ParseValue vm fuel sexp allow_pending) :=
  SameBlock_ParseValueWith vm _ (KeepsCore_ParseDartValue vm fuel) sexp allow_pending

theorem SameBlock_CompareStacks (list : SExpression) (pred_block : DefinitionPtr)
    (pred : List DefinitionPtr) :
    ∀ curr i, Steps SameBlock (CompareStacks list pred_block pred curr i) := by
  induction pred with
  | nil =>
    intro curr i
    unfold CompareStacks
    exact Steps_pure _
  | cons p pred_rest ih =>
    intro curr i
    cases curr with
    | nil =>
      unfold CompareStacks
      exact Steps_pure _
    | cons c curr_rest =>
      unfold CompareStacks
      repeat' first
        | with_reducible apply Steps_bind
        | exact Steps_pure _
        | exact Steps_fault _
        | exact Steps_outOfFuel
        | exact Steps_get
        | exact ih _ _
        | exact SameBlock_PushedIndex _
        | exact Steps_block (KeepsCore_StoreError _ _)
        | exact Steps_block (KeepsCore_ListAt _ _)
        | exact Steps_block (KeepsCore_block_id _)
        | exact Steps_modify _ (fun _ => SameBlock_of_SameCore rfl)
        | apply Steps_ite
        | intro _
        | dsimp only
        | split

theorem SameBlock_AreStacksConsistentLoop (list : SExpression) (curr : List DefinitionPtr)
    (succ_block : DefinitionPtr) (remaining : Nat) :
    ∀ i, Steps SameBlock (AreStacksConsistentLoop list curr succ_block remaining i) := by
  induction remaining with
  | zero => intro i; exact Steps_pure _
  | succ n ih =>
    intro i
    unfold AreStacksConsistentLoop
    repeat' first
      | with_reducible apply Steps_bind
      | exact Steps_pure _
      | exact Steps_fault _
      | exact Steps_outOfFuel
      | exact Steps_get
      | exact ih _
      | exact SameBlock_PredecessorAt _ _
      | exact SameBlock_CompareStacks _ _ _ _ _
      | exact Steps_block (KeepsCore_StoreError _ _)
      | exact Steps_block (KeepsCore_ListAt _ _)
      | exact Steps_block (KeepsCore_StackContents _)
      | exact Steps_block (KeepsCore_block_id _)
      | exact Steps_modify _ (fun _ => SameBlock_of_SameCore rfl)
      | apply Steps_ite
      | intro _
      | dsimp only
      | split

theorem SameBlock_AreStacksConsistent (list : SExpression) (curr_stack : StackPtr)
    (succ_block : DefinitionPtr) :
    Steps SameBlock (AreStacksConsistent list curr_stack succ_block) := by
  unfold AreStacksConsistent
  repeat' first
    | with_reducible apply Steps_bind
    | exact Steps_pure _
    | exact Steps_fault _
    | exact Steps_outOfFuel
    | exact Steps_get
    | exact SameBlock_AreStacksConsistentLoop _ _ _ _ _
    | exact SameBlock_SuccessorCount _
    | exact Steps_block (KeepsCore_StackContents _)
    | exact Steps_modify _ (fun _ => SameBlock_of_SameCore rfl)
    | apply Steps_ite
    | intro _
    | dsimp only
    | split

theorem SameBlock_DeserializeReturn (vm : VM) (fuel : Nat) (list : Option SExpression)
    (info : InstrInfo) :
    Steps SameBlock (DeserializeReturn vm fuel list info) := by
  unfold DeserializeReturn
  repeat' first
    | with_reducible apply Steps_bind
    | exact Steps_pure _
    | exact Steps_fault _
    | exact Steps_outOfFuel
    | exact Steps_get
    | exact SameBlock_ParseValue _ _ _ _
    | exact SameBlock_NewInstruction _
    | exact Steps_block (KeepsCore_Retrieve _ _)
    | exact Steps_modify _ (fun _ => SameBlock_of_SameCore rfl)
    | apply Steps_ite
    | intro _
    | dsimp only
    | split

theorem SameBlock_DeserializeStrictCompare (vm : VM) (fuel : Nat) (sexp : Option SExpression)
    (info : InstrInfo) :
    Steps SameBlock (DeserializeStrictCompare vm fuel sexp info) := by
  unfold DeserializeStrictCompare CheckSymbol CheckBool
  repeat' first
    | with_reducible apply Steps_bind
    | exact Steps_pure _
    | exact Steps_fault _
    | exact Steps_outOfFuel
    | exact Steps_get
    | exact SameBlock_ParseValue _ _ _ _
    | exact SameBlock_NewInstruction _
    | exact Steps_block (KeepsCore_StoreError _ _)
    | exact Steps_block (KeepsCore_Check _ _)
    | exact Steps_block (KeepsCore_Retrieve _ _)
    | exact Steps_block (KeepsCore_RetrieveKey _ _)
    | exact Steps_block (KeepsCore_SymbolValue _)
    | exact Steps_block (KeepsCore_BoolValue _)
    | exact Steps_modify _ (fun _ => SameBlock_of_SameCore rfl)
    | apply Steps_ite
    | intro _
    | dsimp only
    | split

theorem SameBlock_DeserializeBranchWith (vm : VM)
    (self : Option SExpression → Parse (Option DefinitionPtr))
    (hself : ∀ sexp, Steps SameBlock (self sexp)) (sexp : Option SExpression)
    (info : InstrInfo) :
    Steps SameBlock (DeserializeBranchWith vm self sexp info) := by
  unfold DeserializeBranchWith CheckSymbol
  repeat' first
    | with_reducible apply Steps_bind
    | exact Steps_pure _
    | exact Steps_fault _
    | exact Steps_outOfFuel
    | exact Steps_get
    | exact hself _
    | exact SameBlock_NewInstruction _
    | exact SameBlock_FetchBlock _ _
    | exact SameBlock_IsComparison _
    | exact SameBlock_IsTargetEntry _
    | exact Steps_block (KeepsCore_StoreError _ _)
    | exact Steps_block (KeepsCore_Check _ _)
    | exact Steps_block (KeepsCore_Retrieve _ _)
    | exact Steps_block (KeepsCore_CheckTaggedList _ _)
    | exact Steps_block (KeepsCore_ListAt _ _)
    | exact Steps_modify _ (fun _ => SameBlock_of_SameCore rfl)
    | apply Steps_ite
    | intro _
    | dsimp only
    | split

theorem SameBlock_DeserializeGoto (vm : VM) (sexp : Option SExpression) (info : InstrInfo) :
    Steps SameBlock (DeserializeGoto vm sexp info) := by
  unfold DeserializeGoto CheckSymbol
  repeat' first
    | with_reducible apply Steps_bind
    | exact Steps_pure _
    | exact Steps_fault _
    | exact Steps_outOfFuel
    | exact Steps_get
    | exact SameBlock_NewInstruction _
    | exact SameBlock_FetchBlock _ _
    | exact SameBlock_IsJoinEntry _
    | exact Steps_block (KeepsCore_StoreError _ _)
    | exact Steps_block (KeepsCore_Check _ _)
    | exact Steps_block (KeepsCore_Retrieve _ _)
    | exact Steps_block (KeepsCore_ListAt _ _)
    | exact Steps_modify _ (fun _ => SameBlock_of_SameCore rfl)
    | apply Steps_ite
    | intro _
    | dsimp only
    | split

theorem SameBlock_DeserializeCheckStackOverflow (sexp : SExpression) (info : InstrInfo) :
    Steps SameBlock (DeserializeCheckStackOverflow sexp info) := by
  unfold DeserializeCheckStackOverflow CheckInteger CheckSymbol
  repeat' first
    | with_reducible apply Steps_bind
    | exact Steps_pure _
    | exact Steps_fault _
    | exact Steps_outOfFuel
    | exact Steps_get
    | exact SameBlock_NewInstruction _
    | exact Steps_block (KeepsCore_Check _ _)
    | exact Steps_block (KeepsCore_ExtraLookupValue _ _)
    | exact Steps_block (KeepsCore_SymbolValue _)
    | exact Steps_block (KeepsCore_IntegerValue _)
    | exact Steps_modify _ (fun _ => SameBlock_of_SameCore rfl)
    | apply Steps_ite
    | intro _
    | dsimp only
    | split

theorem SameBlock_DeserializeConstant (vm : VM) (fuel : Nat) (sexp : Option SExpression)
    (info : InstrInfo) :
    Steps SameBlock (DeserializeConstant vm fuel sexp info) := by
  unfold DeserializeConstant
  repeat' first
    | with_reducible apply Steps_bind
    | exact Steps_pure _
    | exact Steps_fault _
    | exact Steps_outOfFuel
    | exact Steps_get
    | exact SameBlock_NewInstruction _
    | exact Steps_block (KeepsCore_Retrieve _ _)
    | exact Steps_block (KeepsCore_NewHandle _)
    | exact Steps_block (KeepsCore_ReadHandle _)
    | exact Steps_block (KeepsCore_ParseDartValue _ _ _ _)
    | exact Steps_modify _ (fun _ => SameBlock_of_SameCore rfl)
    | apply Steps_ite
    | intro _
    | dsimp only
    | split

theorem SameBlock_DeserializeParameter (sexp : Option SExpression) (info : InstrInfo) :
    Steps SameBlock (DeserializeParameter sexp info) := by
  unfold DeserializeParameter CheckInteger
  repeat' first
    | with_reducible apply Steps_bind
    | exact Steps_pure _
    | exact Steps_fault _
    | exact Steps_outOfFuel
    | exact Steps_get
    | exact SameBlock_NewInstruction _
    | exact Steps_block (KeepsCore_Check _ _)
    | exact Steps_block (KeepsCore_Retrieve _ _)
    | exact Steps_block (KeepsCore_IntegerValue _)
    | exact Steps_modify _ (fun _ => SameBlock_of_SameCore rfl)
    | apply Steps_ite
    | intro _
    | dsimp only
    | split

theorem SameBlock_DeserializePushArgument (vm : VM) (fuel : Nat) (sexp : Option SExpression)
    (info : InstrInfo) :
    Steps SameBlock (DeserializePushArgument vm fuel sexp info) := by
  unfold DeserializePushArgument
  repeat' first
    | exact Steps_pure _
    | exact Steps_fault _
    | exact Steps_outOfFuel
    | exact Steps_get
    | exact SameBlock_push _
    | exact SameBlock_ParseValue _ _ _ _
    | exact SameBlock_NewInstruction _
    | exact Steps_block (KeepsCore_Retrieve _ _)
    | exact Steps_modify _ (fun _ => SameBlock_of_SameCore rfl)
    | apply Steps_bind
    | apply Steps_ite
    | intro _
    | dsimp only
    | split

theorem SameBlock_DeserializeSpecialParameter (vm : VM) (sexp : Option SExpression) (info : InstrInfo) :
    Steps SameBlock (DeserializeSpecialParameter vm sexp info) := by
  unfold DeserializeSpecialParameter CheckSymbol
  repeat' first
    | with_reducible apply Steps_bind
    | exact Steps_pure _
    | exact Steps_fault _
    | exact Steps_outOfFuel
    | exact Steps_get
    | exact SameBlock_NewInstruction _
    | exact Steps_block (KeepsCore_StoreError _ _)
    | exact Steps_block (KeepsCore_Check _ _)
    | exact Steps_block (KeepsCore_Retrieve _ _)
    | exact Steps_block (KeepsCore_SymbolValue _)
    | exact Steps_modify _ (fun _ => SameBlock_of_SameCore rfl)
    | apply Steps_ite
    | intro _
    | dsimp only
    | split

theorem SameBlock_ParseArgumentNamesLoop (vm : VM) (arg_names_sexp : SExpression)
    (argument_names : Handle) (remaining : Nat) :
    ∀ i, Steps SameBlock (ParseArgumentNamesLoop vm arg_names_sexp argument_names remaining i) := by
  induction remaining with
  | zero => intro i; exact Steps_pure _
  | succ n ih =>
    intro i
    unfold ParseArgumentNamesLoop CheckString
    repeat' first
      | with_reducible apply Steps_bind
      | exact Steps_pure _
      | exact Steps_fault _
      | exact Steps_outOfFuel
      | exact Steps_get
      | exact ih _
      | exact Steps_block (KeepsCore_Check _ _)
      | exact Steps_block (KeepsCore_Retrieve _ _)
      | exact Steps_block (KeepsCore_ReadHandle _)
      | exact Steps_block (KeepsCore_WriteHandle _ _)
      | exact Steps_modify _ (fun _ => SameBlock_of_SameCore rfl)
      | apply Steps_ite
      | intro _
      | dsimp only
      | split

set_option maxHeartbeats 4000000 in
theorem SameBlock_DeserializeStaticCall (vm : VM) (fuel : Nat) (sexp : SExpression) (info : InstrInfo) :
    Steps SameBlock (DeserializeStaticCall vm fuel sexp info) := by
  unfold DeserializeStaticCall CheckInteger CheckList CheckSymbol
  repeat' first
    | with_reducible apply Steps_bind
    | exact Steps_pure _
    | exact Steps_fault _
    | exact Steps_outOfFuel
    | exact Steps_get
    | exact SameBlock_NewInstruction _
    | exact SameBlock_FetchPushedArguments _ _
    | exact SameBlock_ParseArgumentNamesLoop _ _ _ _ _
    | exact Steps_block (KeepsCore_StoreError _ _)
    | exact Steps_block (KeepsCore_Check _ _)
    | exact Steps_block (KeepsCore_Retrieve _ _)
    | exact Steps_block (KeepsCore_CheckTaggedList _ _)
    | exact Steps_block (KeepsCore_ExtraLookupValue _ _)
    | exact Steps_block (KeepsCore_ListLength _)
    | exact Steps_block (KeepsCore_SymbolValue _)
    | exact Steps_block (KeepsCore_IntegerValue _)
    | exact Steps_block (KeepsCore_NewHandle _)
    | exact Steps_block (KeepsCore_ReadHandle _)
    | exact Steps_block (KeepsCore_WriteHandle _ _)
    | exact Steps_block (KeepsCore_ParseDartValue _ _ _ _)
    | exact Steps_modify _ (fun _ => SameBlock_of_SameCore rfl)
    | apply Steps_ite
    | intro _
    | dsimp only
    | split

theorem SameBlock_DeserializeHandled (vm : VM) (fuel : Nat)
    (self : Option SExpression → Parse (Option DefinitionPtr))
    (hself : ∀ sexp, Steps SameBlock (self sexp)) (list : SExpression)
    (tag : Option SExpression) (common_info : InstrInfo) (kind : HandledInstruction) :
    Steps SameBlock (DeserializeHandled vm fuel self list tag common_info kind) := by
  cases kind <;> unfold DeserializeHandled
  · exact SameBlock_DeserializeBranchWith vm self hself _ _
  · exact SameBlock_DeserializeCheckStackOverflow _ _
  · exact SameBlock_DeserializeConstant _ _ _ _
  · exact SameBlock_DeserializeGoto _ _ _
  · exact SameBlock_DeserializePushArgument _ _ _ _
  · exact SameBlock_DeserializeParameter _ _
  · exact SameBlock_DeserializeReturn _ _ _ _
  · exact SameBlock_DeserializeSpecialParameter _ _ _
  · exact SameBlock_DeserializeStaticCall _ _ _ _
  · exact Steps_bind (Steps_block (KeepsCore_StoreError _ _)) (fun _ => Steps_pure _)

theorem SameBlock_ParseInstructionWith (vm : VM) (fuel : Nat)
    (self : Option SExpression → Parse (Option DefinitionPtr))
    (hself : ∀ sexp, Steps SameBlock (self sexp)) (list : Option SExpression) :
    Steps SameBlock (ParseInstructionWith vm fuel self list) := by
  unfold ParseInstructionWith CheckInteger CheckList
  repeat' first
    | with_reducible apply Steps_bind
    | exact Steps_pure _
    | exact Steps_fault _
    | exact Steps_outOfFuel
    | exact Steps_get
    | exact SameBlock_DeserializeHandled vm fuel self hself _ _ _ _
    | exact SameBlock_TagSymbol _
    | exact SameBlock_HandledInstructionForTag _
    | exact SameBlock_DeepCopyTo _ _
    | exact Steps_block (KeepsCore_Check _ _)
    | exact Steps_block (KeepsCore_ExtraLookupValue _ _)
    | exact Steps_block (KeepsCore_IntegerValue _)
    | exact Steps_block (KeepsCore_ParseEnvironment _ _ _)
    | exact Steps_modify _ (fun _ => SameBlock_of_SameCore rfl)
    | apply Steps_ite
    | intro _
    | dsimp only
    | split

theorem SameBlock_ParseInstruction (vm : VM) (fuel : Nat) :
    ∀ list, Steps SameBlock (ParseInstruction vm fuel list) := by
  induction fuel with
  | zero =>
    intro list
    cases list
    · exact Steps_pure _
    · exact Steps_outOfFuel
  | succ n ih =>
    intro list
    exact SameBlock_ParseInstructionWith vm _ _ ih list

theorem SameBlock_ParseDefinition (vm : VM) (fuel : Nat) (list : Option SExpression) :
    Steps SameBlock (ParseDefinition vm fuel list) := by
  unfold ParseDefinition
  repeat' first
    | with_reducible apply Steps_bind
    | exact Steps_pure _
    | exact Steps_fault _
    | exact Steps_outOfFuel
    | exact Steps_get
    | exact SameBlock_ParseInstruction _ _ _
    | exact SameBlock_IsDefinition _
    | exact SameBlock_ParseDefinitionWithParsedBody _ _ _ _
    | exact Steps_block (KeepsCore_StoreError _ _)
    | exact Steps_block (KeepsCore_Retrieve _ _)
    | exact Steps_block (KeepsCore_CheckTaggedList _ _)
    | exact Steps_modify _ (fun _ => SameBlock_of_SameCore rfl)
    | apply Steps_ite
    | intro _
    | dsimp only
    | split

theorem SameBlock_SkipPhisLoop (list : SExpression) (remaining : Nat) :
    ∀ i, Steps SameBlock (SkipPhisLoop list remaining i) := by
  induction remaining with
  | zero => intro i; exact Steps_pure _
  | succ n ih =>
    intro i
    unfold SkipPhisLoop
    repeat' first
      | with_reducible apply Steps_bind
      | exact Steps_pure _
      | exact Steps_fault _
      | exact Steps_outOfFuel
      | exact Steps_get
      | exact ih _
      | exact Steps_block (KeepsCore_Retrieve _ _)
      | exact Steps_block (KeepsCore_CheckTaggedList _ _)
      | exact Steps_modify _ (fun _ => SameBlock_of_SameCore rfl)
      | apply Steps_ite
      | intro _
      | dsimp only
      | split

theorem SameBlock_SkipPhis (list : SExpression) :
    Steps SameBlock (SkipPhis list) := by
  unfold SkipPhis
  repeat' first
    | with_reducible apply Steps_bind
    | exact Steps_pure _
    | exact Steps_fault _
    | exact Steps_outOfFuel
    | exact Steps_get
    | exact SameBlock_SkipPhisLoop _ _ _
    | exact Steps_block (KeepsCore_StoreError _ _)
    | exact Steps_block (KeepsCore_ListLength _)
    | exact Steps_modify _ (fun _ => SameBlock_of_SameCore rfl)
    | apply Steps_ite
    | intro _
    | dsimp only
    | split

theorem SameBlock_ParsePhiInputsLoop (vm : VM) (fuel : Nat) (phi_sexp : SExpression)
    (phi : DefinitionPtr) (remaining : Nat) :
    ∀ i, Steps SameBlock (ParsePhiInputsLoop vm fuel phi_sexp phi remaining i) := by
  induction remaining with
  | zero => intro i; exact Steps_pure _
  | succ n ih =>
    intro i
    unfold ParsePhiInputsLoop
    repeat' first
      | with_reducible apply Steps_bind
      | exact Steps_pure _
      | exact Steps_fault _
      | exact Steps_outOfFuel
      | exact Steps_get
      | exact ih _
      | exact SameBlock_ParseValue _ _ _ _
      | exact Steps_block (KeepsCore_Retrieve _ _)
      | exact Steps_modify _ (fun _ => SameBlock_of_SameCore rfl)
      | apply Steps_ite
      | intro _
      | dsimp only
      | split

theorem SameBlock_ParsePhisLoop (vm : VM) (fuel : Nat) (list : SExpression)
    (join : DefinitionPtr) (remaining : Nat) :
    ∀ i, Steps SameBlock (ParsePhisLoop vm fuel list join remaining i) := by
  induction remaining with
  | zero => intro i; exact Steps_pure _
  | succ n ih =>
    intro i
    unfold ParsePhisLoop
    repeat' first
      | with_reducible apply Steps_bind
      | exact Steps_pure _
      | exact Steps_fault _
      | exact Steps_outOfFuel
      | exact Steps_get
      | exact ih _
      | exact SameBlock_ParsePhiInputsLoop _ _ _ _ _ _
      | exact SameBlock_NewInstruction _
      | exact SameBlock_ParseDefinitionWithParsedBody _ _ _ _
      | exact Steps_block (KeepsCore_Retrieve _ _)
      | exact Steps_block (KeepsCore_CheckTaggedList _ _)
      | exact Steps_block (KeepsCore_ListLength _)
      | exact Steps_modify _ (fun _ => SameBlock_of_SameCore rfl)
      | apply Steps_ite
      | intro _
      | dsimp only
      | split

theorem SameBlock_ParsePhis (vm : VM) (fuel : Nat) (list : SExpression) :
    Steps SameBlock (ParsePhis vm fuel list) := by
  unfold ParsePhis
  repeat' first
    | with_reducible apply Steps_bind
    | exact Steps_pure _
    | exact Steps_fault _
    | exact Steps_outOfFuel
    | exact Steps_get
    | exact SameBlock_ParsePhisLoop _ _ _ _ _ _
    | exact SameBlock_SkipPhis _
    | exact SameBlock_IsJoinEntry _
    | exact Steps_modify _ (fun _ => SameBlock_of_SameCore rfl)
    | apply Steps_ite
    | intro _
    | dsimp only
    | split

theorem SameBlock_ParseBodyLoop (vm : VM) (fuel : Nat) (list : SExpression) (remaining : Nat) :
    ∀ i last_inst, Steps SameBlock (ParseBodyLoop vm fuel list remaining i last_inst) := by
  induction remaining with
  | zero => intro i last_inst; exact Steps_pure _
  | succ n ih =>
    intro i last_inst
    unfold ParseBodyLoop
    repeat' first
      | with_reducible apply Steps_bind
      | exact Steps_pure _
      | exact Steps_fault _
      | exact Steps_outOfFuel
      | exact Steps_get
      | exact ih _ _
      | exact SameBlock_ParseDefinition _ _ _
      | exact SameBlock_ParseInstruction _ _ _
      | exact SameBlock_AppendInstruction _ _
      | exact Steps_block (KeepsCore_Retrieve _ _)
      | exact Steps_block (KeepsCore_CheckTaggedList _ _)
      | exact Steps_block (KeepsCore_ListTag _)
      | exact Steps_modify _ (fun _ => SameBlock_of_SameCore rfl)
      | apply Steps_ite
      | intro _
      | dsimp only
      | split

theorem SameBlock_LinkSuccessorsLoop (list : SExpression) (curr_stack : StackPtr)
    (current_block last_inst : DefinitionPtr) (remaining : Nat) :
    ∀ worklist, Steps SameBlock (LinkSuccessorsLoop list curr_stack current_block last_inst remaining worklist) := by
  induction remaining with
  | zero => intro worklist; exact Steps_pure _
  | succ n ih =>
    intro worklist
    unfold LinkSuccessorsLoop
    repeat' first
      | with_reducible apply Steps_bind
      | exact Steps_pure _
      | exact Steps_fault _
      | exact Steps_outOfFuel
      | exact Steps_get
      | exact ih _
      | exact SameBlock_SuccessorAt _ _
      | exact SameBlock_AreStacksConsistent _ _ _
      | exact SameBlock_AddPredecessor _ _
      | exact Steps_block (KeepsCore_block_id _)
      | exact Steps_modify _ (fun _ => SameBlock_of_SameCore rfl)
      | apply Steps_ite
      | intro _
      | dsimp only
      | split

theorem SameBlock_ParseBlockContents (vm : VM) (fuel : Nat) (list : SExpression)
    (worklist : List Int) :
    Steps SameBlock (ParseBlockContents vm fuel list worklist) := by
  unfold ParseBlockContents CheckList
  repeat' first
    | with_reducible apply Steps_bind
    | exact Steps_pure _
    | exact Steps_fault _
    | exact Steps_outOfFuel
    | exact Steps_get
    | exact SameBlock_ParsePhis _ _ _
    | exact SameBlock_IsJoinEntry _
    | exact SameBlock_DeepCopyTo _ _
    | exact SameBlock_SkipPhis _
    | exact SameBlock_ParseBodyLoop _ _ _ _ _ _
    | exact SameBlock_SuccessorCount _
    | exact SameBlock_LinkSuccessorsLoop _ _ _ _ _ _
    | exact Steps_block (KeepsCore_Check _ _)
    | exact Steps_block (KeepsCore_ExtraLookupValue _ _)
    | exact Steps_block (KeepsCore_ListLength _)
    | exact Steps_block (KeepsCore_CurrentStack)
    | exact Steps_block (KeepsCore_ParseEnvironment _ _ _)
    | exact Steps_modify _ (fun _ => SameBlock_of_SameCore rfl)
    | apply Steps_ite
    | intro _
    | dsimp only
    | split

/-! ## Runs on the examples -/

/-! ## The stack a block starts from -/

theorem PredecessorAt_ok (block : DefinitionPtr) (index : Int) (d d1 : FlowGraphDeserializer)
    (pred : DefinitionPtr) (h : PredecessorAt block index d = .ok pred d1) :
    d1 = d ∧ ∀ d2 : FlowGraphDeserializer, d2.predecessors_ = d.predecessors_ →
      PredecessorAt block index d2 = .ok pred d2 := by
  unfold PredecessorAt at h
  split at h
  · rename_i hb
    cases h
    refine ⟨rfl, ?_⟩
    intro d2 h2
    unfold PredecessorAt
    rw [h2, if_pos hb]
  · cases h

theorem ParseBlocksVisit_start (vm : VM) (fuel : Nat)
    (block_sexp_map : IntMap SExpression) (id : Int) (worklist : List Int)
    (d : FlowGraphDeserializer) (result : Option (List Int)) (d1 : FlowGraphDeserializer)
    (h : ParseBlocksVisit vm fuel block_sexp_map id worklist d = .ok result d1) :
    ∃ block_sexp block pred pred_instr pred_id pred_stack,
      block_sexp_map.LookupValue id = some block_sexp ∧
      d.block_map_.LookupValue id = some block ∧
      PredecessorAt block 0 d = .ok pred d ∧
      d.zone_instructions[pred]? = some pred_instr ∧
      BlockIdOf pred_instr = some pred_id ∧
      d.pushed_stack_map_.LookupValue pred_id = some pred_stack ∧
      ParseBlockContents vm fuel block_sexp worklist
        { d with
          current_block_ := some block
          zone_stacks := Function.update d.zone_stacks d.zone_stacks_length
            (d.zone_stacks pred_stack)
          zone_stacks_length := d.zone_stacks_length + 1
          pushed_stack_map_ := d.pushed_stack_map_.Insert id d.zone_stacks_length } =
        .ok result d1 := by
  unfold ParseBlocksVisit at h
  cases hform : block_sexp_map.LookupValue id with
  | none =>
    simp only [hform] at h
    cases h
  | some block_sexp =>
    simp only [hform] at h
    obtain ⟨d0, d2, hg, h2⟩ := Parse.bind_ok h
    cases hg
    cases hblock : d.block_map_.LookupValue id with
    | none =>
      simp only [hblock] at h2
      obtain ⟨u, d3, -, h3⟩ := Parse.bind_ok h2
      cases h3
    | some block =>
      simp only [hblock] at h2
      obtain ⟨u, d3, hm, h3⟩ := Parse.bind_ok h2
      cases hm
      obtain ⟨count, d4, hc, h4⟩ := Parse.bind_ok h3
      cases hc
      split at h4
      · cases h4
      · obtain ⟨pred, d5, hp, h5⟩ := Parse.bind_ok h4
        obtain ⟨hd5, hpred⟩ := PredecessorAt_ok _ _ _ _ _ hp
        subst hd5
        obtain ⟨pred_id, d6, hi, h6⟩ := Parse.bind_ok h5
        obtain ⟨⟨pred_instr, hinstr, hbid⟩, hd6⟩ := block_id_ok _ _ _ _ hi
        subst hd6
        obtain ⟨d7, d8, hg2, h7⟩ := Parse.bind_ok h6
        cases hg2
        dsimp only at h7
        cases hstack : d.pushed_stack_map_.LookupValue pred_id with
        | none =>
          simp only [hstack] at h7
          cases h7
        | some pred_stack =>
          simp only [hstack] at h7
          obtain ⟨contents, d9, hs, h9⟩ := Parse.bind_ok h7
          cases hs
          obtain ⟨new_stack, d10, hn, h10⟩ := Parse.bind_ok h9
          cases hn
          obtain ⟨u2, d11, hm2, h11⟩ := Parse.bind_ok h10
          cases hm2
          exact ⟨block_sexp, block, pred, pred_instr, pred_id, pred_stack, rfl, rfl,
            hpred d rfl, hinstr, hbid, hstack, h11⟩

/-- C36: when `ParseBlocks` visits a block, the statements before the call of
`ParseBlockContents` allocate a new stack whose contents are, element for
element, those of the stack retained for the first predecessor of the block,
and record it for the block; the body is parsed from that state. When the
stack of the predecessor was allocated before and the block carries the id it
is registered under, the contents of the stack of the predecessor are the same
before the visit, at the start of the body and after the body, whatever the
body pushes and pops. -/
theorem ParseBlocksVisit_copies_predecessor_stack (vm : VM) (fuel : Nat)
    (block_sexp_map : IntMap SExpression) (id : Int) (worklist : List Int)
    (d : FlowGraphDeserializer) (result : Option (List Int)) (d1 : FlowGraphDeserializer)
    (h : ParseBlocksVisit vm fuel block_sexp_map id worklist d = .ok result d1) :
    ∃ block_sexp block pred pred_instr pred_id pred_stack start,
      block_sexp_map.LookupValue id = some block_sexp ∧
      d.block_map_.LookupValue id = some block ∧
      PredecessorAt block 0 d = .ok pred d ∧
      d.zone_instructions[pred]? = some pred_instr ∧
      BlockIdOf pred_instr = some pred_id ∧
      d.pushed_stack_map_.LookupValue pred_id = some pred_stack ∧
      ParseBlockContents vm fuel block_sexp worklist start = .ok result d1 ∧
      start.current_block_ = some block ∧
      start.pushed_stack_map_ = d.pushed_stack_map_.Insert id d.zone_stacks_length ∧
      start.zone_stacks d.zone_stacks_length = d.zone_stacks pred_stack ∧
      d1.pushed_stack_map_ = start.pushed_stack_map_ ∧
      (pred_stack < d.zone_stacks_length →
        (∃ instr, d.zone_instructions[block]? = some instr ∧ BlockIdOf instr = some id) →
        start.zone_stacks pred_stack = d.zone_stacks pred_stack ∧
          d1.zone_stacks pred_stack = d.zone_stacks pred_stack) := by
  obtain ⟨block_sexp, block, pred, pred_instr, pred_id, pred_stack, h1, h2, h3, h4, h5, h6, h7⟩ :=
    ParseBlocksVisit_start vm fuel block_sexp_map id worklist d result d1 h
  have hsame := (SameBlock_ParseBlockContents vm fuel block_sexp worklist).post _ _ _ h7
  refine ⟨block_sexp, block, pred, pred_instr, pred_id, pred_stack, _, h1, h2, h3, h4, h5, h6,
    h7, rfl, rfl, ?_, hsame.pushed_stack_map, ?_⟩
  · simp only [Function.update_same]
  · intro halloc hid
    obtain ⟨instr, hinstr, hbid⟩ := hid
    have hne : pred_stack ≠ d.zone_stacks_length := Nat.ne_of_lt halloc
    have hstart : (Function.update d.zone_stacks d.zone_stacks_length (d.zone_stacks pred_stack))
        pred_stack = d.zone_stacks pred_stack := Function.update_noteq hne _ _
    refine ⟨hstart, ?_⟩
    rw [hsame.other_stacks d.zone_stacks_length ?_ pred_stack hne]
    · exact hstart
    · unfold StackOf
      simp only [Option.bind_eq_bind, Option.some_bind, hinstr, hbid,
        IntMap.LookupValue_Insert_self]

theorem ParseBlocksVisit_push_run :
    ∃ d1, ParseBlocksVisit ExampleVM 1 [(3, ExamplePushBlock)] 3 [] ExampleJoinEntryState =
        .ok (some []) d1 ∧ d1.zone_stacks 2 = [7, 6, 8] := by
  have h : (ParseBlocksVisit ExampleVM 1 [(3, ExamplePushBlock)] 3 [] ExampleJoinEntryState).Holds
      (fun r d1 => decide (r = some []) && decide (d1.zone_stacks 2 = [7, 6, 8])) = true := by
    decide!
  obtain ⟨r, d1, hrun, hp⟩ := Result.Holds_ok h
  simp only [Bool.and_eq_true, decide_eq_true_eq] at hp
  obtain ⟨hr, hs⟩ := hp
  subst hr
  exact ⟨d1, hrun, hs⟩

/-- C36, witness: the visit of the join `B3`, whose first predecessor is `B1`
with the retained stack 0, `[7, 6]`. The body starts from the new stack 2 and
pushes instruction 8 on it; stack 0 is `[7, 6]` before and after. -/
theorem ParseBlocksVisit_copies_predecessor_stack_witness :
    ∃ d1, ParseBlocksVisit ExampleVM 1 [(3, ExamplePushBlock)] 3 [] ExampleJoinEntryState =
        .ok (some []) d1 ∧
      ExampleJoinEntryState.pushed_stack_map_.LookupValue 1 = some 0 ∧
      ExampleJoinEntryState.zone_stacks 0 = [7, 6] ∧
      d1.pushed_stack_map_.LookupValue 3 = some 2 ∧
      d1.zone_stacks 2 = [7, 6, 8] ∧
      d1.zone_stacks 0 = [7, 6] := by
  obtain ⟨d1, hrun, hpush⟩ := ParseBlocksVisit_push_run
  obtain ⟨block_sexp, block, pred, pred_instr, pred_id, pred_stack, start, h1, h2, h3, h4, h5,
      h6, h7, h8, h9, h10, h11, h12⟩ :=
    ParseBlocksVisit_copies_predecessor_stack ExampleVM 1 _ 3 [] ExampleJoinEntryState _ d1 hrun
  have hblock : block = 3 := by
    have : ExampleJoinEntryState.block_map_.LookupValue 3 = some 3 := by decide
    rw [this] at h2
    cases h2
    rfl
  subst hblock
  have hpred : pred = 1 := by
    have : PredecessorAt 3 0 ExampleJoinEntryState = .ok 1 ExampleJoinEntryState := rfl
    rw [this] at h3
    cases h3
    rfl
  subst hpred
  have hinstr : pred_instr = .TargetEntry 1 (-1) (-1) := by
    have : ExampleJoinEntryState.zone_instructions[1]? = some (.TargetEntry 1 (-1) (-1)) := rfl
    rw [this] at h4
    cases h4
    rfl
  subst hinstr
  cases h5
  have hstack : pred_stack = 0 := by
    have : ExampleJoinEntryState.pushed_stack_map_.LookupValue 1 = some 0 := by decide
    rw [this] at h6
    cases h6
    rfl
  subst hstack
  have hkeep := (h12 (by decide) ⟨_, rfl, rfl⟩).2
  refine ⟨d1, hrun, by decide, rfl, ?_, hpush, hkeep⟩
  rw [h11, h9]
  decide

/-! ## The environment of a block -/

theorem Retrieve_value (contents : List (Option SExpression))
    (extra_info : List (String × Option SExpression)) (i : Nat) (d d1 : FlowGraphDeserializer)
    (a : Option SExpression)
    (h : Retrieve (some (.SExpList contents extra_info)) i d = .ok a d1) :
    a = contents.getD i none := by
  obtain ⟨d2, h2⟩ := Retrieve_element contents extra_info i d
  rw [h2] at h
  cases h
  rfl

theorem CheckTaggedList_value (x : Option SExpression) (label : String)
    (d d1 : FlowGraphDeserializer) (r : Option SExpression)
    (h : CheckTaggedList x (some label) d = .ok r d1) :
    r = if IsTaggedList label x = true then x else none := by
  obtain ⟨d2, h2⟩ := CheckTaggedList_decides x label d
  rw [h2] at h
  cases h
  rfl

theorem CheckTaggedList_some (x : Option SExpression) (label : String)
    (d d1 : FlowGraphDeserializer) (r : SExpression)
    (h : CheckTaggedList x (some label) d = .ok (some r) d1) : x = some r := by
  have h2 := CheckTaggedList_value x label d d1 _ h
  split at h2
  · exact h2.symm
  · cases h2

theorem Retrieve_null (index : Int) (d d1 : FlowGraphDeserializer) (a : Option SExpression)
    (h : Retrieve none index d = .ok a d1) : a = none := by
  cases h
  rfl

theorem Extends_instruction {d d1 : FlowGraphDeserializer} (h : Extends d d1)
    (p : DefinitionPtr) (instr : Instruction) (hp : d.zone_instructions[p]? = some instr) :
    d1.zone_instructions[p]? = some instr := by
  obtain ⟨rest, hrest⟩ := h.instructions
  rw [← hrest]
  have hlt : p < d.zone_instructions.length := by
    rcases Nat.lt_or_ge p d.zone_instructions.length with h | h
    · exact h
    · rw [List.getElem?_eq_none h] at hp; cases hp
  rw [List.getElem?_append_left hlt]
  exact hp

theorem NewInstruction_at (instr : Instruction) (d d1 : FlowGraphDeserializer)
    (p : DefinitionPtr) (h : NewInstruction instr d = .ok p d1) :
    d1.zone_instructions[p]? = some instr ∧ p = d.zone_instructions.length := by
  cases h
  simp

theorem ParsePhisLoop_binds (vm : VM) (fuel : Nat) (contents : List (Option SExpression))
    (extra_info : List (String × Option SExpression)) (join : DefinitionPtr) :
    ∀ (remaining i : Nat) (d d1 : FlowGraphDeserializer),
      ParsePhisLoop vm fuel (.SExpList contents extra_info) join remaining (i : Int) d =
        .ok true d1 →
      ∀ (p : Nat) (digits : List Char) (k : Int) (tag : Option SExpression)
        (rest : List (Option SExpression)) (extra2 : List (String × Option SExpression)),
        i ≤ p → p < i + remaining →
        contents[p]? = some (some (.SExpList
          (tag :: some (.SExpSymbol (String.mk ('v' :: digits))) :: rest) extra2)) →
        vm.StringToInt64 (String.mk digits) = some k →
        ∃ phi n, d1.definition_map_.LookupValue k = some phi ∧
          d1.zone_instructions[phi]? = some (.Phi join n) ∧
          d.zone_instructions.length ≤ phi := by
  intro remaining
  induction remaining with
  | zero =>
    intro i d d1 _ p digits k tag rest extra2 h1 h2
    omega
  | succ m ih =>
    intro i d d1 h p digits k tag rest extra2 hp1 hp2 hslot hindex
    unfold ParsePhisLoop at h
    obtain ⟨x, da, hx, h1⟩ := Parse.bind_ok h
    obtain ⟨def_sexp, db, hdef, h2⟩ := Parse.bind_ok h1
    obtain ⟨y, dc, hy, h3⟩ := Parse.bind_ok h2
    obtain ⟨phi_opt, dd, hphi, h4⟩ := Parse.bind_ok h3
    cases phi_opt with
    | none => cases h4
    | some phi_sexp =>
      dsimp only at h4
      obtain ⟨len, de, hlen, h5⟩ := Parse.bind_ok h4
      obtain ⟨phi, df, hnew, h6⟩ := Parse.bind_ok h5
      obtain ⟨ok1, dg, hin, h7⟩ := Parse.bind_ok h6
      cases ok1 with
      | false => cases h7
      | true =>
        simp only [Bool.not_true, Bool.false_eq_true, if_false, Parse.pure_bind] at h7
        obtain ⟨u, dh, hmod, h8⟩ := Parse.bind_ok h7
        obtain ⟨ok2, di, hpd, h9⟩ := Parse.bind_ok h8
        cases ok2 with
        | false => cases h9
        | true =>
          simp only [Bool.not_true, Bool.false_eq_true, if_false, Parse.pure_bind] at h9
          have s1 := SameBlock_of_SameCore ((KeepsCore_Retrieve _ _).post _ _ _ hx)
          have s2 := SameBlock_of_SameCore ((KeepsCore_CheckTaggedList _ _).post _ _ _ hdef)
          have s3 := SameBlock_of_SameCore ((KeepsCore_Retrieve _ _).post _ _ _ hy)
          have s4 := SameBlock_of_SameCore ((KeepsCore_CheckTaggedList _ _).post _ _ _ hphi)
          have s5 := SameBlock_of_SameCore ((KeepsCore_ListLength _).post _ _ _ hlen)
          have s6 := (SameBlock_NewInstruction _).post _ _ _ hnew
          have s7 := (SameBlock_ParsePhiInputsLoop _ _ _ _ _ _).post _ _ _ hin
          have s8 : SameBlock dg dh := by
            cases hmod
            exact SameBlock_of_SameCore rfl
          have s9 := (SameBlock_ParseDefinitionWithParsedBody _ _ _ _).post _ _ _ hpd
          have s10 := (SameBlock_ParsePhisLoop _ _ _ _ _ _).post _ _ _ h9
          have sde := SameBlock_trans s1 (SameBlock_trans s2 (SameBlock_trans s3
            (SameBlock_trans s4 s5)))
          have sfi := SameBlock_trans s7 (SameBlock_trans s8 s9)
          have hcast : ((i + 1 : Nat) : Int) = (i : Int) + 1 := by push_cast; rfl
          rw [← hcast] at h9
          rcases Nat.eq_or_lt_of_le hp1 with heq | hlt
          · subst heq
            have hxv := Retrieve_value contents extra_info i d da x hx
            have hget : contents.getD i none = some (.SExpList
                (tag :: some (.SExpSymbol (String.mk ('v' :: digits))) :: rest) extra2) := by
              simp [hslot]
            rw [hget] at hxv
            have hdv := CheckTaggedList_value x "def" da db def_sexp hdef
            have hds : def_sexp = x := by
              split at hdv
              · exact hdv
              · subst hdv
                have hy2 := Retrieve_null _ _ _ _ hy
                subst hy2
                have := CheckTaggedList_some _ _ _ _ _ hphi
                cases this
            subst hds
            subst hxv
            have hres := ParseDefinitionWithParsedBody_binds vm fuel digits k hindex tag rest
              extra2 phi dh di hpd
            obtain ⟨hphi_at, hphi_new⟩ := NewInstruction_at _ _ _ _ hnew
            refine ⟨phi, len - 1, ?_, ?_, ?_⟩
            · exact s10.grows.definitions _ _ hres.2.2
            · exact Extends_instruction (Extends_trans sfi.grows s10.grows) _ _ hphi_at
            · rw [hphi_new]
              exact sde.grows.instructions.length_le
          · obtain ⟨phi2, n, e1, e2, e3⟩ := ih (i + 1) di d1 h9 p digits k tag rest extra2
              (by omega) (by omega) hslot hindex
            refine ⟨phi2, n, e1, e2, le_trans ?_ e3⟩
            exact (SameBlock_trans sde (SameBlock_trans s6 sfi)).grows.instructions.length_le

theorem IsJoinEntry_ok (block : DefinitionPtr) (d d1 : FlowGraphDeserializer) (r : Bool)
    (h : IsJoinEntry block d = .ok r d1) : d1 = d := by
  unfold IsJoinEntry at h
  obtain ⟨instr, d2, hi, h2⟩ := Parse.bind_ok h
  obtain ⟨-, hd⟩ := InstructionAt_ok block d d2 instr hi
  subst hd
  cases instr <;> cases h2 <;> rfl

theorem ParsePhis_binds (vm : VM) (fuel : Nat) (contents : List (Option SExpression))
    (extra_info : List (String × Option SExpression)) (d d1 : FlowGraphDeserializer)
    (join : DefinitionPtr) (hblock : d.current_block_ = some join)
    (h : ParsePhis vm fuel (.SExpList contents extra_info) d = .ok true d1)
    (p : Nat) (digits : List Char) (k : Int) (tag : Option SExpression)
    (rest : List (Option SExpression)) (extra2 : List (String × Option SExpression))
    (hp1 : 2 ≤ p) (hp2 : (p : Int) < SpecSkipPhis contents)
    (hslot : contents[p]? = some (some (.SExpList
      (tag :: some (.SExpSymbol (String.mk ('v' :: digits))) :: rest) extra2)))
    (hindex : vm.StringToInt64 (String.mk digits) = some k) :
    IsJoinEntry join d = .ok true d ∧
    ∃ phi n, d1.definition_map_.LookupValue k = some phi ∧
      d1.zone_instructions[phi]? = some (.Phi join n) ∧
      d.zone_instructions.length ≤ phi := by
  unfold ParsePhis at h
  obtain ⟨d0, d2, hg, h2⟩ := Parse.bind_ok h
  cases hg
  simp only [hblock] at h2
  obtain ⟨b, d3, hb, h3⟩ := Parse.bind_ok h2
  have hd3 := IsJoinEntry_ok _ _ _ _ hb
  subst hd3
  cases b with
  | false => cases h3
  | true =>
    refine ⟨hb, ?_⟩
    simp only [Bool.not_true, Bool.false_eq_true, if_false] at h3
    obtain ⟨end_pos, d4, hs, h4⟩ := Parse.bind_ok h3
    obtain ⟨d5, hs2, -⟩ := SkipPhis_eq contents extra_info d3
    rw [hs2] at hs
    cases hs
    have s1 := (SameBlock_SkipPhis _).post _ _ _ hs2
    split at h4
    · cases h4
    · have hrem : 2 + (SpecSkipPhis contents - 2).toNat = (SpecSkipPhis contents).toNat := by
        omega
      obtain ⟨phi, n, e1, e2, e3⟩ := ParsePhisLoop_binds vm fuel contents extra_info join
        (SpecSkipPhis contents - 2).toNat 2 d4 d1 h4 p digits k tag rest extra2 hp1 (by omega)
        hslot hindex
      exact ⟨phi, n, e1, e2, le_trans s1.grows.instructions.length_le e3⟩

theorem ParseEnvironmentSlot_defined (vm : VM) (fuel : Nat)
    (contents : List (Option SExpression)) (extra_info : List (String × Option SExpression))
    (stack : StackPtr) (slot : Nat) (digits : List Char) (k : Int)
    (hindex : vm.StringToInt64 (String.mk digits) = some k) (d : FlowGraphDeserializer)
    (definition : DefinitionPtr)
    (hslot : contents[slot]? = some (some (.SExpSymbol (String.mk ('v' :: digits)))))
    (hdef : d.definition_map_.LookupValue k = some definition) :
    ∃ d1, ParseEnvironmentSlot vm fuel (.SExpList contents extra_info) stack slot d =
        .ok (some d.zone_values_length) d1 ∧
      (d1.zone_values d.zone_values_length).definition_ = definition := by
  have hlt : slot < contents.length := by
    rcases Nat.lt_or_ge slot contents.length with h | h
    · exact h
    · rw [List.getElem?_eq_none h] at hslot; cases hslot
  have hlen : ¬ ((contents.length : Int) ≤ (slot : Int)) := by omega
  have hneg : ¬ ((slot : Int) < 0) := by omega
  have hget : contents.getD slot none = some (.SExpSymbol (String.mk ('v' :: digits))) := by
    simp [hslot]
  refine ⟨{ d with
    zone_values := Function.update d.zone_values d.zone_values_length
      { definition_ := definition, reaching_type_ := none }
    zone_values_length := d.zone_values_length + 1 }, ?_, ?_⟩
  · simp only [ParseEnvironmentSlot, Retrieve, hlen, hneg, if_false, Int.toNat_ofNat, hget,
      Parse.bind_assoc, Parse.pure_bind, Option.isNone_some, Bool.false_eq_true]
    rw [Parse.bind_apply, ParseValue_symbol_defined vm fuel digits k hindex d definition false hdef]
    rfl
  · simp

theorem ParseBlockEnvironment_unbound (vm : VM) (fuel : Nat)
    (contents : List (Option SExpression)) (extra_info : List (String × Option SExpression))
    (block : DefinitionPtr) (env_sexp : SExpression)
    (henv : ExtraLookup "env" extra_info = some env_sexp) (d d1 : FlowGraphDeserializer)
    (hunbound : UnboundSlot vm d.definition_map_ env_sexp) (r : Bool)
    (h : ParseBlockEnvironment vm fuel (.SExpList contents extra_info) block d = .ok r d1) :
    r = false ∧ d1.error_message_ ≠ none := by
  have hlist : ∃ c e, env_sexp = .SExpList c e := by
    cases hunbound with
    | slot c e _ _ _ _ => exact ⟨c, e, rfl⟩
    | outer c e _ _ _ _ => exact ⟨c, e, rfl⟩
  obtain ⟨c, e, hce⟩ := hlist
  subst hce
  simp only [ParseBlockEnvironment, ExtraLookupValue, henv, CheckList, Check, SExpression.Is,
    SExpression.As, Parse.pure_bind, Bool.not_true, Bool.false_eq_true, if_false] at h
  obtain ⟨env, d2, he, h2⟩ := Parse.bind_ok h
  have hnone := (Fails_ParseEnvironment vm d.definition_map_ fuel _ hunbound).post d rfl env d2 he
  subst hnone
  have herr := (Records_ParseEnvironment vm fuel _).post d none d2 he rfl
  cases h2
  exact ⟨rfl, herr⟩

theorem ParseBlockContents_unbound_slot (vm : VM) (fuel : Nat)
    (contents : List (Option SExpression)) (extra_info : List (String × Option SExpression))
    (worklist : List Int) (d : FlowGraphDeserializer) (block : DefinitionPtr)
    (env_sexp : SExpression) (result : Option (List Int)) (d2 : FlowGraphDeserializer)
    (hblock : d.current_block_ = some block)
    (henv : ExtraLookup "env" extra_info = some env_sexp)
    (h : ParseBlockContents vm fuel (.SExpList contents extra_info) worklist d = .ok result d2) :
    (IsJoinEntry block d = .ok false d → UnboundSlot vm d.definition_map_ env_sexp →
        result = none ∧ d2.error_message_ ≠ none) ∧
    (∀ d1, ParsePhis vm fuel (.SExpList contents extra_info) d = .ok true d1 →
        UnboundSlot vm d1.definition_map_ env_sexp →
        result = none ∧ d2.error_message_ ≠ none) := by
  rw [ParseBlockContents_parts] at h
  obtain ⟨d0, d3, hg, h2⟩ := Parse.bind_ok h
  cases hg
  simp only [hblock] at h2
  obtain ⟨stack, d4, hst, h3⟩ := Parse.bind_ok h2
  obtain ⟨-, hd4⟩ := CurrentStack_StackOf _ _ _ hst
  subst hd4
  obtain ⟨b, d5, hb, h4⟩ := Parse.bind_ok h3
  have hd5 := IsJoinEntry_ok _ _ _ _ hb
  subst hd5
  clear h h2 h3
  try dsimp only at h4
  have hstep : ∀ d1 : FlowGraphDeserializer, UnboundSlot vm d1.definition_map_ env_sexp →
      (ParseBlockEnvironment vm fuel (.SExpList contents extra_info) block >>= fun ok =>
        if (!ok) = true then pure none
        else (pure PUnit.unit : Parse PUnit) >>= fun _ =>
          ParseBlockBody vm fuel (.SExpList contents extra_info) worklist block stack) d1 =
        .ok result d2 → result = none ∧ d2.error_message_ ≠ none := by
    intro d1 hunbound hrun
    obtain ⟨ok, d6, he, h6⟩ := Parse.bind_ok hrun
    obtain ⟨hok, herr⟩ := ParseBlockEnvironment_unbound vm fuel contents extra_info block
      env_sexp henv d1 d6 hunbound ok he
    subst hok
    cases h6
    exact ⟨rfl, herr⟩
  constructor
  · intro hfalse hunbound
    rw [hfalse] at hb
    cases hb
    simp only [Bool.false_eq_true, if_false, Parse.pure_bind] at h4
    exact hstep d5 hunbound (by simpa only [Parse.pure_bind] using h4)
  · intro d1 hphis hunbound
    cases b with
    | false =>
      exfalso
      unfold ParsePhis at hphis
      obtain ⟨d0, d3, hg, k2⟩ := Parse.bind_ok hphis
      cases hg
      simp only [hblock] at k2
      obtain ⟨b2, d4, hb2, k3⟩ := Parse.bind_ok k2
      rw [hb] at hb2
      cases hb2
      cases k3
    | true =>
      simp only [if_true] at h4
      obtain ⟨ok, d6, hp, h5⟩ := Parse.bind_ok h4
      rw [hphis] at hp
      cases hp
      simp only [Bool.not_true, Bool.false_eq_true, if_false, Parse.pure_bind] at h5
      exact hstep _ hunbound (by simpa only [Parse.pure_bind] using h5)

theorem ParsePhis_join_run :
    ∃ d1, ParsePhis ExampleVM 1 (.SExpList ExampleJoinBlockContents ExampleJoinBlockExtra)
        ExampleJoinState = .ok true d1 ∧ d1.definition_map_ = [(1, 8)] := by
  have h : (ParsePhis ExampleVM 1 (.SExpList ExampleJoinBlockContents ExampleJoinBlockExtra)
      ExampleJoinState).Holds
      (fun r d1 => decide (r = true) && decide (d1.definition_map_ = [(1, 8)])) = true := by
    decide!
  obtain ⟨r, d1, hrun, hp⟩ := Result.Holds_ok h
  simp only [Bool.and_eq_true, decide_eq_true_eq] at hp
  obtain ⟨hr, hs⟩ := hp
  subst hr
  exact ⟨d1, hrun, hs⟩

theorem ParseBlockContents_join_run :
    ∃ d2, ParseBlockContents ExampleVM 1
        (.SExpList ExampleJoinBlockContents ExampleJoinBlockExtra) [] ExampleJoinState =
      .ok none d2 := by
  have h : (ParseBlockContents ExampleVM 1
      (.SExpList ExampleJoinBlockContents ExampleJoinBlockExtra) [] ExampleJoinState).Holds
      (fun r _ => decide (r = none)) = true := by
    decide!
  obtain ⟨r, d1, hrun, hp⟩ := Result.Holds_ok h
  simp only [decide_eq_true_eq] at hp
  subst hp
  exact ⟨d1, hrun⟩

theorem ParseBlockContents_target_run :
    ∃ d2, ParseBlockContents ExampleVM 1
        (.SExpList ExampleTargetBlockContents ExampleTargetBlockExtra) [] ExampleStackState =
      .ok none d2 :=
  ⟨_, rfl⟩

theorem Extends_NewStack (contents : List DefinitionPtr) :
    Steps Extends (NewStack contents) := by
  constructor
  intro d a d1 h
  cases h
  exact Extends_of_tables (le_refl _) rfl rfl (List.prefix_refl _)

theorem Extends_DeserializeTargetEntry (sexp : Option SExpression) (info : EntryInfo) :
    Steps Extends (DeserializeTargetEntry sexp info) := by
  unfold DeserializeTargetEntry
  repeat' first
    | with_reducible apply Steps_bind
    | exact Steps_pure _
    | exact Steps_fault _
    | exact Steps_outOfFuel
    | exact Steps_get
    | exact Steps_grows (SameBlock_NewInstruction _)
    | exact Steps_modify _ (fun _ => Extends_of_tables (le_refl _) rfl rfl (List.prefix_refl _))
    | apply Steps_ite
    | intro _
    | dsimp only
    | split

theorem Extends_DeserializeJoinEntry (sexp : Option SExpression) (info : EntryInfo) :
    Steps Extends (DeserializeJoinEntry sexp info) := by
  unfold DeserializeJoinEntry
  repeat' first
    | with_reducible apply Steps_bind
    | exact Steps_pure _
    | exact Steps_fault _
    | exact Steps_outOfFuel
    | exact Steps_get
    | exact Steps_grows (SameBlock_NewInstruction _)
    | exact Steps_modify _ (fun _ => Extends_of_tables (le_refl _) rfl rfl (List.prefix_refl _))
    | apply Steps_ite
    | intro _
    | dsimp only
    | split

theorem Extends_DeserializeGraphEntry (vm : VM) (sexp : SExpression) (info : EntryInfo) :
    Steps Extends (DeserializeGraphEntry vm sexp info) := by
  unfold DeserializeGraphEntry CheckSymbol CheckInteger
  repeat' first
    | with_reducible apply Steps_bind
    | exact Steps_pure _
    | exact Steps_fault _
    | exact Steps_outOfFuel
    | exact Steps_get
    | exact Steps_grows (SameBlock_NewInstruction _)
    | exact Steps_grows (Steps_block (KeepsCore_Check _ _))
    | exact Steps_grows (Steps_block (KeepsCore_Retrieve _ _))
    | exact Steps_grows (Steps_block (KeepsCore_ExtraLookupValue _ _))
    | exact Steps_grows (Steps_block (KeepsCore_IntegerValue _))
    | exact Steps_modify _ (fun _ => Extends_of_tables (le_refl _) rfl rfl (List.prefix_refl _))
    | apply Steps_ite
    | intro _
    | dsimp only
    | split

theorem Extends_ParseInitialDefinitionsLoop (vm : VM) (fuel : Nat) (list : SExpression)
    (block : DefinitionPtr) (remaining : Nat) :
    ∀ i, Steps Extends (ParseInitialDefinitionsLoop vm fuel list block remaining i) := by
  induction remaining with
  | zero => intro i; exact Steps_pure _
  | succ n ih =>
    intro i
    unfold ParseInitialDefinitionsLoop AddToInitialDefinitions
    repeat' first
      | with_reducible apply Steps_bind
      | exact Steps_pure _
      | exact Steps_fault _
      | exact Steps_outOfFuel
      | exact Steps_get
      | exact ih _
      | exact Steps_grows (SameBlock_ParseDefinition _ _ _)
      | exact Steps_grows (Steps_block (KeepsCore_Retrieve _ _))
      | exact Steps_grows (Steps_block (KeepsCore_CheckTaggedList _ _))
      | exact Steps_modify _ (fun _ => Extends_of_tables (le_refl _) rfl rfl (List.prefix_refl _))
      | apply Steps_ite
      | intro _
      | dsimp only
      | split

theorem Extends_ParseInitialDefinitions (vm : VM) (fuel : Nat) (list : Option SExpression) :
    Steps Extends (ParseInitialDefinitions vm fuel list) := by
  unfold ParseInitialDefinitions
  repeat' first
    | with_reducible apply Steps_bind
    | exact Steps_pure _
    | exact Steps_fault _
    | exact Steps_outOfFuel
    | exact Steps_get
    | exact Extends_ParseInitialDefinitionsLoop _ _ _ _ _ _
    | exact Steps_grows (Steps_block (KeepsCore_ListLength _))
    | exact Steps_grows (Steps_block (KeepsCore_InstructionAt _))
    | exact Steps_modify _ (fun _ => Extends_of_tables (le_refl _) rfl rfl (List.prefix_refl _))
    | apply Steps_ite
    | intro _
    | dsimp only
    | split

theorem Extends_DeserializeFunctionEntry (vm : VM) (fuel : Nat) (sexp : Option SExpression)
    (info : EntryInfo) :
    Steps Extends (DeserializeFunctionEntry vm fuel sexp info) := by
  unfold DeserializeFunctionEntry
  repeat' first
    | with_reducible apply Steps_bind
    | exact Steps_pure _
    | exact Steps_fault _
    | exact Steps_outOfFuel
    | exact Steps_get
    | exact Extends_ParseInitialDefinitions _ _ _
    | exact Steps_grows (SameBlock_NewInstruction _)
    | exact Steps_modify _ (fun _ => Extends_of_tables (le_refl _) rfl rfl (List.prefix_refl _))
    | apply Steps_ite
    | intro _
    | dsimp only
    | split

theorem Extends_ParseBlockHeader (vm : VM) (fuel : Nat) (list : Option SExpression)
    (block_id : Int) (tag : Option SExpression) :
    Steps Extends (ParseBlockHeader vm fuel list block_id tag) := by
  unfold ParseBlockHeader CheckInteger
  repeat' first
    | with_reducible apply Steps_bind
    | exact Steps_pure _
    | exact Steps_fault _
    | exact Steps_outOfFuel
    | exact Steps_get
    | exact Extends_DeserializeTargetEntry _ _
    | exact Extends_DeserializeJoinEntry _ _
    | exact Extends_DeserializeFunctionEntry _ _ _ _
    | exact Steps_grows (Steps_block (KeepsCore_StoreError _ _))
    | exact Steps_grows (Steps_block (KeepsCore_Check _ _))
    | exact Steps_grows (Steps_block (KeepsCore_ExtraLookupValue _ _))
    | exact Steps_grows (Steps_block (KeepsCore_IntegerValue _))
    | exact Steps_modify _ (fun _ => Extends_of_tables (le_refl _) rfl rfl (List.prefix_refl _))
    | apply Steps_ite
    | intro _
    | dsimp only
    | split

theorem Extends_ParseEntriesLoop (vm : VM) (fuel : Nat) (list : SExpression) (remaining : Nat) :
    ∀ i, Steps Extends (ParseEntriesLoop vm fuel list remaining i) := by
  induction remaining with
  | zero => intro i; exact Steps_pure _
  | succ n ih =>
    intro i
    unfold ParseEntriesLoop ParseBlockId CheckSymbol
    repeat' first
      | with_reducible apply Steps_bind
      | exact Steps_pure _
      | exact Steps_fault _
      | exact Steps_outOfFuel
      | exact Steps_get
      | exact ih _
      | exact Extends_ParseBlockHeader _ _ _ _ _
      | exact Steps_grows (SameBlock_TagSymbol _)
      | exact Steps_grows (Steps_block (KeepsCore_StoreError _ _))
      | exact Steps_grows (Steps_block (KeepsCore_Check _ _))
      | exact Steps_grows (Steps_block (KeepsCore_Retrieve _ _))
      | exact Steps_grows (Steps_block (KeepsCore_CheckTaggedList _ _))
      | exact Steps_grows (Steps_block (KeepsCore_ListAt _ _))
      | exact Steps_grows (Steps_block (KeepsCore_ParseSymbolAsPrefixedInt _ _ _))
      | exact Steps_modify _ (fun _ => Extends_of_tables (le_refl _) rfl rfl (List.prefix_refl _))
      | apply Steps_ite
      | intro _
      | dsimp only
      | split

theorem Extends_ParseEntries (vm : VM) (fuel : Nat) (list : Option SExpression) :
    Steps Extends (ParseEntries vm fuel list) := by
  unfold ParseEntries
  repeat' first
    | with_reducible apply Steps_bind
    | exact Steps_pure _
    | exact Steps_fault _
    | exact Steps_outOfFuel
    | exact Steps_get
    | exact Extends_ParseEntriesLoop _ _ _ _ _
    | exact Steps_grows (Steps_block (KeepsCore_ListLength _))
    | exact Steps_modify _ (fun _ => Extends_of_tables (le_refl _) rfl rfl (List.prefix_refl _))
    | apply Steps_ite
    | intro _
    | dsimp only
    | split

theorem Extends_ParseBlocksVisit (vm : VM) (fuel : Nat) (block_sexp_map : IntMap SExpression)
    (id : Int) (worklist : List Int) :
    Steps Extends (ParseBlocksVisit vm fuel block_sexp_map id worklist) := by
  unfold ParseBlocksVisit
  repeat' first
    | with_reducible apply Steps_bind
    | exact Steps_pure _
    | exact Steps_fault _
    | exact Steps_outOfFuel
    | exact Steps_get
    | exact Extends_NewStack _
    | exact Steps_grows (SameBlock_ParseBlockContents _ _ _ _)
    | exact Steps_grows (SameBlock_PredecessorCount _)
    | exact Steps_grows (SameBlock_PredecessorAt _ _)
    | exact Steps_grows (Steps_block (KeepsCore_StackContents _))
    | exact Steps_grows (Steps_block (KeepsCore_block_id _))
    | exact Steps_modify _ (fun _ => Extends_of_tables (le_refl _) rfl rfl (List.prefix_refl _))
    | apply Steps_ite
    | intro _
    | dsimp only
    | split

theorem Extends_ParseBlocksLoop (vm : VM) (fuel : Nat) (block_sexp_map : IntMap SExpression) (remaining : Nat) :
    ∀ worklist fully_parsed_block_map, Steps Extends (ParseBlocksLoop vm fuel block_sexp_map remaining worklist fully_parsed_block_map) := by
  induction remaining with
  | zero => intro worklist fully_parsed_block_map; unfold ParseBlocksLoop; exact Steps_outOfFuel
  | succ n ih =>
    intro worklist fully_parsed_block_map
    unfold ParseBlocksLoop
    repeat' first
      | with_reducible apply Steps_bind
      | exact Steps_pure _
      | exact Steps_fault _
      | exact Steps_outOfFuel
      | exact Steps_get
      | exact ih _ _
      | exact Extends_ParseBlocksVisit _ _ _ _ _
      | exact Steps_modify _ (fun _ => Extends_of_tables (le_refl _) rfl rfl (List.prefix_refl _))
      | apply Steps_ite
      | intro _
      | dsimp only
      | split

theorem Extends_CheckAllBlocksParsed (fully_parsed_block_map : IntMap Bool) (entries : List (Int × SExpression)) :
    Steps Extends (CheckAllBlocksParsed fully_parsed_block_map entries ) := by
  induction entries with
  | nil =>
    skip
    unfold CheckAllBlocksParsed
    exact Steps_pure _
  | cons head rest ih =>
    skip
    unfold CheckAllBlocksParsed
    repeat' first
      | with_reducible apply Steps_bind
      | exact Steps_pure _
      | exact Steps_fault _
      | exact Steps_outOfFuel
      | exact Steps_get
      | exact ih
      | exact Steps_grows (Steps_block (KeepsCore_StoreError _ _))
      | exact Steps_modify _ (fun _ => Extends_of_tables (le_refl _) rfl rfl (List.prefix_refl _))
      | apply Steps_ite
      | intro _
      | dsimp only
      | split

theorem Extends_GetConstant (vm : VM) (obj : RawObject) :
    Steps Extends (GetConstant vm obj) := by
  unfold GetConstant
  repeat' first
    | with_reducible apply Steps_bind
    | exact Steps_pure _
    | exact Steps_fault _
    | exact Steps_outOfFuel
    | exact Steps_get
    | exact Steps_grows (SameBlock_NewInstruction _)
    | exact Steps_modify _ (fun _ => Extends_of_tables (le_refl _) rfl rfl (List.prefix_refl _))
    | apply Steps_ite
    | intro _
    | dsimp only
    | split

theorem Extends_NewFlowGraph (vm : VM) (graph : Option DefinitionPtr) :
    Steps Extends (NewFlowGraph vm graph) := by
  unfold NewFlowGraph
  repeat' first
    | with_reducible apply Steps_bind
    | exact Steps_pure _
    | exact Steps_fault _
    | exact Steps_outOfFuel
    | exact Steps_get
    | exact Steps_grows (SameBlock_NewInstruction _)
    | exact Steps_modify _ (fun _ => Extends_of_tables (le_refl _) rfl rfl (List.prefix_refl _))
    | apply Steps_ite
    | intro _
    | dsimp only
    | split

theorem Extends_ParseConstantPoolWorklist (pool : SExpression) (remaining : Nat) :
    ∀ worklist, Steps Extends (ParseConstantPoolWorklist pool remaining worklist) := by
  induction remaining with
  | zero => intro worklist; exact Steps_pure _
  | succ n ih =>
    intro worklist
    unfold ParseConstantPoolWorklist
    repeat' first
      | with_reducible apply Steps_bind
      | exact Steps_pure _
      | exact Steps_fault _
      | exact Steps_outOfFuel
      | exact Steps_get
      | exact ih _
      | exact Steps_grows (Steps_block (KeepsCore_CheckTaggedList _ _))
      | exact Steps_grows (Steps_block (KeepsCore_ListAt _ _))
      | exact Steps_modify _ (fun _ => Extends_of_tables (le_refl _) rfl rfl (List.prefix_refl _))
      | apply Steps_ite
      | intro _
      | dsimp only
      | split

theorem Extends_ParseConstantPoolRound (vm : VM) (fuel : Nat) (worklist : List SExpression) :
    ∀ parse_failures, Steps Extends (ParseConstantPoolRound vm fuel worklist parse_failures) := by
  induction worklist with
  | nil =>
    intro parse_failures
    unfold ParseConstantPoolRound
    exact Steps_pure _
  | cons def_sexp rest ih =>
    intro parse_failures
    unfold ParseConstantPoolRound
    repeat' first
      | with_reducible apply Steps_bind
      | exact Steps_pure _
      | exact Steps_fault _
      | exact Steps_outOfFuel
      | exact Steps_get
      | exact ih _
      | exact Extends_GetConstant _ _
      | exact Steps_grows (SameBlock_ParseDefinitionWithParsedBody _ _ _ _)
      | exact Steps_grows (Steps_block (KeepsCore_Retrieve _ _))
      | exact Steps_grows (Steps_block (KeepsCore_NewHandle _))
      | exact Steps_grows (Steps_block (KeepsCore_ReadHandle _))
      | exact Steps_grows (Steps_block (KeepsCore_ParseDartValue _ _ _ _))
      | exact Steps_modify _ (fun _ => Extends_of_tables (le_refl _) rfl rfl (List.prefix_refl _))
      | apply Steps_ite
      | intro _
      | dsimp only
      | split

theorem Extends_ParseConstantPoolRounds (vm : VM) (fuel : Nat) (remaining : Nat) :
    ∀ worklist, Steps Extends (ParseConstantPoolRounds vm fuel remaining worklist) := by
  induction remaining with
  | zero => intro worklist; unfold ParseConstantPoolRounds; exact Steps_outOfFuel
  | succ n ih =>
    intro worklist
    unfold ParseConstantPoolRounds
    repeat' first
      | with_reducible apply Steps_bind
      | exact Steps_pure _
      | exact Steps_fault _
      | exact Steps_outOfFuel
      | exact Steps_get
      | exact ih _
      | exact Extends_ParseConstantPoolRound _ _ _ _
      | exact Steps_modify _ (fun _ => Extends_of_tables (le_refl _) rfl rfl (List.prefix_refl _))
      | apply Steps_ite
      | intro _
      | dsimp only
      | split

theorem Extends_ParseConstantPool (vm : VM) (fuel : Nat) (pool : Option SExpression) :
    Steps Extends (ParseConstantPool vm fuel pool) := by
  unfold ParseConstantPool
  repeat' first
    | with_reducible apply Steps_bind
    | exact Steps_pure _
    | exact Steps_fault _
    | exact Steps_outOfFuel
    | exact Steps_get
    | exact Extends_ParseConstantPoolWorklist _ _ _
    | exact Extends_ParseConstantPoolRounds _ _ _ _
    | exact Steps_grows (Steps_block (KeepsCore_ListLength _))
    | exact Steps_modify _ (fun _ => Extends_of_tables (le_refl _) rfl rfl (List.prefix_refl _))
    | apply Steps_ite
    | intro _
    | dsimp only
    | split

theorem Extends_BlockIds (entries : List DefinitionPtr) :
    Steps Extends (BlockIds entries) := by
  induction entries with
  | nil =>
    unfold BlockIds
    exact Steps_pure _
  | cons head rest ih =>
    unfold BlockIds
    repeat' first
      | with_reducible apply Steps_bind
      | exact Steps_pure _
      | exact Steps_fault _
      | exact Steps_outOfFuel
      | exact Steps_get
      | exact ih
      | exact Steps_grows (Steps_block (KeepsCore_block_id _))
      | exact Steps_modify _ (fun _ => Extends_of_tables (le_refl _) rfl rfl (List.prefix_refl _))
      | apply Steps_ite
      | intro _
      | dsimp only
      | split

theorem Extends_SeedBlockWorklist (graph : DefinitionPtr) :
    Steps Extends (SeedBlockWorklist graph) := by
  unfold SeedBlockWorklist
  repeat' first
    | with_reducible apply Steps_bind
    | exact Steps_pure _
    | exact Steps_fault _
    | exact Steps_outOfFuel
    | exact Steps_get
    | exact Extends_BlockIds _
    | exact Steps_modify _ (fun _ => Extends_of_tables (le_refl _) rfl rfl (List.prefix_refl _))
    | apply Steps_ite
    | intro _
    | dsimp only
    | split


theorem Raise_max_block_id (block_id : Int) {α : Type} (k : Parse α)
    (d : FlowGraphDeserializer) (r : α) (d1 : FlowGraphDeserializer)
    (h : (Parse.get >>= fun d0 =>
        if d0.max_block_id_ < block_id then
          (Parse.modify fun d => { d with max_block_id_ := block_id }) >>= fun _ => k
        else (pure PUnit.unit : Parse PUnit) >>= fun _ => k) d = .ok r d1) :
    ∃ d2, Extends d d2 ∧ block_id ≤ d2.max_block_id_ ∧ k d2 = .ok r d1 := by
  obtain ⟨d0, d3, hg, h2⟩ := Parse.bind_ok h
  cases hg
  split at h2
  · rename_i hlt
    obtain ⟨u, d4, hm, h3⟩ := Parse.bind_ok h2
    cases hm
    exact ⟨{ d with max_block_id_ := block_id },
      Extends_of_tables (le_of_lt hlt) rfl rfl (List.prefix_refl _), le_refl _, h3⟩
  · rename_i hge
    obtain ⟨u, d4, hm, h3⟩ := Parse.bind_ok h2
    cases hm
    exact ⟨d, Extends_refl _, not_lt.mp hge, h3⟩

theorem ParseBlockId_symbol (vm : VM) (digits : List Char) (k : Int)
    (hindex : vm.StringToInt64 (String.mk digits) = some k) (d d1 : FlowGraphDeserializer)
    (y : Option SExpression) (r : Option Int)
    (hy : y = some (.SExpSymbol (String.mk ('B' :: digits))))
    (h : (CheckSymbol y >>= fun sym => ParseBlockId vm sym) d = .ok r d1) : r = some k := by
  subst hy
  simp [CheckSymbol, Check, SExpression.Is, SExpression.As, ParseBlockId,
    ParseSymbolAsPrefixedInt, hindex] at h
  exact h.1.symm

theorem ParseBlockHeadersLoop_max (vm : VM) (fuel : Nat) (list : SExpression) :
    ∀ (remaining : Nat) (i : Int) (block_sexp_map : IntMap SExpression)
      (d d1 : FlowGraphDeserializer) (r : Option (IntMap SExpression)),
      ParseBlockHeadersLoop vm fuel list remaining i block_sexp_map d = .ok r d1 →
      Extends d d1 ∧
      (r.isSome = true →
        ∀ (contents : List (Option SExpression))
          (extra_info : List (String × Option SExpression)) (start p : Nat)
          (digits : List Char) (k : Int) (tag : Option SExpression)
          (rest : List (Option SExpression)) (extra2 : List (String × Option SExpression)),
          list = .SExpList contents extra_info → i = start →
          start ≤ p → p < start + remaining →
          contents[p]? = some (some (.SExpList
            (tag :: some (.SExpSymbol (String.mk ('B' :: digits))) :: rest) extra2)) →
          vm.StringToInt64 (String.mk digits) = some k → k ≤ d1.max_block_id_) := by
  intro remaining
  induction remaining with
  | zero =>
    intro i block_sexp_map d d1 r h
    cases h
    exact ⟨Extends_refl d, fun _ _ _ _ p _ _ _ _ _ _ _ h1 h2 => by omega⟩
  | succ m ih =>
    intro i block_sexp_map d d1 r h
    unfold ParseBlockHeadersLoop at h
    obtain ⟨x, da, hx, h1⟩ := Parse.bind_ok h
    obtain ⟨block_sexp, db, hb, h2⟩ := Parse.bind_ok h1
    obtain ⟨y, dc, hy, h3⟩ := Parse.bind_ok h2
    obtain ⟨sym, dd, hsym, h4⟩ := Parse.bind_ok h3
    obtain ⟨idopt, de, hid, h5⟩ := Parse.bind_ok h4
    clear h h1 h2 h3
    have e1 := (Steps_grows (Steps_block (KeepsCore_Retrieve _ _))).post _ _ _ hx
    have e2 := (Steps_grows (Steps_block (KeepsCore_CheckTaggedList _ _))).post _ _ _ hb
    have e3 := (Steps_grows (Steps_block (KeepsCore_Retrieve _ _))).post _ _ _ hy
    have e4 := (Steps_grows (Steps_block (KeepsCore_Check _ _))).post _ _ _ hsym
    have e5 := (Steps_grows (Steps_block (KeepsCore_ParseSymbolAsPrefixedInt _ _ _))).post _ _ _
      hid
    have ee := Extends_trans e1 (Extends_trans e2 (Extends_trans e3 (Extends_trans e4 e5)))
    cases idopt with
    | none =>
      cases h5
      exact ⟨ee, fun hr => by cases hr⟩
    | some block_id =>
      cases block_sexp with
      | none => cases h5
      | some block =>
        dsimp only at h5
        split at h5
        · obtain ⟨z, df, hz, h6⟩ := Parse.bind_ok h5
          obtain ⟨u, dg, hu, h7⟩ := Parse.bind_ok h6
          cases h7
          have e6 := (Steps_grows (Steps_block (KeepsCore_ListAt _ _))).post _ _ _ hz
          have e7 := (Steps_grows (Steps_block (KeepsCore_StoreError _ _))).post _ _ _ hu
          exact ⟨Extends_trans ee (Extends_trans e6 e7), fun hr => by cases hr⟩
        · simp only [Parse.pure_bind] at h5
          obtain ⟨t, df, ht, h6⟩ := Parse.bind_ok h5
          obtain ⟨type_tag, dg, htt, h7⟩ := Parse.bind_ok h6
          obtain ⟨d0, dh, hg, h8⟩ := Parse.bind_ok h7
          cases hg
          have e6 := (Steps_grows (Steps_block (KeepsCore_ExtraLookupValue _ _))).post _ _ _ ht
          have e7 := (Steps_grows (Steps_block (KeepsCore_Check _ _))).post _ _ _ htt
          have ef := Extends_trans ee (Extends_trans e6 e7)
          have htail : ∀ dj : FlowGraphDeserializer, Extends d dj →
              (∃ dk, Extends dj dk ∧ block_id ≤ dk.max_block_id_ ∧
                ParseBlockHeadersLoop vm fuel list m (i + 1)
                  (block_sexp_map.Insert block_id block) dk = .ok r d1) →
              Extends d d1 ∧
              (r.isSome = true →
                ∀ (contents : List (Option SExpression))
                  (extra_info : List (String × Option SExpression)) (start p : Nat)
                  (digits : List Char) (k : Int) (tag : Option SExpression)
                  (rest : List (Option SExpression))
                  (extra2 : List (String × Option SExpression)),
                  list = .SExpList contents extra_info → i = start →
                  start ≤ p → p < start + (m + 1) →
                  contents[p]? = some (some (.SExpList
                    (tag :: some (.SExpSymbol (String.mk ('B' :: digits))) :: rest) extra2)) →
                  vm.StringToInt64 (String.mk digits) = some k → k ≤ d1.max_block_id_) := by
            intro dj hj hk
            obtain ⟨dk, ek, hmax, hloop⟩ := hk
            obtain ⟨el, hrest⟩ := ih (i + 1) _ dk d1 r hloop
            refine ⟨Extends_trans hj (Extends_trans ek el), ?_⟩
            intro hr contents extra_info start p digits k tag rest extra2 hlist hstart hp1 hp2
              hslot hindex
            subst hlist
            subst hstart
            rcases Nat.eq_or_lt_of_le hp1 with heq | hlt
            · subst heq
              have hxv := Retrieve_value contents extra_info start d da x hx
              have hget : contents.getD start none = some (.SExpList
                  (tag :: some (.SExpSymbol (String.mk ('B' :: digits))) :: rest) extra2) := by
                simp [hslot]
              rw [hget] at hxv
              have hbx := CheckTaggedList_some _ _ _ _ _ hb
              rw [hxv] at hbx
              cases hbx
              have hyv := Retrieve_value _ _ 1 db dc y hy
              have hk : some block_id = some k :=
                ParseBlockId_symbol vm digits k hindex dc de y _ hyv
                  (by rw [Parse.bind_apply, hsym]; exact hid)
              cases hk
              exact le_trans hmax el.max_block_id
            · exact hrest hr contents extra_info (start + 1) p digits k tag rest extra2 rfl
                (by push_cast; rfl) (by omega) (by omega) hslot hindex
          split at h8
          · obtain ⟨b, di, hh, h9⟩ := Parse.bind_ok h8
            have e8 := (Extends_ParseBlockHeader _ _ _ _ _).post _ _ _ hh
            split at h9
            · cases h9
              exact ⟨Extends_trans ef e8, fun hr => by cases hr⟩
            · try simp only [Parse.pure_bind] at h9
              exact htail di (Extends_trans ef e8) (Raise_max_block_id block_id _ di r d1 h9)
          · try simp only [Parse.pure_bind] at h8
            exact htail _ ef (Raise_max_block_id block_id _ _ r d1 h8)

theorem Extends_ParseBlockHeadersLoop (vm : VM) (fuel : Nat) (list : SExpression)
    (remaining : Nat) (i : Int) (block_sexp_map : IntMap SExpression) :
    Steps Extends (ParseBlockHeadersLoop vm fuel list remaining i block_sexp_map) :=
  ⟨fun d r d1 h => (ParseBlockHeadersLoop_max vm fuel list remaining i block_sexp_map d d1 r
    h).1⟩


theorem Extends_ParseBlocks (vm : VM) (fuel steps : Nat) (list : SExpression) (pos : Int)
    (worklist : List Int) :
    Steps Extends (ParseBlocks vm fuel steps list pos worklist) := by
  unfold ParseBlocks
  repeat' first
    | with_reducible apply Steps_bind
    | exact Steps_pure _
    | exact Steps_fault _
    | exact Steps_outOfFuel
    | exact Steps_get
    | exact Extends_ParseBlockHeadersLoop _ _ _ _ _ _
    | exact Extends_ParseBlocksLoop _ _ _ _ _ _
    | exact Extends_CheckAllBlocksParsed _ _
    | exact Steps_grows (Steps_block (KeepsCore_ListLength _))
    | exact Steps_modify _ (fun _ => Extends_of_tables (le_refl _) rfl rfl (List.prefix_refl _))
    | apply Steps_ite
    | intro _
    | dsimp only
    | split

theorem Extends_ParseFlowGraphBlocks (vm : VM) (fuel steps : Nat) :
    Steps Extends (ParseFlowGraphBlocks vm fuel steps) := by
  unfold ParseFlowGraphBlocks CheckInteger CheckList
  repeat' first
    | with_reducible apply Steps_bind
    | exact Steps_pure _
    | exact Steps_fault _
    | exact Steps_outOfFuel
    | exact Steps_get
    | exact Extends_ParseBlocks _ _ _ _ _ _
    | exact Extends_DeserializeGraphEntry _ _ _
    | exact Extends_NewFlowGraph _ _
    | exact Extends_ParseConstantPool _ _ _
    | exact Extends_ParseEntries _ _ _
    | exact Extends_SeedBlockWorklist _
    | exact Extends_NewStack _
    | exact Steps_grows (SameBlock_DeepCopyTo _ _)
    | exact Steps_grows (Steps_block (KeepsCore_Check _ _))
    | exact Steps_grows (Steps_block (KeepsCore_Retrieve _ _))
    | exact Steps_grows (Steps_block (KeepsCore_CheckTaggedList _ _))
    | exact Steps_grows (Steps_block (KeepsCore_ExtraLookupValue _ _))
    | exact Steps_grows (Steps_block (KeepsCore_IntegerValue _))
    | exact Steps_grows (Steps_block (KeepsCore_ParseEnvironment _ _ _))
    | exact Steps_modify _ (fun _ => Extends_of_tables (le_refl _) rfl rfl (List.prefix_refl _))
    | apply Steps_ite
    | intro _
    | dsimp only
    | split

theorem Extends_ParseFlowGraphFinish :
    Steps Extends (ParseFlowGraphFinish) := by
  unfold ParseFlowGraphFinish
  repeat' first
    | with_reducible apply Steps_bind
    | exact Steps_pure _
    | exact Steps_fault _
    | exact Steps_outOfFuel
    | exact Steps_get
    | exact Steps_grows (Steps_block (KeepsCore_StoreError _ _))
    | exact Steps_modify _ (fun _ => Extends_of_tables (le_refl _) rfl rfl (List.prefix_refl _))
    | apply Steps_ite
    | intro _
    | dsimp only
    | split

theorem Extends_ParseFlowGraph (vm : VM) (fuel steps : Nat) :
    Steps Extends (ParseFlowGraph vm fuel steps) := by
  unfold ParseFlowGraph
  repeat' first
    | with_reducible apply Steps_bind
    | exact Steps_pure _
    | exact Steps_fault _
    | exact Steps_outOfFuel
    | exact Steps_get
    | exact Extends_ParseFlowGraphBlocks _ _ _
    | exact Extends_ParseFlowGraphFinish
    | exact Steps_modify _ (fun _ => Extends_of_tables (le_refl _) rfl rfl (List.prefix_refl _))
    | apply Steps_ite
    | intro _
    | dsimp only
    | split


theorem ParseBlocks_max (vm : VM) (fuel steps : Nat) (contents : List (Option SExpression))
    (extra_info : List (String × Option SExpression)) (pos : Nat) (worklist : List Int)
    (d d1 : FlowGraphDeserializer)
    (h : ParseBlocks vm fuel steps (.SExpList contents extra_info) (pos : Int) worklist d =
      .ok true d1)
    (p : Nat) (digits : List Char) (k : Int) (tag : Option SExpression)
    (rest : List (Option SExpression)) (extra2 : List (String × Option SExpression))
    (hp : pos ≤ p)
    (hslot : contents[p]? = some (some (.SExpList
      (tag :: some (.SExpSymbol (String.mk ('B' :: digits))) :: rest) extra2)))
    (hindex : vm.StringToInt64 (String.mk digits) = some k) : k ≤ d1.max_block_id_ := by
  have hlt : p < contents.length := by
    rcases Nat.lt_or_ge p contents.length with h | h
    · exact h
    · rw [List.getElem?_eq_none h] at hslot; cases hslot
  unfold ParseBlocks at h
  obtain ⟨n, d2, hn, h2⟩ := Parse.bind_ok h
  cases hn
  obtain ⟨r, d3, hr, h3⟩ := Parse.bind_ok h2
  cases r with
  | none => cases h3
  | some block_sexp_map =>
    dsimp only at h3
    obtain ⟨r2, d4, hr2, h4⟩ := Parse.bind_ok h3
    cases r2 with
    | none => cases h4
    | some fully_parsed_block_map =>
      dsimp only at h4
      have e1 := (Extends_ParseBlocksLoop _ _ _ _ _ _).post _ _ _ hr2
      have e2 := (Extends_CheckAllBlocksParsed _ _).post _ _ _ h4
      have hmax := (ParseBlockHeadersLoop_max vm fuel _ _ _ _ _ _ _ hr).2 rfl contents extra_info
        pos p digits k tag rest extra2 rfl rfl hp (by omega) hslot hindex
      exact le_trans hmax (le_trans e1.max_block_id e2.max_block_id)

theorem Inverts_bind {α β : Type} {x : Parse α} {f : α → Parse β} {d : FlowGraphDeserializer}
    {Q : β → FlowGraphDeserializer → Prop}
    (hf : ∀ a d1, x d = .ok a d1 → Inverts (f a) d1 Q) : Inverts (x >>= f) d Q := by
  constructor
  intro b d2 h
  obtain ⟨a, d1, h1, h2⟩ := Parse.bind_ok h
  exact (hf a d1 h1).post b d2 h2

theorem Inverts_pure_bind {α β : Type} {a : α} {f : α → Parse β} {d : FlowGraphDeserializer}
    {Q : β → FlowGraphDeserializer → Prop} (hf : Inverts (f a) d Q) :
    Inverts ((pure a : Parse α) >>= f) d Q := by
  constructor
  intro b d2 h
  exact hf.post b d2 h

theorem Inverts_pure {α : Type} {a : α} {d : FlowGraphDeserializer}
    {Q : α → FlowGraphDeserializer → Prop} (h : Q a d) : Inverts (pure a : Parse α) d Q := by
  constructor
  intro b d1 h1
  cases h1
  exact h

theorem Inverts_fault {α : Type} (e : Fault) (d : FlowGraphDeserializer)
    (Q : α → FlowGraphDeserializer → Prop) : Inverts (Parse.fault e : Parse α) d Q := by
  constructor
  intro b d1 h
  cases h

theorem ParseFlowGraphBlocks_position (vm : VM) (fuel steps : Nat) (root : SExpression)
    (x pool : Option SExpression) (pos : Int) (worklist : List Int)
    (da db dc dd de d1 : FlowGraphDeserializer) (ok : Bool)
    (hpool : CheckTaggedList x (some "Constants") db = .ok pool dc)
    (hx : Retrieve (some root) 2 da = .ok x db)
    (hpos : pos = if pool.isSome = true then 2 + 1 + 1 else 2 + 1)
    (hblocks : ParseBlocks vm fuel steps root pos worklist dd = .ok ok de)
    (hok : ¬ (!ok) = true) (hd : d1 = de) :
    ∃ contents extra_info worklist d2, root = .SExpList contents extra_info ∧
      ParseBlocks vm fuel steps (.SExpList contents extra_info)
        (BlocksPosition contents : Nat) worklist d2 = .ok true d1 := by
  subst hd
  cases root with
  | SExpList contents extra_info =>
    have hxv := Retrieve_value contents extra_info 2 da db x hx
    have hpv := CheckTaggedList_value x "Constants" db dc pool hpool
    have hok2 : ok = true := by
      cases ok
      · exact absurd rfl hok
      · rfl
    subst hok2
    refine ⟨contents, extra_info, worklist, dd, rfl, ?_⟩
    have hp : ((BlocksPosition contents : Nat) : Int) = pos := by
      unfold BlocksPosition
      rw [hpos, hpv, ← hxv]
      by_cases hc : IsTaggedList "Constants" x = true
      · have hsome : x.isSome = true := by
          cases x with
          | none => simp [IsTaggedList] at hc
          | some _ => rfl
        simp [hc, hsome]
      · simp [hc]
    rw [hp]
    exact hblocks
  | _ => cases hx

theorem ParseFlowGraphBlocks_with_pool (vm : VM) (fuel steps : Nat) (root : SExpression)
    (x : Option SExpression) (pool : SExpression) (worklist : List Int)
    (da db dc dd de : FlowGraphDeserializer) (ok : Bool)
    (hpool : CheckTaggedList x (some "Constants") db = .ok (some pool) dc)
    (hx : Retrieve (some root) 2 da = .ok x db)
    (hblocks : ParseBlocks vm fuel steps root (2 + 1 + 1) worklist dd = .ok ok de)
    (hok : ¬ (!ok) = true) :
    ∃ contents extra_info worklist d2, root = .SExpList contents extra_info ∧
      ParseBlocks vm fuel steps (.SExpList contents extra_info)
        (BlocksPosition contents : Nat) worklist d2 = .ok true de :=
  ParseFlowGraphBlocks_position vm fuel steps root x (some pool) _ worklist da db dc dd de de ok
    hpool hx rfl hblocks hok rfl

theorem ParseFlowGraphBlocks_without_pool (vm : VM) (fuel steps : Nat) (root : SExpression)
    (x : Option SExpression) (worklist : List Int)
    (da db dc dd de : FlowGraphDeserializer) (ok : Bool)
    (hpool : CheckTaggedList x (some "Constants") db = .ok none dc)
    (hx : Retrieve (some root) 2 da = .ok x db)
    (hblocks : ParseBlocks vm fuel steps root (2 + 1) worklist dd = .ok ok de)
    (hok : ¬ (!ok) = true) :
    ∃ contents extra_info worklist d2, root = .SExpList contents extra_info ∧
      ParseBlocks vm fuel steps (.SExpList contents extra_info)
        (BlocksPosition contents : Nat) worklist d2 = .ok true de :=
  ParseFlowGraphBlocks_position vm fuel steps root x none _ worklist da db dc dd de de ok
    hpool hx rfl hblocks hok rfl

theorem ParseFlowGraphBlocks_blocks (vm : VM) (fuel steps : Nat) (d d1 : FlowGraphDeserializer)
    (h : ParseFlowGraphBlocks vm fuel steps d = .ok (some ()) d1) :
    ∃ contents extra_info worklist d2, d.root_sexp_ = .SExpList contents extra_info ∧
      ParseBlocks vm fuel steps (.SExpList contents extra_info) (BlocksPosition contents : Nat)
        worklist d2 = .ok true d1 := by
  have hinv : Inverts (ParseFlowGraphBlocks vm fuel steps) d fun r d1 =>
      r = some () → ∃ contents extra_info worklist d2,
        d.root_sexp_ = .SExpList contents extra_info ∧
        ParseBlocks vm fuel steps (.SExpList contents extra_info)
          (BlocksPosition contents : Nat) worklist d2 = .ok true d1 := by
    unfold ParseFlowGraphBlocks
    apply Inverts_bind
    intro d0 da hg
    cases hg
    apply Inverts_bind
    intro rootopt db hroot
    cases rootopt with
    | none => exact Inverts_pure (fun h => Option.noConfusion h)
    | some root =>
      have hr := CheckTaggedList_some _ _ _ _ _ hroot
      cases hr
      clear hroot
      dsimp only
      repeat' first
        | with_reducible exact Inverts_fault _ _ _
        | with_reducible exact Inverts_pure (fun h => Option.noConfusion h)
        | with_reducible exact Inverts_pure (fun _ =>
            ParseFlowGraphBlocks_with_pool vm fuel steps _ _ _ _ _ _ _ _ _ _
              (by with_reducible assumption) (by with_reducible assumption)
              (by with_reducible assumption) (by with_reducible assumption))
        | with_reducible exact Inverts_pure (fun _ =>
            ParseFlowGraphBlocks_without_pool vm fuel steps _ _ _ _ _ _ _ _ _
              (by with_reducible assumption) (by with_reducible assumption)
              (by with_reducible assumption) (by with_reducible assumption))
        | with_reducible apply Inverts_pure_bind
        | (with_reducible apply Inverts_bind; intro _ _ _)
        | dsimp only
        | split
  exact hinv.post _ _ h rfl

/-! ## The maxima of the block ids and of the SSA indices -/

theorem ParseFlowGraph_defined_run :
    ∃ graph d1,
      ParseFlowGraph ExampleVM 1 2
          (FlowGraphDeserializer.New ExampleDefinedGraph (some { function := none })) =
        .ok (some graph) d1 ∧
      d1.definition_map_ = [(7, 3)] ∧ graph.max_block_id_ = 1 ∧
      graph.current_ssa_temp_index_ = 8 ∧ d1.max_ssa_index_ = 7 := by
  have h : (ParseFlowGraph ExampleVM 1 2
      (FlowGraphDeserializer.New ExampleDefinedGraph (some { function := none }))).Holds
      (fun r d1 =>
        match r with
        | none => false
        | some graph =>
          decide (d1.definition_map_ = [(7, 3)]) && decide (graph.max_block_id_ = 1) &&
            decide (graph.current_ssa_temp_index_ = 8) &&
            decide (d1.max_ssa_index_ = 7)) = true := by
    decide!
  obtain ⟨r, d1, hrun, hp⟩ := Result.Holds_ok h
  cases r with
  | none => cases hp
  | some graph =>
    simp only [Bool.and_eq_true, decide_eq_true_eq] at hp
    exact ⟨graph, d1, hrun, hp.1.1.1, hp.1.1.2, hp.1.2, hp.2⟩

/-- The run of `ParseFlowGraph` on `(FlowGraph f (Entries (Normal B1)) (Block B1
(def v9223372036854775807 (Constant null))))` in a new deserializer: the index
bound is the greatest `intptr_t`, the sum `max_ssa_index_ + 1` wraps, and the
next SSA index of the graph returned is the least `intptr_t`, below the index
bound. -/
theorem ParseFlowGraph_greatest_index_run :
    ∃ graph d1,
      ParseFlowGraph ExampleVM 1 2
          (FlowGraphDeserializer.New ExampleGreatestIndexGraph
            (some { function := none })) =
        .ok (some graph) d1 ∧
      d1.definition_map_.HasKey 9223372036854775807 = true ∧
      d1.max_ssa_index_ = 9223372036854775807 ∧
      graph.current_ssa_temp_index_ = -9223372036854775808 := by
  have h : (ParseFlowGraph ExampleVM 1 2
      (FlowGraphDeserializer.New ExampleGreatestIndexGraph
        (some { function := none }))).Holds
      (fun r d1 =>
        match r with
        | none => false
        | some graph =>
          d1.definition_map_.HasKey 9223372036854775807 &&
            decide (d1.max_ssa_index_ = 9223372036854775807) &&
            decide (graph.current_ssa_temp_index_ = -9223372036854775808)) = true := by
    decide!
  obtain ⟨r, d1, hrun, hp⟩ := Result.Holds_ok h
  cases r with
  | none => cases hp
  | some graph =>
    simp only [Bool.and_eq_true, decide_eq_true_eq] at hp
    exact ⟨graph, d1, hrun, hp.1.1, hp.1.2, hp.2⟩

theorem IntptrMin_value : IntptrMin = -9223372036854775808 := by decide

theorem IntptrMax_value : IntptrMax = 9223372036854775807 := by decide

/-- A result in the range of `intptr_t` is the value the `intptr_t` takes. -/
theorem ToIntptr_of_range (x : Int) (h1 : IntptrMin ≤ x) (h2 : x ≤ IntptrMax) :
    ToIntptr x = x := by
  rw [IntptrMin_value] at h1
  rw [IntptrMax_value] at h2
  unfold ToIntptr IntptrBits
  rw [Int.bmod_def]
  norm_num
  split <;> omega

/-- One more than the greatest `intptr_t` wraps to the least. -/
theorem ToIntptr_overflow : ToIntptr (IntptrMax + 1) = IntptrMin := by decide

theorem ParseFlowGraphFinish_maxima (d d1 : FlowGraphDeserializer) (graph : FlowGraph)
    (h : ParseFlowGraphFinish d = .ok (some graph) d1) :
    graph.max_block_id_ = d.max_block_id_ ∧
      graph.current_ssa_temp_index_ = ToIntptr (d.max_ssa_index_ + 1) ∧
      d1 = { d with flow_graph_ := some graph } := by
  have h2 := (ParseFlowGraphFinish_some d d1 graph h).2
  simp only [ParseFlowGraphFinish, Parse.bind_apply, Parse.get] at h
  by_cases hlen : d.values_map_.Length > 0
  · rw [if_pos hlen] at h
    cases hhead : d.values_map_.head? with
    | none => simp [hhead, Parse.fault] at h
    | some kv =>
      simp only [hhead] at h
      cases h
  · rw [if_neg hlen] at h
    cases hg : d.flow_graph_ with
    | none => simp [hg, Parse.fault, Parse.bind_apply] at h
    | some flow_graph =>
      simp [hg, Parse.modify, Parse.bind_apply] at h
      obtain ⟨h1, -⟩ := h
      rw [← h1]
      exact ⟨rfl, rfl, by rw [h2, ← h1]⟩

theorem ParseFlowGraph_parts (vm : VM) (fuel steps : Nat) (d d1 : FlowGraphDeserializer)
    (graph : FlowGraph) (h : ParseFlowGraph vm fuel steps d = .ok (some graph) d1) :
    ∃ d0, ParseFlowGraphBlocks vm fuel steps d = .ok (some ()) d0 ∧
      ParseFlowGraphFinish d0 = .ok (some graph) d1 := by
  unfold ParseFlowGraph at h
  obtain ⟨r, d0, hb, h2⟩ := Parse.bind_ok h
  cases r with
  | none => cases h2
  | some u => exact ⟨d0, hb, h2⟩

end dart
